import Mathlib

/-!
# Invocation engine of `gi/function.cpp`

A shallow embedding of the classifier `init_cached_function_data` and of the
invocation engine `gjs_invoke_c_function`, with the conversion collaborators
(`gjs_value_to_arg`, `gjs_value_from_g_argument`, the release operations, the
native call) taken as parameters of an environment record.

Conventions of the embedding:

* C arrays indexed by a position are functions `Nat → _`; every access whose
  index the C code does not keep inside the array is checked explicitly and
  ends the run with `Fault.crash`.
* `g_assert*` failures end the run with `Fault.abort`.
* `guint8` counters that can wrap (`expected_js_argc`, `js_out_argc`, the
  argument counts) carry an explicit `% 256`; the position counters of
  `gjs_invoke_c_function` are guarded by `g_assert_cmpuint(c_arg_pos, <, c_argc)`
  with `c_argc ≤ 255`, so they never reach the wrap and are plain `Nat`.
* Everything the engine does to the outside world is appended to a trace of
  `Event`s, in program order.  The trace point at the head of the marshaling
  loop (a `gjs_debug` line, commented out in the source) is kept as the event
  `marshal_arg`, so that the trace tells which parameters the loop started.
* A run that returns also reports, next to what the caller sees, the final
  value of some locals of `gjs_invoke_c_function` (`Locals`); they serve only
  to state properties.
-/

namespace Gjs

/-! ## Reflection data (girepository) -/

/-- Direction of a native parameter (`GIDirection`). -/
inductive GIDirection where
  | IN | OUT | INOUT
  deriving DecidableEq, Repr

/-- Ownership transfer annotation (`GITransfer`). -/
inductive GITransfer where
  | NOTHING | CONTAINER | EVERYTHING
  deriving DecidableEq, Repr

/-- Callback scope (`GIScopeType`). -/
inductive GIScopeType where
  | INVALID | CALL | ASYNC | NOTIFIED
  deriving DecidableEq, Repr

/-- Type tags (`GITypeTag`). -/
inductive GITypeTag where
  | VOID | BOOLEAN | INT8 | UINT8 | INT16 | UINT16 | INT32 | UINT32
  | INT64 | UINT64 | FLOAT | DOUBLE | GTYPE | UTF8 | FILENAME | ARRAY
  | INTERFACE | GLIST | GSLIST | GHASH | ERROR | UNICHAR
  deriving DecidableEq, Repr

/-- Kind of a reflected entry (`GIInfoType`), as far as the engine looks at it. -/
inductive GIInfoType where
  | INVALID | FUNCTION | CALLBACK | STRUCT | BOXED | ENUM | FLAGS | OBJECT
  | INTERFACE | CONSTANT | UNION | VFUNC
  deriving DecidableEq, Repr

/-- Per-parameter tag (`GjsParamType`); `g_new0` yields `PARAM_NORMAL`. -/
inductive GjsParamType where
  | PARAM_NORMAL | PARAM_ARRAY | PARAM_SKIPPED | PARAM_CALLBACK
  deriving DecidableEq, Repr

/-- What the engine reads from a `GITypeInfo`.  `interface_type`,
`interface_is_destroy_notify`, `interface_size` and `interface` describe the
entry returned by `g_type_info_get_interface` (meaningful for tag `INTERFACE`);
`interface` is the handle of that entry in the typelib. -/
structure GITypeInfo where
  tag : GITypeTag
  interface_type : GIInfoType := GIInfoType.INVALID
  interface_is_destroy_notify : Bool := false
  interface_size : Nat := 0
  interface : Nat := 0
  array_type_is_c : Bool := false
  array_length : Int := -1
  deriving DecidableEq, Repr

/-- What the engine reads from a `GIArgInfo`. -/
structure GIArgInfo where
  type_info : GITypeInfo
  direction : GIDirection := GIDirection.IN
  caller_allocates : Bool := false
  may_be_null : Bool := false
  scope : GIScopeType := GIScopeType.INVALID
  destroy : Int := -1
  closure : Int := -1
  ownership_transfer : GITransfer := GITransfer.NOTHING
  deriving DecidableEq, Repr

/-- What the engine reads from a `GICallableInfo`. -/
structure GICallableInfo where
  args : List GIArgInfo
  return_type : GITypeInfo
  is_method : Bool := false
  can_throw_gerror : Bool := false
  caller_owns : GITransfer := GITransfer.NOTHING
  deriving DecidableEq, Repr

/-- Function `g_callable_info_get_n_args`. -/
def g_callable_info_get_n_args (info : GICallableInfo) : Nat := info.args.length

/-- Function `g_callable_info_load_arg`; `none` when the index is outside the
parameter list (the C call then reads outside the typelib entry). -/
def g_callable_info_load_arg (info : GICallableInfo) (n : Int) : Option GIArgInfo :=
  if n < 0 then none else info.args.get? n.toNat

/-! ## Classifier: `init_cached_function_data` -/

/-- The cached per-function data (`Function`); `cif_nargs` is
`invoker.cif.nargs`. -/
structure Function where
  info : GICallableInfo
  param_types : List GjsParamType
  expected_js_argc : Nat
  js_out_argc : Nat
  cif_nargs : Nat
  deriving DecidableEq, Repr

/-- Registers of the classifier loop. -/
structure ClassifyState where
  param_types : List GjsParamType
  expected_js_argc : Nat
  js_out_argc : Nat
  deriving DecidableEq, Repr

/-- Store `param_types[pos] = t` for an index already known to be in range. -/
def set_param_type (pts : List GjsParamType) (pos : Nat) (t : GjsParamType) :
    List GjsParamType := pts.set pos t

/-- The statement `if (pos >= 0 && pos < n_args) param_types[pos] = PARAM_SKIPPED`. -/
def skip_if_in_range (pts : List GjsParamType) (pos : Int) (n_args : Nat) :
    List GjsParamType :=
  if 0 ≤ pos ∧ pos < (n_args : Int) then set_param_type pts pos.toNat GjsParamType.PARAM_SKIPPED
  else pts

/-- The closing block of the loop body: a parameter left `PARAM_NORMAL` or
`PARAM_ARRAY` is counted as a script input and/or output by its direction. -/
def count_normal_or_array (s : ClassifyState) (i : Nat) (direction : GIDirection) :
    ClassifyState :=
  let t := s.param_types.getD i GjsParamType.PARAM_NORMAL
  if t = GjsParamType.PARAM_NORMAL ∨ t = GjsParamType.PARAM_ARRAY then
    { s with
      expected_js_argc :=
        if direction = GIDirection.IN ∨ direction = GIDirection.INOUT
        then (s.expected_js_argc + 1) % 256 else s.expected_js_argc
      js_out_argc :=
        if direction = GIDirection.OUT ∨ direction = GIDirection.INOUT
        then (s.js_out_argc + 1) % 256 else s.js_out_argc }
  else s

/-- One iteration of the classifier loop for parameter `i`; `none` is
`return false` (classification error). -/
def classify_step (info : GICallableInfo) (n_args : Nat) (i : Nat) (arg_info : GIArgInfo)
    (s : ClassifyState) : Option ClassifyState :=
  if s.param_types.getD i GjsParamType.PARAM_NORMAL = GjsParamType.PARAM_SKIPPED then some s
  else
    let type_info := arg_info.type_info
    let direction := arg_info.direction
    if type_info.tag = GITypeTag.INTERFACE then
      if type_info.interface_type = GIInfoType.CALLBACK then
        if type_info.interface_is_destroy_notify then
          some (count_normal_or_array
            { s with param_types := set_param_type s.param_types i GjsParamType.PARAM_SKIPPED }
            i direction)
        else
          let pts1 := set_param_type s.param_types i GjsParamType.PARAM_CALLBACK
          let pts2 := skip_if_in_range pts1 arg_info.destroy n_args
          let pts3 := skip_if_in_range pts2 arg_info.closure n_args
          if 0 ≤ arg_info.destroy ∧ arg_info.closure < 0 then none
          else
            some (count_normal_or_array
              { s with param_types := pts3
                       expected_js_argc := (s.expected_js_argc + 1) % 256 }
              i direction)
      else some (count_normal_or_array s i direction)
    else if type_info.tag = GITypeTag.ARRAY then
      if type_info.array_type_is_c then
        let array_length_pos := type_info.array_length
        if 0 ≤ array_length_pos ∧ array_length_pos < (n_args : Int) then
          match g_callable_info_load_arg info array_length_pos with
          | none => none
          | some length_arg_info =>
            if length_arg_info.direction ≠ direction then none
            else
              let pts1 := set_param_type s.param_types array_length_pos.toNat
                GjsParamType.PARAM_SKIPPED
              let pts2 := set_param_type pts1 i GjsParamType.PARAM_ARRAY
              let s1 : ClassifyState :=
                if array_length_pos < (i : Int) then
                  { param_types := pts2
                    expected_js_argc :=
                      if direction = GIDirection.IN ∨ direction = GIDirection.INOUT
                      then (s.expected_js_argc + 255) % 256 else s.expected_js_argc
                    js_out_argc :=
                      if direction = GIDirection.OUT ∨ direction = GIDirection.INOUT
                      then (s.js_out_argc + 255) % 256 else s.js_out_argc }
                else { s with param_types := pts2 }
              some (count_normal_or_array s1 i direction)
        else some (count_normal_or_array s i direction)
      else some (count_normal_or_array s i direction)
    else some (count_normal_or_array s i direction)

/-- The classifier loop `for (i = 0; i < n_args; i++)` over the parameters
still to scan, `i` being the index of the first of them. -/
def classify_loop (info : GICallableInfo) (n_args : Nat) :
    List GIArgInfo → Nat → ClassifyState → Option ClassifyState
  | [], _, s => some s
  | arg_info :: rest, i, s =>
    match classify_step info n_args i arg_info s with
    | none => none
    | some s1 => classify_loop info n_args rest (i + 1) s1

/-- Function `init_cached_function_data` on a zero-filled `Function` (as
`function_new` and `gjs_invoke_c_function_uncached` provide it).  The invoker
is prepared by girepository, outside this file: `invoker` is its outcome, the
argument count of the prepared call interface, or `none` when preparation
fails.  `none` is `return false`. -/
def init_cached_function_data (invoker : Option Nat) (info : GICallableInfo) :
    Option Function :=
  match invoker with
  | none => none
  | some cif_nargs =>
    let return_type := info.return_type
    let js_out_argc0 := if return_type.tag ≠ GITypeTag.VOID then 1 else 0
    let n_args := g_callable_info_get_n_args info % 256
    let pts0 := List.replicate n_args GjsParamType.PARAM_NORMAL
    let pts1 := skip_if_in_range pts0 return_type.array_length n_args
    match classify_loop info n_args (info.args.take n_args) 0
        { param_types := pts1, expected_js_argc := 0, js_out_argc := js_out_argc0 } with
    | none => none
    | some s =>
      some { info := info, param_types := s.param_types,
             expected_js_argc := s.expected_js_argc, js_out_argc := s.js_out_argc,
             cif_nargs := cif_nargs }

/-- Modelled from the spec: the argument count of the call interface that
girepository prepares (`g_function_info_prep_invoker`, not part of this
repository's sources): the instance slot if a method, the descriptor arity,
and a trailing error slot if the callable can report a native error. -/
def prepared_cif_nargs (info : GICallableInfo) : Nat :=
  (if info.is_method then 1 else 0) + g_callable_info_get_n_args info +
    (if info.can_throw_gerror then 1 else 0)

/-! ## Values on the two sides of the boundary -/

/-- Script values (`JS::Value`), as far as the engine tells them apart.
`function` stands for every value whose `JS_TypeOfValue` is `JSTYPE_FUNCTION`;
`array` is an array object as `JS_NewArrayObject` builds it from a vector. -/
inductive JSValue where
  | undefined
  | null
  | boolean (b : Bool)
  | int32 (n : Int)
  | number (bits : Nat)
  | string (s : String)
  | function (id : Nat)
  | object (id : Nat)
  | array (elems : List JSValue)

/-- Method `JS::Value::isNull`. -/
def JSValue.isNull : JSValue → Bool
  | JSValue.null => true
  | _ => false

/-- The test `JS_TypeOfValue(context, v) == JSTYPE_FUNCTION`. -/
def JSValue.isFunction : JSValue → Bool
  | JSValue.function _ => true
  | _ => false

/-- Method `JS::Value::toInt32`; the engine only defines it on int32 values
(a debug assertion otherwise), other values read as 0 here. -/
def JSValue.toInt32 : JSValue → Int
  | JSValue.int32 n => n
  | _ => 0

/-- The conversion of a `gsize` to the payload of `JS::Int32Value`. -/
def int32_of_gsize (length : Nat) : Int :=
  ((length + 2147483648) % 4294967296 : Nat) - 2147483648

/-- Content of one `GArgument` cell.  `raw` is the bit pattern some scalar or
opaque pointer member was written with (`raw 0` is a null pointer); the other
constructors are the pointers the engine itself manufactures. -/
inductive GArgument where
  | uninit
  | raw (bits : Nat)
  | out_cell (c_pos : Nat)
  | slice (block : Nat)
  | closure (trampoline : Nat)
  | destroy_notify
  | trampoline (id : Nat)
  | local_error
  deriving DecidableEq, Repr

/-- The null pointer. -/
def GArgument.null : GArgument := GArgument.raw 0

/-- The test `arg->v_pointer == NULL`. -/
def GArgument.isNull : GArgument → Bool
  | GArgument.raw 0 => true
  | _ => false

/-- The cells of the call frame an operation is pointed at. -/
inductive Slot where
  | in_arg (c_pos : Nat)
  | out_arg (c_pos : Nat)
  | inout_original (c_pos : Nat)
  | return_gargument
  deriving DecidableEq, Repr

/-- A trampoline (`GjsCallbackTrampoline`); `freed` records that the count
reached zero and the closure, descriptor reference and memory were released. -/
structure GjsCallbackTrampoline where
  ref_count : Int
  info : GICallableInfo
  js_function_id : Nat
  param_types : List GjsParamType
  scope : GIScopeType
  is_vfunc : Bool
  freed : Bool := false
  deriving DecidableEq, Repr

/-- A block obtained from `g_slice_alloc0`. -/
structure SliceBlock where
  size : Nat
  freed : Bool := false
  deriving DecidableEq, Repr

/-- The manually managed memory the engine works on: the trampolines ever
created (a trampoline pointer is an index in this list), the global list
`completed_trampolines`, and the slice blocks ever allocated. -/
structure Heap where
  trampolines : List GjsCallbackTrampoline := []
  completed_trampolines : List Nat := []
  slices : List SliceBlock := []
  deriving DecidableEq, Repr

/-- Messages of the `gjs_throw` calls in the engine. -/
inductive Thrown where
  | too_few_arguments (expected got : Nat)
  | unsupported_caller_allocates (tag : GITypeTag)
  | expected_function_for_callback
  | callback_accepts_callback
  | callback_array_length_direction
  deriving DecidableEq, Repr

/-- Everything the engine does to the world outside its own registers, in
program order. -/
inductive Event where
  | trampoline_ref (id : Nat)
  | trampoline_unref (id : Nat)
  | trampoline_new (id : Nat) (scope : GIScopeType)
  | warning_too_many_arguments (expected got : Nat)
  | gjs_throw (what : Thrown)
  | fill_method_instance (obj : JSValue)
  | marshal_arg (gi_arg_pos c_arg_pos js_arg_pos : Nat)
  | value_to_arg (value : JSValue) (arg_info : GIArgInfo) (dest : Slot)
  | value_to_explicit_array (value : JSValue) (arg_info : GIArgInfo) (dest : Slot)
  | slice_alloc0 (size : Nat) (block : Nat)
  | ffi_call
  | value_from_g_argument (type_info : GITypeInfo) (source : Slot) (arg : GArgument)
  | value_from_explicit_array (type_info : GITypeInfo) (source : Slot) (arg : GArgument)
      (length : Int)
  | release (transfer : GITransfer) (type_info : GITypeInfo) (source : Slot)
      (arg : GArgument)
  | release_out_array (transfer : GITransfer) (type_info : GITypeInfo) (length : Int)
      (source : Slot) (arg : GArgument)
  | release_in_arg (transfer : GITransfer) (type_info : GITypeInfo) (source : Slot)
      (arg : GArgument)
  | release_in_array (transfer : GITransfer) (type_info : GITypeInfo) (length : Nat)
      (source : Slot) (arg : GArgument)
  | slice_free1 (size : Nat) (block : Nat)
  | new_array_object (elems : List JSValue)
  | throw_g_error (error : Nat)

/-- What a native callee leaves behind: the raw return value, what it stored
through each pointer to an out cell it was handed, what it stored through the
error holder, and the heap after every callback and destroy notification it
made during the call. -/
structure NativeResult where
  return_value : GArgument
  out_cells : Nat → GArgument
  error : Option Nat
  heap : Heap

/-- The collaborators of the engine, all outside `function.cpp`.  A conversion
that returns `false` in C returns `none` here; a release returns its `bool`. -/
structure Env where
  /-- Function `gjs_value_to_arg`. -/
  value_to_arg : JSValue → GIArgInfo → Option GArgument
  /-- Function `gjs_value_to_explicit_array`; the array and its length. -/
  value_to_explicit_array : JSValue → GIArgInfo → Option (GArgument × Nat)
  /-- Function `gjs_value_from_g_argument`. -/
  value_from_g_argument : GITypeInfo → GArgument → Option JSValue
  /-- Function `gjs_value_from_explicit_array`. -/
  value_from_explicit_array : GITypeInfo → GArgument → Int → Option JSValue
  /-- Function `gjs_g_argument_release`. -/
  release : GITransfer → GITypeInfo → GArgument → Bool
  /-- Function `gjs_g_argument_release_out_array`. -/
  release_out_array : GITransfer → GITypeInfo → Int → GArgument → Bool
  /-- Function `gjs_g_argument_release_in_arg`. -/
  release_in_arg : GITransfer → GITypeInfo → GArgument → Bool
  /-- Function `gjs_g_argument_release_in_array`. -/
  release_in_array : GITransfer → GITypeInfo → Nat → GArgument → Bool
  /-- Function `JS_NewArrayObject`; `false` when it returns `NULL`. -/
  new_array_object : List JSValue → Bool
  /-- The type checks and unwrapping of `gjs_fill_method_instance`. -/
  fill_method_instance : JSValue → GICallableInfo → Option GArgument
  /-- The native function behind `ffi_call`, applied to the in cells, the out
  cells and the heap as they stand at the call. -/
  ffi_call : (Nat → GArgument) → (Nat → GArgument) → Heap → NativeResult
  /-- Function `gi_type_info_extract_ffi_return_value`. -/
  extract_ffi_return_value : GITypeInfo → GArgument → GArgument
  /-- The callable descriptor `g_type_info_get_interface` returns for a type. -/
  get_interface : GITypeInfo → GICallableInfo
  /-- The bits of a pointer the engine manufactured, read as an integer. -/
  pointer_bits : GArgument → Nat

/-- The two ways a run ends without returning: a failed `g_assert`, or an
access outside an array or through a null pointer. -/
inductive Fault where
  | abort
  | crash
  deriving DecidableEq, Repr

/-! ## Trampolines -/

/-- Function `gjs_callback_trampoline_ref`. -/
def gjs_callback_trampoline_ref (heap : Heap) (id : Nat) : Heap :=
  match heap.trampolines.get? id with
  | none => heap
  | some t =>
    { heap with trampolines := heap.trampolines.set id { t with ref_count := t.ref_count + 1 } }

/-- Function `gjs_callback_trampoline_unref`: decrement, and on reaching zero
free the closure, the descriptor reference, the tags and the trampoline. -/
def gjs_callback_trampoline_unref (heap : Heap) (id : Nat) : Heap :=
  match heap.trampolines.get? id with
  | none => heap
  | some t =>
    let ref_count := t.ref_count - 1
    { heap with
      trampolines := heap.trampolines.set id
        { t with ref_count := ref_count, freed := if ref_count = 0 then true else t.freed } }

/-- One iteration of the parameter analysis of `gjs_callback_trampoline_new`;
an error is the message thrown before `return NULL`. -/
def trampoline_param_step (info : GICallableInfo) (n_args : Nat) (i : Nat)
    (arg_info : GIArgInfo) (pts : List GjsParamType) : Except Thrown (List GjsParamType) :=
  if pts.getD i GjsParamType.PARAM_NORMAL = GjsParamType.PARAM_SKIPPED then Except.ok pts
  else
    let type_info := arg_info.type_info
    let direction := arg_info.direction
    if direction ≠ GIDirection.IN then Except.ok pts
    else if type_info.tag = GITypeTag.INTERFACE then
      if type_info.interface_type = GIInfoType.CALLBACK then
        Except.error Thrown.callback_accepts_callback
      else Except.ok pts
    else if type_info.tag = GITypeTag.ARRAY then
      if type_info.array_type_is_c then
        let array_length_pos := type_info.array_length
        if 0 ≤ array_length_pos ∧ array_length_pos < (n_args : Int) then
          match g_callable_info_load_arg info array_length_pos with
          | none => Except.ok pts
          | some length_arg_info =>
            if length_arg_info.direction ≠ direction then
              Except.error Thrown.callback_array_length_direction
            else
              Except.ok (set_param_type
                (set_param_type pts array_length_pos.toNat GjsParamType.PARAM_SKIPPED)
                i GjsParamType.PARAM_ARRAY)
        else Except.ok pts
      else Except.ok pts
    else Except.ok pts

/-- The parameter analysis loop of `gjs_callback_trampoline_new`. -/
def trampoline_param_loop (info : GICallableInfo) (n_args : Nat) :
    List GIArgInfo → Nat → List GjsParamType → Except Thrown (List GjsParamType)
  | [], _, pts => Except.ok pts
  | arg_info :: rest, i, pts =>
    match trampoline_param_step info n_args i arg_info pts with
    | Except.error e => Except.error e
    | Except.ok pts1 => trampoline_param_loop info n_args rest (i + 1) pts1

/-- Outcome of `gjs_callback_trampoline_new`: the pointer returned (`none` is
`NULL`), the heap and the events. -/
structure TrampolineNew where
  trampoline : Option Nat
  heap : Heap
  events : List Event

/-- Function `gjs_callback_trampoline_new`.  A null function gives `NULL`
without allocating; a value that is not a function fails the `g_assert`.
When the parameter analysis throws, `NULL` is returned and the trampoline
already allocated stays behind with count 1. -/
def gjs_callback_trampoline_new (heap : Heap) (function : JSValue)
    (callable_info : GICallableInfo) (scope : GIScopeType) (is_vfunc : Bool) :
    Except Fault TrampolineNew :=
  match function with
  | JSValue.null => Except.ok { trampoline := none, heap := heap, events := [] }
  | JSValue.function fid =>
    let id := heap.trampolines.length
    let n_args := g_callable_info_get_n_args callable_info
    let pts0 := List.replicate n_args GjsParamType.PARAM_NORMAL
    let fresh (pts : List GjsParamType) : GjsCallbackTrampoline :=
      { ref_count := 1, info := callable_info, js_function_id := fid, param_types := pts,
        scope := scope, is_vfunc := is_vfunc }
    match trampoline_param_loop callable_info n_args callable_info.args 0 pts0 with
    | Except.error e =>
      Except.ok { trampoline := none
                  heap := { heap with trampolines := heap.trampolines ++ [fresh pts0] }
                  events := [Event.gjs_throw e] }
    | Except.ok pts =>
      Except.ok { trampoline := some id
                  heap := { heap with trampolines := heap.trampolines ++ [fresh pts] }
                  events := [Event.trampoline_new id scope] }
  | _ => Except.error Fault.abort

/-! ## The call frame -/

/-- The three `GArgument` arrays of `gjs_invoke_c_function`, each of `c_argc`
cells left uninitialised by `g_newa`.  The fourth array, `ffi_arg_pointers`,
holds `&in_arg_cvalues[c]` in every cell the engine fills, so the callee sees
exactly `in_arg_cvalues`. -/
structure Frame where
  in_arg_cvalues : Nat → GArgument
  out_arg_cvalues : Nat → GArgument
  inout_original_arg_cvalues : Nat → GArgument

/-- The frame as `g_newa` leaves it. -/
def Frame.fresh : Frame :=
  { in_arg_cvalues := fun _ => GArgument.uninit
    out_arg_cvalues := fun _ => GArgument.uninit
    inout_original_arg_cvalues := fun _ => GArgument.uninit }

/-- The state a call carries along: frame, heap and the trace so far. -/
structure Regs where
  frame : Frame
  heap : Heap
  trace : List Event

/-- Append one event to the trace. -/
def Regs.log (st : Regs) (e : Event) : Regs := { st with trace := st.trace ++ [e] }

/-- Store into `in_arg_cvalues[c]`. -/
def Regs.set_in (st : Regs) (c : Nat) (v : GArgument) : Regs :=
  { st with frame := { st.frame with in_arg_cvalues := Function.update st.frame.in_arg_cvalues c v } }

/-- Store into `out_arg_cvalues[c]`. -/
def Regs.set_out (st : Regs) (c : Nat) (v : GArgument) : Regs :=
  { st with frame := { st.frame with out_arg_cvalues := Function.update st.frame.out_arg_cvalues c v } }

/-- Store into `inout_original_arg_cvalues[c]`. -/
def Regs.set_orig (st : Regs) (c : Nat) (v : GArgument) : Regs :=
  { st with frame :=
      { st.frame with
        inout_original_arg_cvalues := Function.update st.frame.inout_original_arg_cvalues c v } }

/-- The statement pair
`out_arg_cvalues[c] = inout_original_arg_cvalues[c] = in_arg_cvalues[c];`
`in_arg_cvalues[c].v_pointer = &out_arg_cvalues[c];`. -/
def Regs.snapshot_inout (st : Regs) (c : Nat) : Regs :=
  let v := st.frame.in_arg_cvalues c
  ((st.set_orig c v).set_out c v).set_in c (GArgument.out_cell c)

/-- Shift of a descriptor index to a frame position: `is_method ? pos + 1 : pos`. -/
def c_pos_of (is_method : Bool) (pos : Int) : Int := if is_method then pos + 1 else pos

/-! ## Marshaling: the first loop of `gjs_invoke_c_function` -/

/-- Outcome of the work on one parameter inside the `switch`: the state, the
flag `failed` and the flag `arg_removed`. -/
structure Switched where
  regs : Regs
  failed : Bool
  arg_removed : Bool

/-- The branch `direction == GI_DIRECTION_OUT`: a caller-allocates struct or
union gets a zero-filled block, any other caller-allocates type fails, and a
plain out parameter gets a null out cell with the in cell pointing at it. -/
def marshal_out (arg_info : GIArgInfo) (c_arg_pos : Nat) (st : Regs) : Regs × Bool :=
  if arg_info.caller_allocates then
    let ainfo := arg_info.type_info
    if ainfo.tag = GITypeTag.INTERFACE ∧
        (ainfo.interface_type = GIInfoType.STRUCT ∨ ainfo.interface_type = GIInfoType.UNION) then
      let size := ainfo.interface_size
      let block := st.heap.slices.length
      let st1 : Regs :=
        { st with heap := { st.heap with slices := st.heap.slices ++ [{ size := size }] } }
      let st2 := (st1.log (Event.slice_alloc0 size block)).set_in c_arg_pos (GArgument.slice block)
      (st2.set_out c_arg_pos (GArgument.slice block), false)
    else
      (st.log (Event.gjs_throw (Thrown.unsupported_caller_allocates ainfo.tag)), true)
  else
    ((st.set_out c_arg_pos GArgument.null).set_in c_arg_pos (GArgument.out_cell c_arg_pos), false)

/-- The block `if (pos >= 0) { c_pos = is_method ? pos + 1 : pos;`
`g_assert(function->param_types[pos] == PARAM_SKIPPED); in_arg_cvalues[c_pos].v_pointer = v; }`
for a sibling index `pos` of a callback. -/
def store_sibling (function : Function) (c_argc : Nat) (is_method : Bool) (pos : Int)
    (v : GArgument) (st : Regs) : Except Fault Regs :=
  if 0 ≤ pos then
    match function.param_types.get? pos.toNat with
    | none => Except.error Fault.crash
    | some t =>
      if t ≠ GjsParamType.PARAM_SKIPPED then Except.error Fault.abort
      else if (c_pos_of is_method pos).toNat < c_argc then
        Except.ok (st.set_in (c_pos_of is_method pos).toNat v)
      else Except.error Fault.crash
  else Except.ok st

/-- The stores into the destroy-notify slot and the closure-data slot of a
callback, followed by the extra reference for a scope other than `CALL` and
the store of the closure into the callback's own slot.  `trampoline` is `none`
for `NULL`. -/
def wire_callback (function : Function) (c_argc : Nat) (is_method : Bool)
    (arg_info : GIArgInfo) (c_arg_pos : Nat) (trampoline : Option Nat) (st : Regs) :
    Except Fault Regs :=
  match store_sibling function c_argc is_method arg_info.destroy
      (match trampoline with
       | some _ => GArgument.destroy_notify
       | none => GArgument.null) st with
  | Except.error f => Except.error f
  | Except.ok st1 =>
    match store_sibling function c_argc is_method arg_info.closure
        (match trampoline with
         | some id => GArgument.trampoline id
         | none => GArgument.null) st1 with
    | Except.error f => Except.error f
    | Except.ok st2 =>
      let st3 : Regs :=
        match trampoline with
        | some id =>
          if arg_info.scope ≠ GIScopeType.CALL then
            { st2 with heap := gjs_callback_trampoline_ref st2.heap id }.log
              (Event.trampoline_ref id)
          else st2
        | none => st2
      Except.ok (st3.set_in c_arg_pos
        (match trampoline with
         | some id => GArgument.closure id
         | none => GArgument.null))

/-- The `case PARAM_CALLBACK`.  Reading `args[js_arg_pos]` outside the
argument list is a crash; `trampoline->closure` on a `NULL` trampoline (the
callback's own descriptor was rejected) is a crash. -/
def marshal_callback (env : Env) (function : Function) (args : List JSValue) (c_argc : Nat)
    (is_method : Bool) (arg_info : GIArgInfo) (c_arg_pos js_arg_pos : Nat) (st : Regs) :
    Except Fault Switched :=
  match args.get? js_arg_pos with
  | none => Except.error Fault.crash
  | some current_arg =>
    if current_arg.isNull ∧ arg_info.may_be_null then
      match wire_callback function c_argc is_method arg_info c_arg_pos none st with
      | Except.error f => Except.error f
      | Except.ok st1 => Except.ok { regs := st1, failed := false, arg_removed := false }
    else if ¬ current_arg.isFunction then
      Except.ok { regs := st.log (Event.gjs_throw Thrown.expected_function_for_callback)
                  failed := true, arg_removed := false }
    else
      let callable_info := env.get_interface arg_info.type_info
      match gjs_callback_trampoline_new st.heap current_arg callable_info arg_info.scope false with
      | Except.error f => Except.error f
      | Except.ok made =>
        match made.trampoline with
        | none => Except.error Fault.crash
        | some id =>
          let st1 : Regs := { st with heap := made.heap, trace := st.trace ++ made.events }
          match wire_callback function c_argc is_method arg_info c_arg_pos (some id) st1 with
          | Except.error f => Except.error f
          | Except.ok st2 => Except.ok { regs := st2, failed := false, arg_removed := false }

/-- The `case PARAM_ARRAY`: convert the sequence, convert its length into the
slot of the length sibling and, for `INOUT`, turn that slot into an out cell
(or null it when the array itself is null). -/
def marshal_array (env : Env) (function : Function) (args : List JSValue) (c_argc : Nat)
    (is_method : Bool) (arg_info : GIArgInfo) (c_arg_pos js_arg_pos : Nat) (st : Regs) :
    Except Fault Switched :=
  match args.get? js_arg_pos with
  | none => Except.error Fault.crash
  | some current_arg =>
    let st0 := st.log (Event.value_to_explicit_array current_arg arg_info (Slot.in_arg c_arg_pos))
    match env.value_to_explicit_array current_arg arg_info with
    | none => Except.ok { regs := st0, failed := true, arg_removed := false }
    | some (array, length) =>
      let st1 := st0.set_in c_arg_pos array
      match g_callable_info_load_arg function.info arg_info.type_info.array_length with
      | none => Except.error Fault.crash
      | some array_length_arg =>
        let array_length_pos := (c_pos_of is_method arg_info.type_info.array_length).toNat
        if ¬ array_length_pos < c_argc then Except.error Fault.crash
        else
          let v_length := JSValue.int32 (int32_of_gsize length)
          let st2 := st1.log (Event.value_to_arg v_length array_length_arg
            (Slot.in_arg array_length_pos))
          match env.value_to_arg v_length array_length_arg with
          | none => Except.ok { regs := st2, failed := true, arg_removed := false }
          | some c_length =>
            let st3 := st2.set_in array_length_pos c_length
            let st4 : Regs :=
              if arg_info.direction = GIDirection.INOUT then
                if (st3.frame.in_arg_cvalues c_arg_pos).isNull then
                  ((st3.set_in array_length_pos GArgument.null).set_out array_length_pos
                    GArgument.null).set_orig array_length_pos GArgument.null
                else st3.snapshot_inout array_length_pos
              else st3
            Except.ok { regs := st4, failed := false, arg_removed := false }

/-- The `case PARAM_NORMAL`, behind `g_assert_cmpuint(js_arg_pos, <, args.length())`. -/
def marshal_normal (env : Env) (args : List JSValue) (arg_info : GIArgInfo)
    (c_arg_pos js_arg_pos : Nat) (st : Regs) : Except Fault Switched :=
  match args.get? js_arg_pos with
  | none => Except.error Fault.abort
  | some current_arg =>
    let st0 := st.log (Event.value_to_arg current_arg arg_info (Slot.in_arg c_arg_pos))
    match env.value_to_arg current_arg arg_info with
    | none => Except.ok { regs := st0, failed := true, arg_removed := false }
    | some v => Except.ok { regs := st0.set_in c_arg_pos v, failed := false, arg_removed := false }

/-- The `switch (param_type)` of the `else` branch (direction `IN` or `INOUT`). -/
def marshal_switch (env : Env) (function : Function) (args : List JSValue) (c_argc : Nat)
    (is_method : Bool) (param_type : GjsParamType) (arg_info : GIArgInfo)
    (c_arg_pos js_arg_pos : Nat) (st : Regs) : Except Fault Switched :=
  match param_type with
  | GjsParamType.PARAM_CALLBACK =>
    marshal_callback env function args c_argc is_method arg_info c_arg_pos js_arg_pos st
  | GjsParamType.PARAM_SKIPPED => Except.ok { regs := st, failed := false, arg_removed := true }
  | GjsParamType.PARAM_ARRAY =>
    marshal_array env function args c_argc is_method arg_info c_arg_pos js_arg_pos st
  | GjsParamType.PARAM_NORMAL => marshal_normal env args arg_info c_arg_pos js_arg_pos st

/-- Outcome of one iteration of the marshaling loop: the state, `failed`, and
the new `js_arg_pos`. -/
structure Stepped where
  regs : Regs
  failed : Bool
  js_arg_pos : Nat

/-- One iteration of the marshaling loop, for the parameter `arg_info` at
descriptor index `gi_arg_pos` and frame position `c_arg_pos`. -/
def marshal_arg (env : Env) (function : Function) (args : List JSValue) (c_argc : Nat)
    (is_method : Bool) (arg_info : GIArgInfo) (gi_arg_pos c_arg_pos js_arg_pos : Nat)
    (st : Regs) : Except Fault Stepped :=
  let st := st.log (Event.marshal_arg gi_arg_pos c_arg_pos js_arg_pos)
  if ¬ c_arg_pos < c_argc then Except.error Fault.abort
  else if arg_info.direction = GIDirection.OUT then
    let r := marshal_out arg_info c_arg_pos st
    Except.ok { regs := r.1, failed := r.2, js_arg_pos := js_arg_pos }
  else
    match function.param_types.get? gi_arg_pos with
    | none => Except.error Fault.crash
    | some param_type =>
      match marshal_switch env function args c_argc is_method param_type arg_info
          c_arg_pos js_arg_pos st with
      | Except.error f => Except.error f
      | Except.ok sw =>
        let st1 : Regs :=
          if arg_info.direction = GIDirection.INOUT ∧ sw.arg_removed = false ∧ sw.failed = false
          then sw.regs.snapshot_inout c_arg_pos else sw.regs
        Except.ok
          { regs := st1, failed := sw.failed
            js_arg_pos :=
              if sw.failed = false ∧ sw.arg_removed = false then js_arg_pos + 1 else js_arg_pos }

/-- Registers at the exit of the marshaling loop. -/
structure Marshaled where
  regs : Regs
  failed : Bool
  gi_arg_pos : Nat
  c_arg_pos : Nat
  js_arg_pos : Nat
  processed_c_args : Nat

/-- The marshaling loop
`for (gi_arg_pos = 0; gi_arg_pos < gi_argc; gi_arg_pos++, c_arg_pos++)` over
the parameters still to do; a failed iteration breaks out before
`processed_c_args++`. -/
def marshal_loop (env : Env) (function : Function) (args : List JSValue) (c_argc : Nat)
    (is_method : Bool) :
    List GIArgInfo → Nat → Nat → Nat → Nat → Regs → Except Fault Marshaled
  | [], gi_arg_pos, c_arg_pos, js_arg_pos, processed_c_args, st =>
    Except.ok { regs := st, failed := false, gi_arg_pos := gi_arg_pos, c_arg_pos := c_arg_pos
                js_arg_pos := js_arg_pos, processed_c_args := processed_c_args }
  | arg_info :: rest, gi_arg_pos, c_arg_pos, js_arg_pos, processed_c_args, st =>
    match marshal_arg env function args c_argc is_method arg_info gi_arg_pos c_arg_pos
        js_arg_pos st with
    | Except.error f => Except.error f
    | Except.ok r =>
      if r.failed then
        Except.ok { regs := r.regs, failed := true, gi_arg_pos := gi_arg_pos
                    c_arg_pos := c_arg_pos, js_arg_pos := r.js_arg_pos
                    processed_c_args := processed_c_args }
      else
        marshal_loop env function args c_argc is_method rest (gi_arg_pos + 1) (c_arg_pos + 1)
          r.js_arg_pos (processed_c_args + 1) r.regs

/-! ## The native call and the return value -/

/-- The bits of a cell read as an integer. -/
def GArgument.bits (env : Env) : GArgument → Nat
  | GArgument.raw b => b
  | a => env.pointer_bits a

/-- Sign extension of the low `w` bits to an `unsigned long`. -/
def sign_extend (w : Nat) (bits : Nat) : Nat :=
  let x := bits % 2 ^ w
  if x < 2 ^ (w - 1) then x else 2 ^ 64 - 2 ^ w + x

/-- Function `get_length_from_arg`; a tag that is not an integer type reaches
`g_assert_not_reached`. -/
def get_length_from_arg (env : Env) (arg : GArgument) (tag : GITypeTag) : Except Fault Nat :=
  match tag with
  | GITypeTag.INT8 => Except.ok (sign_extend 8 (arg.bits env))
  | GITypeTag.UINT8 => Except.ok (arg.bits env % 2 ^ 8)
  | GITypeTag.INT16 => Except.ok (sign_extend 16 (arg.bits env))
  | GITypeTag.UINT16 => Except.ok (arg.bits env % 2 ^ 16)
  | GITypeTag.INT32 => Except.ok (sign_extend 32 (arg.bits env))
  | GITypeTag.UINT32 => Except.ok (arg.bits env % 2 ^ 32)
  | GITypeTag.INT64 => Except.ok (arg.bits env % 2 ^ 64)
  | GITypeTag.UINT64 => Except.ok (arg.bits env % 2 ^ 64)
  | _ => Except.error Fault.abort

/-- Registers after the native call and the conversion of the return value;
`at_call` is the frame and the heap as `ffi_call` found them (`none` when the
callee was not called), kept for stating properties. -/
structure Called where
  regs : Regs
  did_throw_gerror : Bool
  local_error : Option Nat
  failed : Bool
  js_rval : Option JSValue
  return_values : List JSValue
  next_rval : Nat
  return_gargument : GArgument
  at_call : Option Regs

/-- Outcome of the conversion of the return value or of one out value: the state, the vector
`return_values`, the flag `arg_failed` and the payload of `array_length`. -/
structure OutConverted where
  regs : Regs
  return_values : List JSValue
  arg_failed : Bool
  array_length : Int

/-- The conversions inside `if (return_tag != GI_TYPE_TAG_VOID)`: with an
array-length sibling (`array_length_pos >= 0`) the length is converted first
from the sibling's out cell, and the array is then converted with that length
when `js_rval` is given; without a sibling the return value is converted when
`js_rval` is given. -/
def convert_return_value (env : Env) (function : Function) (c_argc : Nat) (is_method : Bool)
    (js_rval_given : Bool) (return_gargument : GArgument) (return_values : List JSValue)
    (next_rval : Nat) (st : Regs) : Except Fault OutConverted :=
  let return_info := function.info.return_type
  if 0 ≤ return_info.array_length then
    match g_callable_info_load_arg function.info return_info.array_length with
    | none => Except.error Fault.crash
    | some array_length_arg =>
      let arg_type_info := array_length_arg.type_info
      let array_length_pos := (c_pos_of is_method return_info.array_length).toNat
      if ¬ array_length_pos < c_argc then Except.error Fault.crash
      else
        let cell := st.frame.out_arg_cvalues array_length_pos
        let st1 := st.log (Event.value_from_g_argument arg_type_info
          (Slot.out_arg array_length_pos) cell)
        match env.value_from_g_argument arg_type_info cell with
        | none =>
          Except.ok { regs := st1, return_values := return_values, arg_failed := true
                      array_length := 0 }
        | some length =>
          if js_rval_given then
            let st2 := st1.log (Event.value_from_explicit_array return_info
              Slot.return_gargument return_gargument length.toInt32)
            match env.value_from_explicit_array return_info return_gargument
                length.toInt32 with
            | none =>
              Except.ok { regs := st2, return_values := return_values, arg_failed := true
                          array_length := length.toInt32 }
            | some v =>
              Except.ok { regs := st2, return_values := return_values.set next_rval v
                          arg_failed := false, array_length := length.toInt32 }
          else
            Except.ok { regs := st1, return_values := return_values, arg_failed := false
                        array_length := length.toInt32 }
  else if js_rval_given then
    let st1 := st.log (Event.value_from_g_argument return_info Slot.return_gargument
      return_gargument)
    match env.value_from_g_argument return_info return_gargument with
    | none =>
      Except.ok { regs := st1, return_values := return_values, arg_failed := true
                  array_length := 0 }
    | some v =>
      Except.ok { regs := st1, return_values := return_values.set next_rval v
                  arg_failed := false, array_length := 0 }
  else
    Except.ok { regs := st, return_values := return_values, arg_failed := false
                array_length := 0 }

/-- The release of the return value, attempted when its conversion did not
fail and the caller passed no `r_value`; the result is the state and the flag
`failed` (a failed conversion or a failed release). -/
def release_return (env : Env) (function : Function) (r_value_given : Bool)
    (return_gargument : GArgument) (conv : OutConverted) : Regs × Bool :=
  let return_info := function.info.return_type
  let transfer := function.info.caller_owns
  if conv.arg_failed = false ∧ r_value_given = false then
    if 0 ≤ return_info.array_length then
      (conv.regs.log (Event.release_out_array transfer return_info conv.array_length
          Slot.return_gargument return_gargument),
        !(env.release_out_array transfer return_info conv.array_length return_gargument))
    else
      (conv.regs.log (Event.release transfer return_info Slot.return_gargument
          return_gargument),
        !(env.release transfer return_info return_gargument))
  else (conv.regs, conv.arg_failed)

/-- The block `if (return_tag != GI_TYPE_TAG_VOID) { ... }` up to
`++next_rval`, behind `g_assert_cmpuint(next_rval, <, function->js_out_argc)`. -/
def convert_return (env : Env) (function : Function) (c_argc : Nat) (is_method : Bool)
    (js_rval_given r_value_given : Bool) (return_gargument : GArgument)
    (return_values : List JSValue) (next_rval : Nat) (st : Regs) :
    Except Fault (Regs × List JSValue × Bool) :=
  if ¬ next_rval < function.js_out_argc then Except.error Fault.abort
  else
    match convert_return_value env function c_argc is_method js_rval_given return_gargument
        return_values next_rval st with
    | Except.error f => Except.error f
    | Except.ok conv =>
      let released := release_return env function r_value_given return_gargument conv
      Except.ok (released.1, conv.return_values, released.2)

/-- From the end of a successful marshaling loop to the label `release`: the
error holder slot, the two assertions on the positions, `ffi_call`, the test
of the error holder, and the conversion of the return value.  The callee
writes through the pointers it was handed: the out cell `c` changes exactly
when `in_arg_cvalues[c]` points at it, and the error holder can only be set
when it was passed. -/
def call_and_convert_return (env : Env) (function : Function) (c_argc gi_argc : Nat)
    (is_method : Bool) (js_rval : Option JSValue) (r_value_given : Bool) (m : Marshaled) :
    Except Fault Called :=
  let can_throw_gerror := function.info.can_throw_gerror
  let holder : Except Fault (Regs × Nat) :=
    if can_throw_gerror then
      if ¬ m.c_arg_pos < c_argc then Except.error Fault.abort
      else Except.ok (m.regs.set_in m.c_arg_pos GArgument.local_error, m.c_arg_pos + 1)
    else Except.ok (m.regs, m.c_arg_pos)
  match holder with
  | Except.error f => Except.error f
  | Except.ok (st, c_arg_pos) =>
    if c_arg_pos ≠ c_argc then Except.error Fault.abort
    else if m.gi_arg_pos ≠ gi_argc then Except.error Fault.abort
    else
      let res := env.ffi_call st.frame.in_arg_cvalues st.frame.out_arg_cvalues st.heap
      let out_after : Nat → GArgument := fun c =>
        if st.frame.in_arg_cvalues c = GArgument.out_cell c then res.out_cells c
        else st.frame.out_arg_cvalues c
      let st1 : Regs :=
        { frame := { st.frame with out_arg_cvalues := out_after }
          heap := res.heap
          trace := st.trace ++ [Event.ffi_call] }
      let local_error := if can_throw_gerror then res.error else none
      let did_throw_gerror := can_throw_gerror && local_error.isSome
      let js_rval1 := js_rval.map (fun _ => JSValue.undefined)
      if 0 < function.js_out_argc ∧ did_throw_gerror = false then
        let return_values := List.replicate function.js_out_argc JSValue.undefined
        if function.info.return_type.tag ≠ GITypeTag.VOID then
          let return_gargument :=
            env.extract_ffi_return_value function.info.return_type res.return_value
          match convert_return env function c_argc is_method js_rval.isSome r_value_given
              return_gargument return_values 0 st1 with
          | Except.error f => Except.error f
          | Except.ok (st2, return_values1, failed) =>
            Except.ok { regs := st2, did_throw_gerror := did_throw_gerror
                        local_error := local_error, failed := failed, js_rval := js_rval1
                        return_values := return_values1, next_rval := 1
                        return_gargument := return_gargument, at_call := some st }
        else
          Except.ok { regs := st1, did_throw_gerror := did_throw_gerror
                      local_error := local_error, failed := false, js_rval := js_rval1
                      return_values := return_values, next_rval := 0
                      return_gargument := GArgument.uninit, at_call := some st }
      else
        Except.ok { regs := st1, did_throw_gerror := did_throw_gerror
                    local_error := local_error, failed := false, js_rval := js_rval1
                    return_values := [], next_rval := 0
                    return_gargument := GArgument.uninit, at_call := some st }

/-! ## The release loop and the packaging of the result -/

/-- Registers of the release loop. -/
structure Releasing where
  regs : Regs
  return_values : List JSValue
  next_rval : Nat
  postinvoke_release_failed : Bool

/-- Read the cell a slot of the frame designates. -/
def Frame.read (frame : Frame) (return_gargument : GArgument) : Slot → GArgument
  | Slot.in_arg c => frame.in_arg_cvalues c
  | Slot.out_arg c => frame.out_arg_cvalues c
  | Slot.inout_original c => frame.inout_original_arg_cvalues c
  | Slot.return_gargument => return_gargument

/-- First half of an iteration of the release loop, under
`direction == IN || direction == INOUT`: an `IN` value is released from its in
cell per its transfer annotation, an `INOUT` value from the snapshot with
transfer `NOTHING`; a callback drops one trampoline reference and nulls the
cell, an array is released with the length read from the in cell of its
length sibling, a normal value is released as such. -/
def release_in (env : Env) (function : Function) (c_argc : Nat) (is_method : Bool)
    (arg_info : GIArgInfo) (param_type : GjsParamType) (c_arg_pos : Nat) (r : Releasing) :
    Except Fault Releasing :=
  let direction := arg_info.direction
  let arg_type_info := arg_info.type_info
  if direction = GIDirection.IN ∨ direction = GIDirection.INOUT then
    let slot := if direction = GIDirection.IN then Slot.in_arg c_arg_pos
                else Slot.inout_original c_arg_pos
    let transfer := if direction = GIDirection.IN then arg_info.ownership_transfer
                    else GITransfer.NOTHING
    let arg := r.regs.frame.read GArgument.uninit slot
    match param_type with
    | GjsParamType.PARAM_CALLBACK =>
      match arg with
      | GArgument.closure id =>
        let st1 : Regs :=
          { r.regs with heap := gjs_callback_trampoline_unref r.regs.heap id }.log
            (Event.trampoline_unref id)
        let st2 := if direction = GIDirection.IN then st1.set_in c_arg_pos GArgument.null
                   else st1.set_orig c_arg_pos GArgument.null
        Except.ok { r with regs := st2 }
      | other => if other.isNull then Except.ok r else Except.error Fault.crash
    | GjsParamType.PARAM_ARRAY =>
      if ¬ 0 ≤ arg_type_info.array_length then Except.error Fault.abort
      else
        match g_callable_info_load_arg function.info arg_type_info.array_length with
        | none => Except.error Fault.crash
        | some array_length_arg =>
          let array_length_pos := (c_pos_of is_method arg_type_info.array_length).toNat
          if ¬ array_length_pos < c_argc then Except.error Fault.crash
          else
            match get_length_from_arg env (r.regs.frame.in_arg_cvalues array_length_pos)
                array_length_arg.type_info.tag with
            | Except.error f => Except.error f
            | Except.ok length =>
              let st1 := r.regs.log (Event.release_in_array transfer arg_type_info length slot arg)
              Except.ok
                { r with
                  regs := st1
                  postinvoke_release_failed :=
                    if env.release_in_array transfer arg_type_info length arg
                    then r.postinvoke_release_failed else true }
    | GjsParamType.PARAM_NORMAL =>
      let st1 := r.regs.log (Event.release_in_arg transfer arg_type_info slot arg)
      Except.ok
        { r with
          regs := st1
          postinvoke_release_failed :=
            if env.release_in_arg transfer arg_type_info arg
            then r.postinvoke_release_failed else true }
    | GjsParamType.PARAM_SKIPPED => Except.ok r
  else Except.ok r

/-- The block `if (js_rval) { ... }` of the second half of a release
iteration: convert the out cell into `return_values[next_rval]`; with a
length sibling (`array_length_pos >= 0`) the length is converted first from
the sibling's out cell and bounds the array conversion.  Without `js_rval`
nothing is converted and `array_length` stays `Int32Value(0)`. -/
def convert_out_value (env : Env) (function : Function) (c_argc : Nat) (is_method : Bool)
    (js_rval_given : Bool) (arg_info : GIArgInfo) (c_arg_pos : Nat) (r : Releasing) :
    Except Fault OutConverted :=
  let arg_type_info := arg_info.type_info
  let arg := r.regs.frame.out_arg_cvalues c_arg_pos
  let array_length_pos := arg_type_info.array_length
  if js_rval_given then
    if 0 ≤ array_length_pos then
      match g_callable_info_load_arg function.info array_length_pos with
      | none => Except.error Fault.crash
      | some array_length_arg =>
        let array_length_type_info := array_length_arg.type_info
        let length_pos := (c_pos_of is_method array_length_pos).toNat
        if ¬ length_pos < c_argc then Except.error Fault.crash
        else
          let cell := r.regs.frame.out_arg_cvalues length_pos
          let st1 := r.regs.log (Event.value_from_g_argument array_length_type_info
            (Slot.out_arg length_pos) cell)
          match env.value_from_g_argument array_length_type_info cell with
          | none =>
            Except.ok { regs := st1, return_values := r.return_values, arg_failed := true
                        array_length := 0 }
          | some array_length =>
            let st2 := st1.log (Event.value_from_explicit_array arg_type_info
              (Slot.out_arg c_arg_pos) arg array_length.toInt32)
            match env.value_from_explicit_array arg_type_info arg array_length.toInt32 with
            | none =>
              Except.ok { regs := st2, return_values := r.return_values, arg_failed := true
                          array_length := array_length.toInt32 }
            | some v =>
              Except.ok { regs := st2, return_values := r.return_values.set r.next_rval v
                          arg_failed := false, array_length := array_length.toInt32 }
    else
      let st1 := r.regs.log (Event.value_from_g_argument arg_type_info
        (Slot.out_arg c_arg_pos) arg)
      match env.value_from_g_argument arg_type_info arg with
      | none =>
        Except.ok { regs := st1, return_values := r.return_values, arg_failed := true
                    array_length := 0 }
      | some v =>
        Except.ok { regs := st1, return_values := r.return_values.set r.next_rval v
                    arg_failed := false, array_length := 0 }
  else
    Except.ok { regs := r.regs, return_values := r.return_values, arg_failed := false
                array_length := 0 }

/-- The block `if (g_arg_info_is_caller_allocates(&arg_info)) { ... }`: behind
the assertions that the type is a struct or union, free the block the out
cell points at. -/
def free_caller_allocates (arg_info : GIArgInfo) (c_arg_pos : Nat) (st : Regs) :
    Except Fault Regs :=
  let arg_type_info := arg_info.type_info
  if arg_info.caller_allocates then
    if arg_type_info.tag ≠ GITypeTag.INTERFACE then Except.error Fault.abort
    else if ¬ (arg_type_info.interface_type = GIInfoType.STRUCT ∨
        arg_type_info.interface_type = GIInfoType.UNION) then Except.error Fault.abort
    else
      match st.frame.out_arg_cvalues c_arg_pos with
      | GArgument.slice block =>
        match st.heap.slices.get? block with
        | none => Except.error Fault.crash
        | some b =>
          Except.ok
            ({ st with
               heap := { st.heap with
                         slices := st.heap.slices.set block { b with freed := true } } }.log
              (Event.slice_free1 arg_type_info.interface_size block))
      | _ => Except.error Fault.crash
  else Except.ok st

/-- The release of an out value after its conversion succeeded:
`gjs_g_argument_release_out_array` with a length sibling,
`gjs_g_argument_release` without; the result is not looked at. -/
def release_out (arg_info : GIArgInfo) (c_arg_pos : Nat) (conv : OutConverted) : Regs :=
  let arg := conv.regs.frame.out_arg_cvalues c_arg_pos
  if conv.arg_failed = false then
    if 0 ≤ arg_info.type_info.array_length then
      conv.regs.log (Event.release_out_array arg_info.ownership_transfer arg_info.type_info
        conv.array_length (Slot.out_arg c_arg_pos) arg)
    else
      conv.regs.log (Event.release arg_info.ownership_transfer arg_info.type_info
        (Slot.out_arg c_arg_pos) arg)
  else conv.regs

/-- Second half of an iteration of the release loop, reached only when the
call neither threw nor failed, for an `OUT` or `INOUT` parameter that is not
`PARAM_SKIPPED`: behind `g_assert(next_rval < function->js_out_argc)`,
convert the out cell, release the native value when the conversion
succeeded, free the block of a caller-allocates parameter, and advance
`next_rval`. -/
def convert_out (env : Env) (function : Function) (c_argc : Nat) (is_method : Bool)
    (js_rval_given : Bool) (arg_info : GIArgInfo) (c_arg_pos : Nat) (r : Releasing) :
    Except Fault Releasing :=
  if ¬ r.next_rval < function.js_out_argc then Except.error Fault.abort
  else
    match convert_out_value env function c_argc is_method js_rval_given arg_info c_arg_pos r with
    | Except.error f => Except.error f
    | Except.ok conv =>
      match free_caller_allocates arg_info c_arg_pos (release_out arg_info c_arg_pos conv) with
      | Except.error f => Except.error f
      | Except.ok st3 =>
        Except.ok
          { regs := st3, return_values := conv.return_values, next_rval := r.next_rval + 1
            postinvoke_release_failed :=
              if conv.arg_failed then true else r.postinvoke_release_failed }

/-- One iteration of the release loop. -/
def release_arg (env : Env) (function : Function) (c_argc : Nat) (is_method : Bool)
    (js_rval_given : Bool) (did_throw_gerror failed : Bool) (arg_info : GIArgInfo)
    (gi_arg_pos c_arg_pos : Nat) (r : Releasing) : Except Fault Releasing :=
  match function.param_types.get? gi_arg_pos with
  | none => Except.error Fault.crash
  | some param_type =>
    match release_in env function c_argc is_method arg_info param_type c_arg_pos r with
    | Except.error f => Except.error f
    | Except.ok r1 =>
      if did_throw_gerror ∨ failed then Except.ok r1
      else if (arg_info.direction = GIDirection.OUT ∨ arg_info.direction = GIDirection.INOUT) ∧
          param_type ≠ GjsParamType.PARAM_SKIPPED then
        convert_out env function c_argc is_method js_rval_given arg_info c_arg_pos r1
      else Except.ok r1

/-- The release loop
`for (gi_arg_pos = 0; gi_arg_pos < gi_argc && c_arg_pos < processed_c_args; ...)`
over the parameters still to visit; the result carries the final `c_arg_pos`. -/
def release_loop (env : Env) (function : Function) (c_argc : Nat) (is_method : Bool)
    (js_rval_given : Bool) (did_throw_gerror failed : Bool) (processed_c_args : Nat) :
    List GIArgInfo → Nat → Nat → Releasing → Except Fault (Releasing × Nat)
  | [], _, c_arg_pos, r => Except.ok (r, c_arg_pos)
  | arg_info :: rest, gi_arg_pos, c_arg_pos, r =>
    if c_arg_pos < processed_c_args then
      match release_arg env function c_argc is_method js_rval_given did_throw_gerror failed
          arg_info gi_arg_pos c_arg_pos r with
      | Except.error f => Except.error f
      | Except.ok r1 =>
        release_loop env function c_argc is_method js_rval_given did_throw_gerror failed
          processed_c_args rest (gi_arg_pos + 1) (c_arg_pos + 1) r1
    else Except.ok (r, c_arg_pos)

/-- The way a run of `gjs_invoke_c_function` went. -/
inductive Path where
  | too_few_arguments
  | instance_failed
  | marshal_failed
  | called
  deriving DecidableEq, Repr

/-- Final values of locals of `gjs_invoke_c_function`, reported for stating
properties: the frame, `return_gargument`, `did_throw_gerror`, `local_error`,
`processed_c_args`, `next_rval`, the way the run went, and the frame and the
heap as `ffi_call` found them (`none` when the callee was not called). -/
structure Locals where
  path : Path
  frame : Frame
  return_gargument : GArgument
  did_throw_gerror : Bool
  local_error : Option Nat
  processed_c_args : Nat
  next_rval : Nat
  at_call : Option Regs

/-- What `gjs_invoke_c_function` hands back when it returns: its `bool`, the
content of `js_rval` and of `*r_value` (when the caller passed them), the heap
and the trace; and the final locals. -/
structure Invoked where
  ok : Bool
  js_rval : Option JSValue
  r_value : Option GArgument
  heap : Heap
  trace : List Event
  locals : Locals

/-- Outcome of the packaging block. -/
structure Packed where
  failed : Bool
  js_rval : Option JSValue
  r_value : Option GArgument
  regs : Regs

/-- The block `if (function->js_out_argc > 0 && (!failed && !did_throw_gerror))`:
one output is handed back alone, several as a new array; a `NULL` array sets
`failed`. -/
def package_outputs (env : Env) (function : Function) (r_value_given : Bool) (c : Called)
    (r : Releasing) (failed : Bool) : Packed :=
  if 0 < function.js_out_argc ∧ failed = false ∧ c.did_throw_gerror = false then
    let r_value := if r_value_given then some c.return_gargument else none
    match c.js_rval with
    | none => { failed := false, js_rval := none, r_value := r_value, regs := r.regs }
    | some old =>
      if function.js_out_argc = 1 then
        { failed := false, js_rval := some (r.return_values.getD 0 JSValue.undefined)
          r_value := r_value, regs := r.regs }
      else
        let st1 := r.regs.log (Event.new_array_object r.return_values)
        if env.new_array_object r.return_values then
          { failed := false, js_rval := some (JSValue.array r.return_values)
            r_value := r_value, regs := st1 }
        else { failed := true, js_rval := some old, r_value := r_value, regs := st1 }
  else { failed := failed, js_rval := c.js_rval, r_value := none, regs := r.regs }

/-- From the label `release` to the end of `gjs_invoke_c_function`. -/
def release_and_package (env : Env) (function : Function) (c_argc gi_argc : Nat)
    (is_method : Bool) (r_value_given : Bool) (path : Path) (processed_c_args : Nat)
    (c : Called) : Except Fault Invoked :=
  match release_loop env function c_argc is_method c.js_rval.isSome c.did_throw_gerror c.failed
      processed_c_args (function.info.args.take gi_argc) 0 (if is_method then 1 else 0)
      { regs := c.regs, return_values := c.return_values, next_rval := c.next_rval
        postinvoke_release_failed := false } with
  | Except.error f => Except.error f
  | Except.ok (r, c_arg_pos) =>
    let failed := c.failed || r.postinvoke_release_failed
    if ¬ (failed ∨ c.did_throw_gerror ∨ r.next_rval = function.js_out_argc) then
      Except.error Fault.abort
    else if c_arg_pos ≠ processed_c_args then Except.error Fault.abort
    else
      let p := package_outputs env function r_value_given c r failed
      let locals : Locals :=
        { path := path, frame := p.regs.frame, return_gargument := c.return_gargument
          did_throw_gerror := c.did_throw_gerror, local_error := c.local_error
          processed_c_args := processed_c_args, next_rval := r.next_rval
          at_call := c.at_call }
      if p.failed = false ∧ c.did_throw_gerror then
        Except.ok { ok := false, js_rval := p.js_rval, r_value := p.r_value
                    heap := p.regs.heap
                    trace := p.regs.trace ++ [Event.throw_g_error (c.local_error.getD 0)]
                    locals := locals }
      else if p.failed then
        Except.ok { ok := false, js_rval := p.js_rval, r_value := p.r_value
                    heap := p.regs.heap, trace := p.regs.trace, locals := locals }
      else
        Except.ok { ok := true, js_rval := p.js_rval, r_value := p.r_value
                    heap := p.regs.heap, trace := p.regs.trace, locals := locals }

/-! ## `gjs_invoke_c_function` -/

/-- The loop over `completed_trampolines` at the head of
`gjs_invoke_c_function`: one `gjs_callback_trampoline_unref` per entry. -/
def unref_completed : List Nat → Regs → Regs
  | [], st => st
  | id :: rest, st =>
    unref_completed rest
      ({ st with heap := gjs_callback_trampoline_unref st.heap id }.log (Event.trampoline_unref id))

/-- The block `if (completed_trampolines) { ... completed_trampolines = NULL; }`. -/
def drain_completed_trampolines (st : Regs) : Regs :=
  let st1 := unref_completed st.heap.completed_trampolines st
  { st1 with heap := { st1.heap with completed_trampolines := [] } }

/-- The cast of a count to `guint8`. -/
def to_guint8 (n : Nat) : Nat := n % 256

/-- The locals of a run that returns before the frame is used. -/
def Locals.early (path : Path) : Locals :=
  { path := path, frame := Frame.fresh, return_gargument := GArgument.uninit
    did_throw_gerror := false, local_error := none, processed_c_args := 0, next_rval := 0
    at_call := none }

/-- The registers at the label `release` when marshaling failed: nothing was
thrown by the callee, `failed` is set, no output vector exists. -/
def Called.after_failed_marshal (m : Marshaled) (js_rval : Option JSValue) : Called :=
  { regs := m.regs, did_throw_gerror := false, local_error := none, failed := true
    js_rval := js_rval, return_values := [], next_rval := 0
    return_gargument := GArgument.uninit, at_call := none }

/-- The branch `args.length() > function->expected_js_argc`: a warning, and
the call goes on. -/
def warn_extra_arguments (function : Function) (args : List JSValue) (st : Regs) : Regs :=
  if function.expected_js_argc < args.length then
    st.log (Event.warning_too_many_arguments function.expected_js_argc args.length)
  else st

/-- The block `if (is_method) { ... }`: convert the receiver into
`in_arg_cvalues[0]` and start `c_arg_pos` at 1; `none` for the position is
`return false` after a failed conversion. -/
def convert_receiver (env : Env) (function : Function) (obj : JSValue) (c_argc : Nat)
    (st : Regs) : Except Fault (Regs × Option Nat) :=
  if function.info.is_method then
    let st1 := st.log (Event.fill_method_instance obj)
    match env.fill_method_instance obj function.info with
    | none => Except.ok (st1, none)
    | some v =>
      if 0 < c_argc then Except.ok (st1.set_in 0 v, some 1)
      else Except.error Fault.crash
  else Except.ok (st, some 0)

/-- Function `gjs_invoke_c_function`, for the receiver `obj`, the script
arguments `args`, the initial content of `js_rval` (`none` when the caller
passes no `js_rval`), and whether the caller passes `r_value`. -/
def gjs_invoke_c_function (env : Env) (function : Function) (obj : JSValue)
    (args : List JSValue) (js_rval : Option JSValue) (r_value_given : Bool) (heap : Heap) :
    Except Fault Invoked :=
  let st0 := drain_completed_trampolines { frame := Frame.fresh, heap := heap, trace := [] }
  let is_method := function.info.is_method
  let c_argc := to_guint8 function.cif_nargs
  let gi_argc := to_guint8 (g_callable_info_get_n_args function.info)
  if args.length < function.expected_js_argc then
    let st1 := st0.log (Event.gjs_throw
      (Thrown.too_few_arguments function.expected_js_argc args.length))
    Except.ok { ok := false, js_rval := js_rval, r_value := none, heap := st1.heap
                trace := st1.trace, locals := Locals.early Path.too_few_arguments }
  else
    match convert_receiver env function obj c_argc (warn_extra_arguments function args st0) with
    | Except.error f => Except.error f
    | Except.ok (st2, none) =>
      Except.ok { ok := false, js_rval := js_rval, r_value := none, heap := st2.heap
                  trace := st2.trace, locals := Locals.early Path.instance_failed }
    | Except.ok (st2, some c_arg_pos) =>
      match marshal_loop env function args c_argc is_method (function.info.args.take gi_argc)
          0 c_arg_pos 0 c_arg_pos st2 with
      | Except.error f => Except.error f
      | Except.ok m =>
        if m.failed then
          release_and_package env function c_argc gi_argc is_method r_value_given
            Path.marshal_failed m.processed_c_args (Called.after_failed_marshal m js_rval)
        else
          match call_and_convert_return env function c_argc gi_argc is_method js_rval
              r_value_given m with
          | Except.error f => Except.error f
          | Except.ok c =>
            release_and_package env function c_argc gi_argc is_method r_value_given
              Path.called m.processed_c_args c

/-! ## Vocabulary for stating properties -/

/-- An event that converts the receiver or a script argument, or builds a
trampoline for one. -/
def Event.is_input_conversion : Event → Bool
  | Event.fill_method_instance _ => true
  | Event.value_to_arg _ _ _ => true
  | Event.value_to_explicit_array _ _ _ => true
  | Event.trampoline_new _ _ => true
  | _ => false

/-- The native call. -/
def Event.is_ffi_call : Event → Bool
  | Event.ffi_call => true
  | _ => false

/-- An event that converts a native value to a script value. -/
def Event.is_output_conversion : Event → Bool
  | Event.value_from_g_argument _ _ _ => true
  | Event.value_from_explicit_array _ _ _ _ => true
  | _ => false

/-- The `gjs_callback_trampoline_unref` events of the head of a call, one per
entry of `completed_trampolines`. -/
def completed_unrefs (heap : Heap) : List Event :=
  heap.completed_trampolines.map Event.trampoline_unref

/-! ## Sample descriptors and collaborators -/

/-- A 32-bit integer type. -/
def int_type : GITypeInfo := { tag := GITypeTag.INT32 }

/-- The void type. -/
def void_type : GITypeInfo := { tag := GITypeTag.VOID }

/-- A C array whose length is carried by the parameter at index `len`. -/
def c_array_type (len : Int) : GITypeInfo :=
  { tag := GITypeTag.ARRAY, array_type_is_c := true, array_length := len }

/-- Collaborators for the examples: integers convert to and from their bits,
a script array converts to an opaque buffer and its length, a buffer converts
back to an array of the given length, every release succeeds, and `native` is
the callee. -/
def sample_env (native : (Nat → GArgument) → (Nat → GArgument) → Heap → NativeResult) : Env :=
  { value_to_arg := fun v _ =>
      match v with
      | JSValue.int32 n => some (GArgument.raw n.toNat)
      | _ => none
    value_to_explicit_array := fun v _ =>
      match v with
      | JSValue.array elems => some (GArgument.raw (1000 + elems.length), elems.length)
      | JSValue.null => some (GArgument.null, 0)
      | _ => none
    value_from_g_argument := fun _ a =>
      match a with
      | GArgument.raw b => some (JSValue.int32 b)
      | _ => none
    value_from_explicit_array := fun _ _ len =>
      some (JSValue.array (List.replicate len.toNat JSValue.undefined))
    release := fun _ _ _ => true
    release_out_array := fun _ _ _ _ => true
    release_in_arg := fun _ _ _ => true
    release_in_array := fun _ _ _ _ => true
    new_array_object := fun _ => true
    fill_method_instance := fun v _ =>
      match v with
      | JSValue.object id => some (GArgument.raw id)
      | _ => none
    ffi_call := native
    extract_ffi_return_value := fun _ a => a
    get_interface := fun _ => { args := [], return_type := void_type }
    pointer_bits := fun _ => 0 }

/-- A callee that returns 7, writes nothing and reports no error. -/
def quiet_native : (Nat → GArgument) → (Nat → GArgument) → Heap → NativeResult :=
  fun _ out heap =>
    { return_value := GArgument.raw 7, out_cells := out, error := none, heap := heap }

/-- Descriptor `void f(int a, int b)`. -/
def two_ints_info : GICallableInfo :=
  { args := [{ type_info := int_type }, { type_info := int_type }], return_type := void_type }

/-- The classification of `two_ints_info`. -/
def two_ints_function : Function :=
  { info := two_ints_info
    param_types := [GjsParamType.PARAM_NORMAL, GjsParamType.PARAM_NORMAL]
    expected_js_argc := 2, js_out_argc := 0, cif_nargs := 2 }

/-- A callback type. -/
def callback_type : GITypeInfo :=
  { tag := GITypeTag.INTERFACE, interface_type := GIInfoType.CALLBACK }

/-- An untyped pointer (`gpointer`), as closure data has. -/
def pointer_type : GITypeInfo := { tag := GITypeTag.VOID }

/-- A `GLib.DestroyNotify` parameter type. -/
def destroy_notify_type : GITypeInfo :=
  { tag := GITypeTag.INTERFACE, interface_type := GIInfoType.CALLBACK
    interface_is_destroy_notify := true }

/-- A nullable callback of scope `NOTIFIED` with closure data at index 1 and a
destroy notification at index 2. -/
def nullable_callback_arg : GIArgInfo :=
  { type_info := callback_type, may_be_null := true, scope := GIScopeType.NOTIFIED
    destroy := 2, closure := 1 }

/-- Descriptor `void f(callback cb, gpointer data, GDestroyNotify notify)` with
`cb` nullable. -/
def nullable_callback_info : GICallableInfo :=
  { args := [nullable_callback_arg, { type_info := pointer_type },
             { type_info := destroy_notify_type }]
    return_type := void_type }

/-- The classification of `nullable_callback_info`. -/
def nullable_callback_function : Function :=
  { info := nullable_callback_info
    param_types := [GjsParamType.PARAM_CALLBACK, GjsParamType.PARAM_SKIPPED,
      GjsParamType.PARAM_SKIPPED]
    expected_js_argc := 1, js_out_argc := 0, cif_nargs := 3 }

/-- A state with a fresh frame, an empty heap and an empty trace. -/
def Regs.fresh : Regs := { frame := Frame.fresh, heap := {}, trace := [] }

/-- A struct type of 16 bytes. -/
def struct_type : GITypeInfo :=
  { tag := GITypeTag.INTERFACE, interface_type := GIInfoType.STRUCT, interface_size := 16 }

/-- Descriptor
`void f(callback cb, gpointer data, GDestroyNotify notify, out-caller-allocates struct s, int n)`
with `cb` of the given scope. -/
def callback_block_int_info (scope : GIScopeType) : GICallableInfo :=
  { args := [{ type_info := callback_type, scope := scope, destroy := 2, closure := 1 },
             { type_info := pointer_type }, { type_info := destroy_notify_type },
             { type_info := struct_type, direction := GIDirection.OUT, caller_allocates := true },
             { type_info := int_type }]
    return_type := void_type }

/-- The classification of `callback_block_int_info scope`. -/
def callback_block_int_function (scope : GIScopeType) : Function :=
  { info := callback_block_int_info scope
    param_types := [GjsParamType.PARAM_CALLBACK, GjsParamType.PARAM_SKIPPED,
      GjsParamType.PARAM_SKIPPED, GjsParamType.PARAM_NORMAL, GjsParamType.PARAM_NORMAL]
    expected_js_argc := 2, js_out_argc := 1, cif_nargs := 5 }

/-- The reference count and the `freed` mark of every trampoline of a heap. -/
def Heap.trampoline_counts (heap : Heap) : List (Int × Bool) :=
  heap.trampolines.map (fun t => (t.ref_count, t.freed))

/-- The script values handed to `gjs_value_to_arg` and
`gjs_value_to_explicit_array`, among the events of a trace. -/
def Event.script_input : Event → Option JSValue
  | Event.value_to_arg v _ _ => some v
  | Event.value_to_explicit_array v _ _ => some v
  | _ => none

/-- Descriptor `void f(int n, T *a /* length n */, U *b /* length n */)`: two
arrays that share one length parameter placed before them. -/
def shared_length_info : GICallableInfo :=
  { args := [{ type_info := int_type }, { type_info := c_array_type 0 },
             { type_info := c_array_type 0 }]
    return_type := void_type }

/-- The classification of `shared_length_info`: the second array takes the
length parameter off `expected_js_argc` once more. -/
def shared_length_function : Function :=
  { info := shared_length_info
    param_types := [GjsParamType.PARAM_SKIPPED, GjsParamType.PARAM_ARRAY,
      GjsParamType.PARAM_ARRAY]
    expected_js_argc := 1, js_out_argc := 0, cif_nargs := 3 }

/-- Three script arguments: two arrays and an integer. -/
def three_script_args : List JSValue :=
  [JSValue.array [JSValue.int32 1], JSValue.array [JSValue.int32 2, JSValue.int32 3],
   JSValue.int32 9]

/-- The trace `t'` extends the trace `t` by events that all satisfy `P`. -/
def TraceExt (P : Event → Bool) (t t' : List Event) : Prop :=
  ∃ new, t' = t ++ new ∧ ∀ e ∈ new, P e = true

/-- The events the work on one parameter can log while marshaling: the
conversions, a throw, the creation and the extra reference of a trampoline,
the allocation of a block. -/
def Event.is_marshal_step : Event → Bool
  | Event.value_to_arg _ _ _ => true
  | Event.value_to_explicit_array _ _ _ => true
  | Event.gjs_throw _ => true
  | Event.trampoline_new _ _ => true
  | Event.trampoline_ref _ => true
  | Event.slice_alloc0 _ _ => true
  | _ => false

/-- A marshaling event for a parameter with index in `[lo, hi)`: a step of
the work on a parameter, or the head of an iteration with such an index. -/
def Event.marshal_ok (lo hi : Nat) : Event → Bool
  | Event.marshal_arg gi_arg_pos _ _ => decide (lo ≤ gi_arg_pos ∧ gi_arg_pos < hi)
  | e => e.is_marshal_step

/-- The frame cell an in-argument release was pointed at. -/
def Event.in_release_slot : Event → Option Slot
  | Event.release_in_arg _ _ source _ => some source
  | Event.release_in_array _ _ _ source _ => some source
  | _ => none

/-- A step whose failure `gjs_invoke_c_function` acts upon after the native
call, and which the collaborator reported as failed: the conversion of an
output or of an array length, the release of the return value, the release
of an in-argument, the creation of the result array.  (The result of the
release of an out value is not looked at.) -/
def Event.step_failed (env : Env) : Event → Bool
  | Event.value_from_g_argument type_info _ arg => (env.value_from_g_argument type_info arg).isNone
  | Event.value_from_explicit_array type_info _ arg length =>
    (env.value_from_explicit_array type_info arg length).isNone
  | Event.release transfer type_info Slot.return_gargument arg =>
    !(env.release transfer type_info arg)
  | Event.release_out_array transfer type_info length Slot.return_gargument arg =>
    !(env.release_out_array transfer type_info length arg)
  | Event.release_in_arg transfer type_info _ arg => !(env.release_in_arg transfer type_info arg)
  | Event.release_in_array transfer type_info length _ arg =>
    !(env.release_in_array transfer type_info length arg)
  | Event.new_array_object elems => !(env.new_array_object elems)
  | _ => false

/-- The events of the first half of a release iteration: the release of an
in-argument, or the unref of a callback's trampoline. -/
def Event.is_in_release : Event → Bool
  | Event.release_in_arg _ _ _ _ => true
  | Event.release_in_array _ _ _ _ _ => true
  | Event.trampoline_unref _ => true
  | _ => false

/-- The events of a release iteration: those of the first half, and the
conversion and release of an out value and the freeing of its block. -/
def Event.is_release_step : Event → Bool
  | Event.value_from_g_argument _ _ _ => true
  | Event.value_from_explicit_array _ _ _ _ => true
  | Event.release _ _ _ _ => true
  | Event.release_out_array _ _ _ _ _ => true
  | Event.slice_free1 _ _ => true
  | e => e.is_in_release

/-- The trace `t'` extends `t` by events of kind `P` whose in-argument
releases are pointed at `slots`, in this order, and the failure flag `pf'` is
`pf` or-ed with "one of the new steps failed". -/
def ReleaseExt (env : Env) (P : Event → Bool) (t t' : List Event) (slots : List Slot)
    (pf pf' : Bool) : Prop :=
  ∃ new, t' = t ++ new ∧ (∀ e ∈ new, P e = true) ∧
    new.filterMap Event.in_release_slot = slots ∧
    pf' = (pf || new.any (Event.step_failed env))

/-- The cell from which the in-argument of a parameter is released: its in
cell for `IN`, the snapshot for `INOUT`. -/
def in_release_source (arg_info : GIArgInfo) (c_arg_pos : Nat) : Slot :=
  if arg_info.direction = GIDirection.IN then Slot.in_arg c_arg_pos
  else Slot.inout_original c_arg_pos

/-- Whether the release phase hands the in-argument of a parameter to a
release operation: direction `IN` or `INOUT`, tag `PARAM_NORMAL` or
`PARAM_ARRAY`. -/
def is_released_input (arg_info : GIArgInfo) (param_type : GjsParamType) : Bool :=
  (arg_info.direction = GIDirection.IN ∨ arg_info.direction = GIDirection.INOUT) ∧
  (param_type = GjsParamType.PARAM_NORMAL ∨ param_type = GjsParamType.PARAM_ARRAY)

/-- The cells to release for the parameters `l`, the first of which has
descriptor index `gi_arg_pos` and frame position `c_arg_pos`: one per
`IN`/`INOUT` parameter tagged `PARAM_NORMAL` or `PARAM_ARRAY`, in order. -/
def expected_in_releases (function : Function) : List GIArgInfo → Nat → Nat → List Slot
  | [], _, _ => []
  | arg_info :: rest, gi_arg_pos, c_arg_pos =>
    (match function.param_types.get? gi_arg_pos with
     | some param_type =>
       if is_released_input arg_info param_type then [in_release_source arg_info c_arg_pos]
       else []
     | none => []) ++
    expected_in_releases function rest (gi_arg_pos + 1) (c_arg_pos + 1)

/-- The element count for a value whose type names the length sibling
`array_length`: the out cell of that sibling, converted to a script value and
read as an int32. -/
def expected_length (env : Env) (function : Function) (is_method : Bool)
    (out : Nat → GArgument) (array_length : Int) : Option Int :=
  match g_callable_info_load_arg function.info array_length with
  | none => none
  | some array_length_arg =>
    (env.value_from_g_argument array_length_arg.type_info
      (out (c_pos_of is_method array_length).toNat)).map JSValue.toInt32

/-- The script value a native value `arg` of type `type_info` converts to:
through `gjs_value_from_explicit_array` with the count of its length sibling
when it has one, through `gjs_value_from_g_argument` otherwise. -/
def expected_value (env : Env) (function : Function) (is_method : Bool)
    (out : Nat → GArgument) (type_info : GITypeInfo) (arg : GArgument) : Option JSValue :=
  if 0 ≤ type_info.array_length then
    match expected_length env function is_method out type_info.array_length with
    | none => none
    | some length => env.value_from_explicit_array type_info arg length
  else env.value_from_g_argument type_info arg

/-- Whether the parameter at index `gi_arg_pos` is an output of the script
call: direction `OUT` or `INOUT`, and not tagged `PARAM_SKIPPED`. -/
def is_script_output (function : Function) (gi_arg_pos : Nat) (arg_info : GIArgInfo) : Bool :=
  (arg_info.direction = GIDirection.OUT ∨ arg_info.direction = GIDirection.INOUT) ∧
  function.param_types.get? gi_arg_pos ≠ some GjsParamType.PARAM_SKIPPED

/-- The converted out values of the parameters `l` that are script outputs,
in declaration order; the first of `l` has index `gi_arg_pos` and frame
position `c_arg_pos`. -/
def out_param_outputs (env : Env) (function : Function) (is_method : Bool)
    (out : Nat → GArgument) : List GIArgInfo → Nat → Nat → List (Option JSValue)
  | [], _, _ => []
  | arg_info :: rest, gi_arg_pos, c_arg_pos =>
    (if is_script_output function gi_arg_pos arg_info then
       [expected_value env function is_method out arg_info.type_info (out c_arg_pos)]
     else []) ++
    out_param_outputs env function is_method out rest (gi_arg_pos + 1) (c_arg_pos + 1)

/-- The outputs of a call as the specification lists them: the converted
return value when the return type is not void, then the converted value of
every `OUT`/`INOUT` parameter that is not `PARAM_SKIPPED`, in declaration
order. -/
def script_outputs (env : Env) (function : Function) (out : Nat → GArgument)
    (return_gargument : GArgument) : List (Option JSValue) :=
  (if function.info.return_type.tag ≠ GITypeTag.VOID then
     [expected_value env function function.info.is_method out function.info.return_type
        return_gargument]
   else []) ++
  out_param_outputs env function function.info.is_method out function.info.args 0
    (if function.info.is_method then 1 else 0)

/-- The script result for a list of outputs: undefined for none, the value
itself for one, an array of them for several. -/
def package_of : List JSValue → JSValue
  | [] => JSValue.undefined
  | [v] => v
  | vs => JSValue.array vs

/-- The number of `OUT`/`INOUT` parameters among `l` that are not tagged
`PARAM_SKIPPED`; the first of `l` has index `gi_arg_pos`. -/
def non_skipped_out_count (function : Function) : List GIArgInfo → Nat → Nat
  | [], _ => 0
  | arg_info :: rest, gi_arg_pos =>
    (if is_script_output function gi_arg_pos arg_info then 1 else 0) +
    non_skipped_out_count function rest (gi_arg_pos + 1)

/-- The number of outputs of a function: one for a return type that is not
void, plus one per `OUT`/`INOUT` parameter that is not `PARAM_SKIPPED`. -/
def output_count (function : Function) : Nat :=
  (if function.info.return_type.tag ≠ GITypeTag.VOID then 1 else 0) +
  non_skipped_out_count function function.info.args 0

/-- The kind of events a release iteration logs: in-releases only when the
call threw or failed (`skip`), any release step otherwise. -/
def release_kind (skip : Bool) (e : Event) : Bool :=
  if skip then e.is_in_release else e.is_release_step

/-- The events before the marshaling loop: the unrefs of completed
trampolines, the warning about extra arguments, the conversion of the
receiver. -/
def Event.is_preamble : Event → Bool
  | Event.trampoline_unref _ => true
  | Event.warning_too_many_arguments _ _ => true
  | Event.fill_method_instance _ => true
  | _ => false

/-- The head of an iteration of the marshaling loop. -/
def Event.marshal_index : Event → Option Nat
  | Event.marshal_arg gi_arg_pos _ _ => some gi_arg_pos
  | _ => none

/-- Descriptor `void f(int a, int b, int c)`. -/
def three_ints_info : GICallableInfo :=
  { args := [{ type_info := int_type }, { type_info := int_type }, { type_info := int_type }]
    return_type := void_type }

/-- The classification of `three_ints_info`. -/
def three_ints_function : Function :=
  { info := three_ints_info
    param_types := [GjsParamType.PARAM_NORMAL, GjsParamType.PARAM_NORMAL,
      GjsParamType.PARAM_NORMAL]
    expected_js_argc := 3, js_out_argc := 0, cif_nargs := 3 }

/-- The result of calling `three_ints_function` with a string in second place. -/
def three_ints_bad_second : Except Fault Invoked :=
  gjs_invoke_c_function (sample_env quiet_native) three_ints_function JSValue.undefined
    [JSValue.int32 1, JSValue.string "x", JSValue.int32 3] (some JSValue.undefined) false {}

/-- The frame position a slot designates (0 for the return value, which is
no cell of the frame). -/
def Slot.c_pos : Slot → Nat
  | Slot.in_arg c => c
  | Slot.out_arg c => c
  | Slot.inout_original c => c
  | Slot.return_gargument => 0

/-- The native error handed to `gjs_throw_g_error`. -/
def Event.thrown_g_error : Event → Option Nat
  | Event.throw_g_error error => some error
  | _ => none

/-- Descriptor `void f(int a)` of a function that can report a native error. -/
def throwing_info : GICallableInfo :=
  { args := [{ type_info := int_type }], return_type := void_type, can_throw_gerror := true }

/-- The classification of `throwing_info`. -/
def throwing_function : Function :=
  { info := throwing_info, param_types := [GjsParamType.PARAM_NORMAL]
    expected_js_argc := 1, js_out_argc := 0, cif_nargs := 2 }

/-- A callee that reports the native error 5. -/
def erring_native : (Nat → GArgument) → (Nat → GArgument) → Heap → NativeResult :=
  fun _ out heap =>
    { return_value := GArgument.raw 0, out_cells := out, error := some 5, heap := heap }

/-- Collaborators whose release of an in-argument fails. -/
def failing_release_env : Env :=
  { sample_env erring_native with release_in_arg := fun _ _ _ => false }

/-- Descriptor `int f(void)`. -/
def int_return_info : GICallableInfo := { args := [], return_type := int_type }

/-- The classification of `int_return_info`. -/
def int_return_function : Function :=
  { info := int_return_info, param_types := [], expected_js_argc := 0, js_out_argc := 1
    cif_nargs := 0 }

/-- Collaborators whose conversion of a native value to a script value fails. -/
def failing_output_env : Env :=
  { sample_env quiet_native with value_from_g_argument := fun _ _ => none }

/-- A callee that returns 7, writes `10 + c` through the pointer to out cell
`c`, and reports no error. -/
def writing_native : (Nat → GArgument) → (Nat → GArgument) → Heap → NativeResult :=
  fun _ _ heap =>
    { return_value := GArgument.raw 7, out_cells := fun c => GArgument.raw (10 + c)
      error := none, heap := heap }

/-- Descriptor `int f(out int a, out int b)`. -/
def return_two_outs_info : GICallableInfo :=
  { args := [{ type_info := int_type, direction := GIDirection.OUT },
             { type_info := int_type, direction := GIDirection.OUT }]
    return_type := int_type }

/-- The classification of `return_two_outs_info`. -/
def return_two_outs_function : Function :=
  { info := return_two_outs_info
    param_types := [GjsParamType.PARAM_NORMAL, GjsParamType.PARAM_NORMAL]
    expected_js_argc := 0, js_out_argc := 3, cif_nargs := 2 }

/-- Descriptor `void f(out int a)`. -/
def one_out_info : GICallableInfo :=
  { args := [{ type_info := int_type, direction := GIDirection.OUT }]
    return_type := void_type }

/-- The classification of `one_out_info`. -/
def one_out_function : Function :=
  { info := one_out_info, param_types := [GjsParamType.PARAM_NORMAL]
    expected_js_argc := 0, js_out_argc := 1, cif_nargs := 1 }

/-- A callee that returns 7, stores 5 through the pointer to out cell 1 and a
new buffer address through every other pointer to an out cell, and reports no
error. -/
def grow_native : (Nat → GArgument) → (Nat → GArgument) → Heap → NativeResult :=
  fun _ _ heap =>
    { return_value := GArgument.raw 7
      out_cells := fun c => if c = 1 then GArgument.raw 5 else GArgument.raw 2000
      error := none, heap := heap }

/-- Descriptor `void f(inout T *a /* length n */, inout int n)`. -/
def inout_array_info : GICallableInfo :=
  { args := [{ type_info := c_array_type 1, direction := GIDirection.INOUT },
             { type_info := int_type, direction := GIDirection.INOUT }]
    return_type := void_type }

/-- The classification of `inout_array_info`. -/
def inout_array_function : Function :=
  { info := inout_array_info
    param_types := [GjsParamType.PARAM_ARRAY, GjsParamType.PARAM_SKIPPED]
    expected_js_argc := 1, js_out_argc := 1, cif_nargs := 2 }

/-- A script array of three integers. -/
def three_element_array : JSValue :=
  JSValue.array [JSValue.int32 1, JSValue.int32 2, JSValue.int32 3]

/-- Whether a parameter with the final tag `param_type` and the given
direction is a script input as the specification counts them: tagged
`PARAM_NORMAL` or `PARAM_ARRAY` with direction `IN` or `INOUT`, or tagged
`PARAM_CALLBACK`; a parameter tagged `PARAM_SKIPPED` is none. -/
def counts_as_script_input (param_type : GjsParamType) (direction : GIDirection) : Bool :=
  match param_type with
  | GjsParamType.PARAM_NORMAL => direction = GIDirection.IN ∨ direction = GIDirection.INOUT
  | GjsParamType.PARAM_ARRAY => direction = GIDirection.IN ∨ direction = GIDirection.INOUT
  | GjsParamType.PARAM_CALLBACK => true
  | GjsParamType.PARAM_SKIPPED => false

/-- The expected script input count as the specification words it, read off
the final classification: the number of parameters that count as script
inputs. -/
def script_input_count (function : Function) : Nat :=
  ((function.info.args.zip function.param_types).filter
    (fun p => counts_as_script_input p.2 p.1.direction)).length

/-- Descriptor `void f(gpointer data, callback cb)` with the closure data of
`cb` at index 0, before the callback. -/
def data_before_callback_info : GICallableInfo :=
  { args := [{ type_info := pointer_type },
             { type_info := callback_type, scope := GIScopeType.CALL, closure := 0 }]
    return_type := void_type }

/-- The classification of `data_before_callback_info`: the closure data was
counted as a script input before the callback tagged it `PARAM_SKIPPED`. -/
def data_before_callback_function : Function :=
  { info := data_before_callback_info
    param_types := [GjsParamType.PARAM_SKIPPED, GjsParamType.PARAM_CALLBACK]
    expected_js_argc := 2, js_out_argc := 0, cif_nargs := 2 }

/-! ## The callback entry point: `gjs_callback_closure` -/

/-- The member of the `GIArgument` union that
`set_return_ffi_arg_from_giargument` reads. -/
inductive GIArgumentMember where
  | v_int8 | v_uint8 | v_int16 | v_uint16 | v_int32 | v_uint32 | v_int64 | v_long
  | v_pointer | v_uint64
  deriving DecidableEq, Repr

/-- One store into the result slot of a callback: `*(ffi_sarg *) result` or
`*(ffi_arg *) result` set from a member of a converted argument, or the
whole slot filled by `gjs_g_argument_init_default`. -/
inductive ResultStore where
  | ffi_sarg (member : GIArgumentMember) (argument : GArgument)
  | ffi_arg (member : GIArgumentMember) (argument : GArgument)
  | init_default (type_info : GITypeInfo) (value : GArgument)
  deriving DecidableEq, Repr

/-- Function `set_return_ffi_arg_from_giargument`; the tag `VOID` reaches
`g_assert_not_reached`. -/
def set_return_ffi_arg_from_giargument (ret_type : GITypeInfo) (return_value : GArgument) :
    Except Fault ResultStore :=
  match ret_type.tag with
  | GITypeTag.VOID => Except.error Fault.abort
  | GITypeTag.INT8 => Except.ok (ResultStore.ffi_sarg GIArgumentMember.v_int8 return_value)
  | GITypeTag.UINT8 => Except.ok (ResultStore.ffi_arg GIArgumentMember.v_uint8 return_value)
  | GITypeTag.INT16 => Except.ok (ResultStore.ffi_sarg GIArgumentMember.v_int16 return_value)
  | GITypeTag.UINT16 => Except.ok (ResultStore.ffi_arg GIArgumentMember.v_uint16 return_value)
  | GITypeTag.INT32 => Except.ok (ResultStore.ffi_sarg GIArgumentMember.v_int32 return_value)
  | GITypeTag.UINT32 => Except.ok (ResultStore.ffi_arg GIArgumentMember.v_uint32 return_value)
  | GITypeTag.BOOLEAN => Except.ok (ResultStore.ffi_arg GIArgumentMember.v_uint32 return_value)
  | GITypeTag.UNICHAR => Except.ok (ResultStore.ffi_arg GIArgumentMember.v_uint32 return_value)
  | GITypeTag.INT64 => Except.ok (ResultStore.ffi_sarg GIArgumentMember.v_int64 return_value)
  | GITypeTag.INTERFACE =>
    if ret_type.interface_type = GIInfoType.ENUM ∨ ret_type.interface_type = GIInfoType.FLAGS
    then Except.ok (ResultStore.ffi_sarg GIArgumentMember.v_long return_value)
    else Except.ok (ResultStore.ffi_arg GIArgumentMember.v_pointer return_value)
  | _ => Except.ok (ResultStore.ffi_arg GIArgumentMember.v_uint64 return_value)

/-- The argument kinds `gjs_callback_closure` passes to
`gjs_value_to_g_argument` (`GjsArgumentType`). -/
inductive GjsArgumentType where
  | GJS_ARGUMENT_ARGUMENT
  | GJS_ARGUMENT_RETURN_VALUE
  deriving DecidableEq, Repr

/-- Method `JS::Value::toObjectOrNull`, on a value that is an object or
null; other values read as null here. -/
def JSValue.toObjectOrNull : JSValue → Option JSValue
  | JSValue.object id => some (JSValue.object id)
  | JSValue.function id => some (JSValue.function id)
  | JSValue.array elems => some (JSValue.array elems)
  | _ => none

/-- The collaborators of `gjs_callback_closure`, all outside `function.cpp`.
A conversion that returns `false` in C returns `none` here. -/
structure ClosureEnv where
  /-- Function `gjs_runtime_is_sweeping`, at the entry. -/
  is_sweeping : Bool
  /-- Function `gjs_value_from_g_argument`. -/
  value_from_g_argument : GITypeInfo → GArgument → Option JSValue
  /-- Function `gjs_value_from_explicit_array`. -/
  value_from_explicit_array : GITypeInfo → GArgument → Int → Option JSValue
  /-- Function `JS_CallFunctionValue` on the receiver, the script function
  and the arguments: the value returned (`none` when the call fails) and the
  heap as the script function leaves it. -/
  call_function_value : Option JSValue → Nat → List JSValue → Heap → Option JSValue × Heap
  /-- Function `gjs_value_to_g_argument`. -/
  value_to_g_argument : JSValue → GITypeInfo → GjsArgumentType → GITransfer → Option GArgument
  /-- Function `JS_GetElement` on the object `rval.toObjectOrNull()`. -/
  get_element : Option JSValue → Nat → Option JSValue
  /-- Function `JS_IsExceptionPending`, at the label `out`. -/
  is_exception_pending : Bool
  /-- The exit code `_gjs_context_should_exit` reports, if it reports one. -/
  should_exit : Option Nat
  /-- Function `gjs_g_argument_init_default`: the neutral value of a type. -/
  init_default : GITypeInfo → GArgument

/-- Registers of the loop that resolves the script arguments: `jsargs`
(`n_jsargs` is its length), `n_outargs` and `this_object`. -/
structure ClosureArgs where
  jsargs : List JSValue
  n_outargs : Nat
  this_object : Option JSValue

/-- The block `if (trampoline->is_vfunc && i == 0)`: the argument just
resolved becomes the receiver and is taken off `jsargs`. -/
def closure_vfunc_receiver (t : GjsCallbackTrampoline) (i : Nat) (s : ClosureArgs) :
    Except Fault (Option ClosureArgs) :=
  if t.is_vfunc ∧ i = 0 then
    match s.jsargs with
    | [] => Except.error Fault.abort
    | first :: _ =>
      Except.ok (some { s with this_object := first.toObjectOrNull, jsargs := s.jsargs.dropLast })
  else Except.ok (some s)

/-- One iteration of the loop that resolves the script arguments of a
callback from the native arguments; `none` is `goto out`. -/
def closure_arg_step (cenv : ClosureEnv) (t : GjsCallbackTrampoline) (args : Nat → GArgument)
    (i : Nat) (arg_info : GIArgInfo) (s : ClosureArgs) : Except Fault (Option ClosureArgs) :=
  let type_info := arg_info.type_info
  if type_info.tag = GITypeTag.VOID then Except.ok (some s)
  else if arg_info.direction = GIDirection.OUT then
    Except.ok (some { s with n_outargs := s.n_outargs + 1 })
  else
    let s1 : ClosureArgs :=
      if arg_info.direction = GIDirection.INOUT then { s with n_outargs := s.n_outargs + 1 }
      else s
    match t.param_types.get? i with
    | none => Except.error Fault.crash
    | some GjsParamType.PARAM_SKIPPED => Except.ok (some s1)
    | some GjsParamType.PARAM_ARRAY =>
      match g_callable_info_load_arg t.info type_info.array_length with
      | none => Except.error Fault.crash
      | some array_length_arg =>
        match cenv.value_from_g_argument array_length_arg.type_info
            (args type_info.array_length.toNat) with
        | none => Except.ok none
        | some length =>
          match cenv.value_from_explicit_array type_info (args i) length.toInt32 with
          | none => Except.ok none
          | some v => closure_vfunc_receiver t i { s1 with jsargs := s1.jsargs ++ [v] }
    | some GjsParamType.PARAM_NORMAL =>
      match cenv.value_from_g_argument type_info (args i) with
      | none => Except.ok none
      | some v => closure_vfunc_receiver t i { s1 with jsargs := s1.jsargs ++ [v] }
    | some GjsParamType.PARAM_CALLBACK => Except.error Fault.abort

/-- The loop `for (i = 0, n_jsargs = 0; i < n_args; i++)` over the parameters
still to visit. -/
def closure_arg_loop (cenv : ClosureEnv) (t : GjsCallbackTrampoline) (args : Nat → GArgument) :
    List GIArgInfo → Nat → ClosureArgs → Except Fault (Option ClosureArgs)
  | [], _, s => Except.ok (some s)
  | arg_info :: rest, i, s =>
    match closure_arg_step cenv t args i arg_info s with
    | Except.error f => Except.error f
    | Except.ok none => Except.ok none
    | Except.ok (some s1) => closure_arg_loop cenv t args rest (i + 1) s1

/-- What the output block of `gjs_callback_closure` did: whether it reached
`success = true`, the stores into the result slot, and the stores through the
pointers `*(GArgument **)args[i]`, each with its index `i`, in program
order. -/
structure ClosureOutputs where
  success : Bool
  result_stores : List ResultStore
  out_stores : List (Nat × GArgument)

/-- The loop of the branch `n_outargs == 1 && ret_type_is_void`: the script
return value is converted into the cell of the first parameter whose
direction is not `IN`. -/
def closure_single_out (cenv : ClosureEnv) (rval : JSValue) :
    List GIArgInfo → Nat → ClosureOutputs
  | [], _ => { success := true, result_stores := [], out_stores := [] }
  | arg_info :: rest, i =>
    if arg_info.direction = GIDirection.IN then closure_single_out cenv rval rest (i + 1)
    else
      match cenv.value_to_g_argument rval arg_info.type_info
          GjsArgumentType.GJS_ARGUMENT_ARGUMENT GITransfer.NOTHING with
      | none => { success := false, result_stores := [], out_stores := [] }
      | some v => { success := true, result_stores := [], out_stores := [(i, v)] }

/-- The loop of the last branch: one element of the returned array per
parameter whose direction is not `IN`, starting at `elem_idx`; the result is
whether the loop ran to its end, and the stores made. -/
def closure_out_elements (cenv : ClosureEnv) (out_array : Option JSValue) :
    List GIArgInfo → Nat → Nat → List (Nat × GArgument) → Bool × List (Nat × GArgument)
  | [], _, _, stores => (true, stores)
  | arg_info :: rest, i, elem_idx, stores =>
    if arg_info.direction = GIDirection.IN then
      closure_out_elements cenv out_array rest (i + 1) elem_idx stores
    else
      match cenv.get_element out_array elem_idx with
      | none => (false, stores)
      | some elem =>
        match cenv.value_to_g_argument elem arg_info.type_info
            GjsArgumentType.GJS_ARGUMENT_ARGUMENT GITransfer.NOTHING with
        | none => (false, stores)
        | some v =>
          closure_out_elements cenv out_array rest (i + 1) (elem_idx + 1) (stores ++ [(i, v)])

/-- The output block of `gjs_callback_closure`, from
`g_callable_info_load_return_type` to `success = true`. -/
def closure_write_outputs (cenv : ClosureEnv) (info : GICallableInfo) (n_outargs : Nat)
    (rval : JSValue) : Except Fault ClosureOutputs :=
  let ret_type := info.return_type
  if n_outargs = 0 ∧ ret_type.tag = GITypeTag.VOID then
    Except.ok { success := true, result_stores := [], out_stores := [] }
  else if n_outargs = 0 then
    match cenv.value_to_g_argument rval ret_type GjsArgumentType.GJS_ARGUMENT_RETURN_VALUE
        info.caller_owns with
    | none => Except.ok { success := false, result_stores := [], out_stores := [] }
    | some argument =>
      match set_return_ffi_arg_from_giargument ret_type argument with
      | Except.error f => Except.error f
      | Except.ok store => Except.ok { success := true, result_stores := [store], out_stores := [] }
  else if n_outargs = 1 ∧ ret_type.tag = GITypeTag.VOID then
    Except.ok (closure_single_out cenv rval info.args 0)
  else
    let out_array := rval.toObjectOrNull
    if ret_type.tag ≠ GITypeTag.VOID then
      match cenv.get_element out_array 0 with
      | none => Except.ok { success := false, result_stores := [], out_stores := [] }
      | some elem =>
        match cenv.value_to_g_argument elem ret_type GjsArgumentType.GJS_ARGUMENT_ARGUMENT
            GITransfer.NOTHING with
        | none => Except.ok { success := false, result_stores := [], out_stores := [] }
        | some argument =>
          match set_return_ffi_arg_from_giargument ret_type argument with
          | Except.error f => Except.error f
          | Except.ok store =>
            let r := closure_out_elements cenv out_array info.args 0 1 []
            Except.ok { success := r.1, result_stores := [store], out_stores := r.2 }
    else
      let r := closure_out_elements cenv out_array info.args 0 0 []
      Except.ok { success := r.1, result_stores := [], out_stores := r.2 }

/-- How a run of `gjs_callback_closure` ends: it returns to its native
caller, or it ends the process through `exit`. -/
inductive ClosureEnd where
  | returned
  | exited (code : Nat)
  deriving DecidableEq, Repr

/-- What a run of `gjs_callback_closure` did: how it ended, the final value
of the local `success`, the heap, the stores into the result slot and through
the out pointers in program order, and the call of the script function it
made (receiver and arguments). -/
structure ClosureRun where
  ended : ClosureEnd
  success : Bool
  heap : Heap
  result_stores : List ResultStore
  out_stores : List (Nat × GArgument)
  script_call : Option (Option JSValue × List JSValue)

/-- From the label `out` to the end of `gjs_callback_closure`: without
success and without a pending exception the process exits; without success
the result slot gets the neutral value of the return type; a trampoline of
scope `ASYNC` is put on `completed_trampolines`; the reference taken at the
entry is dropped. -/
def closure_finish (cenv : ClosureEnv) (t : GjsCallbackTrampoline) (data : Nat) (heap : Heap)
    (script_call : Option (Option JSValue × List JSValue)) (o : ClosureOutputs) : ClosureRun :=
  if o.success = false ∧ cenv.is_exception_pending = false then
    { ended := ClosureEnd.exited (cenv.should_exit.getD 1), success := o.success, heap := heap
      result_stores := o.result_stores, out_stores := o.out_stores, script_call := script_call }
  else
    let heap1 : Heap :=
      if t.scope = GIScopeType.ASYNC then
        { heap with completed_trampolines := data :: heap.completed_trampolines }
      else heap
    { ended := ClosureEnd.returned, success := o.success
      heap := gjs_callback_trampoline_unref heap1 data
      result_stores :=
        if o.success then o.result_stores
        else o.result_stores ++
          [ResultStore.init_default t.info.return_type (cenv.init_default t.info.return_type)]
      out_stores := o.out_stores, script_call := script_call }

/-- Function `gjs_callback_closure`, entered by native code with the
trampoline `data` and the native arguments `args` (`args i` is the cell
`args[i]` points at).  A dangling `data` is a crash. -/
def gjs_callback_closure (cenv : ClosureEnv) (heap : Heap) (data : Nat)
    (args : Nat → GArgument) : Except Fault ClosureRun :=
  match heap.trampolines.get? data with
  | none => Except.error Fault.crash
  | some t =>
    let heap1 := gjs_callback_trampoline_ref heap data
    if cenv.is_sweeping then
      Except.ok { ended := ClosureEnd.returned, success := false
                  heap := gjs_callback_trampoline_unref heap1 data
                  result_stores := [], out_stores := [], script_call := none }
    else
      match closure_arg_loop cenv t args t.info.args 0
          { jsargs := [], n_outargs := 0, this_object := none } with
      | Except.error f => Except.error f
      | Except.ok none =>
        Except.ok (closure_finish cenv t data heap1 none
          { success := false, result_stores := [], out_stores := [] })
      | Except.ok (some s) =>
        let called := cenv.call_function_value s.this_object t.js_function_id s.jsargs heap1
        match called.1 with
        | none =>
          Except.ok (closure_finish cenv t data called.2 (some (s.this_object, s.jsargs))
            { success := false, result_stores := [], out_stores := [] })
        | some rval =>
          match closure_write_outputs cenv t.info s.n_outargs rval with
          | Except.error f => Except.error f
          | Except.ok o =>
            Except.ok (closure_finish cenv t data called.2 (some (s.this_object, s.jsargs)) o)

/-- Function `gjs_destroy_notify_callback`: drop the reference native code
held. -/
def gjs_destroy_notify_callback (heap : Heap) (data : Nat) : Except Fault Heap :=
  match heap.trampolines.get? data with
  | none => Except.error Fault.crash
  | some _ => Except.ok (gjs_callback_trampoline_unref heap data)

/-- A step in the life of a trampoline after the call that created it: native
code invokes its closure, native code runs its destroy notification, or the
engine starts its next `gjs_invoke_c_function` call. -/
inductive NativeStep where
  | invoke (cenv : ClosureEnv) (args : Nat → GArgument)
  | destroy_notify
  | next_call

/-- The heap after one step on the trampoline `data`; `none` when the step
ended the process.  The step `next_call` is the head of
`gjs_invoke_c_function`, which unrefs the completed trampolines. -/
def native_step (data : Nat) (heap : Heap) : NativeStep → Except Fault (Option Heap)
  | NativeStep.invoke cenv args =>
    match gjs_callback_closure cenv heap data args with
    | Except.error f => Except.error f
    | Except.ok run =>
      match run.ended with
      | ClosureEnd.returned => Except.ok (some run.heap)
      | ClosureEnd.exited _ => Except.ok none
  | NativeStep.destroy_notify =>
    match gjs_destroy_notify_callback heap data with
    | Except.error f => Except.error f
    | Except.ok heap1 => Except.ok (some heap1)
  | NativeStep.next_call =>
    Except.ok (some
      (drain_completed_trampolines { frame := Frame.fresh, heap := heap, trace := [] }).heap)

/-- The heaps after each of the steps, for as long as the process lives. -/
def native_steps (data : Nat) : List NativeStep → Heap → Except Fault (List Heap)
  | [], _ => Except.ok []
  | step :: rest, heap =>
    match native_step data heap step with
    | Except.error f => Except.error f
    | Except.ok none => Except.ok []
    | Except.ok (some heap1) =>
      match native_steps data rest heap1 with
      | Except.error f => Except.error f
      | Except.ok heaps => Except.ok (heap1 :: heaps)

/-- The script function called through `cenv` leaves the trampoline `data` as
it is and does not put it on `completed_trampolines`. -/
def ClosureEnv.leaves_trampoline (cenv : ClosureEnv) (data : Nat) : Prop :=
  ∀ this_object function jsargs heap,
    (cenv.call_function_value this_object function jsargs heap).2.trampolines.get? data =
      heap.trampolines.get? data ∧
    (data ∉ heap.completed_trampolines →
      data ∉ (cenv.call_function_value this_object function jsargs heap).2.completed_trampolines)

/-- Collaborators for the callback examples: integers convert to and from
their bits, a buffer converts to an array of the given length, the elements
of an array are read by index, `script` is the script function, and no exit
was requested. -/
def sample_closure_env (sweeping pending : Bool) (script : List JSValue → Option JSValue) :
    ClosureEnv :=
  { is_sweeping := sweeping
    value_from_g_argument := fun _ a =>
      match a with
      | GArgument.raw b => some (JSValue.int32 b)
      | _ => none
    value_from_explicit_array := fun _ _ len =>
      some (JSValue.array (List.replicate len.toNat JSValue.undefined))
    call_function_value := fun _ _ jsargs heap => (script jsargs, heap)
    value_to_g_argument := fun v _ _ _ =>
      match v with
      | JSValue.int32 n => some (GArgument.raw n.toNat)
      | _ => none
    get_element := fun out_array i =>
      match out_array with
      | some (JSValue.array elems) => some (elems.getD i JSValue.undefined)
      | _ => none
    is_exception_pending := pending
    should_exit := none
    init_default := fun _ => GArgument.raw 0 }

/-- Descriptor `void f(callback cb, gpointer data)` with `cb` of scope
`ASYNC` and its closure data at index 1. -/
def async_callback_info : GICallableInfo :=
  { args := [{ type_info := callback_type, scope := GIScopeType.ASYNC, closure := 1 },
             { type_info := pointer_type }]
    return_type := void_type }

/-- The classification of `async_callback_info`. -/
def async_callback_function : Function :=
  { info := async_callback_info
    param_types := [GjsParamType.PARAM_CALLBACK, GjsParamType.PARAM_SKIPPED]
    expected_js_argc := 1, js_out_argc := 0, cif_nargs := 2 }

/-- An invocation of a closure, outside the sweep phase, whose script
function returns undefined. -/
def quiet_invocation : NativeStep :=
  NativeStep.invoke (sample_closure_env false false (fun _ => some JSValue.undefined))
    (fun _ => GArgument.uninit)

/-- The trampoline of a callback of the given scope as the call that created
it leaves it: one reference, held by native code. -/
def handed_over_trampoline (scope : GIScopeType) : GjsCallbackTrampoline :=
  { ref_count := 1, info := { args := [], return_type := void_type }, js_function_id := 7
    param_types := [], scope := scope, is_vfunc := false }

/-- A heap with that trampoline alone. -/
def handed_over_heap (scope : GIScopeType) : Heap :=
  { trampolines := [handed_over_trampoline scope] }

/-- A trampoline with one reference for a callback with the descriptor
`info`, of scope `CALL`, with every parameter tagged `PARAM_NORMAL`. -/
def plain_trampoline (info : GICallableInfo) : GjsCallbackTrampoline :=
  { ref_count := 1, info := info, js_function_id := 7
    param_types := List.replicate info.args.length GjsParamType.PARAM_NORMAL
    scope := GIScopeType.CALL, is_vfunc := false }

/-- Callback descriptor `int cb(int x)`. -/
def int_callback_info : GICallableInfo :=
  { args := [{ type_info := int_type }], return_type := int_type }

/-- Callback descriptor `void cb(out gpointer p)`. -/
def out_pointer_callback_info : GICallableInfo :=
  { args := [{ type_info := pointer_type, direction := GIDirection.OUT }]
    return_type := void_type }

/-- Callback descriptor `void cb(out gpointer p, out int n)`. -/
def out_pointer_int_callback_info : GICallableInfo :=
  { args := [{ type_info := pointer_type, direction := GIDirection.OUT },
             { type_info := int_type, direction := GIDirection.OUT }]
    return_type := void_type }

/-- The number of `OUT` and `INOUT` parameters of a descriptor. -/
def out_inout_count (info : GICallableInfo) : Nat :=
  (info.args.filter (fun a => a.direction ≠ GIDirection.IN)).length

/-- Callback descriptor `int cb(out int a, out int b)`. -/
def int_two_outs_callback_info : GICallableInfo :=
  { args := [{ type_info := int_type, direction := GIDirection.OUT },
             { type_info := int_type, direction := GIDirection.OUT }]
    return_type := int_type }

/-- A heap with one trampoline, for a callback with the descriptor `info`. -/
def callback_heap (info : GICallableInfo) : Heap :=
  { trampolines := [plain_trampoline info] }

/-! ## Wrappers of native objects: `object.cpp` -/

/-- Direction of a toggle notification (`ToggleDirection`). -/
inductive ToggleDirection where
  | TOGGLE_DOWN | TOGGLE_UP
  deriving DecidableEq, Repr

/-- A deferred toggle task (`ToggleRefNotifyOperation`). -/
structure ToggleRefNotifyOperation where
  gobj : Nat
  direction : ToggleDirection
  needs_unref : Bool
  deriving DecidableEq, Repr

/-- An idle source attached to the main context with a toggle task as its
callback data; `destroyed` after `g_source_destroy`. -/
structure GSource where
  operation : ToggleRefNotifyOperation
  destroyed : Bool := false
  deriving DecidableEq, Repr

/-- The qdata `gjs::private` of a native object: absent, a
`JS::Heap<JSObject *>` holding a wrapper or null, or the poison marker
`(gpointer) 1`. -/
inductive PrivateQData where
  | null
  | heap_wrapper (obj : Option Nat)
  | poison
  deriving DecidableEq, Repr

/-- What the engine sees of a native object (`GObject`): its reference count,
the floating flag, whether `wrapped_gobj_toggle_notify` is installed as a
toggle reference, and the three qdata the engine attaches: the binding and
the pending markers of the two toggle directions (the queued source). -/
structure GObject where
  ref_count : Int
  floating : Bool := false
  toggle_ref : Bool := false
  priv : PrivateQData := PrivateQData.null
  toggle_up : Option Nat := none
  toggle_down : Option Nat := none
  deriving DecidableEq, Repr

/-- The private data of a wrapper (`ObjectInstance`), as far as the binding
and the rooting go: `keep_alive` is `priv->keep_alive != NULL`. -/
structure ObjectInstance where
  gobj : Option Nat := none
  keep_alive : Bool := false
  deriving DecidableEq, Repr

/-- What the engine does to the world outside `object.cpp`. -/
inductive ObjEvent where
  | keep_alive_add_child (obj : Nat)
  | keep_alive_remove_child (obj : Nat)
  | critical_resurfaced (gobj : Nat)
  | critical_null_object
  | invalidate_all_signals (obj : Nat)
  deriving DecidableEq, Repr

/-- The state `object.cpp` works on: the native objects (a `GObject *` is an
index), the script objects with their private data (a `JSObject *` is an
index, `none` for an object without private data), the idle sources ever
attached, the counter `pending_idle_toggles`, the children of the global
keep-alive object, and the events so far. -/
structure ObjectWorld where
  gobjects : List GObject := []
  wrappers : List (Option ObjectInstance) := []
  sources : List GSource := []
  pending_idle_toggles : Int := 0
  keep_alive : List Nat := []
  log : List ObjEvent := []
  deriving DecidableEq, Repr

/-- What a call reads from its surroundings: `_gjs_context_destroying`,
whether the calling thread is `gjs_eval_thread`, `gjs_runtime_is_sweeping`,
`JS_IsAboutToBeFinalized` on the wrapper a heap pointer holds, and whether
`JS_NewObjectWithGivenProto` yields an object. -/
structure ToggleContext where
  destroying : Bool
  is_main_thread : Bool
  is_sweeping : Bool
  about_to_be_finalized : Option Nat → Bool
  new_object_succeeds : Bool

/-- Store a changed native object back. -/
def ObjectWorld.set_gobject (w : ObjectWorld) (gobj : Nat) (g : GObject) : ObjectWorld :=
  { w with gobjects := w.gobjects.set gobj g }

/-- Store changed private data of a wrapper back. -/
def ObjectWorld.set_private (w : ObjectWorld) (obj : Nat) (priv : ObjectInstance) :
    ObjectWorld :=
  { w with wrappers := w.wrappers.set obj (some priv) }

/-- Modelled from the spec: `gjs_keep_alive_add_child` on the global
keep-alive object (`keep-alive.cpp`, not among the sources here), a set that
holds each child once. -/
def gjs_keep_alive_add_child (w : ObjectWorld) (obj : Nat) : ObjectWorld :=
  { w with keep_alive := if obj ∈ w.keep_alive then w.keep_alive else obj :: w.keep_alive
           log := w.log ++ [ObjEvent.keep_alive_add_child obj] }

/-- Modelled from the spec: `gjs_keep_alive_remove_child`. -/
def gjs_keep_alive_remove_child (w : ObjectWorld) (obj : Nat) : ObjectWorld :=
  { w with keep_alive := w.keep_alive.erase obj
           log := w.log ++ [ObjEvent.keep_alive_remove_child obj] }

/-- Function `ensure_heap_wrapper`: the heap pointer stored as qdata, created
when there is none; `none` is the pointer `(gpointer) 1` that a poisoned
object yields. -/
def ensure_heap_wrapper (w : ObjectWorld) (gobj : Nat) :
    Except Fault (ObjectWorld × Option (Option Nat)) :=
  match w.gobjects.get? gobj with
  | none => Except.error Fault.crash
  | some g =>
    match g.priv with
    | PrivateQData.null =>
      Except.ok (w.set_gobject gobj { g with priv := PrivateQData.heap_wrapper none }, some none)
    | PrivateQData.heap_wrapper obj => Except.ok (w, some obj)
    | PrivateQData.poison => Except.ok (w, none)

/-- Function `peek_js_obj`: the wrapper bound to a native object; a poisoned
object is reported, its marker cleared, and no wrapper returned. -/
def peek_js_obj (w : ObjectWorld) (gobj : Nat) : Except Fault (ObjectWorld × Option Nat) :=
  match ensure_heap_wrapper w gobj with
  | Except.error f => Except.error f
  | Except.ok (w1, none) =>
    match w1.gobjects.get? gobj with
    | none => Except.error Fault.crash
    | some g =>
      Except.ok
        ({ w1.set_gobject gobj { g with priv := PrivateQData.null } with
           log := w1.log ++ [ObjEvent.critical_resurfaced gobj] }, none)
  | Except.ok (w1, some obj) => Except.ok (w1, obj)

/-- Function `set_js_obj`; on a poisoned object the store goes through the
pointer `(gpointer) 1`. -/
def set_js_obj (w : ObjectWorld) (gobj : Nat) (obj : Option Nat) : Except Fault ObjectWorld :=
  match ensure_heap_wrapper w gobj with
  | Except.error f => Except.error f
  | Except.ok (_, none) => Except.error Fault.crash
  | Except.ok (w1, some _) =>
    match w1.gobjects.get? gobj with
    | none => Except.error Fault.crash
    | some g => Except.ok (w1.set_gobject gobj { g with priv := PrivateQData.heap_wrapper obj })

/-- Function `poison_js_obj`. -/
def poison_js_obj (w : ObjectWorld) (gobj : Nat) : Except Fault ObjectWorld :=
  match w.gobjects.get? gobj with
  | none => Except.error Fault.crash
  | some g => Except.ok (w.set_gobject gobj { g with priv := PrivateQData.poison })

/-- The private data `JS_GetPrivate(obj)` is dereferenced for; a null object
or null private data is a crash. -/
def JS_GetPrivate (w : ObjectWorld) (obj : Option Nat) : Except Fault (Nat × ObjectInstance) :=
  match obj with
  | none => Except.error Fault.crash
  | some o =>
    match w.wrappers.get? o with
    | some (some priv) => Except.ok (o, priv)
    | _ => Except.error Fault.crash

/-- The pending marker of a direction (`get_qdata_key_for_toggle_direction`
and `g_object_get_qdata`). -/
def GObject.toggle_marker (g : GObject) : ToggleDirection → Option Nat
  | ToggleDirection.TOGGLE_UP => g.toggle_up
  | ToggleDirection.TOGGLE_DOWN => g.toggle_down

/-- Store the pending marker of a direction. -/
def GObject.set_toggle_marker (g : GObject) (direction : ToggleDirection)
    (source : Option Nat) : GObject :=
  match direction with
  | ToggleDirection.TOGGLE_UP => { g with toggle_up := source }
  | ToggleDirection.TOGGLE_DOWN => { g with toggle_down := source }

/-- Function `clear_toggle_idle_source`: steal the pending marker, and tell
whether there was one. -/
def clear_toggle_idle_source (w : ObjectWorld) (gobj : Nat) (direction : ToggleDirection) :
    Except Fault (ObjectWorld × Bool) :=
  match w.gobjects.get? gobj with
  | none => Except.error Fault.crash
  | some g =>
    Except.ok (w.set_gobject gobj (g.set_toggle_marker direction none),
      (g.toggle_marker direction).isSome)

/-- Function `toggle_idle_source_is_queued`. -/
def toggle_idle_source_is_queued (w : ObjectWorld) (gobj : Nat) (direction : ToggleDirection) :
    Except Fault Bool :=
  match w.gobjects.get? gobj with
  | none => Except.error Fault.crash
  | some g => Except.ok (g.toggle_marker direction).isSome

/-- Function `handle_toggle_down`: take the wrapper off the keep-alive set
when it is on it. -/
def handle_toggle_down (w : ObjectWorld) (gobj : Nat) : Except Fault ObjectWorld :=
  match peek_js_obj w gobj with
  | Except.error f => Except.error f
  | Except.ok (w1, obj) =>
    match JS_GetPrivate w1 obj with
    | Except.error f => Except.error f
    | Except.ok (o, priv) =>
      if priv.keep_alive then
        Except.ok ((gjs_keep_alive_remove_child w1 o).set_private o { priv with keep_alive := false })
      else Except.ok w1

/-- Function `handle_toggle_up`: put the wrapper on the keep-alive set unless
it is on it; nothing when the object has no wrapper. -/
def handle_toggle_up (w : ObjectWorld) (gobj : Nat) : Except Fault ObjectWorld :=
  match peek_js_obj w gobj with
  | Except.error f => Except.error f
  | Except.ok (w1, none) => Except.ok w1
  | Except.ok (w1, some o) =>
    match JS_GetPrivate w1 (some o) with
    | Except.error f => Except.error f
    | Except.ok (_, priv) =>
      if priv.keep_alive = false then
        Except.ok (gjs_keep_alive_add_child (w1.set_private o { priv with keep_alive := true }) o)
      else Except.ok w1

/-- Function `idle_handle_toggle`, the callback of a queued task: nothing
when the pending marker is gone, the handler of the direction otherwise. -/
def idle_handle_toggle (w : ObjectWorld) (operation : ToggleRefNotifyOperation) :
    Except Fault ObjectWorld :=
  match clear_toggle_idle_source w operation.gobj operation.direction with
  | Except.error f => Except.error f
  | Except.ok (w1, was_queued) =>
    if was_queued = false then Except.ok w1
    else
      match operation.direction with
      | ToggleDirection.TOGGLE_UP => handle_toggle_up w1 operation.gobj
      | ToggleDirection.TOGGLE_DOWN => handle_toggle_down w1 operation.gobj

/-- Function `queue_toggle_idle`: a task of the direction, holding a
reference on the object when it is a toggle up, attached as an idle source
and recorded as the pending marker of the direction.  The reference is taken
while a toggle-up notification is delivered, on an object that has two
references already, so it brings no notification of its own. -/
def queue_toggle_idle (w : ObjectWorld) (gobj : Nat) (direction : ToggleDirection) :
    Except Fault ObjectWorld :=
  match w.gobjects.get? gobj with
  | none => Except.error Fault.crash
  | some g =>
    let needs_unref := decide (direction = ToggleDirection.TOGGLE_UP)
    let g1 : GObject := if needs_unref then { g with ref_count := g.ref_count + 1 } else g
    let source := w.sources.length
    Except.ok
      { w with
        gobjects := w.gobjects.set gobj (g1.set_toggle_marker direction (some source))
        sources := w.sources ++
          [{ operation := { gobj := gobj, direction := direction, needs_unref := needs_unref } }]
        pending_idle_toggles := w.pending_idle_toggles + 1 }

/-- Function `release_native_object`: unbind the wrapper `obj` from its
native object, remove the toggle reference, and forget the object.  With no
object left in the private data the GLib calls only log. -/
def release_native_object (w : ObjectWorld) (obj : Nat) (priv : ObjectInstance) :
    Except Fault ObjectWorld :=
  match priv.gobj with
  | none =>
    Except.ok { w.set_private obj { priv with gobj := none } with
                log := w.log ++ [ObjEvent.critical_null_object] }
  | some gobj =>
    match set_js_obj w gobj none with
    | Except.error f => Except.error f
    | Except.ok w1 =>
      match w1.gobjects.get? gobj with
      | none => Except.error Fault.crash
      | some g =>
        Except.ok
          ((w1.set_gobject gobj { g with toggle_ref := false, ref_count := g.ref_count - 1 }
            ).set_private obj { priv with gobj := none })

/-- Function `disassociate_js_gobject`: behind the two assertions
`g_assert(!cancel_toggle_idle(gobj, ...))`, unbind the pair and leave the
poison marker on the object.  With no marker present `cancel_toggle_idle`
changes nothing and the assertions pass; with a marker present the
assertion fails once the cancellation has run, which is the abort here. -/
def disassociate_js_gobject (w : ObjectWorld) (gobj : Nat) : Except Fault ObjectWorld :=
  match peek_js_obj w gobj with
  | Except.error f => Except.error f
  | Except.ok (w1, object) =>
    match JS_GetPrivate w1 object with
    | Except.error f => Except.error f
    | Except.ok (o, priv) =>
      match w1.gobjects.get? gobj with
      | none => Except.error Fault.crash
      | some g =>
        if g.toggle_up.isSome ∨ g.toggle_down.isSome then Except.error Fault.abort
        else
          let w2 : ObjectWorld := { w1 with log := w1.log ++ [ObjEvent.invalidate_all_signals o] }
          match release_native_object w2 o priv with
          | Except.error f => Except.error f
          | Except.ok w3 => poison_js_obj w3 gobj

/-- Function `wrapped_gobj_toggle_notify`, for a notification with the flag
`is_last_ref` on the object `gobj`; `g_error` is an abort. -/
def wrapped_gobj_toggle_notify (ctx : ToggleContext) (w : ObjectWorld) (gobj : Nat)
    (is_last_ref : Bool) : Except Fault ObjectWorld :=
  if ctx.destroying then Except.ok w
  else
    let is_main_thread := ctx.is_main_thread
    let is_sweeping := if is_main_thread then ctx.is_sweeping else false
    match toggle_idle_source_is_queued w gobj ToggleDirection.TOGGLE_UP,
          toggle_idle_source_is_queued w gobj ToggleDirection.TOGGLE_DOWN with
    | Except.ok toggle_up_queued, Except.ok toggle_down_queued =>
      if is_last_ref then
        if is_main_thread then
          if toggle_up_queued ∨ toggle_down_queued then Except.error Fault.abort
          else handle_toggle_down w gobj
        else queue_toggle_idle w gobj ToggleDirection.TOGGLE_DOWN
      else
        if is_main_thread ∧ toggle_down_queued = false then
          if toggle_up_queued then Except.error Fault.abort
          else if is_sweeping then
            match ensure_heap_wrapper w gobj with
            | Except.error f => Except.error f
            | Except.ok (_, none) => Except.error Fault.crash
            | Except.ok (w1, some obj) =>
              if ctx.about_to_be_finalized obj then disassociate_js_gobject w1 gobj
              else Except.ok w1
          else handle_toggle_up w gobj
        else queue_toggle_idle w gobj ToggleDirection.TOGGLE_UP
    | Except.error f, _ => Except.error f
    | _, Except.error f => Except.error f

/-- GLib's `g_object_unref`, as far as the engine depends on it: the count
drops by one, and a drop from two to one on an object with the toggle
reference delivers the notification with `is_last_ref` set, on the calling
thread. -/
def g_object_unref (ctx : ToggleContext) (w : ObjectWorld) (gobj : Nat) :
    Except Fault ObjectWorld :=
  match w.gobjects.get? gobj with
  | none => Except.error Fault.crash
  | some g =>
    let w1 := w.set_gobject gobj { g with ref_count := g.ref_count - 1 }
    if g.ref_count = 2 ∧ g.toggle_ref then wrapped_gobj_toggle_notify ctx w1 gobj true
    else Except.ok w1

/-- GLib's `g_object_ref_sink`: a floating reference is taken over, another
reference is added otherwise; a rise from one to two on an object with the
toggle reference delivers the notification with `is_last_ref` clear. -/
def g_object_ref_sink (ctx : ToggleContext) (w : ObjectWorld) (gobj : Nat) :
    Except Fault ObjectWorld :=
  match w.gobjects.get? gobj with
  | none => Except.error Fault.crash
  | some g =>
    if g.floating then Except.ok (w.set_gobject gobj { g with floating := false })
    else
      let w1 := w.set_gobject gobj { g with ref_count := g.ref_count + 1 }
      if g.ref_count = 1 ∧ g.toggle_ref then wrapped_gobj_toggle_notify ctx w1 gobj false
      else Except.ok w1

/-- Function `toggle_ref_notify_operation_free`, the destroy notification of
a queued task. -/
def toggle_ref_notify_operation_free (ctx : ToggleContext) (w : ObjectWorld)
    (operation : ToggleRefNotifyOperation) : Except Fault ObjectWorld :=
  match (if operation.needs_unref then g_object_unref ctx w operation.gobj else Except.ok w) with
  | Except.error f => Except.error f
  | Except.ok w1 => Except.ok { w1 with pending_idle_toggles := w1.pending_idle_toggles - 1 }

/-- GLib's `g_source_destroy` on a queued task: the source is marked, and
its callback data is released through the destroy notification. -/
def g_source_destroy (ctx : ToggleContext) (w : ObjectWorld) (source : Nat) :
    Except Fault ObjectWorld :=
  match w.sources.get? source with
  | none => Except.error Fault.crash
  | some s =>
    if s.destroyed then Except.ok w
    else
      toggle_ref_notify_operation_free ctx
        { w with sources := w.sources.set source { s with destroyed := true } } s.operation

/-- Function `cancel_toggle_idle`: steal the pending marker and destroy the
source it names; the result tells whether there was one. -/
def cancel_toggle_idle (ctx : ToggleContext) (w : ObjectWorld) (gobj : Nat)
    (direction : ToggleDirection) : Except Fault (ObjectWorld × Bool) :=
  match w.gobjects.get? gobj with
  | none => Except.error Fault.crash
  | some g =>
    let w1 := w.set_gobject gobj (g.set_toggle_marker direction none)
    match g.toggle_marker direction with
    | none => Except.ok (w1, false)
    | some source =>
      match g_source_destroy ctx w1 source with
      | Except.error f => Except.error f
      | Except.ok w2 => Except.ok (w2, true)

/-- Function `init_object_private`: fresh private data for a script object
that has none (the prototype's private data is taken to exist). -/
def init_object_private (w : ObjectWorld) (object : Nat) : Except Fault ObjectWorld :=
  match w.wrappers.get? object with
  | none => Except.error Fault.crash
  | some (some _) => Except.error Fault.abort
  | some none => Except.ok (w.set_private object {})

/-- Function `associate_js_gobject`: bind the wrapper and the native object
to each other, root the wrapper, and install the toggle reference. -/
def associate_js_gobject (w : ObjectWorld) (object : Nat) (gobj : Nat) :
    Except Fault ObjectWorld :=
  match w.wrappers.get? object with
  | some (some priv) =>
    let w1 := w.set_private object { priv with gobj := some gobj }
    match peek_js_obj w1 gobj with
    | Except.error f => Except.error f
    | Except.ok (_, some _) => Except.error Fault.abort
    | Except.ok (w2, none) =>
      match set_js_obj w2 gobj (some object) with
      | Except.error f => Except.error f
      | Except.ok w3 =>
        let w4 := gjs_keep_alive_add_child
          (w3.set_private object { priv with gobj := some gobj, keep_alive := true }) object
        match w4.gobjects.get? gobj with
        | none => Except.error Fault.crash
        | some g =>
          Except.ok (w4.set_gobject gobj { g with ref_count := g.ref_count + 1, toggle_ref := true })
  | _ => Except.error Fault.crash

/-- The branch `if (obj == NULL)` of `gjs_object_from_g_object`, "We have to
create a wrapper": a new script object (the next index), its private data,
the reference taken over or added, the binding, the release of the extra
reference, and the assertion that the lookup now finds the new object. -/
def create_wrapper (ctx : ToggleContext) (w1 : ObjectWorld) (gobj : Nat) :
    Except Fault (ObjectWorld × Option Nat) :=
  if ctx.new_object_succeeds = false then Except.ok (w1, none)
  else
    let obj := w1.wrappers.length
    let w2 : ObjectWorld := { w1 with wrappers := w1.wrappers ++ [none] }
    match init_object_private w2 obj with
    | Except.error f => Except.error f
    | Except.ok w3 =>
      match g_object_ref_sink ctx w3 gobj with
      | Except.error f => Except.error f
      | Except.ok w4 =>
        match associate_js_gobject w4 obj gobj with
        | Except.error f => Except.error f
        | Except.ok w5 =>
          match g_object_unref ctx w5 gobj with
          | Except.error f => Except.error f
          | Except.ok w6 =>
            match peek_js_obj w6 gobj with
            | Except.error f => Except.error f
            | Except.ok (w7, found) =>
              if found = some obj then Except.ok (w7, some obj)
              else Except.error Fault.abort

/-- Function `gjs_object_from_g_object`: the wrapper of a native object,
created and bound when the object has none; `none` is `NULL`. -/
def gjs_object_from_g_object (ctx : ToggleContext) (w : ObjectWorld) (gobj : Option Nat) :
    Except Fault (ObjectWorld × Option Nat) :=
  match gobj with
  | none => Except.ok (w, none)
  | some gobj =>
    match peek_js_obj w gobj with
    | Except.error f => Except.error f
    | Except.ok (w1, some obj) => Except.ok (w1, some obj)
    | Except.ok (w1, none) => create_wrapper ctx w1 gobj

/-- Function `gjs_g_object_from_object`. -/
def gjs_g_object_from_object (w : ObjectWorld) (obj : Option Nat) :
    Except Fault (Option Nat) :=
  match obj with
  | none => Except.ok none
  | some o =>
    match w.wrappers.get? o with
    | some (some priv) => Except.ok priv.gobj
    | _ => Except.error Fault.crash

/-! ## Vocabulary and samples for the toggle protocol -/

/-- The direction a notification asks for: down when `is_last_ref` is set
(the count fell from two to one), up otherwise. -/
def notified_direction (is_last_ref : Bool) : ToggleDirection :=
  if is_last_ref then ToggleDirection.TOGGLE_DOWN else ToggleDirection.TOGGLE_UP

/-- The task `queue_toggle_idle` builds for a notification. -/
def queued_operation (gobj : Nat) (is_last_ref : Bool) : ToggleRefNotifyOperation :=
  { gobj := gobj, direction := notified_direction is_last_ref, needs_unref := !is_last_ref }

/-- A native object and a wrapper bound to each other: the object's qdata
holds the wrapper and the wrapper's private data holds the object. -/
def Bound (w : ObjectWorld) (gobj obj : Nat) : Prop :=
  ∃ g inst, w.gobjects.get? gobj = some g ∧ g.priv = PrivateQData.heap_wrapper (some obj) ∧
    w.wrappers.get? obj = some (some inst) ∧ inst.gobj = some gobj

/-- A call on the engine's own thread, outside collection and shutdown. -/
def engine_thread_context : ToggleContext :=
  { destroying := false, is_main_thread := true, is_sweeping := false,
    about_to_be_finalized := fun _ => false, new_object_succeeds := true }

/-- A call on another thread, outside shutdown. -/
def other_thread_context : ToggleContext :=
  { destroying := false, is_main_thread := false, is_sweeping := false,
    about_to_be_finalized := fun _ => false, new_object_succeeds := true }

/-- A call on the engine's own thread while the collector sweeps and every
wrapper asked about is about to be finalized. -/
def sweeping_context : ToggleContext :=
  { destroying := false, is_main_thread := true, is_sweeping := true,
    about_to_be_finalized := fun _ => true, new_object_succeeds := true }

/-- One native object with one reference and no wrapper yet. -/
def unwrapped_object_world : ObjectWorld :=
  { gobjects := [{ ref_count := 1 }] }

/-- The object of `unwrapped_object_world` after `gjs_object_from_g_object`:
bound to the wrapper 0, which is rooted; the caller's reference and the
toggle reference make two. -/
def strong_pair_world : ObjectWorld :=
  { gobjects := [{ ref_count := 2, toggle_ref := true,
                   priv := PrivateQData.heap_wrapper (some 0) }]
    wrappers := [some { gobj := some 0, keep_alive := true }]
    keep_alive := [0]
    log := [ObjEvent.keep_alive_add_child 0] }

/-- The pair of `strong_pair_world` after the caller dropped its reference
on the engine's thread: the wrapper is unrooted. -/
def weak_pair_world : ObjectWorld :=
  { gobjects := [{ ref_count := 1, toggle_ref := true,
                   priv := PrivateQData.heap_wrapper (some 0) }]
    wrappers := [some { gobj := some 0, keep_alive := false }]
    keep_alive := []
    log := [ObjEvent.keep_alive_add_child 0, ObjEvent.keep_alive_remove_child 0] }

/-- The pair of `weak_pair_world` once native code has taken a second
reference, at the moment the toggle-up notification is delivered. -/
def promoted_pair_world : ObjectWorld :=
  { weak_pair_world with
    gobjects := [{ ref_count := 2, toggle_ref := true,
                   priv := PrivateQData.heap_wrapper (some 0) }] }

/-- The pair of `strong_pair_world` once the caller's reference is gone, at
the moment the toggle-down notification is delivered. -/
def demoted_pair_world : ObjectWorld :=
  { strong_pair_world with
    gobjects := [{ ref_count := 1, toggle_ref := true,
                   priv := PrivateQData.heap_wrapper (some 0) }] }

/-- The object of `promoted_pair_world` after the toggle-up notification
arrived while the collector was sweeping its wrapper: unbound and
poisoned. -/
def poisoned_object_world : ObjectWorld :=
  { gobjects := [{ ref_count := 1, toggle_ref := false, priv := PrivateQData.poison }]
    wrappers := [some { gobj := none, keep_alive := false }]
    keep_alive := []
    log := [ObjEvent.keep_alive_add_child 0, ObjEvent.keep_alive_remove_child 0,
            ObjEvent.invalidate_all_signals 0] }

/-- The pair of `strong_pair_world` after another thread dropped the
caller's reference: nothing unrooted, one demote task queued. -/
def demote_queued_world : ObjectWorld :=
  { strong_pair_world with
    gobjects := [{ ref_count := 1, toggle_ref := true,
                   priv := PrivateQData.heap_wrapper (some 0), toggle_down := some 0 }]
    sources := [{ operation := queued_operation 0 true }]
    pending_idle_toggles := 1 }

/-- The world of `demote_queued_world` after `cancel_toggle_idle` took the
demote task back: the marker is gone and the source destroyed. -/
def demote_cancelled_world : ObjectWorld :=
  { demoted_pair_world with
    sources := [{ operation := queued_operation 0 true, destroyed := true }] }

/-- The pair of `weak_pair_world` after another thread took a second
reference: the wrapper still unrooted, one promote task queued, holding a
third reference. -/
def promote_queued_world : ObjectWorld :=
  { weak_pair_world with
    gobjects := [{ ref_count := 3, toggle_ref := true,
                   priv := PrivateQData.heap_wrapper (some 0), toggle_up := some 0 }]
    sources := [{ operation := queued_operation 0 false }]
    pending_idle_toggles := 1 }

/-- The world of `demote_queued_world` after its task ran: the wrapper is
unrooted and the marker gone; the task itself is not yet freed. -/
def demote_handled_world : ObjectWorld :=
  { weak_pair_world with
    sources := [{ operation := queued_operation 0 true }]
    pending_idle_toggles := 1 }

/-! ## Vocabulary for the classifier -/

/-- The argument count the classifier works with: `n_args` is a `guint8`. -/
def classified_n_args (info : GICallableInfo) : Nat := g_callable_info_get_n_args info % 256

/-- The registers of `init_cached_function_data` when its loop starts: the
tags as `g_new0` and the return value's length sibling leave them, no script
input counted, and the return value counted as an output when it is not
void. -/
def classify_start (info : GICallableInfo) : ClassifyState :=
  { param_types :=
      skip_if_in_range
        (List.replicate (classified_n_args info) GjsParamType.PARAM_NORMAL)
        info.return_type.array_length (classified_n_args info)
    expected_js_argc := 0
    js_out_argc := if info.return_type.tag ≠ GITypeTag.VOID then 1 else 0 }

/-- The registers of the classifier when its scan reaches the parameter `k`:
the loop run over the parameters before `k`; `none` when classification has
failed before. -/
def scan_reaches (info : GICallableInfo) (k : Nat) : Option ClassifyState :=
  classify_loop info (classified_n_args info)
    ((info.args.take (classified_n_args info)).take k) 0 (classify_start info)

/-- A parameter whose type is a callback, as the specification words it. -/
def is_callback_type (t : GITypeInfo) : Prop :=
  t.tag = GITypeTag.INTERFACE ∧ t.interface_type = GIInfoType.CALLBACK

/-- A native C array with an in-range length sibling, as the specification
words it. -/
def has_length_sibling (n_args : Nat) (t : GITypeInfo) : Prop :=
  t.tag = GITypeTag.ARRAY ∧ t.array_type_is_c = true ∧
    0 ≤ t.array_length ∧ t.array_length < (n_args : Int)

instance (t : GITypeInfo) : Decidable (is_callback_type t) := by
  unfold is_callback_type
  exact inferInstance

instance (n_args : Nat) (t : GITypeInfo) : Decidable (has_length_sibling n_args t) := by
  unfold has_length_sibling
  exact inferInstance

/-- The tag the specification gives a parameter that is not skipped:
`Callback` if its type is a callback, `Array` if it is a native C array with
an in-range length sibling, `Normal` otherwise. -/
def tag_by_type (n_args : Nat) (a : GIArgInfo) : GjsParamType :=
  if is_callback_type a.type_info then GjsParamType.PARAM_CALLBACK
  else if has_length_sibling n_args a.type_info then GjsParamType.PARAM_ARRAY
  else GjsParamType.PARAM_NORMAL

/-- A callback parameter, other than a `GLib.DestroyNotify`, that declares a
destroy-notify sibling but no closure-data sibling. -/
def destroy_without_closure (a : GIArgInfo) : Prop :=
  is_callback_type a.type_info ∧ a.type_info.interface_is_destroy_notify = false ∧
    0 ≤ a.destroy ∧ a.closure < 0

/-- A native C array with an in-range length sibling whose direction differs
from the array's. -/
def length_direction_differs (info : GICallableInfo) (n_args : Nat) (a : GIArgInfo) : Prop :=
  has_length_sibling n_args a.type_info ∧
    ∃ length_arg_info,
      info.args.get? a.type_info.array_length.toNat = some length_arg_info ∧
      length_arg_info.direction ≠ a.direction

/-- Descriptor `void f(T *a /* length 0 */)`: an array that names itself as
its length. -/
def self_length_info : GICallableInfo :=
  { args := [{ type_info := c_array_type 0 }], return_type := void_type }

/-- Descriptor `void f(GDestroyNotify notify /* destroy 1 */, gpointer data)`:
a `GLib.DestroyNotify` parameter that itself declares a destroy-notify
sibling and no closure data. -/
def notify_with_destroy_info : GICallableInfo :=
  { args := [{ type_info := destroy_notify_type, destroy := 1 }, { type_info := pointer_type }]
    return_type := void_type }

/-- Descriptor `void f(callback cb /* destroy 1 */, GDestroyNotify notify)`: a
callback with a destroy notification and no closure data. -/
def destroy_only_callback_info : GICallableInfo :=
  { args := [{ type_info := callback_type, destroy := 1 }, { type_info := destroy_notify_type }]
    return_type := void_type }

/-- Descriptor `void f(out int n, T *a /* length n */)`: an input array whose
length is an output. -/
def mixed_direction_info : GICallableInfo :=
  { args := [{ type_info := int_type, direction := GIDirection.OUT },
             { type_info := c_array_type 0 }]
    return_type := void_type }

/-- What holds of the tags between two iterations of the classifier, when
the parameters before `k` have been scanned: a scanned parameter is
`PARAM_SKIPPED` or has the tag its type calls for, a parameter still to scan
is `PARAM_SKIPPED` or `PARAM_NORMAL`, the length sibling (another parameter)
of a scanned parameter tagged `PARAM_ARRAY` is `PARAM_SKIPPED`, and so are the
in-range siblings of a scanned parameter tagged `PARAM_CALLBACK`. -/
def ClassifyInv (info : GICallableInfo) (n_args k : Nat) (pts : List GjsParamType) : Prop :=
  pts.length = n_args ∧
  (∀ j a, j < k → info.args.get? j = some a →
    pts.getD j GjsParamType.PARAM_NORMAL = GjsParamType.PARAM_SKIPPED ∨
    pts.getD j GjsParamType.PARAM_NORMAL = tag_by_type n_args a) ∧
  (∀ j, k ≤ j →
    pts.getD j GjsParamType.PARAM_NORMAL = GjsParamType.PARAM_SKIPPED ∨
    pts.getD j GjsParamType.PARAM_NORMAL = GjsParamType.PARAM_NORMAL) ∧
  (∀ j a, j < k → info.args.get? j = some a →
    pts.getD j GjsParamType.PARAM_NORMAL = GjsParamType.PARAM_ARRAY →
    a.type_info.array_length.toNat ≠ j →
    pts.getD a.type_info.array_length.toNat GjsParamType.PARAM_NORMAL =
      GjsParamType.PARAM_SKIPPED) ∧
  (∀ j a, j < k → info.args.get? j = some a →
    pts.getD j GjsParamType.PARAM_NORMAL = GjsParamType.PARAM_CALLBACK →
    ∀ p : Int, (p = a.destroy ∨ p = a.closure) → 0 ≤ p → p < (n_args : Int) →
    pts.getD p.toNat GjsParamType.PARAM_NORMAL = GjsParamType.PARAM_SKIPPED)

/-- A call on the engine's own thread while the collector sweeps and no
wrapper asked about is about to be finalized. -/
def live_sweeping_context : ToggleContext :=
  { destroying := false, is_main_thread := true, is_sweeping := true,
    about_to_be_finalized := fun _ => false, new_object_succeeds := true }

/-! ## Vocabulary and samples for the arguments read and released -/

/-- The element count computed when a script sequence was converted for an
array parameter, with the frame position of the parameter. -/
def Event.computed_length (env : Env) : Event → Option (Nat × Nat)
  | Event.value_to_explicit_array value arg_info dest =>
    (env.value_to_explicit_array value arg_info).map (fun p => (dest.c_pos, p.2))
  | _ => none

/-- The element count an array was released with by the release loop, with
the frame position of the parameter. -/
def Event.in_array_release : Event → Option (Nat × Nat)
  | Event.release_in_array _ _ length source _ => some (source.c_pos, length)
  | _ => none

/-- The collaborators of `sample_env grow_native` on a machine where the
address of every cell reads as the integer `bits`. -/
def addressed_env (bits : Nat) : Env :=
  { sample_env grow_native with pointer_bits := fun _ => bits }

/-- The indices `js_arg_pos` at which the marshaling loop reads
`args[js_arg_pos]`, in order: the value of `js_arg_pos` at the head of each
iteration for a parameter whose direction is not `OUT` and whose tag is not
`PARAM_SKIPPED`. -/
def script_argument_reads (function : Function) (trace : List Event) : List Nat :=
  trace.filterMap (fun e =>
    match e with
    | Event.marshal_arg gi_arg_pos _ js_arg_pos =>
      match function.info.args.get? gi_arg_pos, function.param_types.get? gi_arg_pos with
      | some arg_info, some param_type =>
        if arg_info.direction ≠ GIDirection.OUT ∧ param_type ≠ GjsParamType.PARAM_SKIPPED
        then some js_arg_pos else none
      | _, _ => none
    | _ => none)

/-- Descriptor `void f(int n, T *a /* length n */, U *b /* length n */, int m)`:
two arrays that share a length parameter placed before them, followed by an
integer. -/
def shared_length_then_int_info : GICallableInfo :=
  { args := [{ type_info := int_type }, { type_info := c_array_type 0 },
             { type_info := c_array_type 0 }, { type_info := int_type }]
    return_type := void_type }

/-- The classification of `shared_length_then_int_info`. -/
def shared_length_then_int_function : Function :=
  { info := shared_length_then_int_info
    param_types := [GjsParamType.PARAM_SKIPPED, GjsParamType.PARAM_ARRAY,
      GjsParamType.PARAM_ARRAY, GjsParamType.PARAM_NORMAL]
    expected_js_argc := 2, js_out_argc := 0, cif_nargs := 4 }

/-- Descriptor
`void f(out int n, out T *a /* length n */, out U *b /* length n */)`: two
output arrays that share an output length placed before them. -/
def shared_out_length_info : GICallableInfo :=
  { args := [{ type_info := int_type, direction := GIDirection.OUT },
             { type_info := c_array_type 0, direction := GIDirection.OUT },
             { type_info := c_array_type 0, direction := GIDirection.OUT }]
    return_type := void_type }

/-- The classification of `shared_out_length_info`: the second array takes
the length parameter off `js_out_argc` once more. -/
def shared_out_length_function : Function :=
  { info := shared_out_length_info
    param_types := [GjsParamType.PARAM_SKIPPED, GjsParamType.PARAM_ARRAY,
      GjsParamType.PARAM_ARRAY]
    expected_js_argc := 0, js_out_argc := 1, cif_nargs := 3 }

/-- Whether `gjs_callback_closure` resolves the parameter `i` into a script
input: not void-typed, not `OUT`, and tagged `PARAM_NORMAL` or `PARAM_ARRAY`
(not `PARAM_SKIPPED`). -/
def is_resolved_input (t : GjsCallbackTrampoline) (i : Nat) (arg_info : GIArgInfo) : Bool :=
  arg_info.type_info.tag ≠ GITypeTag.VOID ∧ arg_info.direction ≠ GIDirection.OUT ∧
    (t.param_types.get? i = some GjsParamType.PARAM_NORMAL ∨
      t.param_types.get? i = some GjsParamType.PARAM_ARRAY)

/-- The script value the native argument of the parameter `i` converts to:
through `gjs_value_from_explicit_array` with the converted length sibling for
a parameter tagged `PARAM_ARRAY`, through `gjs_value_from_g_argument` for one
tagged `PARAM_NORMAL`. -/
def resolved_value (cenv : ClosureEnv) (t : GjsCallbackTrampoline) (args : Nat → GArgument)
    (i : Nat) (arg_info : GIArgInfo) : Option JSValue :=
  match t.param_types.get? i with
  | some GjsParamType.PARAM_NORMAL => cenv.value_from_g_argument arg_info.type_info (args i)
  | some GjsParamType.PARAM_ARRAY =>
    match g_callable_info_load_arg t.info arg_info.type_info.array_length with
    | none => none
    | some array_length_arg =>
      match cenv.value_from_g_argument array_length_arg.type_info
          (args arg_info.type_info.array_length.toNat) with
      | none => none
      | some length =>
        cenv.value_from_explicit_array arg_info.type_info (args i) length.toInt32
  | _ => none

/-- The resolved script inputs of the parameters `l`, in order; the first of
`l` has index `i`. -/
def resolved_inputs (cenv : ClosureEnv) (t : GjsCallbackTrampoline) (args : Nat → GArgument) :
    List GIArgInfo → Nat → List JSValue
  | [], _ => []
  | arg_info :: rest, i =>
    (if is_resolved_input t i arg_info then (resolved_value cenv t args i arg_info).toList
     else []) ++ resolved_inputs cenv t args rest (i + 1)

/-- An object type. -/
def object_type : GITypeInfo :=
  { tag := GITypeTag.INTERFACE, interface_type := GIInfoType.OBJECT }

/-- Collaborators for the examples of virtual methods: as
`sample_closure_env`, outside the sweep phase, with a script function that
returns undefined, and a native value of an interface type converts to the
script object of that identity. -/
def vfunc_closure_env : ClosureEnv :=
  { sample_closure_env false false (fun _ => some JSValue.undefined) with
    value_from_g_argument := fun type_info a =>
      match a with
      | GArgument.raw b =>
        if type_info.tag = GITypeTag.INTERFACE then some (JSValue.object b)
        else some (JSValue.int32 b)
      | _ => none }

/-- A trampoline of a virtual method with the descriptor `info`, of scope
`CALL`, with every parameter tagged `PARAM_NORMAL`. -/
def vfunc_trampoline (info : GICallableInfo) : GjsCallbackTrampoline :=
  { plain_trampoline info with is_vfunc := true }

/-- Descriptor `void vf(Object self, int x)`. -/
def self_first_vfunc_info : GICallableInfo :=
  { args := [{ type_info := object_type }, { type_info := int_type }]
    return_type := void_type }

/-- Descriptor `void vf(gpointer data, Object self, int x)`: the first
parameter is void-typed. -/
def data_first_vfunc_info : GICallableInfo :=
  { args := [{ type_info := pointer_type }, { type_info := object_type },
             { type_info := int_type }]
    return_type := void_type }

/-- Native arguments: the cell `i` holds the bits `40 + i`. -/
def numbered_native_args : Nat → GArgument := fun i => GArgument.raw (40 + i)

/-! ## Theorems -/

/-- The head of a call appends one unref event per completed trampoline. -/
theorem unref_completed_trace (ids : List Nat) (st : Regs) :
    (unref_completed ids st).trace = st.trace ++ ids.map Event.trampoline_unref := by
  induction ids generalizing st with
  | nil => simp [unref_completed]
  | cons id rest ih => simp [unref_completed, ih, Regs.log]

/-- The trace after the head of a call. -/
theorem drain_completed_trampolines_trace (st : Regs) :
    (drain_completed_trampolines st).trace = st.trace ++ completed_unrefs st.heap := by
  simp [drain_completed_trampolines, unref_completed_trace, completed_unrefs]

/-- Claim C1: a script argument list shorter than `expected_js_argc` makes
`gjs_invoke_c_function` return `false` after throwing "Too few arguments";
apart from the unrefs of completed trampolines at the head of the call, the
throw is the only thing it does: no receiver or argument conversion, no
native call, and `js_rval` is left as it was. -/
theorem too_few_arguments_fails_early (env : Env) (function : Function) (obj : JSValue)
    (args : List JSValue) (js_rval : Option JSValue) (r_value_given : Bool) (heap : Heap)
    (h : args.length < function.expected_js_argc) :
    ∃ r, gjs_invoke_c_function env function obj args js_rval r_value_given heap = Except.ok r ∧
      r.ok = false ∧ r.js_rval = js_rval ∧
      r.trace = completed_unrefs heap ++
        [Event.gjs_throw (Thrown.too_few_arguments function.expected_js_argc args.length)] ∧
      (∀ e ∈ r.trace, e.is_input_conversion = false ∧ e.is_ffi_call = false ∧
        e.is_output_conversion = false) := by
  refine ⟨_, by simp only [gjs_invoke_c_function, if_pos h]; rfl, rfl, rfl, ?_, ?_⟩
  · simp [Regs.log, drain_completed_trampolines_trace]
  · intro e he
    simp only [Regs.log, drain_completed_trampolines_trace, List.nil_append, List.mem_append,
      List.mem_singleton, completed_unrefs, List.mem_map] at he
    rcases he with ⟨id, _, rfl⟩ | rfl <;> simp [Event.is_input_conversion, Event.is_ffi_call,
      Event.is_output_conversion]

/-- Witness for C1: one argument where two are expected. -/
theorem too_few_arguments_fails_early_witness :
    ∃ r, gjs_invoke_c_function (sample_env quiet_native) two_ints_function JSValue.undefined
        [JSValue.int32 1] (some JSValue.undefined) false {} = Except.ok r ∧
      r.ok = false ∧ r.js_rval = some JSValue.undefined ∧
      r.trace = completed_unrefs {} ++
        [Event.gjs_throw (Thrown.too_few_arguments two_ints_function.expected_js_argc
          [JSValue.int32 1].length)] ∧
      (∀ e ∈ r.trace, e.is_input_conversion = false ∧ e.is_ffi_call = false ∧
        e.is_output_conversion = false) :=
  too_few_arguments_fails_early (sample_env quiet_native) two_ints_function JSValue.undefined
    [JSValue.int32 1] (some JSValue.undefined) false {} (by decide)

@[simp] theorem Regs.log_trace (st : Regs) (e : Event) : (st.log e).trace = st.trace ++ [e] := rfl
@[simp] theorem Regs.log_frame (st : Regs) (e : Event) : (st.log e).frame = st.frame := rfl
@[simp] theorem Regs.log_heap (st : Regs) (e : Event) : (st.log e).heap = st.heap := rfl
@[simp] theorem Regs.set_in_trace (st : Regs) (c : Nat) (v : GArgument) :
    (st.set_in c v).trace = st.trace := rfl
@[simp] theorem Regs.set_in_heap (st : Regs) (c : Nat) (v : GArgument) :
    (st.set_in c v).heap = st.heap := rfl
@[simp] theorem Regs.set_out_trace (st : Regs) (c : Nat) (v : GArgument) :
    (st.set_out c v).trace = st.trace := rfl
@[simp] theorem Regs.set_out_heap (st : Regs) (c : Nat) (v : GArgument) :
    (st.set_out c v).heap = st.heap := rfl
@[simp] theorem Regs.set_orig_trace (st : Regs) (c : Nat) (v : GArgument) :
    (st.set_orig c v).trace = st.trace := rfl
@[simp] theorem Regs.set_orig_heap (st : Regs) (c : Nat) (v : GArgument) :
    (st.set_orig c v).heap = st.heap := rfl
@[simp] theorem Regs.snapshot_inout_trace (st : Regs) (c : Nat) :
    (st.snapshot_inout c).trace = st.trace := rfl
@[simp] theorem Regs.snapshot_inout_heap (st : Regs) (c : Nat) :
    (st.snapshot_inout c).heap = st.heap := rfl
@[simp] theorem Regs.set_in_in (st : Regs) (c : Nat) (v : GArgument) :
    (st.set_in c v).frame.in_arg_cvalues = Function.update st.frame.in_arg_cvalues c v := rfl
@[simp] theorem Regs.set_in_out (st : Regs) (c : Nat) (v : GArgument) :
    (st.set_in c v).frame.out_arg_cvalues = st.frame.out_arg_cvalues := rfl
@[simp] theorem Regs.set_in_orig (st : Regs) (c : Nat) (v : GArgument) :
    (st.set_in c v).frame.inout_original_arg_cvalues = st.frame.inout_original_arg_cvalues := rfl
@[simp] theorem Regs.set_out_in (st : Regs) (c : Nat) (v : GArgument) :
    (st.set_out c v).frame.in_arg_cvalues = st.frame.in_arg_cvalues := rfl
@[simp] theorem Regs.set_out_out (st : Regs) (c : Nat) (v : GArgument) :
    (st.set_out c v).frame.out_arg_cvalues = Function.update st.frame.out_arg_cvalues c v := rfl
@[simp] theorem Regs.set_out_orig (st : Regs) (c : Nat) (v : GArgument) :
    (st.set_out c v).frame.inout_original_arg_cvalues = st.frame.inout_original_arg_cvalues := rfl
@[simp] theorem Regs.set_orig_in (st : Regs) (c : Nat) (v : GArgument) :
    (st.set_orig c v).frame.in_arg_cvalues = st.frame.in_arg_cvalues := rfl
@[simp] theorem Regs.set_orig_out (st : Regs) (c : Nat) (v : GArgument) :
    (st.set_orig c v).frame.out_arg_cvalues = st.frame.out_arg_cvalues := rfl
@[simp] theorem Regs.set_orig_orig (st : Regs) (c : Nat) (v : GArgument) :
    (st.set_orig c v).frame.inout_original_arg_cvalues =
      Function.update st.frame.inout_original_arg_cvalues c v := rfl


/-- What a sibling store that returns did. -/
theorem store_sibling_ok (function : Function) (c_argc : Nat) (is_method : Bool) (pos : Int)
    (v : GArgument) (st st1 : Regs)
    (h : store_sibling function c_argc is_method pos v st = Except.ok st1) :
    (pos < 0 ∧ st1 = st) ∨
    (0 ≤ pos ∧ function.param_types.get? pos.toNat = some GjsParamType.PARAM_SKIPPED ∧
      (c_pos_of is_method pos).toNat < c_argc ∧
      st1 = st.set_in (c_pos_of is_method pos).toNat v) := by
  unfold store_sibling at h
  split at h
  · rename_i hp
    split at h
    · exact absurd h (by simp)
    · rename_i t ht
      split at h
      · exact absurd h (by simp)
      · rename_i hs
        split at h
        · rename_i hc
          simp only [Except.ok.injEq] at h
          exact Or.inr ⟨hp, by rw [ht]; simpa using hs, hc, h.symm⟩
        · exact absurd h (by simp)
  · rename_i hp
    simp only [Except.ok.injEq] at h
    exact Or.inl ⟨by omega, h.symm⟩

/-- With no trampoline to wire, `wire_callback` only stores nulls: heap and
trace stay as they are, the callback's own slot is null, and so are the
slots of its destroy-notify and closure-data siblings. -/
theorem wire_callback_null (function : Function) (c_argc : Nat) (is_method : Bool)
    (arg_info : GIArgInfo) (c_arg_pos : Nat) (st st1 : Regs)
    (h : wire_callback function c_argc is_method arg_info c_arg_pos none st = Except.ok st1) :
    st1.heap = st.heap ∧ st1.trace = st.trace ∧
    st1.frame.in_arg_cvalues c_arg_pos = GArgument.null ∧
    (0 ≤ arg_info.destroy →
      st1.frame.in_arg_cvalues (c_pos_of is_method arg_info.destroy).toNat = GArgument.null) ∧
    (0 ≤ arg_info.closure →
      st1.frame.in_arg_cvalues (c_pos_of is_method arg_info.closure).toNat = GArgument.null) := by
  unfold wire_callback at h
  simp only at h
  split at h
  · exact absurd h (by simp)
  · rename_i st2 h2
    split at h
    · exact absurd h (by simp)
    · rename_i st3 h3
      simp only [Except.ok.injEq] at h
      subst h
      rcases store_sibling_ok _ _ _ _ _ _ _ h2 with ⟨hd, rfl⟩ | ⟨hd, _, _, rfl⟩ <;>
      rcases store_sibling_ok _ _ _ _ _ _ _ h3 with ⟨hc, rfl⟩ | ⟨hc, _, _, rfl⟩ <;>
      refine ⟨rfl, rfl, by simp, ?_, ?_⟩ <;> intro h0 <;>
      first
        | omega
        | (simp only [Regs.set_in_in]
           by_cases e1 : (c_pos_of is_method arg_info.destroy).toNat = c_arg_pos <;>
           by_cases e2 : (c_pos_of is_method arg_info.closure).toNat = c_arg_pos <;>
           by_cases e3 : (c_pos_of is_method arg_info.destroy).toNat =
             (c_pos_of is_method arg_info.closure).toNat <;>
           simp [Function.update, e1, e2, e3])

/-- The sample classifications are what the classifier computes. -/
theorem sample_classifications :
    init_cached_function_data (some (prepared_cif_nargs two_ints_info)) two_ints_info =
      some two_ints_function ∧
    init_cached_function_data (some (prepared_cif_nargs nullable_callback_info))
      nullable_callback_info = some nullable_callback_function := by
  decide

/-- A sibling store returns when the sibling is in range of the tags and of
the frame and is tagged `PARAM_SKIPPED`. -/
theorem store_sibling_returns (function : Function) (c_argc : Nat) (is_method : Bool)
    (pos : Int) (v : GArgument) (st : Regs)
    (h : 0 ≤ pos → function.param_types.get? pos.toNat = some GjsParamType.PARAM_SKIPPED ∧
      (c_pos_of is_method pos).toNat < c_argc) :
    ∃ st1, store_sibling function c_argc is_method pos v st = Except.ok st1 := by
  unfold store_sibling
  by_cases hp : 0 ≤ pos
  · obtain ⟨h1, h2⟩ := h hp
    rw [List.get?_eq_getElem?] at h1
    simp [hp, h1, h2]
  · simp [hp]

/-- Claim C10: in the `PARAM_CALLBACK` case, for the script value
`current_arg` read at `js_arg_pos`: a null value for a nullable parameter is
accepted, creates no trampoline (heap and trace unchanged) and leaves null in
the callback slot and in the slots of the destroy-notify and closure-data
siblings, and the case returns whenever those siblings are tagged
`PARAM_SKIPPED` inside the frame; a null value for a parameter that is not
nullable, and any non-null value that is not a function, fail with the
"Expected function for callback argument" type error. -/
theorem callback_null_accepted_iff_nullable (env : Env) (function : Function)
    (args : List JSValue) (c_argc : Nat) (is_method : Bool) (arg_info : GIArgInfo)
    (c_arg_pos js_arg_pos : Nat) (st : Regs) (current_arg : JSValue)
    (harg : args.get? js_arg_pos = some current_arg) :
    (current_arg.isNull = true → arg_info.may_be_null = true →
      (∀ sw, marshal_callback env function args c_argc is_method arg_info c_arg_pos
          js_arg_pos st = Except.ok sw →
        sw.failed = false ∧ sw.regs.heap = st.heap ∧ sw.regs.trace = st.trace ∧
        sw.regs.frame.in_arg_cvalues c_arg_pos = GArgument.null ∧
        (0 ≤ arg_info.destroy →
          sw.regs.frame.in_arg_cvalues (c_pos_of is_method arg_info.destroy).toNat =
            GArgument.null) ∧
        (0 ≤ arg_info.closure →
          sw.regs.frame.in_arg_cvalues (c_pos_of is_method arg_info.closure).toNat =
            GArgument.null)) ∧
      ((∀ pos, pos = arg_info.destroy ∨ pos = arg_info.closure → 0 ≤ pos →
          function.param_types.get? pos.toNat = some GjsParamType.PARAM_SKIPPED ∧
          (c_pos_of is_method pos).toNat < c_argc) →
        ∃ sw, marshal_callback env function args c_argc is_method arg_info c_arg_pos
          js_arg_pos st = Except.ok sw)) ∧
    (current_arg.isNull = true → arg_info.may_be_null = false →
      marshal_callback env function args c_argc is_method arg_info c_arg_pos js_arg_pos st =
        Except.ok { regs := st.log (Event.gjs_throw Thrown.expected_function_for_callback)
                    failed := true, arg_removed := false }) ∧
    (current_arg.isNull = false → current_arg.isFunction = false →
      marshal_callback env function args c_argc is_method arg_info c_arg_pos js_arg_pos st =
        Except.ok { regs := st.log (Event.gjs_throw Thrown.expected_function_for_callback)
                    failed := true, arg_removed := false }) := by
  refine ⟨fun hn hm => ⟨?_, ?_⟩, fun hn hm => ?_, fun hn hf => ?_⟩
  · intro sw h
    unfold marshal_callback at h
    simp only [harg, hn, hm, and_self, if_true] at h
    split at h
    · exact absurd h (by simp)
    · rename_i st1 h1
      simp only [Except.ok.injEq] at h
      subst h
      obtain ⟨a, b, c, d, e⟩ := wire_callback_null _ _ _ _ _ _ _ h1
      exact ⟨rfl, a, b, c, d, e⟩
  · intro hs
    unfold marshal_callback
    simp only [harg, hn, hm, and_self, if_true]
    obtain ⟨st1, h1⟩ := store_sibling_returns function c_argc is_method arg_info.destroy
      GArgument.null st (hs _ (Or.inl rfl))
    obtain ⟨st2, h2⟩ := store_sibling_returns function c_argc is_method arg_info.closure
      GArgument.null st1 (hs _ (Or.inr rfl))
    simp [wire_callback, h1, h2]
  · have hf : current_arg.isFunction = false := by
      cases current_arg <;> simp_all [JSValue.isNull, JSValue.isFunction]
    rw [List.get?_eq_getElem?] at harg
    unfold marshal_callback
    simp [harg, hm, hf]
  · rw [List.get?_eq_getElem?] at harg
    unfold marshal_callback
    simp [harg, hn, hf]

/-- Witness for C10: null handed to the nullable callback of
`nullable_callback_function` is accepted and nulls the slots 0, 1 and 2. -/
theorem callback_null_accepted_iff_nullable_witness :
    ∃ sw, marshal_callback (sample_env quiet_native) nullable_callback_function
        [JSValue.null] 3 false nullable_callback_arg 0 0 Regs.fresh = Except.ok sw ∧
      sw.failed = false ∧ sw.regs.heap = Regs.fresh.heap ∧
      sw.regs.frame.in_arg_cvalues 0 = GArgument.null ∧
      sw.regs.frame.in_arg_cvalues 2 = GArgument.null ∧
      sw.regs.frame.in_arg_cvalues 1 = GArgument.null := by
  have h := callback_null_accepted_iff_nullable (sample_env quiet_native)
    nullable_callback_function [JSValue.null] 3 false nullable_callback_arg 0 0 Regs.fresh
    JSValue.null rfl
  obtain ⟨sw, hsw⟩ := (h.1 rfl rfl).2 (by
    intro pos hpos _
    rcases hpos with rfl | rfl <;> decide)
  obtain ⟨a, b, _, c, d, e⟩ := (h.1 rfl rfl).1 sw hsw
  exact ⟨sw, hsw, a, b, c, d (by decide), e (by decide)⟩

/-- Claim C9, evaluated: `callback_block_int_function scope` is called with a
script function and a string where an integer is expected, so marshaling
fails at the last parameter, after a trampoline was created for the callback
and a block was allocated for the caller-allocates out parameter.  When the
call has returned `false`, the trampoline of a `NOTIFIED` or `ASYNC` callback
still has count 1 and is not freed (only the `CALL` one reached zero), and
the block is not freed in any of the three cases. -/
theorem marshal_failure_leaves_trampoline_and_block :
    (∀ scope, init_cached_function_data (some (prepared_cif_nargs (callback_block_int_info scope)))
      (callback_block_int_info scope) = some (callback_block_int_function scope)) ∧
    (∃ r, gjs_invoke_c_function (sample_env quiet_native)
        (callback_block_int_function GIScopeType.NOTIFIED) JSValue.undefined
        [JSValue.function 7, JSValue.string "x"] (some JSValue.undefined) false {} =
          Except.ok r ∧
      r.ok = false ∧ r.locals.path = Path.marshal_failed ∧
      r.heap.trampoline_counts = [(1, false)] ∧
      r.heap.slices = [{ size := 16, freed := false }]) ∧
    (∃ r, gjs_invoke_c_function (sample_env quiet_native)
        (callback_block_int_function GIScopeType.ASYNC) JSValue.undefined
        [JSValue.function 7, JSValue.string "x"] (some JSValue.undefined) false {} =
          Except.ok r ∧
      r.ok = false ∧ r.locals.path = Path.marshal_failed ∧
      r.heap.trampoline_counts = [(1, false)] ∧
      r.heap.slices = [{ size := 16, freed := false }]) ∧
    (∃ r, gjs_invoke_c_function (sample_env quiet_native)
        (callback_block_int_function GIScopeType.CALL) JSValue.undefined
        [JSValue.function 7, JSValue.string "x"] (some JSValue.undefined) false {} =
          Except.ok r ∧
      r.ok = false ∧ r.locals.path = Path.marshal_failed ∧
      r.heap.trampoline_counts = [(0, true)] ∧
      r.heap.slices = [{ size := 16, freed := false }]) :=
  ⟨fun scope => by cases scope <;> decide, ⟨_, rfl, rfl, rfl, rfl, rfl⟩,
    ⟨_, rfl, rfl, rfl, rfl, rfl⟩, ⟨_, rfl, rfl, rfl, rfl, rfl⟩⟩

/-- Claim C2, evaluated: `shared_length_info` is classified with
`expected_js_argc = 1` although its two arrays each take a script argument.
Called with three script arguments, `gjs_invoke_c_function` succeeds and
converts the first two of them (each followed by its length); called with
that list truncated to its first `expected_js_argc` elements it reads
`args[1]` outside the list. -/
theorem extra_arguments_used_beyond_expected_js_argc :
    init_cached_function_data (some (prepared_cif_nargs shared_length_info))
      shared_length_info = some shared_length_function ∧
    shared_length_function.expected_js_argc = 1 ∧
    (∃ r, gjs_invoke_c_function (sample_env quiet_native) shared_length_function
        JSValue.undefined three_script_args (some JSValue.undefined) false {} = Except.ok r ∧
      r.ok = true ∧
      r.trace.filterMap Event.script_input =
        [JSValue.array [JSValue.int32 1], JSValue.int32 1,
         JSValue.array [JSValue.int32 2, JSValue.int32 3], JSValue.int32 2]) ∧
    gjs_invoke_c_function (sample_env quiet_native) shared_length_function
      JSValue.undefined (three_script_args.take shared_length_function.expected_js_argc)
      (some JSValue.undefined) false {} = Except.error Fault.crash :=
  ⟨by decide, rfl, ⟨_, rfl, rfl, rfl⟩, rfl⟩

/-- A trace extends itself. -/
theorem TraceExt.refl (P : Event → Bool) (t : List Event) : TraceExt P t t :=
  ⟨[], by simp, by simp⟩

/-- Logging one event that satisfies `P` extends the trace. -/
theorem TraceExt.log {P : Event → Bool} {e : Event} (t : List Event) (h : P e = true) :
    TraceExt P t (t ++ [e]) :=
  ⟨[e], rfl, by simpa using h⟩

/-- Extensions compose. -/
theorem TraceExt.trans {P : Event → Bool} {t1 t2 t3 : List Event} (h12 : TraceExt P t1 t2)
    (h23 : TraceExt P t2 t3) : TraceExt P t1 t3 := by
  obtain ⟨n1, rfl, h1⟩ := h12
  obtain ⟨n2, rfl, h2⟩ := h23
  refine ⟨n1 ++ n2, by simp, ?_⟩
  intro e he
  rcases List.mem_append.1 he with h | h
  · exact h1 e h
  · exact h2 e h

/-- An extension by events of one kind is an extension by events of any
wider kind. -/
theorem TraceExt.mono {P Q : Event → Bool} {t t' : List Event} (h : TraceExt P t t')
    (hPQ : ∀ e, P e = true → Q e = true) : TraceExt Q t t' := by
  obtain ⟨n, rfl, h1⟩ := h
  exact ⟨n, rfl, fun e he => hPQ e (h1 e he)⟩

/-- An extension followed by one more event that satisfies `P`. -/
theorem TraceExt.snoc {P : Event → Bool} {e : Event} {t t' : List Event} (h : TraceExt P t t')
    (he : P e = true) : TraceExt P t (t' ++ [e]) :=
  h.trans (TraceExt.log t' he)

/-- An extension of a trace extended by one event. -/
theorem TraceExt.cons {P : Event → Bool} {e : Event} {t t' : List Event} (he : P e = true)
    (h : TraceExt P (t ++ [e]) t') : TraceExt P t t' :=
  (TraceExt.log t he).trans h

/-- What an extension keeps true of every event. -/
theorem TraceExt.forall {P Q : Event → Bool} {t t' : List Event} (h : TraceExt P t t')
    (ht : ∀ e ∈ t, Q e = true) (hPQ : ∀ e, P e = true → Q e = true) :
    ∀ e ∈ t', Q e = true := by
  obtain ⟨n, rfl, h1⟩ := h
  intro e he
  rcases List.mem_append.1 he with h | h
  · exact ht e h
  · exact hPQ e (h1 e h)

/-- The out branch logs marshaling steps only. -/
theorem marshal_out_trace (arg_info : GIArgInfo) (c_arg_pos : Nat) (st : Regs) :
    TraceExt Event.is_marshal_step st.trace (marshal_out arg_info c_arg_pos st).1.trace := by
  unfold marshal_out
  simp only []
  split_ifs
  · exact (TraceExt.refl _ _).snoc (by rfl)
  · exact (TraceExt.refl _ _).snoc (by rfl)
  · exact TraceExt.refl _ _

/-- A sibling store logs nothing. -/
theorem store_sibling_trace (function : Function) (c_argc : Nat) (is_method : Bool) (pos : Int)
    (v : GArgument) (st st1 : Regs)
    (h : store_sibling function c_argc is_method pos v st = Except.ok st1) :
    st1.trace = st.trace ∧ st1.heap = st.heap := by
  rcases store_sibling_ok _ _ _ _ _ _ _ h with ⟨_, rfl⟩ | ⟨_, _, _, rfl⟩ <;> exact ⟨rfl, rfl⟩

/-- Wiring a callback logs marshaling steps only. -/
theorem wire_callback_trace (function : Function) (c_argc : Nat) (is_method : Bool)
    (arg_info : GIArgInfo) (c_arg_pos : Nat) (trampoline : Option Nat) (st st1 : Regs)
    (h : wire_callback function c_argc is_method arg_info c_arg_pos trampoline st =
      Except.ok st1) :
    TraceExt Event.is_marshal_step st.trace st1.trace := by
  unfold wire_callback at h
  split at h
  · exact absurd h (by simp)
  · rename_i st2 h2
    split at h
    · exact absurd h (by simp)
    · rename_i st3 h3
      simp only [Except.ok.injEq] at h
      subst h
      have e2 := (store_sibling_trace _ _ _ _ _ _ _ h2).1
      have e3 := (store_sibling_trace _ _ _ _ _ _ _ h3).1
      cases trampoline with
      | none => simp only [Regs.set_in_trace, e3, e2]; exact TraceExt.refl _ _
      | some id =>
        simp only [Regs.set_in_trace]
        split
        · simp only [Regs.log_trace, e3, e2]; exact (TraceExt.refl _ _).snoc (by rfl)
        · simp only [e3, e2]; exact TraceExt.refl _ _

/-- Creating a trampoline logs marshaling steps only. -/
theorem gjs_callback_trampoline_new_events (heap : Heap) (function : JSValue)
    (callable_info : GICallableInfo) (scope : GIScopeType) (is_vfunc : Bool)
    (made : TrampolineNew)
    (h : gjs_callback_trampoline_new heap function callable_info scope is_vfunc =
      Except.ok made) :
    ∀ e ∈ made.events, e.is_marshal_step = true := by
  unfold gjs_callback_trampoline_new at h
  split at h
  · simp only [Except.ok.injEq] at h; subst h; simp
  · simp only at h
    split at h <;> (simp only [Except.ok.injEq] at h; subst h; simp [Event.is_marshal_step])
  · exact absurd h (by simp)

/-- The callback case logs marshaling steps only. -/
theorem marshal_callback_trace (env : Env) (function : Function) (args : List JSValue)
    (c_argc : Nat) (is_method : Bool) (arg_info : GIArgInfo) (c_arg_pos js_arg_pos : Nat)
    (st : Regs) (sw : Switched)
    (h : marshal_callback env function args c_argc is_method arg_info c_arg_pos js_arg_pos st =
      Except.ok sw) :
    TraceExt Event.is_marshal_step st.trace sw.regs.trace := by
  unfold marshal_callback at h
  split at h
  · exact absurd h (by simp)
  · split at h
    · split at h
      · exact absurd h (by simp)
      · rename_i st1 h1
        simp only [Except.ok.injEq] at h; subst h
        exact wire_callback_trace _ _ _ _ _ _ _ _ h1
    · split at h
      · simp only [Except.ok.injEq] at h; subst h
        exact (TraceExt.refl _ _).snoc (by rfl)
      · simp only at h
        split at h
        · exact absurd h (by simp)
        · rename_i made hmade
          split at h
          · exact absurd h (by simp)
          · split at h
            · exact absurd h (by simp)
            · rename_i st2 h2
              simp only [Except.ok.injEq] at h; subst h
              exact TraceExt.trans
                ⟨made.events, rfl, gjs_callback_trampoline_new_events _ _ _ _ _ _ hmade⟩
                (wire_callback_trace _ _ _ _ _ _ _ _ h2)

/-- The array case logs marshaling steps only. -/
theorem marshal_array_trace (env : Env) (function : Function) (args : List JSValue)
    (c_argc : Nat) (is_method : Bool) (arg_info : GIArgInfo) (c_arg_pos js_arg_pos : Nat)
    (st : Regs) (sw : Switched)
    (h : marshal_array env function args c_argc is_method arg_info c_arg_pos js_arg_pos st =
      Except.ok sw) :
    TraceExt Event.is_marshal_step st.trace sw.regs.trace := by
  unfold marshal_array at h
  split at h
  · exact absurd h (by simp)
  · simp only at h
    split at h
    · simp only [Except.ok.injEq] at h; subst h
      exact (TraceExt.refl _ _).snoc (by rfl)
    · split at h
      · exact absurd h (by simp)
      · split at h
        · exact absurd h (by simp)
        · split at h
          · simp only [Except.ok.injEq] at h; subst h
            exact ((TraceExt.refl _ _).snoc (by rfl)).snoc (by rfl)
          · simp only [Except.ok.injEq] at h; subst h
            simp only []
            split_ifs <;> exact ((TraceExt.refl _ _).snoc (by rfl)).snoc (by rfl)

/-- The normal case logs marshaling steps only. -/
theorem marshal_normal_trace (env : Env) (args : List JSValue) (arg_info : GIArgInfo)
    (c_arg_pos js_arg_pos : Nat) (st : Regs) (sw : Switched)
    (h : marshal_normal env args arg_info c_arg_pos js_arg_pos st = Except.ok sw) :
    TraceExt Event.is_marshal_step st.trace sw.regs.trace := by
  unfold marshal_normal at h
  split at h
  · exact absurd h (by simp)
  · simp only at h
    split at h <;> (simp only [Except.ok.injEq] at h; subst h; exact (TraceExt.refl _ _).snoc (by rfl))

/-- The switch logs marshaling steps only. -/
theorem marshal_switch_trace (env : Env) (function : Function) (args : List JSValue)
    (c_argc : Nat) (is_method : Bool) (param_type : GjsParamType) (arg_info : GIArgInfo)
    (c_arg_pos js_arg_pos : Nat) (st : Regs) (sw : Switched)
    (h : marshal_switch env function args c_argc is_method param_type arg_info c_arg_pos
      js_arg_pos st = Except.ok sw) :
    TraceExt Event.is_marshal_step st.trace sw.regs.trace := by
  unfold marshal_switch at h
  cases param_type with
  | PARAM_CALLBACK => exact marshal_callback_trace _ _ _ _ _ _ _ _ _ _ h
  | PARAM_SKIPPED =>
    simp only [Except.ok.injEq] at h; subst h; exact TraceExt.refl _ _
  | PARAM_ARRAY => exact marshal_array_trace _ _ _ _ _ _ _ _ _ _ h
  | PARAM_NORMAL => exact marshal_normal_trace _ _ _ _ _ _ _ h

/-- One iteration of the marshaling loop logs its head and then marshaling
steps only. -/
theorem marshal_arg_trace (env : Env) (function : Function) (args : List JSValue)
    (c_argc : Nat) (is_method : Bool) (arg_info : GIArgInfo)
    (gi_arg_pos c_arg_pos js_arg_pos : Nat) (st : Regs) (r : Stepped)
    (h : marshal_arg env function args c_argc is_method arg_info gi_arg_pos c_arg_pos
      js_arg_pos st = Except.ok r) :
    TraceExt Event.is_marshal_step
      (st.trace ++ [Event.marshal_arg gi_arg_pos c_arg_pos js_arg_pos]) r.regs.trace := by
  unfold marshal_arg at h
  simp only at h
  split at h
  · exact absurd h (by simp)
  · split at h
    · simp only [Except.ok.injEq] at h; subst h
      exact marshal_out_trace _ _ _
    · split at h
      · exact absurd h (by simp)
      · split at h
        · exact absurd h (by simp)
        · rename_i sw hsw
          simp only [Except.ok.injEq] at h; subst h
          have := marshal_switch_trace _ _ _ _ _ _ _ _ _ _ _ hsw
          simp only
          split
          · simpa using this
          · simpa using this

/-- A marshaling step is a marshaling event for any range of indices. -/
theorem Event.marshal_ok_of_step (lo hi : Nat) (e : Event) (h : e.is_marshal_step = true) :
    e.marshal_ok lo hi = true := by
  cases e <;> simp_all [Event.is_marshal_step, Event.marshal_ok]

/-- Widening the range of indices keeps a marshaling event one. -/
theorem Event.marshal_ok_mono {lo hi lo' hi' : Nat} (hlo : lo' ≤ lo) (hhi : hi ≤ hi')
    (e : Event) (h : e.marshal_ok lo hi = true) : e.marshal_ok lo' hi' = true := by
  cases e
  case marshal_arg g c j => simp_all [Event.marshal_ok]; omega
  all_goals simp_all [Event.marshal_ok]

/-- The marshaling loop over the parameters `l`, started at index
`gi_arg_pos`: it stops after `k` complete iterations, all of `l` when it did
not fail and fewer when it failed; the three position counters advanced by
`k`; and the trace grew by marshaling events for indices up to the one where
it stopped. -/
theorem marshal_loop_spec (env : Env) (function : Function) (args : List JSValue)
    (c_argc : Nat) (is_method : Bool) (l : List GIArgInfo)
    (gi_arg_pos c_arg_pos js_arg_pos processed_c_args : Nat) (st : Regs) (m : Marshaled)
    (h : marshal_loop env function args c_argc is_method l gi_arg_pos c_arg_pos js_arg_pos
      processed_c_args st = Except.ok m) :
    ∃ k, k ≤ l.length ∧ m.gi_arg_pos = gi_arg_pos + k ∧ m.c_arg_pos = c_arg_pos + k ∧
      m.processed_c_args = processed_c_args + k ∧
      (m.failed = false → k = l.length) ∧ (m.failed = true → k < l.length) ∧
      TraceExt (Event.marshal_ok gi_arg_pos (gi_arg_pos + k + 1)) st.trace m.regs.trace := by
  induction l generalizing gi_arg_pos c_arg_pos js_arg_pos processed_c_args st with
  | nil =>
    simp only [marshal_loop, Except.ok.injEq] at h
    subst h
    exact ⟨0, by simp, rfl, rfl, rfl, by simp, by simp, TraceExt.refl _ _⟩
  | cons a rest ih =>
    simp only [marshal_loop] at h
    split at h
    · exact absurd h (by simp)
    · rename_i r hr
      have hstep := marshal_arg_trace _ _ _ _ _ _ _ _ _ _ _ hr
      have hhead : TraceExt (Event.marshal_ok gi_arg_pos (gi_arg_pos + 1)) st.trace
          r.regs.trace :=
        TraceExt.cons (by simp [Event.marshal_ok])
          (hstep.mono (Event.marshal_ok_of_step _ _))
      split at h
      · simp only [Except.ok.injEq] at h
        subst h
        exact ⟨0, by simp, rfl, rfl, rfl, by simp, by simp, hhead⟩
      · obtain ⟨k, hk, h1, h2, h3, h4, h5, h6⟩ := ih _ _ _ _ _ h
        refine ⟨k + 1, by simp; omega, by omega, by omega, by omega, ?_, ?_, ?_⟩
        · intro hf; simp [h4 hf]
        · intro hf; have := h5 hf; simp; omega
        · exact (hhead.mono (Event.marshal_ok_mono (le_refl _) (by omega))).trans
            (h6.mono (Event.marshal_ok_mono (by omega) (by omega)))

/-- Nothing new extends a trace with no release and the flag unchanged. -/
theorem ReleaseExt.same (env : Env) (P : Event → Bool) (t : List Event) (pf : Bool) :
    ReleaseExt env P t t [] pf pf :=
  ⟨[], by simp, by simp, by simp, by simp⟩

/-- Release extensions compose. -/
theorem ReleaseExt.chain {env : Env} {P : Event → Bool} {t1 t2 t3 : List Event}
    {s1 s2 : List Slot} {p1 p2 p3 : Bool} (h12 : ReleaseExt env P t1 t2 s1 p1 p2)
    (h23 : ReleaseExt env P t2 t3 s2 p2 p3) : ReleaseExt env P t1 t3 (s1 ++ s2) p1 p3 := by
  obtain ⟨n1, rfl, h1, rfl, rfl⟩ := h12
  obtain ⟨n2, rfl, h2, rfl, rfl⟩ := h23
  refine ⟨n1 ++ n2, by simp, ?_, by simp, by simp [Bool.or_assoc]⟩
  intro e he
  rcases List.mem_append.1 he with h | h
  · exact h1 e h
  · exact h2 e h

/-- A release extension by events of one kind is one by any wider kind. -/
theorem ReleaseExt.widen {env : Env} {P Q : Event → Bool} {t t' : List Event} {s : List Slot}
    {p p' : Bool} (h : ReleaseExt env P t t' s p p') (hPQ : ∀ e, P e = true → Q e = true) :
    ReleaseExt env Q t t' s p p' := by
  obtain ⟨n, rfl, h1, rfl, rfl⟩ := h
  exact ⟨n, rfl, fun e he => hPQ e (h1 e he), rfl, rfl⟩

/-- One logged event as a release extension. -/
theorem ReleaseExt.one (env : Env) {P : Event → Bool} (t : List Event) (e : Event) (pf : Bool)
    (h : P e = true) :
    ReleaseExt env P t (t ++ [e]) (e.in_release_slot.toList) pf (pf || e.step_failed env) := by
  refine ⟨[e], rfl, by simpa using h, ?_, by simp⟩
  cases h' : e.in_release_slot <;> simp [List.filterMap, h']

/-- First half of a release iteration: it leaves the output registers and the
out cells alone, logs in-release events only, releases exactly the cell of an
`IN`/`INOUT` parameter tagged normal or array, and raises the failure flag
exactly when that release failed. -/
theorem release_in_spec (env : Env) (function : Function) (c_argc : Nat) (is_method : Bool)
    (arg_info : GIArgInfo) (param_type : GjsParamType) (c_arg_pos : Nat) (r r1 : Releasing)
    (h : release_in env function c_argc is_method arg_info param_type c_arg_pos r =
      Except.ok r1) :
    r1.return_values = r.return_values ∧ r1.next_rval = r.next_rval ∧
    r1.regs.frame.out_arg_cvalues = r.regs.frame.out_arg_cvalues ∧
    ReleaseExt env Event.is_in_release r.regs.trace r1.regs.trace
      (if is_released_input arg_info param_type then [in_release_source arg_info c_arg_pos]
       else [])
      r.postinvoke_release_failed r1.postinvoke_release_failed := by
  unfold release_in at h
  simp only [] at h
  split at h
  · rename_i hdir
    cases param_type with
    | PARAM_CALLBACK =>
      simp only at h
      split at h
      · rename_i id _
        simp only [Except.ok.injEq] at h; subst h
        refine ⟨rfl, rfl, by split <;> rfl, [Event.trampoline_unref id], by split <;> rfl, ?_, ?_, ?_⟩
        · simp [Event.is_in_release]
        · simp [Event.in_release_slot, is_released_input]
        · simp [Event.step_failed]
      · split_ifs at h <;>
        (simp only [Except.ok.injEq] at h; subst h
         refine ⟨rfl, rfl, rfl, ?_⟩
         simpa [is_released_input] using ReleaseExt.same env _ _ _)
    | PARAM_ARRAY =>
      simp only at h
      split at h
      · exact absurd h (by simp)
      · split at h
        · exact absurd h (by simp)
        · split at h
          · exact absurd h (by simp)
          · split at h
            · exact absurd h (by simp)
            · rename_i length _
              simp only [Except.ok.injEq] at h; subst h
              refine ⟨rfl, rfl, rfl, [_], rfl, ?_, ?_, ?_⟩
              · simp [Event.is_in_release]
              · simp [Event.in_release_slot, is_released_input, hdir, in_release_source]
              · simp only [Event.step_failed, List.any_cons, List.any_nil, Bool.or_false]
                cases env.release_in_array _ _ _ _ <;> simp
    | PARAM_NORMAL =>
      simp only [Except.ok.injEq] at h; subst h
      refine ⟨rfl, rfl, rfl, [_], rfl, ?_, ?_, ?_⟩
      · simp [Event.is_in_release]
      · simp [Event.in_release_slot, is_released_input, hdir, in_release_source]
      · simp only [Event.step_failed, List.any_cons, List.any_nil, Bool.or_false]
        cases env.release_in_arg _ _ _ <;> simp
    | PARAM_SKIPPED =>
      simp only [Except.ok.injEq] at h; subst h
      refine ⟨rfl, rfl, rfl, ?_⟩
      simpa [is_released_input] using ReleaseExt.same env _ _ _
  · rename_i hdir
    simp only [Except.ok.injEq] at h; subst h
    refine ⟨rfl, rfl, rfl, ?_⟩
    simpa [is_released_input, hdir] using ReleaseExt.same env _ _ _

/-- The conversion of an out value: the frame and the heap stay, the events
are release steps, a failure is a failed step, and a success stored the
expected value at `next_rval`. -/
theorem convert_out_value_spec (env : Env) (function : Function) (c_argc : Nat)
    (is_method : Bool) (js_rval_given : Bool) (arg_info : GIArgInfo) (c_arg_pos : Nat)
    (r : Releasing) (conv : OutConverted)
    (h : convert_out_value env function c_argc is_method js_rval_given arg_info c_arg_pos r =
      Except.ok conv) :
    conv.regs.frame = r.regs.frame ∧ conv.regs.heap = r.regs.heap ∧
    conv.return_values.length = r.return_values.length ∧
    ReleaseExt env Event.is_release_step r.regs.trace conv.regs.trace [] false
      conv.arg_failed ∧
    (js_rval_given = true → conv.arg_failed = false →
      ∃ v, expected_value env function is_method r.regs.frame.out_arg_cvalues
          arg_info.type_info (r.regs.frame.out_arg_cvalues c_arg_pos) = some v ∧
        conv.return_values = r.return_values.set r.next_rval v) ∧
    (js_rval_given = false → conv.return_values = r.return_values) := by
  unfold convert_out_value at h
  simp only [] at h
  split at h
  · rename_i hjs
    split at h
    · rename_i hlen
      split at h
      · exact absurd h (by simp)
      · rename_i la hla
        split at h
        · exact absurd h (by simp)
        · split at h
          · rename_i hconv
            simp only [Except.ok.injEq] at h; subst h
            refine ⟨rfl, rfl, rfl, ⟨[_], rfl, ?_, ?_, ?_⟩, ?_, ?_⟩
            · simp [Event.is_release_step]
            · simp [Event.in_release_slot]
            · simp [Event.step_failed, hconv]
            · simp
            · simp [hjs]
          · rename_i len hconv
            split at h
            · rename_i hconv2
              simp only [Except.ok.injEq] at h; subst h
              refine ⟨rfl, rfl, rfl, ⟨[_, _], List.append_assoc _ _ _, ?_, ?_, ?_⟩, ?_, ?_⟩
              · simp [Event.is_release_step]
              · simp [Event.in_release_slot]
              · simp [Event.step_failed, hconv, hconv2]
              · simp
              · simp [hjs]
            · rename_i v hconv2
              simp only [Except.ok.injEq] at h; subst h
              refine ⟨rfl, rfl, by simp, ⟨[_, _], List.append_assoc _ _ _, ?_, ?_, ?_⟩, ?_, ?_⟩
              · simp [Event.is_release_step]
              · simp [Event.in_release_slot]
              · simp [Event.step_failed, hconv, hconv2]
              · intro _ _
                exact ⟨v, by simp [expected_value, expected_length, hlen, hla, hconv, hconv2],
                  rfl⟩
              · simp [hjs]
    · rename_i hlen
      split at h
      · rename_i hconv
        simp only [Except.ok.injEq] at h; subst h
        refine ⟨rfl, rfl, rfl, ⟨[_], rfl, ?_, ?_, ?_⟩, ?_, ?_⟩
        · simp [Event.is_release_step]
        · simp [Event.in_release_slot]
        · simp [Event.step_failed, hconv]
        · simp
        · simp [hjs]
      · rename_i v hconv
        simp only [Except.ok.injEq] at h; subst h
        refine ⟨rfl, rfl, by simp, ⟨[_], rfl, ?_, ?_, ?_⟩, ?_, ?_⟩
        · simp [Event.is_release_step]
        · simp [Event.in_release_slot]
        · simp [Event.step_failed, hconv]
        · intro _ _
          exact ⟨v, by simp [expected_value, hlen, hconv], rfl⟩
        · simp [hjs]
  · rename_i hjs
    simp only [Except.ok.injEq] at h; subst h
    refine ⟨rfl, rfl, rfl, ReleaseExt.same env _ _ _, ?_, ?_⟩
    · simp [hjs]
    · simp

/-- Storing at an index in range and taking one element more. -/
theorem List.take_succ_set {α : Type} (l : List α) (n : Nat) (v : α) (h : n < l.length) :
    (l.set n v).take (n + 1) = l.take n ++ [v] := by
  induction l generalizing n with
  | nil => simp at h
  | cons a rest ih =>
    cases n with
    | zero => simp
    | succ k =>
      simp only [List.set_cons_succ, List.take_succ_cons, List.cons_append, List.cons.injEq,
        true_and]
      exact ih k (by simpa using h)

/-- Storing at an index leaves the elements before it. -/
theorem List.take_set_self {α : Type} (l : List α) (n : Nat) (v : α) :
    (l.set n v).take n = l.take n := by
  induction l generalizing n with
  | nil => simp
  | cons a rest ih =>
    cases n with
    | zero => simp
    | succ k => simp [ih k]

/-- A release extension that starts from a lowered flag also holds from any
flag. -/
theorem ReleaseExt.with_flag {env : Env} {P : Event → Bool} {t t' : List Event}
    {s : List Slot} {f : Bool} (h : ReleaseExt env P t t' s false f) (p : Bool) :
    ReleaseExt env P t t' s p (p || f) := by
  obtain ⟨n, rfl, h1, rfl, rfl⟩ := h
  exact ⟨n, rfl, h1, rfl, by simp⟩

/-- An in-release event is a release step. -/
theorem Event.is_release_step_of_in_release (e : Event) (h : e.is_in_release = true) :
    e.is_release_step = true := by
  cases e <;> simp_all [Event.is_release_step, Event.is_in_release]

/-- An in-release event is of the kind of either mode. -/
theorem release_kind_of_in_release (skip : Bool) (e : Event) (h : e.is_in_release = true) :
    release_kind skip e = true := by
  cases skip <;> simp [release_kind, h, Event.is_release_step_of_in_release]

/-- Freeing the block of a caller-allocates parameter keeps the frame and
logs at most the free. -/
theorem free_caller_allocates_spec (env : Env) (arg_info : GIArgInfo) (c_arg_pos : Nat)
    (st st1 : Regs) (pf : Bool)
    (h : free_caller_allocates arg_info c_arg_pos st = Except.ok st1) :
    st1.frame = st.frame ∧ ReleaseExt env Event.is_release_step st.trace st1.trace [] pf pf := by
  unfold free_caller_allocates at h
  simp only [] at h
  split at h
  · split at h
    · exact absurd h (by simp)
    · split at h
      · exact absurd h (by simp)
      · split at h
        · split at h
          · exact absurd h (by simp)
          · simp only [Except.ok.injEq] at h; subst h
            refine ⟨rfl, [_], rfl, ?_, ?_, ?_⟩
            · simp [Event.is_release_step]
            · simp [Event.in_release_slot]
            · simp [Event.step_failed]
        · exact absurd h (by simp)
  · simp only [Except.ok.injEq] at h; subst h
    exact ⟨rfl, ReleaseExt.same env _ _ _⟩

/-- The release of an out value keeps the frame and logs at most the release,
whose result is not looked at. -/
theorem release_out_spec (env : Env) (arg_info : GIArgInfo) (c_arg_pos : Nat)
    (conv : OutConverted) (pf : Bool) :
    (release_out arg_info c_arg_pos conv).frame = conv.regs.frame ∧
    ReleaseExt env Event.is_release_step conv.regs.trace
      (release_out arg_info c_arg_pos conv).trace [] pf pf := by
  unfold release_out
  simp only []
  split_ifs
  · refine ⟨rfl, [_], rfl, ?_, ?_, ?_⟩
    · simp [Event.is_release_step]
    · simp [Event.in_release_slot]
    · simp [Event.step_failed]
  · refine ⟨rfl, [_], rfl, ?_, ?_, ?_⟩
    · simp [Event.is_release_step]
    · simp [Event.in_release_slot]
    · simp [Event.step_failed]
  · exact ⟨rfl, ReleaseExt.same env _ _ _⟩

/-- Second half of a release iteration: the frame stays, `next_rval` advances
by one from below `js_out_argc`, the events are release steps, the failure
flag is raised exactly by a failed conversion, and without failure the
expected value was stored at the old `next_rval`. -/
theorem convert_out_spec (env : Env) (function : Function) (c_argc : Nat) (is_method : Bool)
    (js_rval_given : Bool) (arg_info : GIArgInfo) (c_arg_pos : Nat) (r r1 : Releasing)
    (h : convert_out env function c_argc is_method js_rval_given arg_info c_arg_pos r =
      Except.ok r1) :
    r1.regs.frame = r.regs.frame ∧ r1.next_rval = r.next_rval + 1 ∧
    r.next_rval < function.js_out_argc ∧
    r1.return_values.length = r.return_values.length ∧
    ReleaseExt env Event.is_release_step r.regs.trace r1.regs.trace []
      r.postinvoke_release_failed r1.postinvoke_release_failed ∧
    (js_rval_given = true → r1.postinvoke_release_failed = false →
      ∃ v, expected_value env function is_method r.regs.frame.out_arg_cvalues
          arg_info.type_info (r.regs.frame.out_arg_cvalues c_arg_pos) = some v ∧
        r1.return_values = r.return_values.set r.next_rval v) ∧
    (js_rval_given = false → r1.return_values = r.return_values) := by
  unfold convert_out at h
  split at h
  · exact absurd h (by simp)
  · rename_i hlt
    split at h
    · exact absurd h (by simp)
    · rename_i conv hconv
      split at h
      · exact absurd h (by simp)
      · rename_i st3 hfree
        simp only [Except.ok.injEq] at h; subst h
        obtain ⟨c1, _, c3, c4, c5, c6⟩ := convert_out_value_spec _ _ _ _ _ _ _ _ _ hconv
        have o := release_out_spec env arg_info c_arg_pos conv
          (r.postinvoke_release_failed || conv.arg_failed)
        obtain ⟨f1, f2⟩ := free_caller_allocates_spec env _ _ _ _
          (r.postinvoke_release_failed || conv.arg_failed) hfree
        refine ⟨by rw [f1, o.1, c1], rfl, by omega, c3, ?_, ?_, c6⟩
        · have hflag : (if conv.arg_failed = true then true else r.postinvoke_release_failed) =
              (r.postinvoke_release_failed || conv.arg_failed) := by
            cases conv.arg_failed <;> simp
          simp only [hflag]
          simpa using ((c4.with_flag r.postinvoke_release_failed).chain o.2).chain f2
        · intro hjs hpf
          have : conv.arg_failed = false := by
            cases hc : conv.arg_failed
            · rfl
            · simp [hc] at hpf
          exact c5 hjs this

/-- One iteration of the release loop.  It reads the tag of the parameter;
the out cells and the length of `return_values` stay; the events are of the
kind of the mode, the in-argument released is the one expected for the
parameter, and the failure flag is raised exactly by a failed step.  When the
call threw or failed nothing is converted; otherwise a script output advances
`next_rval` by one from below `js_out_argc` and, with `js_rval` given and no
failure, stores its expected value there. -/
theorem release_arg_spec (env : Env) (function : Function) (c_argc : Nat) (is_method : Bool)
    (js_rval_given did_throw_gerror failed : Bool) (arg_info : GIArgInfo)
    (gi_arg_pos c_arg_pos : Nat) (r r1 : Releasing)
    (h : release_arg env function c_argc is_method js_rval_given did_throw_gerror failed
      arg_info gi_arg_pos c_arg_pos r = Except.ok r1) :
    ∃ param_type, function.param_types.get? gi_arg_pos = some param_type ∧
      r1.regs.frame.out_arg_cvalues = r.regs.frame.out_arg_cvalues ∧
      r1.return_values.length = r.return_values.length ∧
      ReleaseExt env (release_kind (did_throw_gerror || failed)) r.regs.trace r1.regs.trace
        (if is_released_input arg_info param_type then [in_release_source arg_info c_arg_pos]
         else [])
        r.postinvoke_release_failed r1.postinvoke_release_failed ∧
      ((did_throw_gerror || failed) = true →
        r1.return_values = r.return_values ∧ r1.next_rval = r.next_rval) ∧
      ((did_throw_gerror || failed) = false →
        if is_script_output function gi_arg_pos arg_info then
          r1.next_rval = r.next_rval + 1 ∧ r.next_rval < function.js_out_argc ∧
          (js_rval_given = true → r1.postinvoke_release_failed = false →
            ∃ v, expected_value env function is_method r.regs.frame.out_arg_cvalues
                arg_info.type_info (r.regs.frame.out_arg_cvalues c_arg_pos) = some v ∧
              r1.return_values = r.return_values.set r.next_rval v)
        else r1.next_rval = r.next_rval ∧ r1.return_values = r.return_values) := by
  unfold release_arg at h
  split at h
  · exact absurd h (by simp)
  · rename_i param_type hpt
    split at h
    · exact absurd h (by simp)
    · rename_i r0 hin
      obtain ⟨i1, i2, i3, i4⟩ := release_in_spec _ _ _ _ _ _ _ _ _ hin
      refine ⟨param_type, hpt, ?_⟩
      split at h
      · rename_i hskip
        simp only [Except.ok.injEq] at h; subst h
        have hs : (did_throw_gerror || failed) = true := by simpa using hskip
        refine ⟨i3, by rw [i1], i4.widen (release_kind_of_in_release _), fun _ => ⟨i1, i2⟩, ?_⟩
        intro hn; simp [hs] at hn
      · rename_i hskip
        have hs : (did_throw_gerror || failed) = false := by
          cases did_throw_gerror <;> cases failed <;> simp_all
        split at h
        · rename_i hout
          obtain ⟨o1, o2, o3, o4, o5, o6, _⟩ := convert_out_spec _ _ _ _ _ _ _ _ _ h
          have hpt' := hpt
          rw [List.get?_eq_getElem?] at hpt'
          have hso : is_script_output function gi_arg_pos arg_info = true := by
            simp [is_script_output, hout.1, hpt', hout.2]
          refine ⟨by rw [o1, i3], by rw [o4, i1], ?_, fun hn => by simp [hs] at hn, fun _ => ?_⟩
          · have := (i4.widen (release_kind_of_in_release (did_throw_gerror || failed))).chain
              (o5.widen (fun e he => by simpa [release_kind, hs] using he))
            simpa using this
          · rw [if_pos hso]
            refine ⟨by omega, by omega, fun hjs hpf => ?_⟩
            obtain ⟨v, hv, hrv⟩ := o6 hjs hpf
            exact ⟨v, by rw [← i3]; exact hv, by rw [hrv, i1, i2]⟩
        · rename_i hout
          simp only [Except.ok.injEq] at h; subst h
          have hpt' := hpt
          rw [List.get?_eq_getElem?] at hpt'
          have hso : is_script_output function gi_arg_pos arg_info = false := by
            simp only [not_and_or, not_not] at hout
            rcases hout with h1 | h1
            · simp [is_script_output, h1]
            · simp [is_script_output, hpt', h1]
          refine ⟨i3, by rw [i1], i4.widen (release_kind_of_in_release _),
            fun hn => by simp [hs] at hn, fun _ => ?_⟩
          simp [hso, i1, i2]

/-- The release loop over the parameters `l`, started at frame position
`c_arg_pos` not beyond `processed_c_args`: it visits the first
`n = min (length l) (processed_c_args - c_arg_pos)` of them and stops at
position `c_arg_pos + n`; the out cells and the length of `return_values`
stay; the events are of the kind of the mode, the in-arguments released are
exactly those expected for the visited parameters, in order, and the failure
flag is raised exactly by a failed step.  When the call threw or failed no
output is touched; otherwise, with `js_rval` given and the flag still down,
the expected values of the visited script outputs were stored from
`next_rval` on. -/
theorem release_loop_spec (env : Env) (function : Function) (c_argc : Nat) (is_method : Bool)
    (js_rval_given did_throw_gerror failed : Bool) (processed_c_args : Nat)
    (l : List GIArgInfo) (gi_arg_pos c_arg_pos : Nat) (r r1 : Releasing) (c_end : Nat)
    (h : release_loop env function c_argc is_method js_rval_given did_throw_gerror failed
      processed_c_args l gi_arg_pos c_arg_pos r = Except.ok (r1, c_end))
    (hc : c_arg_pos ≤ processed_c_args) :
    c_end = c_arg_pos + min l.length (processed_c_args - c_arg_pos) ∧
    r1.regs.frame.out_arg_cvalues = r.regs.frame.out_arg_cvalues ∧
    r1.return_values.length = r.return_values.length ∧
    ReleaseExt env (release_kind (did_throw_gerror || failed)) r.regs.trace r1.regs.trace
      (expected_in_releases function (l.take (processed_c_args - c_arg_pos)) gi_arg_pos
        c_arg_pos)
      r.postinvoke_release_failed r1.postinvoke_release_failed ∧
    ((did_throw_gerror || failed) = true →
      r1.return_values = r.return_values ∧ r1.next_rval = r.next_rval) ∧
    ((did_throw_gerror || failed) = false → js_rval_given = true →
      r1.postinvoke_release_failed = false →
      r.return_values.length = function.js_out_argc →
      r.next_rval ≤ function.js_out_argc →
      ∃ outs, out_param_outputs env function is_method r.regs.frame.out_arg_cvalues
          (l.take (processed_c_args - c_arg_pos)) gi_arg_pos c_arg_pos = outs.map some ∧
        r1.next_rval = r.next_rval + outs.length ∧ r1.next_rval ≤ function.js_out_argc ∧
        r1.return_values.take r1.next_rval = r.return_values.take r.next_rval ++ outs) := by
  induction l generalizing gi_arg_pos c_arg_pos r with
  | nil =>
    simp only [release_loop, Except.ok.injEq, Prod.mk.injEq] at h
    obtain ⟨rfl, rfl⟩ := h
    refine ⟨by simp, rfl, rfl, by simpa [expected_in_releases] using ReleaseExt.same env _ _ _,
      fun _ => ⟨rfl, rfl⟩, fun _ _ _ _ hn => ⟨[], by simp [out_param_outputs], by simp, hn,
        by simp⟩⟩
  | cons a rest ih =>
    simp only [release_loop] at h
    split at h
    · rename_i hlt
      split at h
      · exact absurd h (by simp)
      · rename_i r0 hstep
        obtain ⟨pt, hpt, s1, s2, s3, s4, s5⟩ := release_arg_spec _ _ _ _ _ _ _ _ _ _ _ _ hstep
        obtain ⟨t1, t2, t3, t4, t5, t6⟩ := ih _ _ _ h (by omega)
        have hk : processed_c_args - c_arg_pos = (processed_c_args - (c_arg_pos + 1)) + 1 := by
          omega
        refine ⟨?_, by rw [t2, s1], by rw [t3, s2], ?_, ?_, ?_⟩
        · rw [t1]; simp only [List.length_cons]; omega
        · rw [hk, List.take_succ_cons]
          simp only [expected_in_releases, hpt]
          exact s3.chain t4
        · intro hs
          obtain ⟨a1, a2⟩ := s4 hs
          obtain ⟨b1, b2⟩ := t5 hs
          exact ⟨by rw [b1, a1], by rw [b2, a2]⟩
        · intro hs hjs hpf hlen hn
          have hpf0 : r0.postinvoke_release_failed = false := by
            obtain ⟨n, _, _, _, hflag⟩ := t4
            rw [hpf] at hflag
            cases hx : r0.postinvoke_release_failed
            · rfl
            · simp [hx] at hflag
          have s5' := s5 hs
          rw [hk, List.take_succ_cons]
          simp only [out_param_outputs]
          by_cases hso : is_script_output function gi_arg_pos a = true
          · rw [if_pos hso] at s5'
            obtain ⟨e1, e2, e3⟩ := s5'
            obtain ⟨v, hv, hrv⟩ := e3 hjs hpf0
            obtain ⟨outs, g1, g2, g3, g4⟩ := t6 hs hjs hpf (by rw [s2, hlen]) (by omega)
            refine ⟨v :: outs, ?_, ?_, g3, ?_⟩
            · rw [if_pos hso, s1] at *
              simp [hv, g1]
            · rw [g2, e1]; simp only [List.length_cons]; omega
            · rw [g4, e1, hrv, List.take_succ_set _ _ _ (by omega)]
              simp
          · rw [if_neg hso] at s5'
            obtain ⟨e1, e2⟩ := s5'
            obtain ⟨outs, g1, g2, g3, g4⟩ := t6 hs hjs hpf (by rw [s2, hlen]) (by omega)
            refine ⟨outs, ?_, by rw [g2, e1], g3, by rw [g4, e1, e2]⟩
            rw [if_neg hso, s1] at *
            simpa using g1
    · rename_i hlt
      simp only [Except.ok.injEq, Prod.mk.injEq] at h
      obtain ⟨rfl, rfl⟩ := h
      have hz : processed_c_args - c_arg_pos = 0 := by omega
      rw [hz]
      refine ⟨by simp, rfl, rfl, by simpa [expected_in_releases] using ReleaseExt.same env _ _ _,
        fun _ => ⟨rfl, rfl⟩, fun _ _ _ _ hn => ⟨[], by simp [out_param_outputs], by simp, hn,
          by simp⟩⟩

/-- The conversions of the return value: the frame and the heap stay, the
events are release steps, a failure is a failed step, and with `js_rval`
given a success stored the expected value at `next_rval`. -/
theorem convert_return_value_spec (env : Env) (function : Function) (c_argc : Nat)
    (is_method : Bool) (js_rval_given : Bool) (return_gargument : GArgument)
    (return_values : List JSValue) (next_rval : Nat) (st : Regs) (conv : OutConverted)
    (h : convert_return_value env function c_argc is_method js_rval_given return_gargument
      return_values next_rval st = Except.ok conv) :
    conv.regs.frame = st.frame ∧ conv.regs.heap = st.heap ∧
    conv.return_values.length = return_values.length ∧
    ReleaseExt env Event.is_release_step st.trace conv.regs.trace [] false conv.arg_failed ∧
    (js_rval_given = true → conv.arg_failed = false →
      ∃ v, expected_value env function is_method st.frame.out_arg_cvalues
          function.info.return_type return_gargument = some v ∧
        conv.return_values = return_values.set next_rval v) := by
  unfold convert_return_value at h
  simp only [] at h
  split at h
  · rename_i hlen
    split at h
    · exact absurd h (by simp)
    · rename_i la hla
      split at h
      · exact absurd h (by simp)
      · split at h
        · rename_i hconv
          simp only [Except.ok.injEq] at h; subst h
          refine ⟨rfl, rfl, rfl, ⟨[_], rfl, ?_, ?_, ?_⟩, ?_⟩
          · simp [Event.is_release_step]
          · simp [Event.in_release_slot]
          · simp [Event.step_failed, hconv]
          · simp
        · rename_i len hconv
          split at h
          · rename_i hjs
            split at h
            · rename_i hconv2
              simp only [Except.ok.injEq] at h; subst h
              refine ⟨rfl, rfl, rfl, ⟨[_, _], List.append_assoc _ _ _, ?_, ?_, ?_⟩, ?_⟩
              · simp [Event.is_release_step]
              · simp [Event.in_release_slot]
              · simp [Event.step_failed, hconv, hconv2]
              · simp
            · rename_i v hconv2
              simp only [Except.ok.injEq] at h; subst h
              refine ⟨rfl, rfl, by simp, ⟨[_, _], List.append_assoc _ _ _, ?_, ?_, ?_⟩, ?_⟩
              · simp [Event.is_release_step]
              · simp [Event.in_release_slot]
              · simp [Event.step_failed, hconv, hconv2]
              · intro _ _
                exact ⟨v, by simp [expected_value, expected_length, hlen, hla, hconv, hconv2],
                  rfl⟩
          · rename_i hjs
            simp only [Except.ok.injEq] at h; subst h
            refine ⟨rfl, rfl, rfl, ⟨[_], rfl, ?_, ?_, ?_⟩, ?_⟩
            · simp [Event.is_release_step]
            · simp [Event.in_release_slot]
            · simp [Event.step_failed, hconv]
            · intro hj; simp [hj] at hjs
  · rename_i hlen
    split at h
    · rename_i hjs
      split at h
      · rename_i hconv
        simp only [Except.ok.injEq] at h; subst h
        refine ⟨rfl, rfl, rfl, ⟨[_], rfl, ?_, ?_, ?_⟩, ?_⟩
        · simp [Event.is_release_step]
        · simp [Event.in_release_slot]
        · simp [Event.step_failed, hconv]
        · simp
      · rename_i v hconv
        simp only [Except.ok.injEq] at h; subst h
        refine ⟨rfl, rfl, by simp, ⟨[_], rfl, ?_, ?_, ?_⟩, ?_⟩
        · simp [Event.is_release_step]
        · simp [Event.in_release_slot]
        · simp [Event.step_failed, hconv]
        · intro _ _
          exact ⟨v, by simp [expected_value, hlen, hconv], rfl⟩
    · rename_i hjs
      simp only [Except.ok.injEq] at h; subst h
      refine ⟨rfl, rfl, rfl, ReleaseExt.same env _ _ _, ?_⟩
      intro hj; simp [hj] at hjs

/-- The release of the return value keeps the frame and the heap, logs at
most the release, and reports failure exactly for a failed conversion or a
failed release. -/
theorem release_return_spec (env : Env) (function : Function) (r_value_given : Bool)
    (return_gargument : GArgument) (conv : OutConverted) :
    (release_return env function r_value_given return_gargument conv).1.frame =
      conv.regs.frame ∧
    (release_return env function r_value_given return_gargument conv).1.heap =
      conv.regs.heap ∧
    ReleaseExt env Event.is_release_step conv.regs.trace
      (release_return env function r_value_given return_gargument conv).1.trace []
      conv.arg_failed (release_return env function r_value_given return_gargument conv).2 := by
  unfold release_return
  simp only []
  split_ifs with h1 h2
  · refine ⟨rfl, rfl, [_], rfl, ?_, ?_, ?_⟩
    · simp [Event.is_release_step]
    · simp [Event.in_release_slot]
    · simp [Event.step_failed, h1.1]
  · refine ⟨rfl, rfl, [_], rfl, ?_, ?_, ?_⟩
    · simp [Event.is_release_step]
    · simp [Event.in_release_slot]
    · simp [Event.step_failed, h1.1]
  · exact ⟨rfl, rfl, ReleaseExt.same env _ _ _⟩

/-- The conversion and release of the return value: the frame and the heap
stay, `next_rval` was below `js_out_argc`, the events are release steps, the
flag `failed` is raised exactly by a failed step, and with `js_rval` given
and no failure the expected value was stored at `next_rval`. -/
theorem convert_return_spec (env : Env) (function : Function) (c_argc : Nat)
    (is_method : Bool) (js_rval_given r_value_given : Bool) (return_gargument : GArgument)
    (return_values : List JSValue) (next_rval : Nat) (st st1 : Regs)
    (return_values1 : List JSValue) (failed : Bool)
    (h : convert_return env function c_argc is_method js_rval_given r_value_given
      return_gargument return_values next_rval st = Except.ok (st1, return_values1, failed)) :
    st1.frame = st.frame ∧ st1.heap = st.heap ∧ next_rval < function.js_out_argc ∧
    return_values1.length = return_values.length ∧
    ReleaseExt env Event.is_release_step st.trace st1.trace [] false failed ∧
    (js_rval_given = true → failed = false →
      ∃ v, expected_value env function is_method st.frame.out_arg_cvalues
          function.info.return_type return_gargument = some v ∧
        return_values1 = return_values.set next_rval v) := by
  unfold convert_return at h
  split at h
  · exact absurd h (by simp)
  · rename_i hlt
    split at h
    · exact absurd h (by simp)
    · rename_i conv hconv
      simp only [Except.ok.injEq, Prod.mk.injEq] at h
      obtain ⟨rfl, rfl, rfl⟩ := h
      obtain ⟨c1, c2, c3, c4, c5⟩ := convert_return_value_spec _ _ _ _ _ _ _ _ _ _ hconv
      obtain ⟨r1, r2, r3⟩ := release_return_spec env function r_value_given return_gargument conv
      refine ⟨by rw [r1, c1], by rw [r2, c2], by omega, c3, ?_, ?_⟩
      · simpa using c4.chain r3
      · intro hjs hf
        have : conv.arg_failed = false := by
          obtain ⟨n, _, _, _, hflag⟩ := r3
          rw [hf] at hflag
          cases hx : conv.arg_failed
          · rfl
          · simp [hx] at hflag
        exact c5 hjs this

/-- The native call and the conversion of the return value.  The marshaling
loop had reached `gi_argc`; `js_rval` is set to undefined; an error can only
be left when the function has an error holder, and `did_throw_gerror` says
whether one was left; after the event `ffi_call` the events are release
steps and `failed` is raised exactly by a failed step.  After a native error
nothing more is done.  Without one, `return_values` has `js_out_argc` cells
and `next_rval` counts the return value, whose expected value is stored
first when `js_rval` is given and nothing failed. -/
theorem call_and_convert_return_spec (env : Env) (function : Function) (c_argc gi_argc : Nat)
    (is_method : Bool) (js_rval : Option JSValue) (r_value_given : Bool) (m : Marshaled)
    (c : Called)
    (h : call_and_convert_return env function c_argc gi_argc is_method js_rval r_value_given m =
      Except.ok c) :
    m.gi_arg_pos = gi_argc ∧
    c.js_rval = js_rval.map (fun _ => JSValue.undefined) ∧
    c.did_throw_gerror = c.local_error.isSome ∧
    (c.local_error.isSome = true → function.info.can_throw_gerror = true) ∧
    ReleaseExt env Event.is_release_step (m.regs.trace ++ [Event.ffi_call]) c.regs.trace []
      false c.failed ∧
    (c.did_throw_gerror = true →
      c.regs.trace = m.regs.trace ++ [Event.ffi_call] ∧ c.failed = false ∧
      c.return_values = [] ∧ c.next_rval = 0) ∧
    (c.did_throw_gerror = false →
      c.return_values.length = function.js_out_argc ∧ c.next_rval ≤ function.js_out_argc ∧
      (js_rval.isSome = true → c.failed = false →
        (function.info.return_type.tag ≠ GITypeTag.VOID → 0 < function.js_out_argc) →
        ∃ outs,
          (if function.info.return_type.tag ≠ GITypeTag.VOID then
             [expected_value env function is_method c.regs.frame.out_arg_cvalues
               function.info.return_type c.return_gargument]
           else []) = outs.map some ∧
          c.next_rval = outs.length ∧ c.return_values.take c.next_rval = outs)) := by
  unfold call_and_convert_return at h
  simp only [] at h
  generalize hholder :
    (if function.info.can_throw_gerror = true then
      if ¬m.c_arg_pos < c_argc then (Except.error Fault.abort : Except Fault (Regs × Nat))
      else Except.ok (m.regs.set_in m.c_arg_pos GArgument.local_error, m.c_arg_pos + 1)
    else Except.ok (m.regs, m.c_arg_pos)) = holder at h
  cases holder with
  | error f => exact absurd h (by simp)
  | ok p =>
    obtain ⟨st, c_arg_pos⟩ := p
    have htrace : st.trace = m.regs.trace := by
      split_ifs at hholder <;> simp only [Except.ok.injEq, Prod.mk.injEq] at hholder <;>
        (rw [← hholder.1]; try rfl)
    simp only [] at h
    generalize hres : env.ffi_call st.frame.in_arg_cvalues st.frame.out_arg_cvalues st.heap =
      res at h
    generalize herr : (if function.info.can_throw_gerror = true then res.error else none) =
      local_error at h
    have hthrow : (function.info.can_throw_gerror && local_error.isSome) =
        local_error.isSome := by
      rw [← herr]; cases function.info.can_throw_gerror <;> simp
    have hcan : local_error.isSome = true → function.info.can_throw_gerror = true := by
      rw [← herr]; cases function.info.can_throw_gerror <;> simp
    rw [hthrow] at h
    split_ifs at h with h1 h2 hpos hret
    · split at h
      · exact absurd h (by simp)
      · rename_i st2 rv1 failed hconv
        simp only [Except.ok.injEq] at h; subst h
        obtain ⟨c1, _, c3, c4, c5, c6⟩ := convert_return_spec _ _ _ _ _ _ _ _ _ _ _ _ _ hconv
        refine ⟨by simpa using h2, rfl, rfl, hcan, by simpa [htrace] using c5, ?_, ?_⟩
        · intro hd
          have hd' : local_error.isSome = true := hd
          simp [hd'] at hpos
        · intro _
          refine ⟨by simpa using c4, by simp; omega, fun hjs hf _ => ?_⟩
          obtain ⟨v, hv, hrv⟩ := c6 hjs hf
          refine ⟨[v], ?_, rfl, ?_⟩
          · simp only [c1]
            simpa [hret] using hv
          · rw [hrv]
            have := List.take_succ_set (List.replicate function.js_out_argc
              JSValue.undefined) 0 v (by simpa using hpos.1)
            simpa using this
    · simp only [Except.ok.injEq] at h; subst h
      refine ⟨by simpa using h2, rfl, rfl, hcan,
        by simpa [htrace] using ReleaseExt.same env _ _ _, ?_, ?_⟩
      · intro hd
        have hd' : local_error.isSome = true := hd
        simp [hd'] at hpos
      · intro _
        refine ⟨by simp, by simp, fun _ _ _ => ⟨[], ?_, rfl, by simp⟩⟩
        simp only [not_not] at hret
        simp [hret]
    · simp only [Except.ok.injEq] at h; subst h
      refine ⟨by simpa using h2, rfl, rfl, hcan,
        by simpa [htrace] using ReleaseExt.same env _ _ _,
        fun _ => ⟨by simp [htrace], rfl, rfl, rfl⟩, ?_⟩
      intro hd
      have hd' : local_error.isSome = false := hd
      have hz : function.js_out_argc = 0 := by
        simp only [hd', and_true, not_lt] at hpos
        omega
      refine ⟨by simp [hz], by simp, fun _ _ hJ => ⟨[], ?_, rfl, by simp⟩⟩
      by_cases hv : function.info.return_type.tag = GITypeTag.VOID
      · simp [hv]
      · have := hJ hv; omega

/-- The packaging block keeps the frame and the heap. -/
theorem package_outputs_frame (env : Env) (function : Function) (r_value_given : Bool)
    (c : Called) (rl : Releasing) (failed : Bool) :
    (package_outputs env function r_value_given c rl failed).regs.frame = rl.regs.frame ∧
    (package_outputs env function r_value_given c rl failed).regs.heap = rl.regs.heap := by
  unfold package_outputs
  cases c.js_rval <;> simp only [] <;> split_ifs <;> exact ⟨rfl, rfl⟩

/-- The packaging block does nothing when the call failed, threw, or has no
output. -/
theorem package_outputs_skip (env : Env) (function : Function) (r_value_given : Bool)
    (c : Called) (rl : Releasing) (failed : Bool)
    (h : failed = true ∨ c.did_throw_gerror = true ∨ function.js_out_argc = 0) :
    package_outputs env function r_value_given c rl failed =
      { failed := failed, js_rval := c.js_rval, r_value := none, regs := rl.regs } := by
  unfold package_outputs
  rw [if_neg]
  rintro ⟨h1, h2, h3⟩
  rcases h with h | h | h
  · simp [h] at h2
  · simp [h] at h3
  · omega

/-- The packaging block when nothing failed or threw and there is an output:
without `js_rval` nothing is set; one output is handed back alone; several
are handed back as a new array, unless its creation fails. -/
theorem package_outputs_pack (env : Env) (function : Function) (r_value_given : Bool)
    (c : Called) (rl : Releasing)
    (hd : c.did_throw_gerror = false) (hJ : 0 < function.js_out_argc) :
    (c.js_rval = none →
      (package_outputs env function r_value_given c rl false).failed = false ∧
      (package_outputs env function r_value_given c rl false).js_rval = none ∧
      (package_outputs env function r_value_given c rl false).regs = rl.regs) ∧
    (function.js_out_argc = 1 → c.js_rval.isSome = true →
      (package_outputs env function r_value_given c rl false).failed = false ∧
      (package_outputs env function r_value_given c rl false).js_rval =
        some (rl.return_values.getD 0 JSValue.undefined) ∧
      (package_outputs env function r_value_given c rl false).regs = rl.regs) ∧
    (1 < function.js_out_argc → c.js_rval.isSome = true →
      (package_outputs env function r_value_given c rl false).regs =
        rl.regs.log (Event.new_array_object rl.return_values) ∧
      (package_outputs env function r_value_given c rl false).failed =
        !(env.new_array_object rl.return_values) ∧
      ((package_outputs env function r_value_given c rl false).failed = false →
        (package_outputs env function r_value_given c rl false).js_rval =
          some (JSValue.array rl.return_values))) := by
  unfold package_outputs
  rw [if_pos ⟨hJ, rfl, hd⟩]
  refine ⟨fun hn => ?_, fun h1 hs => ?_, fun h1 hs => ?_⟩
  · simp [hn]
  · obtain ⟨old, hold⟩ := Option.isSome_iff_exists.1 hs
    simp [hold, h1]
  · obtain ⟨old, hold⟩ := Option.isSome_iff_exists.1 hs
    have hne : function.js_out_argc ≠ 1 := by omega
    simp only [hold, hne, if_false]
    cases env.new_array_object rl.return_values <;> simp

/-- From the label `release` to the end.  The release loop ran and stopped at
`processed_c_args`; one of `failed`, `did_throw_gerror`,
`next_rval == js_out_argc` holds; the locals are reported as they stand; the
result is what the packaging block made of the outputs, and the call returns
`true` exactly when nothing failed and nothing was thrown, a native error
being thrown last when nothing failed. -/
theorem release_and_package_spec (env : Env) (function : Function) (c_argc gi_argc : Nat)
    (is_method : Bool) (r_value_given : Bool) (path : Path) (processed_c_args : Nat)
    (c : Called) (r : Invoked)
    (h : release_and_package env function c_argc gi_argc is_method r_value_given path
      processed_c_args c = Except.ok r) :
    ∃ rl, release_loop env function c_argc is_method c.js_rval.isSome c.did_throw_gerror
        c.failed processed_c_args (function.info.args.take gi_argc) 0
        (if is_method then 1 else 0)
        { regs := c.regs, return_values := c.return_values, next_rval := c.next_rval
          postinvoke_release_failed := false } = Except.ok (rl, processed_c_args) ∧
      ((c.failed || rl.postinvoke_release_failed) = true ∨ c.did_throw_gerror = true ∨
        rl.next_rval = function.js_out_argc) ∧
      r.locals.path = path ∧
      r.locals.frame.out_arg_cvalues = rl.regs.frame.out_arg_cvalues ∧
      r.locals.return_gargument = c.return_gargument ∧
      r.locals.did_throw_gerror = c.did_throw_gerror ∧
      r.locals.local_error = c.local_error ∧
      r.locals.processed_c_args = processed_c_args ∧
      r.locals.next_rval = rl.next_rval ∧
      r.js_rval = (package_outputs env function r_value_given c rl
        (c.failed || rl.postinvoke_release_failed)).js_rval ∧
      r.r_value = (package_outputs env function r_value_given c rl
        (c.failed || rl.postinvoke_release_failed)).r_value ∧
      r.heap = rl.regs.heap ∧
      r.ok = (!(package_outputs env function r_value_given c rl
        (c.failed || rl.postinvoke_release_failed)).failed && !c.did_throw_gerror) ∧
      r.trace = (package_outputs env function r_value_given c rl
          (c.failed || rl.postinvoke_release_failed)).regs.trace ++
        (if (package_outputs env function r_value_given c rl
            (c.failed || rl.postinvoke_release_failed)).failed = false ∧
            c.did_throw_gerror = true
         then [Event.throw_g_error (c.local_error.getD 0)] else []) := by
  unfold release_and_package at h
  split at h
  · exact absurd h (by simp)
  · rename_i rl c_end hloop
    simp only [] at h
    have hfr := package_outputs_frame env function r_value_given c rl
      (c.failed || rl.postinvoke_release_failed)
    split_ifs at h with h1 h2 h3 h4
    · simp only [Except.ok.injEq] at h; subst h
      have hc := h2
      simp only [ne_eq, not_not] at hc
      subst hc
      exact ⟨rl, hloop, by simpa using h1, rfl, by simp [hfr.1], rfl, rfl, rfl, rfl, rfl, rfl,
        rfl, hfr.2, by simp [h3.1, h3.2], by simp [h3.1, h3.2]⟩
    · simp only [Except.ok.injEq] at h; subst h
      have hc := h2
      simp only [ne_eq, not_not] at hc
      subst hc
      exact ⟨rl, hloop, by simpa using h1, rfl, by simp [hfr.1], rfl, rfl, rfl, rfl, rfl, rfl,
        rfl, hfr.2, by simp [h4], by simp [h4]⟩
    · simp only [Except.ok.injEq] at h; subst h
      have hc := h2
      simp only [ne_eq, not_not] at hc
      subst hc
      have hpf : (package_outputs env function r_value_given c rl
          (c.failed || rl.postinvoke_release_failed)).failed = false := by
        simpa using h4
      have hd : c.did_throw_gerror = false := by
        cases hx : c.did_throw_gerror
        · rfl
        · exact absurd ⟨hpf, hx⟩ h3
      exact ⟨rl, hloop, by simpa using h1, rfl, by simp [hfr.1], rfl, rfl, rfl, rfl, rfl, rfl,
        rfl, hfr.2, by simp [hpf, hd], by simp [hd]⟩

/-- The conversion of the receiver logs preamble events only, and leaves
`c_arg_pos` at 1 for a method and at 0 otherwise. -/
theorem convert_receiver_spec (env : Env) (function : Function) (obj : JSValue) (c_argc : Nat)
    (st st2 : Regs) (o : Option Nat)
    (h : convert_receiver env function obj c_argc st = Except.ok (st2, o)) :
    TraceExt Event.is_preamble st.trace st2.trace ∧
    (∀ c_arg_pos, o = some c_arg_pos →
      c_arg_pos = (if function.info.is_method then 1 else 0)) := by
  unfold convert_receiver at h
  by_cases hm : function.info.is_method = true
  · rw [if_pos hm] at h
    simp only [] at h
    split at h
    · simp only [Except.ok.injEq, Prod.mk.injEq] at h
      obtain ⟨rfl, rfl⟩ := h
      exact ⟨(TraceExt.refl _ _).snoc (by rfl), by simp⟩
    · by_cases hc : 0 < c_argc
      · rw [if_pos hc] at h
        simp only [Except.ok.injEq, Prod.mk.injEq] at h
        obtain ⟨rfl, rfl⟩ := h
        refine ⟨(TraceExt.refl _ _).snoc (by rfl), ?_⟩
        intro c hc
        simp only [Option.some.injEq] at hc
        simp [← hc, hm]
      · rw [if_neg hc] at h
        exact absurd h (by simp)
  · rw [if_neg hm] at h
    simp only [Except.ok.injEq, Prod.mk.injEq] at h
    obtain ⟨rfl, rfl⟩ := h
    refine ⟨TraceExt.refl _ _, ?_⟩
    intro c hc
    simp only [Option.some.injEq] at hc
    simp [← hc, hm]

/-- The warning about extra arguments is a preamble event. -/
theorem warn_extra_arguments_trace (function : Function) (args : List JSValue) (st : Regs) :
    TraceExt Event.is_preamble st.trace (warn_extra_arguments function args st).trace := by
  unfold warn_extra_arguments
  split_ifs
  · exact (TraceExt.refl _ _).snoc (by rfl)
  · exact TraceExt.refl _ _

/-- The ways a run of `gjs_invoke_c_function` that returns can have gone:
too few arguments; a receiver that does not convert; or, after a preamble of
unrefs, warning and receiver conversion, the marshaling loop over the first
`gi_argc` parameters followed either, when it failed, by the release phase
alone, or by the native call, the conversion of the return value and the
release phase. -/
theorem gjs_invoke_c_function_cases (env : Env) (function : Function) (obj : JSValue)
    (args : List JSValue) (js_rval : Option JSValue) (r_value_given : Bool) (heap : Heap)
    (r : Invoked)
    (h : gjs_invoke_c_function env function obj args js_rval r_value_given heap = Except.ok r) :
    (r.locals.path = Path.too_few_arguments ∧ args.length < function.expected_js_argc) ∨
    (r.locals.path = Path.instance_failed ∧ r.ok = false ∧
      TraceExt Event.is_preamble [] r.trace) ∨
    (∃ st m, TraceExt Event.is_preamble [] st.trace ∧
      marshal_loop env function args (to_guint8 function.cif_nargs) function.info.is_method
        (function.info.args.take (to_guint8 (g_callable_info_get_n_args function.info))) 0
        (if function.info.is_method then 1 else 0) 0
        (if function.info.is_method then 1 else 0) st = Except.ok m ∧
      ((m.failed = true ∧
          release_and_package env function (to_guint8 function.cif_nargs)
            (to_guint8 (g_callable_info_get_n_args function.info)) function.info.is_method
            r_value_given Path.marshal_failed m.processed_c_args
            (Called.after_failed_marshal m js_rval) = Except.ok r) ∨
        (m.failed = false ∧
          ∃ c, call_and_convert_return env function (to_guint8 function.cif_nargs)
              (to_guint8 (g_callable_info_get_n_args function.info)) function.info.is_method
              js_rval r_value_given m = Except.ok c ∧
            release_and_package env function (to_guint8 function.cif_nargs)
              (to_guint8 (g_callable_info_get_n_args function.info)) function.info.is_method
              r_value_given Path.called m.processed_c_args c = Except.ok r))) := by
  unfold gjs_invoke_c_function at h
  simp only [] at h
  have hdrain : TraceExt Event.is_preamble []
      (drain_completed_trampolines { frame := Frame.fresh, heap := heap, trace := [] }).trace := by
    rw [drain_completed_trampolines_trace]
    refine ⟨completed_unrefs heap, rfl, ?_⟩
    intro e he
    simp only [completed_unrefs, List.mem_map] at he
    obtain ⟨id, _, rfl⟩ := he
    rfl
  by_cases hfew : args.length < function.expected_js_argc
  · rw [if_pos hfew] at h
    simp only [Except.ok.injEq] at h; subst h
    exact Or.inl ⟨rfl, hfew⟩
  · rw [if_neg hfew] at h
    split at h
    · exact absurd h (by simp)
    · rename_i st2 hrecv
      simp only [Except.ok.injEq] at h; subst h
      exact Or.inr (Or.inl ⟨rfl, rfl, (hdrain.trans (warn_extra_arguments_trace _ _ _)).trans
        (convert_receiver_spec _ _ _ _ _ _ _ hrecv).1⟩)
    · rename_i st2 c_arg_pos hrecv
      obtain ⟨hpre, hc⟩ := convert_receiver_spec _ _ _ _ _ _ _ hrecv
      have hc' := hc c_arg_pos rfl
      subst hc'
      split at h
      · exact absurd h (by simp)
      · rename_i m hm
        refine Or.inr (Or.inr ⟨st2, m,
          (hdrain.trans (warn_extra_arguments_trace _ _ _)).trans hpre, hm, ?_⟩)
        split_ifs at h with hf
        · exact Or.inl ⟨hf, h⟩
        · split at h
          · exact absurd h (by simp)
          · rename_i c hc
            exact Or.inr ⟨by simpa using hf, c, hc, h⟩

/-- Events that a map sends to `none` do not show in the mapped trace. -/
theorem TraceExt.filterMap_eq {α : Type} {P : Event → Bool} {t t' : List Event}
    (h : TraceExt P t t') (f : Event → Option α) (hf : ∀ e, P e = true → f e = none) :
    t'.filterMap f = t.filterMap f := by
  obtain ⟨n, rfl, hn⟩ := h
  rw [List.filterMap_append]
  have : n.filterMap f = [] := by
    rw [List.filterMap_eq_nil_iff]
    intro e he
    exact hf e (hn e he)
  simp [this]

/-- A preamble event is no release, no native call, no head of a marshaling
iteration, no output conversion and no failed step. -/
theorem Event.preamble_facts (env : Env) (e : Event) (h : e.is_preamble = true) :
    e.in_release_slot = none ∧ e.is_ffi_call = false ∧ e.marshal_index = none ∧
    e.is_output_conversion = false ∧ e.step_failed env = false := by
  cases e <;> simp_all [Event.is_preamble, Event.in_release_slot, Event.is_ffi_call,
    Event.marshal_index, Event.is_output_conversion, Event.step_failed]

/-- A marshaling event is no release, no native call, no output conversion
and no failed step, and as the head of an iteration its index is in range. -/
theorem Event.marshal_facts (env : Env) (lo hi : Nat) (e : Event)
    (h : e.marshal_ok lo hi = true) :
    e.in_release_slot = none ∧ e.is_ffi_call = false ∧
    e.is_output_conversion = false ∧ e.step_failed env = false ∧
    (∀ gi, e.marshal_index = some gi → gi < hi) := by
  cases e <;> simp_all [Event.marshal_ok, Event.is_marshal_step, Event.in_release_slot,
    Event.is_ffi_call, Event.marshal_index, Event.is_output_conversion, Event.step_failed]

/-- An in-release event is no native call, no head of a marshaling iteration
and no output conversion. -/
theorem Event.in_release_facts (e : Event) (h : e.is_in_release = true) :
    e.is_ffi_call = false ∧ e.marshal_index = none ∧ e.is_output_conversion = false := by
  cases e <;> simp_all [Event.is_in_release, Event.is_ffi_call, Event.marshal_index,
    Event.is_output_conversion]

/-- A release step is no native call and no head of a marshaling iteration. -/
theorem Event.release_step_facts (e : Event) (h : e.is_release_step = true) :
    e.is_ffi_call = false ∧ e.marshal_index = none := by
  cases e <;> simp_all [Event.is_release_step, Event.is_in_release, Event.is_ffi_call,
    Event.marshal_index]

/-- Every cell to release for parameters from frame position `c_arg_pos` on
lies at `c_arg_pos` or beyond. -/
theorem expected_in_releases_ge (function : Function) (l : List GIArgInfo)
    (gi_arg_pos c_arg_pos : Nat) :
    ∀ s ∈ expected_in_releases function l gi_arg_pos c_arg_pos, c_arg_pos ≤ s.c_pos := by
  induction l generalizing gi_arg_pos c_arg_pos with
  | nil => simp [expected_in_releases]
  | cons a rest ih =>
    intro s hs
    simp only [expected_in_releases, List.mem_append] at hs
    rcases hs with hs | hs
    · split at hs
      · split_ifs at hs
        · simp only [List.mem_singleton] at hs
          subst hs
          unfold in_release_source
          split_ifs <;> simp [Slot.c_pos]
        · simp at hs
      · simp at hs
    · have := ih _ _ s hs
      omega

/-- No cell is to be released twice. -/
theorem expected_in_releases_nodup (function : Function) (l : List GIArgInfo)
    (gi_arg_pos c_arg_pos : Nat) :
    (expected_in_releases function l gi_arg_pos c_arg_pos).Nodup := by
  induction l generalizing gi_arg_pos c_arg_pos with
  | nil => simp [expected_in_releases]
  | cons a rest ih =>
    simp only [expected_in_releases]
    rw [List.nodup_append]
    refine ⟨?_, ih _ _, ?_⟩
    · split
      · split_ifs <;> simp
      · simp
    · intro s hs1 hs2
      have hge := expected_in_releases_ge function rest _ _ s hs2
      split at hs1
      · split_ifs at hs1
        · simp only [List.mem_singleton] at hs1
          subst hs1
          unfold in_release_source at hge
          split_ifs at hge <;> simp [Slot.c_pos] at hge
        · simp at hs1
      · simp at hs1

/-- Claim C7: when marshaling fails at a parameter, of index
`k = processed_c_args - (is_method ? 1 : 0)`, then `k` is the index of a
parameter, the marshaling loop started no parameter beyond `k`, the native
function is not called, `gjs_invoke_c_function` returns `false`, and the
release phase ran over the parameters before `k`: the in-argument releases in
the trace are exactly the cells of the `IN`/`INOUT` parameters tagged
`PARAM_NORMAL` or `PARAM_ARRAY` among them, each once, in order. -/
theorem marshal_failure_still_releases (env : Env) (function : Function) (obj : JSValue)
    (args : List JSValue) (js_rval : Option JSValue) (r_value_given : Bool) (heap : Heap)
    (r : Invoked)
    (h : gjs_invoke_c_function env function obj args js_rval r_value_given heap = Except.ok r)
    (hp : r.locals.path = Path.marshal_failed) :
    r.ok = false ∧
    r.locals.processed_c_args - (if function.info.is_method then 1 else 0) <
      (function.info.args.take (to_guint8 (g_callable_info_get_n_args function.info))).length ∧
    (∀ e ∈ r.trace, e.is_ffi_call = false) ∧
    (∀ e ∈ r.trace, ∀ gi, e.marshal_index = some gi →
      gi ≤ r.locals.processed_c_args - (if function.info.is_method then 1 else 0)) ∧
    r.trace.filterMap Event.in_release_slot =
      expected_in_releases function
        ((function.info.args.take (to_guint8 (g_callable_info_get_n_args function.info))).take
          (r.locals.processed_c_args - (if function.info.is_method then 1 else 0)))
        0 (if function.info.is_method then 1 else 0) ∧
    (r.trace.filterMap Event.in_release_slot).Nodup := by
  suffices hmain : r.ok = false ∧
      r.locals.processed_c_args - (if function.info.is_method then 1 else 0) <
        (function.info.args.take
          (to_guint8 (g_callable_info_get_n_args function.info))).length ∧
      (∀ e ∈ r.trace, e.is_ffi_call = false) ∧
      (∀ e ∈ r.trace, ∀ gi, e.marshal_index = some gi →
        gi ≤ r.locals.processed_c_args - (if function.info.is_method then 1 else 0)) ∧
      r.trace.filterMap Event.in_release_slot =
        expected_in_releases function
          ((function.info.args.take
            (to_guint8 (g_callable_info_get_n_args function.info))).take
            (r.locals.processed_c_args - (if function.info.is_method then 1 else 0)))
          0 (if function.info.is_method then 1 else 0) by
    obtain ⟨a, b, c, d, e⟩ := hmain
    exact ⟨a, b, c, d, e, by rw [e]; exact expected_in_releases_nodup _ _ _ _⟩
  rcases gjs_invoke_c_function_cases _ _ _ _ _ _ _ _ h with ⟨hq, _⟩ | ⟨hq, _⟩ | ⟨st, m, hpre, hm, hrest⟩
  · rw [hp] at hq; exact absurd hq (by decide)
  · rw [hp] at hq; exact absurd hq (by decide)
  · rcases hrest with ⟨hf, hrel⟩ | ⟨_, c, _, hrel⟩
    · obtain ⟨k, hk, _, _, hproc, _, hlt, hmt⟩ := marshal_loop_spec _ _ _ _ _ _ _ _ _ _ _ _ hm
      obtain ⟨rl, hloop, _, _, _, _, _, _, hpc, _, _, _, _, hok, htr⟩ :=
        release_and_package_spec _ _ _ _ _ _ _ _ _ _ hrel
      have hskip := package_outputs_skip env function r_value_given
        (Called.after_failed_marshal m js_rval) rl
        ((Called.after_failed_marshal m js_rval).failed || rl.postinvoke_release_failed)
        (Or.inl (by simp [Called.after_failed_marshal]))
      rw [hskip] at hok htr
      have hk' : r.locals.processed_c_args - (if function.info.is_method then 1 else 0) = k := by
        rw [hpc, hproc]; omega
      obtain ⟨_, _, _, hrt, _, _⟩ := release_loop_spec _ _ _ _ _ _ _ _ _ _ _ _ _ _ hloop
        (by rw [hproc]; omega)
      have hrt' : ReleaseExt env Event.is_in_release m.regs.trace rl.regs.trace
          (expected_in_releases function
            ((function.info.args.take
              (to_guint8 (g_callable_info_get_n_args function.info))).take k) 0
            (if function.info.is_method then 1 else 0)) false rl.postinvoke_release_failed := by
        have : m.processed_c_args - (if function.info.is_method then 1 else 0) = k := by
          rw [hproc]; omega
        rw [this] at hrt
        exact hrt.widen (fun e he => by simpa [release_kind, Called.after_failed_marshal] using he)
      obtain ⟨rnew, hrn, hkind, hslots, _⟩ := hrt'
      have htrace : r.trace = rl.regs.trace := by
        rw [htr]; simp [Called.after_failed_marshal]
      have hmt0 := hmt
      obtain ⟨mnew, hmn, hmk⟩ := hmt
      obtain ⟨pnew, hpn, hpk⟩ := hpre
      have hall : r.trace = pnew ++ mnew ++ rnew := by
        rw [htrace, hrn, hmn, hpn]; simp
      refine ⟨by rw [hok]; simp [Called.after_failed_marshal], by rw [hk']; exact hlt (hf), ?_,
        ?_, ?_⟩
      · intro e he
        rw [hall] at he
        simp only [List.mem_append] at he
        rcases he with (he | he) | he
        · exact (Event.preamble_facts env e (hpk e he)).2.1
        · exact (Event.marshal_facts env _ _ e (hmk e he)).2.1
        · exact (Event.in_release_facts e (hkind e he)).1
      · intro e he gi hgi
        rw [hall] at he
        simp only [List.mem_append] at he
        rw [hk']
        rcases he with (he | he) | he
        · rw [(Event.preamble_facts env e (hpk e he)).2.2.1] at hgi; exact absurd hgi (by simp)
        · have := (Event.marshal_facts env _ _ e (hmk e he)).2.2.2.2 gi hgi
          omega
        · rw [(Event.in_release_facts e (hkind e he)).2.1] at hgi; exact absurd hgi (by simp)
      · rw [hall, hk', List.filterMap_append, List.filterMap_append, hslots]
        have h1 : pnew.filterMap Event.in_release_slot = [] := by
          rw [List.filterMap_eq_nil_iff]
          intro e he
          exact (Event.preamble_facts env e (hpk e he)).1
        have h2 : mnew.filterMap Event.in_release_slot = [] := by
          rw [List.filterMap_eq_nil_iff]
          intro e he
          exact (Event.marshal_facts env _ _ e (hmk e he)).1
        simp [h1, h2]
    · obtain ⟨rl, _, _, hq, _⟩ := release_and_package_spec _ _ _ _ _ _ _ _ _ _ hrel
      rw [hp] at hq; exact absurd hq (by decide)

/-- Witness for C7: `three_ints_function` called with a string in second
place fails at index 1, is not called, and releases the first argument. -/
theorem marshal_failure_still_releases_witness :
    ∃ r, three_ints_bad_second = Except.ok r ∧ r.locals.path = Path.marshal_failed ∧
      r.ok = false ∧ r.locals.processed_c_args = 1 ∧
      r.trace.filterMap Event.in_release_slot = [Slot.in_arg 0] :=
  ⟨_, rfl, rfl,
    (marshal_failure_still_releases (sample_env quiet_native) three_ints_function
      JSValue.undefined [JSValue.int32 1, JSValue.string "x", JSValue.int32 3]
      (some JSValue.undefined) false {} _ rfl rfl).1, rfl, rfl⟩

/-- Claim C6 as stated fails: `throwing_function` is called, the callee
leaves the native error 5 in the error holder, and the release of the
in-argument fails; the call returns `false` without ever handing the native
error to `gjs_throw_g_error`. -/
theorem native_error_dropped_after_failed_release :
    init_cached_function_data (some (prepared_cif_nargs throwing_info)) throwing_info =
      some throwing_function ∧
    ∃ r, gjs_invoke_c_function failing_release_env throwing_function JSValue.undefined
        [JSValue.int32 1] (some JSValue.undefined) false {} = Except.ok r ∧
      r.locals.local_error = some 5 ∧ r.ok = false ∧
      r.trace.filterMap Event.thrown_g_error = [] :=
  ⟨by decide, _, rfl, rfl, rfl, rfl⟩

/-- Claim C8 as stated fails: `int_return_function` is called, the callee
reports no error, and the conversion of the return value fails; the call
returns `false` although the native function was invoked without a native
error. -/
theorem conversion_failure_after_native_call :
    init_cached_function_data (some (prepared_cif_nargs int_return_info)) int_return_info =
      some int_return_function ∧
    ∃ r, gjs_invoke_c_function failing_output_env int_return_function JSValue.undefined
        [] (some JSValue.undefined) false {} = Except.ok r ∧
      r.locals.path = Path.called ∧ r.locals.did_throw_gerror = false ∧
      r.trace.filter Event.is_ffi_call = [Event.ffi_call] ∧ r.ok = false :=
  ⟨by decide, _, rfl, rfl, rfl, rfl, rfl⟩

/-- Membership in a trace that extends another. -/
theorem TraceExt.mem_cases {P : Event → Bool} {t t' : List Event} (h : TraceExt P t t')
    (e : Event) (he : e ∈ t') : e ∈ t ∨ P e = true := by
  obtain ⟨n, rfl, hn⟩ := h
  rcases List.mem_append.1 he with h1 | h1
  · exact Or.inl h1
  · exact Or.inr (hn e h1)

/-- Preamble, marshaling and in-release events are not the report of a native
error. -/
theorem Event.not_thrown_g_error (lo hi : Nat) (e : Event)
    (h : e.is_preamble = true ∨ e.marshal_ok lo hi = true ∨ e.is_release_step = true) :
    e.thrown_g_error = none := by
  cases e <;> simp_all [Event.is_preamble, Event.marshal_ok, Event.is_marshal_step,
    Event.is_release_step, Event.is_in_release, Event.thrown_g_error]

/-- Claim C6, amended: when the callee left a native error `err` in the error
holder, the function has an error channel, no native value is converted to a
script value, `js_rval` is left undefined and `*r_value` unset, and
`gjs_invoke_c_function` returns `false`; it reports the native error, as its
last action, when no release of an in-argument failed, and does not report it
at all when one failed. -/
theorem native_error_discards_outputs (env : Env) (function : Function) (obj : JSValue)
    (args : List JSValue) (js_rval : Option JSValue) (r_value_given : Bool) (heap : Heap)
    (r : Invoked) (err : Nat)
    (h : gjs_invoke_c_function env function obj args js_rval r_value_given heap = Except.ok r)
    (herr : r.locals.local_error = some err) :
    function.info.can_throw_gerror = true ∧
    r.ok = false ∧
    r.js_rval = js_rval.map (fun _ => JSValue.undefined) ∧
    r.r_value = none ∧
    (∀ e ∈ r.trace, e.is_output_conversion = false) ∧
    ((∀ e ∈ r.trace, e.step_failed env = false) →
      r.trace.getLast? = some (Event.throw_g_error err)) ∧
    ((∃ e ∈ r.trace, e.step_failed env = true) →
      r.trace.filterMap Event.thrown_g_error = []) := by
  rcases gjs_invoke_c_function_cases _ _ _ _ _ _ _ _ h with
    ⟨hq, hfew⟩ | ⟨hq, _⟩ | ⟨st, m, hpre, hm, hrest⟩
  · exfalso
    unfold gjs_invoke_c_function at h
    simp only [if_pos hfew, Except.ok.injEq] at h
    subst h
    simp [Locals.early] at herr
  · exfalso
    unfold gjs_invoke_c_function at h
    simp only [] at h
    split_ifs at h
    · simp only [Except.ok.injEq] at h; subst h; simp [Locals.early] at herr
    · split at h
      · simp at h
      · simp only [Except.ok.injEq] at h; subst h; simp [Locals.early] at herr
      · split at h
        · simp at h
        · split_ifs at h
          · obtain ⟨rl, _, _, hp, _⟩ := release_and_package_spec _ _ _ _ _ _ _ _ _ _ h
            rw [hq] at hp; exact absurd hp (by decide)
          · split at h
            · simp at h
            · obtain ⟨rl, _, _, hp, _⟩ := release_and_package_spec _ _ _ _ _ _ _ _ _ _ h
              rw [hq] at hp; exact absurd hp (by decide)
  · rcases hrest with ⟨hf, hrel⟩ | ⟨hf, c, hc, hrel⟩
    · exfalso
      obtain ⟨rl, _, _, _, _, _, _, hle, _⟩ := release_and_package_spec _ _ _ _ _ _ _ _ _ _ hrel
      rw [herr] at hle
      simp [Called.after_failed_marshal] at hle
    · obtain ⟨k, _, _, _, hproc, _, _, hmt⟩ := marshal_loop_spec _ _ _ _ _ _ _ _ _ _ _ _ hm
      obtain ⟨_, cjs, cthrow, ccan, _, cyes, _⟩ :=
        call_and_convert_return_spec _ _ _ _ _ _ _ _ _ hc
      obtain ⟨rl, hloop, _, _, _, _, _, hle, _, _, hjs, hrv, _, hok, htr⟩ :=
        release_and_package_spec _ _ _ _ _ _ _ _ _ _ hrel
      have hce : c.local_error = some err := by rw [← hle]; exact herr
      have hd : c.did_throw_gerror = true := by rw [cthrow, hce]; rfl
      obtain ⟨ctrace, cfailed, _, _⟩ := cyes hd
      have hskip := package_outputs_skip env function r_value_given c rl
        (c.failed || rl.postinvoke_release_failed) (Or.inr (Or.inl hd))
      rw [hskip] at hok htr hjs hrv
      obtain ⟨_, _, _, hrt, _, _⟩ := release_loop_spec _ _ _ _ _ _ _ _ _ _ _ _ _ _ hloop
        (by rw [hproc]; omega)
      have hrt' := hrt.widen (Q := Event.is_in_release)
        (fun e he => by simpa [release_kind, hd] using he)
      obtain ⟨rnew, hrn, hkind, _, hflag⟩ := hrt'
      simp only [Bool.false_or] at hflag
      obtain ⟨mnew, hmn, hmk⟩ := hmt
      obtain ⟨pnew, hpn, hpk⟩ := hpre
      have hrl : rl.regs.trace = pnew ++ mnew ++ [Event.ffi_call] ++ rnew := by
        rw [hrn, ctrace, hmn, hpn]; simp
      simp only [cfailed, Bool.false_or, hd, and_true, hce, Option.getD_some] at hok htr
      have hsteps : ∀ e ∈ pnew ++ mnew ++ [Event.ffi_call], e.step_failed env = false ∧
          e.is_output_conversion = false ∧ e.thrown_g_error = none := by
        intro e he
        simp only [List.mem_append, List.mem_singleton] at he
        rcases he with (he | he) | rfl
        · have := Event.preamble_facts env e (hpk e he)
          exact ⟨this.2.2.2.2, this.2.2.2.1,
            Event.not_thrown_g_error 0 0 e (Or.inl (hpk e he))⟩
        · have := Event.marshal_facts env _ _ e (hmk e he)
          exact ⟨this.2.2.2.1, this.2.2.1,
            Event.not_thrown_g_error _ _ e (Or.inr (Or.inl (hmk e he)))⟩
        · exact ⟨rfl, rfl, rfl⟩
      have hrel_facts : ∀ e ∈ rnew, e.is_output_conversion = false ∧
          e.thrown_g_error = none := by
        intro e he
        have hke := hkind e he
        exact ⟨(Event.in_release_facts e hke).2.2, Event.not_thrown_g_error 0 0 e
          (Or.inr (Or.inr (Event.is_release_step_of_in_release e hke)))⟩
      refine ⟨ccan (by rw [hce]; rfl), by rw [hok]; simp, by rw [hjs, cjs], hrv, ?_, ?_, ?_⟩
      · intro e he
        rw [htr, hrl] at he
        rcases List.mem_append.1 he with he | he
        · rcases List.mem_append.1 he with he | he
          · exact (hsteps e he).2.1
          · exact (hrel_facts e he).1
        · split_ifs at he
          · simp only [List.mem_singleton] at he; subst he; rfl
          · simp at he
      · intro hall
        have hpf : rl.postinvoke_release_failed = false := by
          rw [hflag, List.any_eq_false]
          intro e he
          have : e ∈ r.trace := by
            rw [htr, hrl]; simp [he]
          simp [hall e this]
        rw [htr, if_pos hpf, List.getLast?_append, List.getLast?_singleton]
        rfl
      · rintro ⟨e, he, hfail⟩
        have hpf : rl.postinvoke_release_failed = true := by
          rw [hflag, List.any_eq_true]
          rw [htr, hrl] at he
          rcases List.mem_append.1 he with he | he
          · rcases List.mem_append.1 he with he | he
            · have := (hsteps e he).1
              rw [this] at hfail; exact absurd hfail (by simp)
            · exact ⟨e, he, hfail⟩
          · split_ifs at he
            · simp only [List.mem_singleton] at he; subst he
              simp [Event.step_failed] at hfail
            · simp at he
        rw [htr, hrl, if_neg (by simp [hpf]), List.append_nil]
        have h1 : (pnew ++ mnew ++ [Event.ffi_call]).filterMap Event.thrown_g_error = [] := by
          rw [List.filterMap_eq_nil_iff]
          intro e he
          exact (hsteps e he).2.2
        have h2 : rnew.filterMap Event.thrown_g_error = [] := by
          rw [List.filterMap_eq_nil_iff]
          intro e he
          exact (hrel_facts e he).2
        rw [List.filterMap_append, h1, h2]
        rfl

/-- Witness for C6: `throwing_function` with a callee that reports the native
error 5 and releases that succeed returns `false` after reporting it. -/
theorem native_error_discards_outputs_witness :
    ∃ r, gjs_invoke_c_function (sample_env erring_native) throwing_function JSValue.undefined
        [JSValue.int32 1] (some JSValue.undefined) false {} = Except.ok r ∧
      r.locals.local_error = some 5 ∧ r.ok = false ∧
      r.js_rval = some JSValue.undefined ∧
      r.trace.getLast? = some (Event.throw_g_error 5) :=
  ⟨_, rfl, rfl,
    (native_error_discards_outputs (sample_env erring_native) throwing_function
      JSValue.undefined [JSValue.int32 1] (some JSValue.undefined) false {} _ 5 rfl rfl).2.1,
    rfl, rfl⟩

/-- Claim C8, amended: a call in which the native function was invoked and
left no native error returns `true` exactly when none of the steps after the
native call failed: the conversion of an output or of an array length, the
release of the return value or of an in-argument, the creation of the result
array. -/
theorem call_succeeds_iff_no_step_failed (env : Env) (function : Function) (obj : JSValue)
    (args : List JSValue) (js_rval : Option JSValue) (r_value_given : Bool) (heap : Heap)
    (r : Invoked)
    (h : gjs_invoke_c_function env function obj args js_rval r_value_given heap = Except.ok r)
    (hp : r.locals.path = Path.called) (hd : r.locals.did_throw_gerror = false) :
    (∃ e ∈ r.trace, e.is_ffi_call = true) ∧
    (r.ok = true ↔ ∀ e ∈ r.trace, e.step_failed env = false) := by
  rcases gjs_invoke_c_function_cases _ _ _ _ _ _ _ _ h with
    ⟨hq, _⟩ | ⟨hq, _⟩ | ⟨st, m, hpre, hm, hrest⟩
  · rw [hp] at hq; exact absurd hq (by decide)
  · rw [hp] at hq; exact absurd hq (by decide)
  · rcases hrest with ⟨_, hrel⟩ | ⟨hf, c, hc, hrel⟩
    · obtain ⟨rl, _, _, hq, _⟩ := release_and_package_spec _ _ _ _ _ _ _ _ _ _ hrel
      rw [hp] at hq; exact absurd hq (by decide)
    · obtain ⟨k, _, _, _, hproc, _, _, hmt⟩ := marshal_loop_spec _ _ _ _ _ _ _ _ _ _ _ _ hm
      obtain ⟨_, cjs, _, _, cext, _, _⟩ := call_and_convert_return_spec _ _ _ _ _ _ _ _ _ hc
      obtain ⟨rl, hloop, _, _, _, _, hdd, _, _, _, _, _, _, hok, htr⟩ :=
        release_and_package_spec _ _ _ _ _ _ _ _ _ _ hrel
      have hcd : c.did_throw_gerror = false := by rw [← hdd]; exact hd
      obtain ⟨_, _, _, hrt, _, _⟩ := release_loop_spec _ _ _ _ _ _ _ _ _ _ _ _ _ _ hloop
        (by rw [hproc]; omega)
      have hrt' := hrt.widen (Q := Event.is_release_step) (fun e he => by
        unfold release_kind at he
        split_ifs at he
        · exact Event.is_release_step_of_in_release e he
        · exact he)
      obtain ⟨rnew, hrn, _, _, hflag⟩ := hrt'
      simp only [Bool.false_or] at hflag
      obtain ⟨cnew, hcn, _, _, hcflag⟩ := cext
      simp only [Bool.false_or] at hcflag
      obtain ⟨mnew, hmn, hmk⟩ := hmt
      obtain ⟨pnew, hpn, hpk⟩ := hpre
      have hrl : rl.regs.trace = pnew ++ mnew ++ [Event.ffi_call] ++ cnew ++ rnew := by
        rw [hrn, hcn, hmn, hpn]; simp
      have hquiet : ∀ e ∈ pnew ++ mnew ++ [Event.ffi_call], e.step_failed env = false := by
        intro e he
        rcases List.mem_append.1 he with he | he
        · rcases List.mem_append.1 he with he | he
          · exact (Event.preamble_facts env e (hpk e he)).2.2.2.2
          · exact (Event.marshal_facts env _ _ e (hmk e he)).2.2.2.1
        · simp only [List.mem_singleton] at he; subst he; rfl
      have hbase : (∀ e ∈ rl.regs.trace, e.step_failed env = false) ↔
          (c.failed || rl.postinvoke_release_failed) = false := by
        rw [hrl, hcflag, hflag]
        constructor
        · intro hall
          rw [Bool.or_eq_false_iff, List.any_eq_false, List.any_eq_false]
          exact ⟨fun e he => by simp [hall e (by simp [he])],
            fun e he => by simp [hall e (by simp [he])]⟩
        · intro hno e he
          rw [Bool.or_eq_false_iff, List.any_eq_false, List.any_eq_false] at hno
          rcases List.mem_append.1 he with he | he
          · rcases List.mem_append.1 he with he | he
            · exact hquiet e he
            · simpa using hno.1 e he
          · simpa using hno.2 e he
      have hffi : ∃ e ∈ rl.regs.trace, e.is_ffi_call = true :=
        ⟨Event.ffi_call, by rw [hrl]; simp, rfl⟩
      simp only [hcd, Bool.not_false, Bool.and_true, Bool.false_eq_true, and_false,
        if_false, List.append_nil] at hok htr
      cases hfl : (c.failed || rl.postinvoke_release_failed)
      · -- nothing failed before the packaging
        rw [hfl] at hok htr
        by_cases hJ : function.js_out_argc = 0
        · have hskip := package_outputs_skip env function r_value_given c rl false
            (Or.inr (Or.inr hJ))
          rw [hskip] at hok htr
          simp only [Bool.not_false] at hok
          refine ⟨by rw [htr]; exact hffi, ?_⟩
          rw [hok, htr]
          simp only [true_iff]
          exact hbase.2 hfl
        · have hpos : 0 < function.js_out_argc := by omega
          obtain ⟨p1, p2, p3⟩ := package_outputs_pack env function r_value_given c rl hcd hpos
          cases hjs : c.js_rval with
          | none =>
            obtain ⟨q1, _, q3⟩ := p1 hjs
            rw [q1] at hok
            rw [q3] at htr
            refine ⟨by rw [htr]; exact hffi, ?_⟩
            rw [hok, htr]
            simp only [Bool.not_false, true_iff]
            exact hbase.2 hfl
          | some old =>
            by_cases h1 : function.js_out_argc = 1
            · obtain ⟨q1, _, q3⟩ := p2 h1 (by rw [hjs]; rfl)
              rw [q1] at hok
              rw [q3] at htr
              refine ⟨by rw [htr]; exact hffi, ?_⟩
              rw [hok, htr]
              simp only [Bool.not_false, true_iff]
              exact hbase.2 hfl
            · obtain ⟨q1, q2, _⟩ := p3 (by omega) (by rw [hjs]; rfl)
              rw [q2] at hok
              rw [q1] at htr
              refine ⟨by
                obtain ⟨e, he, hc⟩ := hffi
                exact ⟨e, by rw [htr]; simp [he], hc⟩, ?_⟩
              rw [hok, htr]
              simp only [Regs.log_trace, Bool.not_not, List.mem_append, List.mem_singleton]
              constructor
              · intro hnew e he
                rcases he with he | rfl
                · exact hbase.2 hfl e he
                · simp [Event.step_failed, hnew]
              · intro hall
                have := hall (Event.new_array_object rl.return_values) (Or.inr rfl)
                simpa [Event.step_failed] using this
      · -- something failed
        rw [hfl] at hok htr
        have hskip := package_outputs_skip env function r_value_given c rl true (Or.inl rfl)
        rw [hskip] at hok htr
        refine ⟨by rw [htr]; exact hffi, ?_⟩
        rw [hok, htr]
        simp only [Bool.not_true, Bool.false_eq_true, false_iff]
        intro hall
        have := hbase.1 hall
        rw [hfl] at this
        exact absurd this (by simp)

/-- Witness for C8: `int_return_function` with collaborators that all succeed
is called, reports no native error and returns `true`. -/
theorem call_succeeds_iff_no_step_failed_witness :
    ∃ r, gjs_invoke_c_function (sample_env quiet_native) int_return_function JSValue.undefined
        [] (some JSValue.undefined) false {} = Except.ok r ∧
      r.locals.path = Path.called ∧ r.locals.did_throw_gerror = false ∧
      (r.ok = true ↔ ∀ e ∈ r.trace, e.step_failed (sample_env quiet_native) = false) ∧
      r.ok = true ∧ r.js_rval = some (JSValue.int32 7) :=
  ⟨_, rfl, rfl, rfl,
    (call_succeeds_iff_no_step_failed (sample_env quiet_native) int_return_function
      JSValue.undefined [] (some JSValue.undefined) false {} _ rfl rfl rfl).2,
    rfl, rfl⟩

/-- The closing block of a classifier iteration keeps `js_out_argc` or adds
one to it. -/
theorem count_normal_or_array_out (s : ClassifyState) (i : Nat) (direction : GIDirection) :
    (count_normal_or_array s i direction).js_out_argc = s.js_out_argc ∨
    (count_normal_or_array s i direction).js_out_argc = (s.js_out_argc + 1) % 256 := by
  unfold count_normal_or_array
  simp only []
  split_ifs <;> simp

/-- The closing block counts an output parameter whose tag is `PARAM_NORMAL`
or `PARAM_ARRAY`, and leaves `js_out_argc` alone for an input parameter. -/
theorem count_normal_or_array_out_eq (s : ClassifyState) (i : Nat) (direction : GIDirection)
    (ht : s.param_types.getD i GjsParamType.PARAM_NORMAL = GjsParamType.PARAM_NORMAL ∨
      s.param_types.getD i GjsParamType.PARAM_NORMAL = GjsParamType.PARAM_ARRAY) :
    (count_normal_or_array s i direction).js_out_argc =
      if direction = GIDirection.OUT ∨ direction = GIDirection.INOUT
      then (s.js_out_argc + 1) % 256 else s.js_out_argc := by
  unfold count_normal_or_array
  simp only []
  rw [if_pos ht]

/-- Reading back the index just tagged `PARAM_ARRAY`: the tag, or the default
when the index is outside the list. -/
theorem getD_set_param_type_array (pts : List GjsParamType) (i : Nat) :
    (set_param_type pts i GjsParamType.PARAM_ARRAY).getD i GjsParamType.PARAM_NORMAL =
        GjsParamType.PARAM_NORMAL ∨
    (set_param_type pts i GjsParamType.PARAM_ARRAY).getD i GjsParamType.PARAM_NORMAL =
        GjsParamType.PARAM_ARRAY := by
  unfold set_param_type
  by_cases h : i < pts.length
  · right
    simp [List.getD_eq_getElem?_getD, List.getElem?_set, h]
  · left
    simp [List.getD_eq_getElem?_getD, List.getElem?_set, h]

/-- One classifier iteration keeps `js_out_argc` or adds one to it: the
decrement for a length sibling placed before its array is undone by the count
of the array itself. -/
theorem classify_step_out (info : GICallableInfo) (n_args i : Nat) (arg_info : GIArgInfo)
    (s s1 : ClassifyState) (h : classify_step info n_args i arg_info s = some s1)
    (hJ : s.js_out_argc < 256) :
    s1.js_out_argc = s.js_out_argc ∨ s1.js_out_argc = (s.js_out_argc + 1) % 256 := by
  unfold classify_step at h
  simp only [] at h
  by_cases h1 : s.param_types.getD i GjsParamType.PARAM_NORMAL = GjsParamType.PARAM_SKIPPED
  · rw [if_pos h1] at h
    simp only [Option.some.injEq] at h; subst h
    exact Or.inl rfl
  rw [if_neg h1] at h
  by_cases h2 : arg_info.type_info.tag = GITypeTag.INTERFACE
  · rw [if_pos h2] at h
    by_cases h3 : arg_info.type_info.interface_type = GIInfoType.CALLBACK
    · rw [if_pos h3] at h
      by_cases h4 : arg_info.type_info.interface_is_destroy_notify = true
      · rw [if_pos h4] at h
        simp only [Option.some.injEq] at h; subst h
        exact count_normal_or_array_out _ _ _
      · rw [if_neg h4] at h
        by_cases h5 : 0 ≤ arg_info.destroy ∧ arg_info.closure < 0
        · rw [if_pos h5] at h
          exact absurd h (by simp)
        · rw [if_neg h5] at h
          simp only [Option.some.injEq] at h; subst h
          exact count_normal_or_array_out _ _ _
    · rw [if_neg h3] at h
      simp only [Option.some.injEq] at h; subst h
      exact count_normal_or_array_out _ _ _
  rw [if_neg h2] at h
  by_cases h6 : arg_info.type_info.tag = GITypeTag.ARRAY
  · rw [if_pos h6] at h
    by_cases h7 : arg_info.type_info.array_type_is_c = true
    · rw [if_pos h7] at h
      by_cases h8 : 0 ≤ arg_info.type_info.array_length ∧
          arg_info.type_info.array_length < (n_args : Int)
      · rw [if_pos h8] at h
        cases hl : g_callable_info_load_arg info arg_info.type_info.array_length with
        | none => rw [hl] at h; exact absurd h (by simp)
        | some length_arg_info =>
          rw [hl] at h
          simp only [] at h
          by_cases h9 : length_arg_info.direction ≠ arg_info.direction
          · rw [if_pos h9] at h
            exact absurd h (by simp)
          · rw [if_neg h9] at h
            simp only [Option.some.injEq] at h; subst h
            by_cases h10 : arg_info.type_info.array_length < (i : Int)
            · rw [if_pos h10]
              rw [count_normal_or_array_out_eq _ _ _ (getD_set_param_type_array _ _)]
              simp only []
              split_ifs
              · left; omega
              · left; rfl
            · rw [if_neg h10]
              exact count_normal_or_array_out _ _ _
      · rw [if_neg h8] at h
        simp only [Option.some.injEq] at h; subst h
        exact count_normal_or_array_out _ _ _
    · rw [if_neg h7] at h
      simp only [Option.some.injEq] at h; subst h
      exact count_normal_or_array_out _ _ _
  · rw [if_neg h6] at h
    simp only [Option.some.injEq] at h; subst h
    exact count_normal_or_array_out _ _ _

/-- The classifier loop over `l` raises `js_out_argc` by at most one per
parameter, as long as the count stays within a `guint8`. -/
theorem classify_loop_out (info : GICallableInfo) (n_args : Nat) (l : List GIArgInfo) (i : Nat)
    (s s1 : ClassifyState) (h : classify_loop info n_args l i s = some s1)
    (hJ : s.js_out_argc + l.length < 256) :
    s.js_out_argc ≤ s1.js_out_argc ∧ s1.js_out_argc ≤ s.js_out_argc + l.length := by
  induction l generalizing i s with
  | nil =>
    simp only [classify_loop, Option.some.injEq] at h
    subst h
    simp
  | cons a rest ih =>
    simp only [classify_loop] at h
    split at h
    · exact absurd h (by simp)
    · rename_i s0 hs0
      simp only [List.length_cons] at hJ
      have hstep := classify_step_out _ _ _ _ _ _ hs0 (by omega)
      have hs0le : s.js_out_argc ≤ s0.js_out_argc ∧ s0.js_out_argc ≤ s.js_out_argc + 1 := by
        rcases hstep with hstep | hstep
        · omega
        · rw [hstep]; omega
      obtain ⟨a1, a2⟩ := ih _ _ h (by omega)
      simp only [List.length_cons]
      omega

/-- What `init_cached_function_data` leaves in the `Function` of a callable
with fewer than 255 parameters: the descriptor itself, and an output count
that includes the return value when the return type is not void. -/
theorem init_cached_function_data_out (invoker : Option Nat) (info : GICallableInfo)
    (function : Function) (h : init_cached_function_data invoker info = some function)
    (hn : info.args.length < 255) :
    function.info = info ∧
    (info.return_type.tag ≠ GITypeTag.VOID → 0 < function.js_out_argc) := by
  unfold init_cached_function_data at h
  cases invoker with
  | none => exact absurd h (by simp)
  | some cif_nargs =>
    simp only [] at h
    split at h
    · exact absurd h (by simp)
    · rename_i s hs
      simp only [Option.some.injEq] at h; subst h
      refine ⟨rfl, fun hv => ?_⟩
      have hlen : (List.take (g_callable_info_get_n_args info % 256) info.args).length < 255 := by
        simp only [List.length_take]
        omega
      have := classify_loop_out _ _ _ _ _ _ hs (by
        simp only []
        rw [if_pos hv]; omega)
      simp only [] at this ⊢
      rw [if_pos hv] at this
      omega

/-- One converted value per script output among the parameters. -/
theorem out_param_outputs_length (env : Env) (function : Function) (is_method : Bool)
    (out : Nat → GArgument) (l : List GIArgInfo) (gi_arg_pos c_arg_pos : Nat) :
    (out_param_outputs env function is_method out l gi_arg_pos c_arg_pos).length =
      non_skipped_out_count function l gi_arg_pos := by
  induction l generalizing gi_arg_pos c_arg_pos with
  | nil => rfl
  | cons a rest ih =>
    simp only [out_param_outputs, non_skipped_out_count, List.length_append, ih]
    split_ifs <;> rfl

/-- The outputs the specification lists are as many as `output_count` says. -/
theorem script_outputs_length (env : Env) (function : Function) (out : Nat → GArgument)
    (return_gargument : GArgument) :
    (script_outputs env function out return_gargument).length = output_count function := by
  unfold script_outputs output_count
  rw [List.length_append, out_param_outputs_length]
  split_ifs <;> rfl

/-- Several outputs are packaged as an array. -/
theorem package_of_several (outs : List JSValue) (h : 2 ≤ outs.length) :
    package_of outs = JSValue.array outs := by
  match outs, h with
  | _ :: _ :: _, _ => rfl

/-- The outputs of a call that returns `true`.  For a function whose
`js_out_argc` counts a non-void return value and whose parameters all fit the
`guint8` counters, the values stored in `return_values` are the conversions
the specification lists, there are `js_out_argc` of them, as many as the
function has outputs, and the script result is their package. -/
theorem successful_call_outputs (env : Env) (function : Function) (obj : JSValue)
    (args : List JSValue) (js_rval : JSValue) (r_value_given : Bool) (heap : Heap) (r : Invoked)
    (h : gjs_invoke_c_function env function obj args (some js_rval) r_value_given heap =
      Except.ok r)
    (hok : r.ok = true) (hn : function.info.args.length < 256)
    (hJ : function.info.return_type.tag ≠ GITypeTag.VOID → 0 < function.js_out_argc) :
    ∃ outs,
      script_outputs env function r.locals.frame.out_arg_cvalues r.locals.return_gargument =
        outs.map some ∧
      outs.length = function.js_out_argc ∧ outs.length = output_count function ∧
      r.js_rval = some (package_of outs) := by
  have hlist : function.info.args.take (to_guint8 (g_callable_info_get_n_args function.info)) =
      function.info.args := by
    unfold to_guint8 g_callable_info_get_n_args
    rw [Nat.mod_eq_of_lt hn, List.take_length]
  rcases gjs_invoke_c_function_cases _ _ _ _ _ _ _ _ h with
    ⟨_, hfew⟩ | ⟨_, hf, _⟩ | ⟨st, m, hpre, hm, hrest⟩
  · exfalso
    unfold gjs_invoke_c_function at h
    simp only [] at h
    rw [if_pos hfew] at h
    simp only [Except.ok.injEq] at h
    subst h
    exact absurd hok (by simp)
  · rw [hf] at hok
    exact absurd hok (by simp)
  · rcases hrest with ⟨hmf, hrel⟩ | ⟨hmf, c, hc, hrel⟩
    · exfalso
      obtain ⟨rl, _, _, _, _, _, _, _, _, _, _, _, _, hrok, _⟩ :=
        release_and_package_spec _ _ _ _ _ _ _ _ _ _ hrel
      rw [package_outputs_skip env function r_value_given _ rl _
        (Or.inl (by simp [Called.after_failed_marshal]))] at hrok
      rw [hrok] at hok
      simp [Called.after_failed_marshal] at hok
    · rw [hlist] at hm
      obtain ⟨k, _, _, _, hproc, hk, _, _⟩ := marshal_loop_spec _ _ _ _ _ _ _ _ _ _ _ _ hm
      have hk' := hk hmf
      obtain ⟨_, cjs, _, _, _, _, hnothrow⟩ :=
        call_and_convert_return_spec _ _ _ _ _ _ _ _ _ hc
      obtain ⟨rl, hloop, hdisj, _, hfr, hretg, _, _, _, _, hjsr, _, _, hrok, _⟩ :=
        release_and_package_spec _ _ _ _ _ _ _ _ _ _ hrel
      have hd : c.did_throw_gerror = false := by
        cases hx : c.did_throw_gerror
        · rfl
        · rw [hx] at hrok
          rw [hrok] at hok
          exact absurd hok (by simp)
      have hfl : (c.failed || rl.postinvoke_release_failed) = false := by
        cases hx : (c.failed || rl.postinvoke_release_failed)
        · rfl
        · exfalso
          rw [hx, package_outputs_skip env function r_value_given c rl true (Or.inl rfl)] at hrok
          rw [hrok] at hok
          exact absurd hok (by simp)
      obtain ⟨hcf, hpf⟩ := Bool.or_eq_false_iff.1 hfl
      rw [hfl] at hjsr hrok hdisj
      obtain ⟨hlen, hnr, hex⟩ := hnothrow hd
      obtain ⟨outs0, e0, n0, t0⟩ := hex rfl hcf hJ
      have hcjs : c.js_rval.isSome = true := by rw [cjs]; rfl
      rw [hlist] at hloop
      obtain ⟨_, hout, hlen', _, _, hsucc⟩ :=
        release_loop_spec _ _ _ _ _ _ _ _ _ _ _ _ _ _ hloop (by rw [hproc]; omega)
      obtain ⟨outs1, g1, g2, g3, g4⟩ := hsucc (by simp [hd, hcf]) hcjs hpf hlen hnr
      have htake : List.take (m.processed_c_args - (if function.info.is_method = true then 1 else 0))
          function.info.args = function.info.args := by
        rw [hproc, hk']
        simp
      rw [htake] at g1
      have hnx : rl.next_rval = function.js_out_argc := by
        rcases hdisj with hx | hx | hx
        · exact absurd hx (by simp)
        · rw [hd] at hx
          exact absurd hx (by simp)
        · exact hx
      simp only [] at hout hlen' g1 g2 g4
      have hlength : (outs0 ++ outs1).length = function.js_out_argc := by
        rw [List.length_append, ← n0, ← g2, hnx]
      have hrv : rl.return_values = outs0 ++ outs1 := by
        have hall : rl.return_values.take rl.next_rval = rl.return_values := by
          rw [hnx, ← hlen, ← hlen']
          exact List.take_length _
        rw [← hall, g4, t0]
      have hso : script_outputs env function r.locals.frame.out_arg_cvalues
          r.locals.return_gargument = (outs0 ++ outs1).map some := by
        unfold script_outputs
        rw [hfr, hout, hretg, List.map_append, ← e0, ← g1]
      refine ⟨outs0 ++ outs1, hso, hlength, ?_, ?_⟩
      · rw [← script_outputs_length env function r.locals.frame.out_arg_cvalues
          r.locals.return_gargument, hso, List.length_map]
      · rw [hjsr]
        by_cases h0 : function.js_out_argc = 0
        · rw [package_outputs_skip env function r_value_given c rl false (Or.inr (Or.inr h0))]
          have hnil : outs0 ++ outs1 = [] := List.length_eq_zero.1 (by rw [hlength, h0])
          rw [hnil, cjs]
          rfl
        · obtain ⟨_, p2, p3⟩ := package_outputs_pack env function r_value_given c rl hd
            (by omega)
          by_cases h1 : function.js_out_argc = 1
          · obtain ⟨_, q2, _⟩ := p2 h1 hcjs
            rw [q2, hrv]
            obtain ⟨v, hv⟩ := List.length_eq_one.1 (by rw [hlength, h1])
            rw [hv]
            rfl
          · obtain ⟨_, q2, q3⟩ := p3 (by omega) hcjs
            have hpfl : (package_outputs env function r_value_given c rl false).failed = false := by
              cases hx : (package_outputs env function r_value_given c rl false).failed
              · rfl
              · rw [hx] at hrok
                rw [hrok] at hok
                exact absurd hok (by simp)
            rw [q3 hpfl, hrv, package_of_several _ (by rw [hlength]; omega)]

/-- Claim C3: for a classified function of fewer than 255 parameters, a call
that returns `true` (neither a native error nor a failure) leaves in `js_rval`
undefined when the function has no output, the single converted output itself
when it has exactly one, and otherwise an array whose elements are, in order,
the converted return value (when the return type is not void) followed by the
converted values of the `OUT`/`INOUT` parameters that are not `PARAM_SKIPPED`,
in declaration order. -/
theorem script_result_packages_outputs (env : Env) (invoker : Option Nat) (info : GICallableInfo)
    (function : Function) (obj : JSValue) (args : List JSValue) (js_rval : JSValue)
    (r_value_given : Bool) (heap : Heap) (r : Invoked)
    (hclass : init_cached_function_data invoker info = some function)
    (hn : info.args.length < 255)
    (h : gjs_invoke_c_function env function obj args (some js_rval) r_value_given heap =
      Except.ok r)
    (hok : r.ok = true) :
    ∃ outs,
      script_outputs env function r.locals.frame.out_arg_cvalues r.locals.return_gargument =
        outs.map some ∧
      (output_count function = 0 → r.js_rval = some JSValue.undefined) ∧
      (output_count function = 1 → ∃ v, outs = [v] ∧ r.js_rval = some v) ∧
      (2 ≤ output_count function → r.js_rval = some (JSValue.array outs)) := by
  obtain ⟨hinfo, hJ⟩ := init_cached_function_data_out invoker info function hclass hn
  obtain ⟨outs, h1, _, h3, h4⟩ := successful_call_outputs env function obj args js_rval
    r_value_given heap r h hok (by rw [hinfo]; omega) (by rw [hinfo]; exact hJ)
  refine ⟨outs, h1, fun h0 => ?_, fun h0 => ?_, fun h0 => ?_⟩
  · rw [h4, List.length_eq_zero.1 (h3.trans h0)]
    rfl
  · obtain ⟨v, hv⟩ := List.length_eq_one.1 (h3.trans h0)
    exact ⟨v, hv, by rw [h4, hv]; rfl⟩
  · rw [h4, package_of_several outs (by omega)]

/-- Witness for C3: `int f(out int, out int)` with a callee that returns 7 and
writes 10 and 11 yields the array `[7, 10, 11]`, and `void f(out int)` with
the same callee yields the integer 10 itself. -/
theorem script_result_packages_outputs_witness :
    (init_cached_function_data (some 2) return_two_outs_info = some return_two_outs_function ∧
      return_two_outs_info.args.length < 255 ∧
      ∃ r, gjs_invoke_c_function (sample_env writing_native) return_two_outs_function
          JSValue.undefined [] (some JSValue.undefined) false {} = Except.ok r ∧
        r.ok = true ∧ output_count return_two_outs_function = 3 ∧
        r.js_rval = some (JSValue.array [JSValue.int32 7, JSValue.int32 10, JSValue.int32 11]) ∧
        ∃ outs,
          script_outputs (sample_env writing_native) return_two_outs_function
            r.locals.frame.out_arg_cvalues r.locals.return_gargument = outs.map some ∧
          (2 ≤ output_count return_two_outs_function → r.js_rval = some (JSValue.array outs))) ∧
    (init_cached_function_data (some 1) one_out_info = some one_out_function ∧
      one_out_info.args.length < 255 ∧
      ∃ r, gjs_invoke_c_function (sample_env writing_native) one_out_function
          JSValue.undefined [] (some JSValue.undefined) false {} = Except.ok r ∧
        r.ok = true ∧ output_count one_out_function = 1 ∧
        r.js_rval = some (JSValue.int32 10) ∧
        ∃ outs,
          script_outputs (sample_env writing_native) one_out_function
            r.locals.frame.out_arg_cvalues r.locals.return_gargument = outs.map some ∧
          (output_count one_out_function = 1 → ∃ v, outs = [v] ∧ r.js_rval = some v)) :=
  ⟨⟨rfl, by decide, _, rfl, rfl, rfl, rfl,
      (script_result_packages_outputs (sample_env writing_native) (some 2) return_two_outs_info
        return_two_outs_function JSValue.undefined [] JSValue.undefined false {} _ rfl
        (by decide) rfl rfl).imp (fun _ hx => ⟨hx.1, hx.2.2.2⟩)⟩,
    ⟨rfl, by decide, _, rfl, rfl, rfl, rfl,
      (script_result_packages_outputs (sample_env writing_native) (some 1) one_out_info
        one_out_function JSValue.undefined [] JSValue.undefined false {} _ rfl
        (by decide) rfl rfl).imp (fun _ hx => ⟨hx.1, hx.2.2.1⟩)⟩⟩

/-- Claim C4: for a classified function of fewer than 255 parameters, a call
that returns `true` with more than one output leaves in `js_rval` an array
whose length is 1 if the return type is not void, else 0, plus the number of
`OUT`/`INOUT` parameters that are not `PARAM_SKIPPED`. -/
theorem result_sequence_length (env : Env) (invoker : Option Nat) (info : GICallableInfo)
    (function : Function) (obj : JSValue) (args : List JSValue) (js_rval : JSValue)
    (r_value_given : Bool) (heap : Heap) (r : Invoked)
    (hclass : init_cached_function_data invoker info = some function)
    (hn : info.args.length < 255)
    (h : gjs_invoke_c_function env function obj args (some js_rval) r_value_given heap =
      Except.ok r)
    (hok : r.ok = true) (hmany : 1 < output_count function) :
    ∃ elems, r.js_rval = some (JSValue.array elems) ∧
      elems.length =
        (if function.info.return_type.tag ≠ GITypeTag.VOID then 1 else 0) +
          non_skipped_out_count function function.info.args 0 := by
  obtain ⟨hinfo, hJ⟩ := init_cached_function_data_out invoker info function hclass hn
  obtain ⟨outs, _, _, h3, h4⟩ := successful_call_outputs env function obj args js_rval
    r_value_given heap r h hok (by rw [hinfo]; omega) (by rw [hinfo]; exact hJ)
  exact ⟨outs, by rw [h4, package_of_several outs (by omega)], h3⟩

/-- Witness for C4: `int f(out int, out int)` has three outputs and a
successful call returns an array of length 3. -/
theorem result_sequence_length_witness :
    init_cached_function_data (some 2) return_two_outs_info = some return_two_outs_function ∧
    return_two_outs_info.args.length < 255 ∧
    1 < output_count return_two_outs_function ∧
    ∃ r, gjs_invoke_c_function (sample_env writing_native) return_two_outs_function
        JSValue.undefined [] (some JSValue.undefined) false {} = Except.ok r ∧
      r.ok = true ∧
      ∃ elems, r.js_rval = some (JSValue.array elems) ∧ elems.length = 1 + 2 :=
  ⟨rfl, by decide, by decide, _, rfl, rfl,
    result_sequence_length (sample_env writing_native) (some 2) return_two_outs_info
      return_two_outs_function JSValue.undefined [] JSValue.undefined false {} _ rfl
      (by decide) rfl rfl (by decide)⟩

/-- Two non-negative descriptor indices with the same frame position are
equal. -/
theorem c_pos_of_toNat_inj (is_method : Bool) (p q : Int) (hp : 0 ≤ p) (hq : 0 ≤ q)
    (h : (c_pos_of is_method p).toNat = (c_pos_of is_method q).toNat) : p = q := by
  unfold c_pos_of at h
  split_ifs at h <;> omega

/-- The frame position of a descriptor index given as a natural number. -/
theorem c_pos_of_natCast (is_method : Bool) (n : Nat) :
    (c_pos_of is_method (n : Int)).toNat = n + (if is_method then 1 else 0) := by
  unfold c_pos_of
  split_ifs <;> omega

/-- The snapshot of an `INOUT` cell leaves every other in cell alone. -/
theorem Regs.snapshot_inout_in (st : Regs) (c q : Nat) (h : q ≠ c) :
    (st.snapshot_inout c).frame.in_arg_cvalues q = st.frame.in_arg_cvalues q := by
  simp [Regs.snapshot_inout, Function.update, h]

/-- The snapshot of an `INOUT` cell leaves the in cell pointing at the out
cell. -/
theorem Regs.snapshot_inout_self (st : Regs) (c : Nat) :
    (st.snapshot_inout c).frame.in_arg_cvalues c = GArgument.out_cell c := by
  simp [Regs.snapshot_inout, Function.update]

/-- The `OUT` branch stores into the in cell of its own parameter only. -/
theorem marshal_out_in_cell (arg_info : GIArgInfo) (c_arg_pos : Nat) (st : Regs) (q : Nat)
    (h : q ≠ c_arg_pos) :
    (marshal_out arg_info c_arg_pos st).1.frame.in_arg_cvalues q = st.frame.in_arg_cvalues q := by
  unfold marshal_out
  simp only []
  split_ifs <;> simp [Function.update, h]

/-- A sibling store leaves every in cell but the sibling's alone. -/
theorem store_sibling_in_cell (function : Function) (c_argc : Nat) (is_method : Bool)
    (pos : Int) (v : GArgument) (st st1 : Regs)
    (h : store_sibling function c_argc is_method pos v st = Except.ok st1) (q : Nat)
    (hq : 0 ≤ pos → q ≠ (c_pos_of is_method pos).toNat) :
    st1.frame.in_arg_cvalues q = st.frame.in_arg_cvalues q := by
  rcases store_sibling_ok _ _ _ _ _ _ _ h with ⟨_, rfl⟩ | ⟨hp, _, _, rfl⟩
  · rfl
  · simp [Function.update, hq hp]

/-- Wiring a callback stores into the in cells of the callback and of its two
siblings only. -/
theorem wire_callback_in_cell (function : Function) (c_argc : Nat) (is_method : Bool)
    (arg_info : GIArgInfo) (c_arg_pos : Nat) (trampoline : Option Nat) (st st1 : Regs)
    (h : wire_callback function c_argc is_method arg_info c_arg_pos trampoline st =
      Except.ok st1) (q : Nat) (hq : q ≠ c_arg_pos)
    (hd : 0 ≤ arg_info.destroy → q ≠ (c_pos_of is_method arg_info.destroy).toNat)
    (hc : 0 ≤ arg_info.closure → q ≠ (c_pos_of is_method arg_info.closure).toNat) :
    st1.frame.in_arg_cvalues q = st.frame.in_arg_cvalues q := by
  unfold wire_callback at h
  simp only [] at h
  split at h
  · exact absurd h (by simp)
  · rename_i st2 h2
    split at h
    · exact absurd h (by simp)
    · rename_i st3 h3
      simp only [Except.ok.injEq] at h
      subst h
      have e2 := store_sibling_in_cell _ _ _ _ _ _ _ h2 q hd
      have e3 := store_sibling_in_cell _ _ _ _ _ _ _ h3 q hc
      simp only [Regs.set_in_in, Function.update, hq, dite_false, eq_rec_constant]
      rw [← e2, ← e3]
      cases trampoline with
      | none => rfl
      | some id =>
        simp only []
        split_ifs <;> rfl

/-- The `case PARAM_CALLBACK` stores into the in cells of the callback and of
its two siblings only. -/
theorem marshal_callback_in_cell (env : Env) (function : Function) (args : List JSValue)
    (c_argc : Nat) (is_method : Bool) (arg_info : GIArgInfo) (c_arg_pos js_arg_pos : Nat)
    (st : Regs) (sw : Switched)
    (h : marshal_callback env function args c_argc is_method arg_info c_arg_pos js_arg_pos st =
      Except.ok sw) (q : Nat) (hq : q ≠ c_arg_pos)
    (hd : 0 ≤ arg_info.destroy → q ≠ (c_pos_of is_method arg_info.destroy).toNat)
    (hc : 0 ≤ arg_info.closure → q ≠ (c_pos_of is_method arg_info.closure).toNat) :
    sw.regs.frame.in_arg_cvalues q = st.frame.in_arg_cvalues q := by
  unfold marshal_callback at h
  split at h
  · exact absurd h (by simp)
  · rename_i current_arg _
    split_ifs at h with h1 h2
    · split at h
      · exact absurd h (by simp)
      · rename_i st1 hw
        simp only [Except.ok.injEq] at h; subst h
        exact wire_callback_in_cell _ _ _ _ _ _ _ _ hw q hq hd hc
    · simp only [] at h
      split at h
      · exact absurd h (by simp)
      · rename_i made _
        split at h
        · exact absurd h (by simp)
        · rename_i id _
          split at h
          · exact absurd h (by simp)
          · rename_i st2 hw
            simp only [Except.ok.injEq] at h; subst h
            exact wire_callback_in_cell _ _ _ _ _ _ _ _ hw q hq hd hc
    · simp only [Except.ok.injEq] at h; subst h
      rfl

/-- The `case PARAM_NORMAL` stores into the in cell of its own parameter
only. -/
theorem marshal_normal_in_cell (env : Env) (args : List JSValue) (arg_info : GIArgInfo)
    (c_arg_pos js_arg_pos : Nat) (st : Regs) (sw : Switched)
    (h : marshal_normal env args arg_info c_arg_pos js_arg_pos st = Except.ok sw) (q : Nat)
    (hq : q ≠ c_arg_pos) :
    sw.regs.frame.in_arg_cvalues q = st.frame.in_arg_cvalues q := by
  unfold marshal_normal at h
  split at h
  · exact absurd h (by simp)
  · simp only [] at h
    split at h
    · simp only [Except.ok.injEq] at h; subst h
      rfl
    · simp only [Except.ok.injEq] at h; subst h
      simp [Function.update, hq]

/-- The `case PARAM_ARRAY` stores into the in cells of the array and of its
length sibling only. -/
theorem marshal_array_in_cell (env : Env) (function : Function) (args : List JSValue)
    (c_argc : Nat) (is_method : Bool) (arg_info : GIArgInfo) (c_arg_pos js_arg_pos : Nat)
    (st : Regs) (sw : Switched)
    (h : marshal_array env function args c_argc is_method arg_info c_arg_pos js_arg_pos st =
      Except.ok sw) (q : Nat) (hq : q ≠ c_arg_pos)
    (hl : 0 ≤ arg_info.type_info.array_length →
      q ≠ (c_pos_of is_method arg_info.type_info.array_length).toNat) :
    sw.regs.frame.in_arg_cvalues q = st.frame.in_arg_cvalues q := by
  unfold marshal_array at h
  split at h
  · exact absurd h (by simp)
  · simp only [] at h
    split at h
    · simp only [Except.ok.injEq] at h; subst h
      rfl
    · rename_i array length _
      split at h
      · exact absurd h (by simp)
      · rename_i array_length_arg hload
        have hnn : 0 ≤ arg_info.type_info.array_length := by
          unfold g_callable_info_load_arg at hload
          split_ifs at hload with hneg
          omega
        have hq2 := hl hnn
        by_cases hr : (c_pos_of is_method arg_info.type_info.array_length).toNat < c_argc
        · rw [if_neg (not_not.2 hr)] at h
          cases hv : env.value_to_arg (JSValue.int32 (int32_of_gsize length))
              array_length_arg with
          | none =>
            rw [hv] at h
            simp only [Except.ok.injEq] at h; subst h
            simp [Function.update, hq]
          | some c_length =>
            rw [hv] at h
            simp only [Except.ok.injEq] at h; subst h
            simp only []
            split_ifs
            · simp [Function.update, hq, hq2]
            · rw [Regs.snapshot_inout_in _ _ _ hq2]
              simp [Function.update, hq, hq2]
            · simp [Function.update, hq, hq2]
        · rw [if_pos hr] at h
          exact absurd h (by simp)

/-- One iteration of the marshaling loop stores into the in cells of its own
parameter and of the siblings that parameter names, and into no other. -/
theorem marshal_arg_in_cell (env : Env) (function : Function) (args : List JSValue)
    (c_argc : Nat) (is_method : Bool) (arg_info : GIArgInfo)
    (gi_arg_pos c_arg_pos js_arg_pos : Nat) (st : Regs) (r : Stepped)
    (h : marshal_arg env function args c_argc is_method arg_info gi_arg_pos c_arg_pos
      js_arg_pos st = Except.ok r) (q : Nat) (hq : q ≠ c_arg_pos)
    (hl : 0 ≤ arg_info.type_info.array_length →
      q ≠ (c_pos_of is_method arg_info.type_info.array_length).toNat)
    (hd : 0 ≤ arg_info.destroy → q ≠ (c_pos_of is_method arg_info.destroy).toNat)
    (hc : 0 ≤ arg_info.closure → q ≠ (c_pos_of is_method arg_info.closure).toNat) :
    r.regs.frame.in_arg_cvalues q = st.frame.in_arg_cvalues q := by
  unfold marshal_arg at h
  simp only [] at h
  split at h
  · exact absurd h (by simp)
  · split at h
    · simp only [Except.ok.injEq] at h; subst h
      simp only []
      rw [marshal_out_in_cell _ _ _ _ hq]
      rfl
    · split at h
      · exact absurd h (by simp)
      · rename_i param_type _
        split at h
        · exact absurd h (by simp)
        · rename_i sw hsw
          simp only [Except.ok.injEq] at h; subst h
          have hswitch : sw.regs.frame.in_arg_cvalues q = st.frame.in_arg_cvalues q := by
            unfold marshal_switch at hsw
            cases param_type with
            | PARAM_NORMAL =>
              simp only [] at hsw
              rw [marshal_normal_in_cell _ _ _ _ _ _ _ hsw q hq]; rfl
            | PARAM_ARRAY =>
              simp only [] at hsw
              rw [marshal_array_in_cell _ _ _ _ _ _ _ _ _ _ hsw q hq hl]; rfl
            | PARAM_CALLBACK =>
              simp only [] at hsw
              rw [marshal_callback_in_cell _ _ _ _ _ _ _ _ _ _ hsw q hq hd hc]; rfl
            | PARAM_SKIPPED =>
              simp only [Except.ok.injEq] at hsw; subst hsw
              rfl
          simp only []
          split_ifs
          · rw [Regs.snapshot_inout_in _ _ _ hq, hswitch]
          · exact hswitch

/-- An iteration of the marshaling loop for an `IN` or `INOUT` parameter
tagged `PARAM_SKIPPED` leaves the frame as it is and does not fail. -/
theorem marshal_arg_skipped (env : Env) (function : Function) (args : List JSValue)
    (c_argc : Nat) (is_method : Bool) (arg_info : GIArgInfo)
    (gi_arg_pos c_arg_pos js_arg_pos : Nat) (st : Regs) (r : Stepped)
    (h : marshal_arg env function args c_argc is_method arg_info gi_arg_pos c_arg_pos
      js_arg_pos st = Except.ok r)
    (hdir : arg_info.direction ≠ GIDirection.OUT)
    (hpt : function.param_types.get? gi_arg_pos = some GjsParamType.PARAM_SKIPPED) :
    r.regs.frame = st.frame := by
  unfold marshal_arg at h
  simp only [] at h
  split at h
  · exact absurd h (by simp)
  · rw [hpt] at h
    simp only [marshal_switch, Except.ok.injEq] at h
    subst h
    simp

/-- The iteration of the marshaling loop for an `INOUT` array that converts to
a non-null buffer leaves the in cell of the length sibling pointing at the
sibling's out cell. -/
theorem marshal_arg_inout_array (env : Env) (function : Function) (args : List JSValue)
    (c_argc : Nat) (is_method : Bool) (arg_info : GIArgInfo)
    (gi_arg_pos c_arg_pos js_arg_pos : Nat) (st : Regs) (r : Stepped)
    (h : marshal_arg env function args c_argc is_method arg_info gi_arg_pos c_arg_pos
      js_arg_pos st = Except.ok r) (hf : r.failed = false)
    (hdir : arg_info.direction = GIDirection.INOUT)
    (hpt : function.param_types.get? gi_arg_pos = some GjsParamType.PARAM_ARRAY)
    (hne : (c_pos_of is_method arg_info.type_info.array_length).toNat ≠ c_arg_pos)
    (hnonnull : ∀ v ∈ args, ∀ array length,
      env.value_to_explicit_array v arg_info = some (array, length) → array.isNull = false) :
    r.regs.frame.in_arg_cvalues (c_pos_of is_method arg_info.type_info.array_length).toNat =
      GArgument.out_cell (c_pos_of is_method arg_info.type_info.array_length).toNat := by
  unfold marshal_arg at h
  simp only [] at h
  split at h
  · exact absurd h (by simp)
  · rw [if_neg (by rw [hdir]; decide), hpt] at h
    simp only [marshal_switch] at h
    split at h
    · exact absurd h (by simp)
    · rename_i sw hsw
      simp only [Except.ok.injEq] at h; subst h
      simp only [] at hf ⊢
      unfold marshal_array at hsw
      split at hsw
      · exact absurd hsw (by simp)
      · rename_i current_arg hget
        have hmem : current_arg ∈ args := List.mem_iff_get?.2 ⟨_, hget⟩
        simp only [] at hsw
        split at hsw
        · simp only [Except.ok.injEq] at hsw; subst hsw
          exact absurd hf (by simp)
        · rename_i array length hconv
          have hnn := hnonnull current_arg hmem array length hconv
          split at hsw
          · exact absurd hsw (by simp)
          · rename_i array_length_arg _
            by_cases hr : (c_pos_of is_method arg_info.type_info.array_length).toNat < c_argc
            · rw [if_neg (not_not.2 hr)] at hsw
              cases hv : env.value_to_arg (JSValue.int32 (int32_of_gsize length))
                  array_length_arg with
              | none =>
                rw [hv] at hsw
                simp only [Except.ok.injEq] at hsw; subst hsw
                exact absurd hf (by simp)
              | some c_length =>
                rw [hv] at hsw
                simp only [Except.ok.injEq] at hsw; subst hsw
                have hcell : (Function.update
                    (Function.update st.frame.in_arg_cvalues c_arg_pos array)
                    (c_pos_of is_method arg_info.type_info.array_length).toNat
                    c_length c_arg_pos) = array := by
                  simp [Function.update, hne.symm]
                simp only [hdir, if_true, true_and, Regs.set_in_in, Regs.log_frame, hcell,
                  hnn, Bool.false_eq_true, if_false]
                rw [Regs.snapshot_inout_in _ _ _ hne, Regs.snapshot_inout_self]
            · rw [if_pos hr] at hsw
              exact absurd hsw (by simp)

/-- The frame position of a non-negative descriptor index. -/
theorem c_pos_of_toNat (is_method : Bool) (pos : Int) (h : 0 ≤ pos) :
    (c_pos_of is_method pos).toNat = pos.toNat + (if is_method then 1 else 0) := by
  unfold c_pos_of
  split_ifs <;> omega

/-- The in cell of the length sibling of an `INOUT` array still points at the
sibling's out cell when the marshaling loop ends without failure, provided
the array converts to a non-null buffer, the sibling is an `IN`/`INOUT`
parameter tagged `PARAM_SKIPPED`, and no later parameter names the same
sibling. -/
theorem marshal_loop_length_cell (env : Env) (function : Function) (args : List JSValue)
    (c_argc : Nat) (is_method : Bool) (i : Nat) (a : GIArgInfo)
    (hi : function.info.args.get? i = some a)
    (hdir : a.direction = GIDirection.INOUT)
    (hpt : function.param_types.get? i = some GjsParamType.PARAM_ARRAY)
    (hL : 0 ≤ a.type_info.array_length) (hLi : a.type_info.array_length.toNat ≠ i)
    (hlen_dir : ∀ len_info,
      function.info.args.get? a.type_info.array_length.toNat = some len_info →
      len_info.direction ≠ GIDirection.OUT)
    (hlen_pt : function.param_types.get? a.type_info.array_length.toNat =
      some GjsParamType.PARAM_SKIPPED)
    (hothers : ∀ j b, i < j → function.info.args.get? j = some b →
      b.type_info.array_length ≠ a.type_info.array_length ∧
      b.destroy ≠ a.type_info.array_length ∧ b.closure ≠ a.type_info.array_length)
    (hnonnull : ∀ v ∈ args, ∀ array length,
      env.value_to_explicit_array v a = some (array, length) → array.isNull = false)
    (l : List GIArgInfo) (gi c js pr : Nat) (st : Regs) (m : Marshaled)
    (hl : ∀ k, l.get? k = function.info.args.get? (gi + k))
    (hc : c = gi + (if is_method then 1 else 0))
    (h : marshal_loop env function args c_argc is_method l gi c js pr st = Except.ok m)
    (hf : m.failed = false)
    (hinv : gi ≤ i ∨
      st.frame.in_arg_cvalues (c_pos_of is_method a.type_info.array_length).toNat =
        GArgument.out_cell (c_pos_of is_method a.type_info.array_length).toNat) :
    m.regs.frame.in_arg_cvalues (c_pos_of is_method a.type_info.array_length).toNat =
      GArgument.out_cell (c_pos_of is_method a.type_info.array_length).toNat := by
  have hp := c_pos_of_toNat is_method a.type_info.array_length hL
  induction l generalizing gi c js pr st with
  | nil =>
    simp only [marshal_loop, Except.ok.injEq] at h
    subst h
    rcases hinv with hle | hcell
    · have h0 := hl (i - gi)
      rw [show gi + (i - gi) = i by omega, hi] at h0
      exact absurd h0 (by simp)
    · exact hcell
  | cons b rest ih =>
    have hb : function.info.args.get? gi = some b := by
      have h0 := hl 0
      simpa using h0.symm
    simp only [marshal_loop] at h
    split at h
    · exact absurd h (by simp)
    · rename_i s hs
      split at h
      · simp only [Except.ok.injEq] at h
        subst h
        exact absurd hf (by simp)
      · rename_i hsf
        refine ih (gi + 1) (c + 1) _ _ _ (fun k => ?_) (by omega) h ?_
        · have h0 := hl (k + 1)
          rw [show gi + 1 + k = gi + (k + 1) by omega, ← h0]
          rfl
        · by_cases hlt : gi < i
          · exact Or.inl (by omega)
          · right
            by_cases heq : gi = i
            · subst heq
              rw [hi] at hb
              simp only [Option.some.injEq] at hb
              subst hb
              exact marshal_arg_inout_array _ _ _ _ _ _ _ _ _ _ _ hs (by simpa using hsf) hdir
                hpt (by rw [hp, hc]; omega) hnonnull
            · have hcell : st.frame.in_arg_cvalues
                  (c_pos_of is_method a.type_info.array_length).toNat =
                    GArgument.out_cell (c_pos_of is_method a.type_info.array_length).toNat := by
                rcases hinv with hle | hcell
                · omega
                · exact hcell
              by_cases hself : gi = a.type_info.array_length.toNat
              · have hfr := marshal_arg_skipped _ _ _ _ _ _ _ _ _ _ _ hs
                  (hlen_dir b (by rw [← hself]; exact hb)) (by rw [hself]; exact hlen_pt)
                rw [hfr]
                exact hcell
              · obtain ⟨o1, o2, o3⟩ := hothers gi b (by omega) hb
                rw [marshal_arg_in_cell _ _ _ _ _ _ _ _ _ _ _ hs _ (by rw [hp, hc]; omega)
                  (fun h0 hx => o1 (c_pos_of_toNat_inj _ _ _ h0 hL hx.symm))
                  (fun h0 hx => o2 (c_pos_of_toNat_inj _ _ _ h0 hL hx.symm))
                  (fun h0 hx => o3 (c_pos_of_toNat_inj _ _ _ h0 hL hx.symm))]
                exact hcell

/-- What the callee was handed and what it left: the state recorded in
`at_call` differs from the state at the end of marshaling in the error-holder
slot at most, and an out cell whose in cell points at it holds what the callee
stored there. -/
theorem call_and_convert_return_at_call (env : Env) (function : Function)
    (c_argc gi_argc : Nat) (is_method : Bool) (js_rval : Option JSValue) (r_value_given : Bool)
    (m : Marshaled) (c : Called)
    (h : call_and_convert_return env function c_argc gi_argc is_method js_rval r_value_given m =
      Except.ok c) :
    ∃ st, c.at_call = some st ∧
      (∀ q, q ≠ m.c_arg_pos → st.frame.in_arg_cvalues q = m.regs.frame.in_arg_cvalues q) ∧
      (∀ q, st.frame.in_arg_cvalues q = GArgument.out_cell q →
        c.regs.frame.out_arg_cvalues q =
          (env.ffi_call st.frame.in_arg_cvalues st.frame.out_arg_cvalues st.heap).out_cells q) := by
  unfold call_and_convert_return at h
  simp only [] at h
  generalize hholder :
    (if function.info.can_throw_gerror = true then
      if ¬m.c_arg_pos < c_argc then (Except.error Fault.abort : Except Fault (Regs × Nat))
      else Except.ok (m.regs.set_in m.c_arg_pos GArgument.local_error, m.c_arg_pos + 1)
    else Except.ok (m.regs, m.c_arg_pos)) = holder at h
  cases holder with
  | error f => exact absurd h (by simp)
  | ok p =>
    obtain ⟨st, c_arg_pos⟩ := p
    have hin : ∀ q, q ≠ m.c_arg_pos →
        st.frame.in_arg_cvalues q = m.regs.frame.in_arg_cvalues q := by
      intro q hq
      split_ifs at hholder <;> simp only [Except.ok.injEq, Prod.mk.injEq] at hholder <;>
        rw [← hholder.1]
      simp [Function.update, hq]
    simp only [] at h
    generalize herr : (if function.info.can_throw_gerror = true then
      (env.ffi_call st.frame.in_arg_cvalues st.frame.out_arg_cvalues st.heap).error
      else none) = local_error at h
    split_ifs at h with h1 h2 hpos hret
    · split at h
      · exact absurd h (by simp)
      · rename_i st2 rv1 failed hconv
        simp only [Except.ok.injEq] at h; subst h
        obtain ⟨c1, _⟩ := convert_return_spec _ _ _ _ _ _ _ _ _ _ _ _ _ hconv
        refine ⟨st, rfl, hin, fun q hq => ?_⟩
        simp only [c1]
        rw [if_pos hq]
    · simp only [Except.ok.injEq] at h; subst h
      refine ⟨st, rfl, hin, fun q hq => ?_⟩
      simp only []
      rw [if_pos hq]
    · simp only [Except.ok.injEq] at h; subst h
      refine ⟨st, rfl, hin, fun q hq => ?_⟩
      simp only []
      rw [if_pos hq]

/-- The release phase reports `at_call` as it received it. -/
theorem release_and_package_at_call (env : Env) (function : Function) (c_argc gi_argc : Nat)
    (is_method : Bool) (r_value_given : Bool) (path : Path) (processed_c_args : Nat)
    (c : Called) (r : Invoked)
    (h : release_and_package env function c_argc gi_argc is_method r_value_given path
      processed_c_args c = Except.ok r) :
    r.locals.at_call = c.at_call := by
  unfold release_and_package at h
  split at h
  · exact absurd h (by simp)
  · simp only [] at h
    split_ifs at h <;> simp only [Except.ok.injEq] at h <;> subst h <;> rfl

/-- Where the converted value of a script output sits among the outputs of
the parameters: after those of the script outputs before it. -/
theorem out_param_outputs_get (env : Env) (function : Function) (is_method : Bool)
    (out : Nat → GArgument) (l : List GIArgInfo) (gi_arg_pos c_arg_pos k : Nat) (a : GIArgInfo)
    (hk : l.get? k = some a) (hs : is_script_output function (gi_arg_pos + k) a = true) :
    (out_param_outputs env function is_method out l gi_arg_pos c_arg_pos).get?
        (non_skipped_out_count function (l.take k) gi_arg_pos) =
      some (expected_value env function is_method out a.type_info (out (c_arg_pos + k))) := by
  induction l generalizing gi_arg_pos c_arg_pos k with
  | nil => exact absurd hk (by simp)
  | cons b rest ih =>
    cases k with
    | zero =>
      simp only [List.get?_cons_zero, Option.some.injEq] at hk
      subst hk
      simp only [Nat.add_zero] at hs
      simp [out_param_outputs, non_skipped_out_count, hs]
    | succ k =>
      simp only [List.get?_cons_succ] at hk
      have hs' : is_script_output function (gi_arg_pos + 1 + k) a = true := by
        rw [show gi_arg_pos + 1 + k = gi_arg_pos + (k + 1) by omega]; exact hs
      have := ih (gi_arg_pos + 1) (c_arg_pos + 1) k hk hs'
      rw [show c_arg_pos + 1 + k = c_arg_pos + (k + 1) by omega] at this
      simp only [out_param_outputs, List.take_succ_cons, non_skipped_out_count]
      by_cases hb : is_script_output function gi_arg_pos b = true
      · rw [if_pos hb, if_pos hb, List.get?_eq_getElem?]
        rw [List.get?_eq_getElem?] at this
        rw [show 1 + non_skipped_out_count function (List.take k rest) (gi_arg_pos + 1) =
          non_skipped_out_count function (List.take k rest) (gi_arg_pos + 1) + 1 by omega]
        simpa using this
      · rw [if_neg hb, if_neg hb]
        simpa using this

/-- The phases of a call that returns `true`: marshaling did not fail, the
callee was called and threw nothing, and nothing failed afterwards. -/
theorem successful_call_phases (env : Env) (function : Function) (obj : JSValue)
    (args : List JSValue) (js_rval : Option JSValue) (r_value_given : Bool) (heap : Heap)
    (r : Invoked)
    (h : gjs_invoke_c_function env function obj args js_rval r_value_given heap = Except.ok r)
    (hok : r.ok = true) :
    ∃ st m c,
      marshal_loop env function args (to_guint8 function.cif_nargs) function.info.is_method
        (function.info.args.take (to_guint8 (g_callable_info_get_n_args function.info))) 0
        (if function.info.is_method then 1 else 0) 0
        (if function.info.is_method then 1 else 0) st = Except.ok m ∧
      m.failed = false ∧
      call_and_convert_return env function (to_guint8 function.cif_nargs)
        (to_guint8 (g_callable_info_get_n_args function.info)) function.info.is_method
        js_rval r_value_given m = Except.ok c ∧
      release_and_package env function (to_guint8 function.cif_nargs)
        (to_guint8 (g_callable_info_get_n_args function.info)) function.info.is_method
        r_value_given Path.called m.processed_c_args c = Except.ok r := by
  rcases gjs_invoke_c_function_cases _ _ _ _ _ _ _ _ h with
    ⟨_, hfew⟩ | ⟨_, hf, _⟩ | ⟨st, m, hpre, hm, hrest⟩
  · exfalso
    unfold gjs_invoke_c_function at h
    simp only [] at h
    rw [if_pos hfew] at h
    simp only [Except.ok.injEq] at h
    subst h
    exact absurd hok (by simp)
  · rw [hf] at hok
    exact absurd hok (by simp)
  · rcases hrest with ⟨hmf, hrel⟩ | ⟨hmf, c, hc, hrel⟩
    · exfalso
      obtain ⟨rl, _, _, _, _, _, _, _, _, _, _, _, _, hrok, _⟩ :=
        release_and_package_spec _ _ _ _ _ _ _ _ _ _ hrel
      rw [package_outputs_skip env function r_value_given _ rl _
        (Or.inl (by simp [Called.after_failed_marshal]))] at hrok
      rw [hrok] at hok
      simp [Called.after_failed_marshal] at hok
    · exact ⟨st, m, c, hm, hmf, hc, hrel⟩

/-- Claim C5: for a classified function of fewer than 255 parameters with an
`INOUT` parameter `a` at index `i` tagged `PARAM_ARRAY`, whose length is
carried by an `INOUT` sibling tagged `PARAM_SKIPPED` that no later parameter
names, and script arguments that do not convert to a null buffer for `a`: in
a call that returns `true`, the callee was handed the address of the
sibling's out cell, and the output for `a` is the conversion of the array
with, as element count, the value the callee left in that out cell. -/
theorem inout_array_length_from_out_cell (env : Env) (invoker : Option Nat)
    (info : GICallableInfo) (function : Function) (obj : JSValue) (args : List JSValue)
    (js_rval : JSValue) (r_value_given : Bool) (heap : Heap) (r : Invoked)
    (i : Nat) (a len_info : GIArgInfo)
    (hclass : init_cached_function_data invoker info = some function)
    (hn : info.args.length < 255)
    (h : gjs_invoke_c_function env function obj args (some js_rval) r_value_given heap =
      Except.ok r)
    (hok : r.ok = true)
    (hi : function.info.args.get? i = some a)
    (hdir : a.direction = GIDirection.INOUT)
    (hpt : function.param_types.get? i = some GjsParamType.PARAM_ARRAY)
    (hL : 0 ≤ a.type_info.array_length) (hLi : a.type_info.array_length.toNat ≠ i)
    (hlen : function.info.args.get? a.type_info.array_length.toNat = some len_info)
    (hlen_dir : len_info.direction = GIDirection.INOUT)
    (hlen_pt : function.param_types.get? a.type_info.array_length.toNat =
      some GjsParamType.PARAM_SKIPPED)
    (hothers : ∀ j b, i < j → function.info.args.get? j = some b →
      b.type_info.array_length ≠ a.type_info.array_length ∧
      b.destroy ≠ a.type_info.array_length ∧ b.closure ≠ a.type_info.array_length)
    (hnonnull : ∀ v ∈ args, ∀ array length,
      env.value_to_explicit_array v a = some (array, length) → array.isNull = false) :
    ∃ st array_length v outs,
      r.locals.at_call = some st ∧
      st.frame.in_arg_cvalues (c_pos_of function.info.is_method a.type_info.array_length).toNat =
        GArgument.out_cell (c_pos_of function.info.is_method a.type_info.array_length).toNat ∧
      env.value_from_g_argument len_info.type_info
        ((env.ffi_call st.frame.in_arg_cvalues st.frame.out_arg_cvalues st.heap).out_cells
          (c_pos_of function.info.is_method a.type_info.array_length).toNat) =
        some array_length ∧
      env.value_from_explicit_array a.type_info
        (r.locals.frame.out_arg_cvalues (c_pos_of function.info.is_method (i : Int)).toNat)
        array_length.toInt32 = some v ∧
      script_outputs env function r.locals.frame.out_arg_cvalues r.locals.return_gargument =
        outs.map some ∧
      outs.get? ((if function.info.return_type.tag ≠ GITypeTag.VOID then 1 else 0) +
        non_skipped_out_count function (function.info.args.take i) 0) = some v ∧
      r.js_rval = some (package_of outs) := by
  obtain ⟨hinfo, hJ⟩ := init_cached_function_data_out invoker info function hclass hn
  have hn' : function.info.args.length < 256 := by rw [hinfo]; omega
  obtain ⟨outs, hso, _, _, hjs⟩ := successful_call_outputs env function obj args js_rval
    r_value_given heap r h hok hn' (by rw [hinfo]; exact hJ)
  obtain ⟨st0, m, c, hm, hmf, hc, hrel⟩ := successful_call_phases _ _ _ _ _ _ _ _ h hok
  have hlist : function.info.args.take (to_guint8 (g_callable_info_get_n_args function.info)) =
      function.info.args := by
    unfold to_guint8 g_callable_info_get_n_args
    rw [Nat.mod_eq_of_lt hn', List.take_length]
  rw [hlist] at hm
  have hp := c_pos_of_toNat function.info.is_method a.type_info.array_length hL
  have hLlt : a.type_info.array_length.toNat < function.info.args.length := by
    rw [List.get?_eq_getElem?] at hlen
    exact (List.getElem?_eq_some_iff.1 hlen).1
  -- the in cell of the length sibling at the end of marshaling
  have hcell := marshal_loop_length_cell env function args _ function.info.is_method i a hi hdir
    hpt hL hLi (fun li hli => by
      rw [hlen] at hli
      simp only [Option.some.injEq] at hli
      subst hli
      rw [hlen_dir]; decide) hlen_pt hothers hnonnull _ 0 _ 0 _ st0 m (fun k => by simp)
    (by simp) hm hmf (Or.inl (Nat.zero_le _))
  obtain ⟨k, _, _, hcpos, hproc, hk, _, _⟩ := marshal_loop_spec _ _ _ _ _ _ _ _ _ _ _ _ hm
  have hk' := hk hmf
  obtain ⟨st, hat, hin, hout⟩ := call_and_convert_return_at_call _ _ _ _ _ _ _ _ _ hc
  have hst : st.frame.in_arg_cvalues
      (c_pos_of function.info.is_method a.type_info.array_length).toNat =
      GArgument.out_cell (c_pos_of function.info.is_method a.type_info.array_length).toNat := by
    rw [hin _ (by rw [hp, hcpos, hk']; omega)]
    exact hcell
  have hwritten := hout _ hst
  obtain ⟨rl, hloop, _, _, hfr, _⟩ := release_and_package_spec _ _ _ _ _ _ _ _ _ _ hrel
  obtain ⟨_, hkeep, _⟩ := release_loop_spec _ _ _ _ _ _ _ _ _ _ _ _ _ _ hloop
    (by rw [hproc]; omega)
  simp only [] at hkeep
  have hfinal : r.locals.frame.out_arg_cvalues = c.regs.frame.out_arg_cvalues := by
    rw [hfr, hkeep]
  -- the output of the array among the outputs
  have hso_a : is_script_output function (0 + i) a = true := by
    rw [List.get?_eq_getElem?] at hpt
    simp [is_script_output, hdir, hpt]
  have hget := out_param_outputs_get env function function.info.is_method
    r.locals.frame.out_arg_cvalues function.info.args 0
    (if function.info.is_method = true then 1 else 0) i a hi hso_a
  have hidx : (script_outputs env function r.locals.frame.out_arg_cvalues
      r.locals.return_gargument).get?
        ((if function.info.return_type.tag ≠ GITypeTag.VOID then 1 else 0) +
          non_skipped_out_count function (function.info.args.take i) 0) =
      some (expected_value env function function.info.is_method r.locals.frame.out_arg_cvalues
        a.type_info (r.locals.frame.out_arg_cvalues
          ((if function.info.is_method = true then 1 else 0) + i))) := by
    unfold script_outputs
    rw [List.get?_eq_getElem?] at hget ⊢
    by_cases hv : function.info.return_type.tag ≠ GITypeTag.VOID
    · rw [if_pos hv, if_pos hv, List.getElem?_append_right (by simp)]
      simpa using hget
    · rw [if_neg hv, if_neg hv]
      simpa using hget
  rw [hso, List.get?_eq_getElem?, List.getElem?_map] at hidx
  cases hov : outs[(if function.info.return_type.tag ≠ GITypeTag.VOID then 1 else 0) +
      non_skipped_out_count function (function.info.args.take i) 0]? with
  | none => rw [hov] at hidx; exact absurd hidx (by simp)
  | some v =>
    rw [hov] at hidx
    simp only [Option.map_some', Option.some.injEq] at hidx
    have hload : g_callable_info_load_arg function.info a.type_info.array_length =
        some len_info := by
      unfold g_callable_info_load_arg
      rw [if_neg (by omega)]
      exact hlen
    unfold expected_value expected_length at hidx
    rw [if_pos hL, hload] at hidx
    simp only [] at hidx
    cases hlv : env.value_from_g_argument len_info.type_info
        (r.locals.frame.out_arg_cvalues
          (c_pos_of function.info.is_method a.type_info.array_length).toNat) with
    | none => rw [hlv] at hidx; exact absurd hidx (by simp)
    | some array_length =>
      rw [hlv] at hidx
      simp only [Option.map_some'] at hidx
      refine ⟨st, array_length, v, outs, ?_, hst, ?_, ?_, hso, ?_, hjs⟩
      · rw [release_and_package_at_call _ _ _ _ _ _ _ _ _ _ hrel]
        exact hat
      · rw [← hwritten, ← hfinal]
        exact hlv
      · rw [c_pos_of_natCast, Nat.add_comm]
        exact hidx.symm
      · rw [List.get?_eq_getElem?]
        exact hov

/-- Witness for C5: `void f(inout T *a, inout int n)` called with an array of
three elements, the callee writing 5 into the out cell of `n`: the length
marshaled in is 3, and the result is an array of exactly 5 elements. -/
theorem inout_array_length_from_out_cell_witness :
    init_cached_function_data (some 2) inout_array_info = some inout_array_function ∧
    ∃ r, gjs_invoke_c_function (sample_env grow_native) inout_array_function JSValue.undefined
        [three_element_array] (some JSValue.undefined) false {} = Except.ok r ∧
      r.ok = true ∧
      r.locals.frame.inout_original_arg_cvalues 1 = GArgument.raw 3 ∧
      r.js_rval = some (JSValue.array (List.replicate 5 JSValue.undefined)) ∧
      ∃ st array_length v outs,
        r.locals.at_call = some st ∧
        st.frame.in_arg_cvalues 1 = GArgument.out_cell 1 ∧
        (sample_env grow_native).value_from_g_argument int_type
          (((sample_env grow_native).ffi_call st.frame.in_arg_cvalues st.frame.out_arg_cvalues
            st.heap).out_cells 1) = some array_length ∧
        (sample_env grow_native).value_from_explicit_array (c_array_type 1)
          (r.locals.frame.out_arg_cvalues 0) array_length.toInt32 = some v ∧
        script_outputs (sample_env grow_native) inout_array_function
          r.locals.frame.out_arg_cvalues r.locals.return_gargument = outs.map some ∧
        outs.get? 0 = some v ∧
        r.js_rval = some (package_of outs) :=
  ⟨rfl, _, rfl, rfl, rfl, rfl,
    inout_array_length_from_out_cell (sample_env grow_native) (some 2) inout_array_info
      inout_array_function JSValue.undefined [three_element_array] JSValue.undefined false {} _
      0 { type_info := c_array_type 1, direction := GIDirection.INOUT }
      { type_info := int_type, direction := GIDirection.INOUT }
      rfl (by decide) rfl rfl rfl rfl rfl (by decide) (by decide) rfl rfl rfl
      (fun j b hj hb => by
        match j, hj, hb with
        | 1, _, hb =>
          simp only [inout_array_function, inout_array_info, List.get?_cons_succ,
            List.get?_cons_zero, Option.some.injEq] at hb
          subst hb
          decide
        | j + 2, _, hb =>
          simp [inout_array_function, inout_array_info] at hb)
      (fun v hv array length hconv => by
        simp only [List.mem_singleton] at hv
        subst hv
        simp only [sample_env, three_element_array, Option.some.injEq, Prod.mk.injEq] at hconv
        rw [← hconv.1]
        rfl)⟩

/-- Claim C20, evaluated: `expected_js_argc` differs from the number of
parameters finally tagged as script inputs on two classified descriptors.
For two arrays sharing a length parameter placed before them the classifier
takes the length off the count once per array and ends with 1, where two
parameters are tagged `PARAM_ARRAY` with direction `IN`.  For closure data
placed before its callback the classifier counts the data as an input before
the callback tags it `PARAM_SKIPPED`, and ends with 2, where one parameter is
tagged `PARAM_CALLBACK` and none `PARAM_NORMAL` or `PARAM_ARRAY`; a call with
the single script argument the marshaling needs is then refused. -/
theorem expected_js_argc_differs_from_input_count :
    (init_cached_function_data (some (prepared_cif_nargs shared_length_info))
        shared_length_info = some shared_length_function ∧
      shared_length_function.expected_js_argc = 1 ∧
      script_input_count shared_length_function = 2) ∧
    (init_cached_function_data (some (prepared_cif_nargs data_before_callback_info))
        data_before_callback_info = some data_before_callback_function ∧
      data_before_callback_function.expected_js_argc = 2 ∧
      script_input_count data_before_callback_function = 1 ∧
      ∃ r, gjs_invoke_c_function (sample_env quiet_native) data_before_callback_function
          JSValue.undefined [JSValue.function 0] (some JSValue.undefined) false {} =
            Except.ok r ∧
        r.ok = false ∧ r.locals.path = Path.too_few_arguments) :=
  ⟨⟨by decide, rfl, by decide⟩, ⟨by decide, rfl, by decide, _, rfl, rfl, rfl⟩⟩

/-- A reference taken on a live trampoline adds one to its count. -/
theorem gjs_callback_trampoline_ref_get (heap : Heap) (id : Nat) (t : GjsCallbackTrampoline)
    (h : heap.trampolines.get? id = some t) :
    (gjs_callback_trampoline_ref heap id).trampolines.get? id =
      some { t with ref_count := t.ref_count + 1 } ∧
    (gjs_callback_trampoline_ref heap id).completed_trampolines = heap.completed_trampolines := by
  unfold gjs_callback_trampoline_ref
  rw [h]
  rw [List.get?_eq_getElem?] at h
  have hlt := (List.getElem?_eq_some_iff.1 h).1
  simp [List.getElem?_set, hlt]

/-- A reference dropped on a trampoline takes one off its count and frees it
when the count reaches zero. -/
theorem gjs_callback_trampoline_unref_get (heap : Heap) (id : Nat) (t : GjsCallbackTrampoline)
    (h : heap.trampolines.get? id = some t) :
    (gjs_callback_trampoline_unref heap id).trampolines.get? id =
      some { t with ref_count := t.ref_count - 1
                    freed := if t.ref_count - 1 = 0 then true else t.freed } ∧
    (gjs_callback_trampoline_unref heap id).completed_trampolines =
      heap.completed_trampolines := by
  unfold gjs_callback_trampoline_unref
  rw [h]
  rw [List.get?_eq_getElem?] at h
  have hlt := (List.getElem?_eq_some_iff.1 h).1
  simp [List.getElem?_set, hlt]

/-- A reference dropped on one trampoline leaves the others alone. -/
theorem gjs_callback_trampoline_unref_other (heap : Heap) (id other : Nat) (h : other ≠ id) :
    (gjs_callback_trampoline_unref heap other).trampolines.get? id =
      heap.trampolines.get? id := by
  unfold gjs_callback_trampoline_unref
  cases ho : heap.trampolines.get? other with
  | none => rfl
  | some t => simp [List.getElem?_set, h]

/-- Unrefs of trampolines other than `id` leave `id` alone. -/
theorem unref_completed_other (ids : List Nat) (st : Regs) (id : Nat) (h : id ∉ ids) :
    (unref_completed ids st).heap.trampolines.get? id = st.heap.trampolines.get? id := by
  induction ids generalizing st with
  | nil => rfl
  | cons other rest ih =>
    simp only [List.mem_cons, not_or] at h
    simp only [unref_completed]
    rw [ih _ h.2]
    exact gjs_callback_trampoline_unref_other _ _ _ (fun e => h.1 e.symm)

/-- An invocation of the closure that returns leaves a trampoline with a
non-zero count exactly as it found it, and puts a trampoline of scope `ASYNC`
on `completed_trampolines` unless the runtime is sweeping. -/
theorem gjs_callback_closure_keeps_trampoline (cenv : ClosureEnv) (heap : Heap) (data : Nat)
    (args : Nat → GArgument) (t : GjsCallbackTrampoline) (run : ClosureRun)
    (ht : heap.trampolines.get? data = some t) (hcount : t.ref_count ≠ 0)
    (hscript : cenv.leaves_trampoline data)
    (h : gjs_callback_closure cenv heap data args = Except.ok run)
    (hend : run.ended = ClosureEnd.returned) :
    run.heap.trampolines.get? data = some t ∧
    (t.scope = GIScopeType.ASYNC → cenv.is_sweeping = false →
      ∃ rest, run.heap.completed_trampolines = data :: rest ∧
        (data ∉ heap.completed_trampolines → data ∉ rest)) := by
  have href := gjs_callback_trampoline_ref_get heap data t ht
  have hback : ∀ heap2 : Heap,
      heap2.trampolines.get? data = some { t with ref_count := t.ref_count + 1 } →
      (gjs_callback_trampoline_unref heap2 data).trampolines.get? data = some t := by
    intro heap2 h2
    rw [(gjs_callback_trampoline_unref_get heap2 data _ h2).1]
    simp only [add_sub_cancel_right, hcount, if_false]
  have hfinish : ∀ (heap2 : Heap) sc o,
      heap2.trampolines.get? data = some { t with ref_count := t.ref_count + 1 } →
      (data ∉ heap.completed_trampolines → data ∉ heap2.completed_trampolines) →
      closure_finish cenv t data heap2 sc o = run →
      run.heap.trampolines.get? data = some t ∧
      (t.scope = GIScopeType.ASYNC → cenv.is_sweeping = false →
        ∃ rest, run.heap.completed_trampolines = data :: rest ∧
          (data ∉ heap.completed_trampolines → data ∉ rest)) := by
    intro heap2 sc o h2 hc2 hrun
    unfold closure_finish at hrun
    by_cases hexit : o.success = false ∧ cenv.is_exception_pending = false
    · rw [if_pos hexit] at hrun
      rw [← hrun] at hend
      exact absurd hend (by simp)
    · rw [if_neg hexit] at hrun
      rw [← hrun]
      simp only []
      by_cases hs : t.scope = GIScopeType.ASYNC
      · rw [if_pos hs]
        exact ⟨hback _ h2, fun _ _ => ⟨heap2.completed_trampolines,
          (gjs_callback_trampoline_unref_get
            { heap2 with completed_trampolines := data :: heap2.completed_trampolines }
            data _ h2).2, hc2⟩⟩
      · rw [if_neg hs]
        exact ⟨hback _ h2, fun hx => absurd hx hs⟩
  unfold gjs_callback_closure at h
  rw [ht] at h
  simp only [] at h
  by_cases hsw : cenv.is_sweeping = true
  · rw [if_pos hsw] at h
    simp only [Except.ok.injEq] at h
    rw [← h]
    exact ⟨hback _ href.1, fun _ hx => by rw [hsw] at hx; exact absurd hx (by simp)⟩
  · rw [if_neg hsw] at h
    split at h
    · exact absurd h (by simp)
    · simp only [Except.ok.injEq] at h
      exact hfinish _ _ _ href.1 (fun hx => by rw [href.2]; exact hx) h
    · rename_i s _
      have hcall := hscript s.this_object t.js_function_id s.jsargs
        (gjs_callback_trampoline_ref heap data)
      split at h
      · simp only [Except.ok.injEq] at h
        exact hfinish _ _ _ (by rw [hcall.1]; exact href.1)
          (fun hx => hcall.2 (by rw [href.2]; exact hx)) h
      · split at h
        · exact absurd h (by simp)
        · simp only [Except.ok.injEq] at h
          exact hfinish _ _ _ (by rw [hcall.1]; exact href.1)
            (fun hx => hcall.2 (by rw [href.2]; exact hx)) h

/-- The destroy notification on a trampoline whose count is 1 brings the count
to zero and frees the trampoline. -/
theorem gjs_destroy_notify_callback_last (heap heap1 : Heap) (data : Nat)
    (t : GjsCallbackTrampoline) (ht : heap.trampolines.get? data = some t)
    (hcount : t.ref_count = 1)
    (h : gjs_destroy_notify_callback heap data = Except.ok heap1) :
    heap1.trampolines.get? data = some { t with ref_count := 0, freed := true } := by
  unfold gjs_destroy_notify_callback at h
  rw [ht] at h
  simp only [Except.ok.injEq] at h
  rw [← h, (gjs_callback_trampoline_unref_get heap data t ht).1, hcount]
  rfl

/-- Invocations of the closure followed by the destroy notification: after
each invocation the trampoline is as it was, and after the notification its
count is zero and it is freed. -/
theorem native_steps_notified (data : Nat) (t : GjsCallbackTrampoline) (invs : List NativeStep)
    (heap : Heap) (heaps : List Heap)
    (ht : heap.trampolines.get? data = some t) (hcount : t.ref_count = 1)
    (hinvs : ∀ s ∈ invs, ∃ cenv args, s = NativeStep.invoke cenv args ∧
      cenv.leaves_trampoline data)
    (h : native_steps data (invs ++ [NativeStep.destroy_notify]) heap = Except.ok heaps) :
    (∀ heap1 ∈ heaps.take invs.length, heap1.trampolines.get? data = some t) ∧
    (∀ heap1, heaps.get? invs.length = some heap1 →
      heap1.trampolines.get? data = some { t with ref_count := 0, freed := true }) := by
  induction invs generalizing heap heaps with
  | nil =>
    simp only [List.nil_append, native_steps, native_step] at h
    cases hd : gjs_destroy_notify_callback heap data with
    | error f =>
      rw [hd] at h
      exact absurd h (by simp)
    | ok heap2 =>
      rw [hd] at h
      simp only [Except.ok.injEq] at h
      subst h
      refine ⟨by simp, fun heap1 hg => ?_⟩
      simp only [List.length_nil, List.get?_cons_zero, Option.some.injEq] at hg
      subst hg
      exact gjs_destroy_notify_callback_last _ _ _ _ ht hcount hd
  | cons s rest ih =>
    obtain ⟨cenv, args, rfl, hleaves⟩ := hinvs _ (List.mem_cons_self _ _)
    simp only [List.cons_append, native_steps, native_step] at h
    split at h
    · exact absurd h (by simp)
    · simp only [Except.ok.injEq] at h
      subst h
      exact ⟨by simp, fun _ hg => absurd hg (by simp)⟩
    · rename_i heap1 hstep
      split at hstep
      · exact absurd hstep (by simp)
      · rename_i run hrun
        split at hstep
        · rename_i hend
          simp only [Except.ok.injEq, Option.some.injEq] at hstep
          subst hstep
          have hkeep := (gjs_callback_closure_keeps_trampoline cenv heap data args t run ht
            (by rw [hcount]; decide) hleaves hrun hend).1
          split at h
          · exact absurd h (by simp)
          · rename_i heaps1 hrest
            simp only [Except.ok.injEq] at h
            subst h
            obtain ⟨i1, i2⟩ := ih run.heap heaps1 hkeep
              (fun s hs => hinvs s (List.mem_cons_of_mem _ hs)) hrest
            refine ⟨fun heap1 hm => ?_, fun heap1 hg => ?_⟩
            · simp only [List.length_cons, List.take_succ_cons, List.mem_cons] at hm
              rcases hm with rfl | hm
              · exact hkeep
              · exact i1 _ hm
            · simp only [List.length_cons, List.get?_cons_succ] at hg
              exact i2 _ hg
        · exact absurd hstep (by simp)

/-- The head of the next call on a heap whose completed list holds `data`
once, first: the count of `data` drops by one, to zero and freed when it was
1, and the completed list is emptied. -/
theorem drain_completed_trampolines_first (heap : Heap) (data : Nat) (rest : List Nat)
    (t : GjsCallbackTrampoline) (ht : heap.trampolines.get? data = some t)
    (hcount : t.ref_count = 1) (hc : heap.completed_trampolines = data :: rest)
    (hn : data ∉ rest) :
    (drain_completed_trampolines
        { frame := Frame.fresh, heap := heap, trace := [] }).heap.trampolines.get? data =
      some { t with ref_count := 0, freed := true } ∧
    (drain_completed_trampolines
        { frame := Frame.fresh, heap := heap, trace := [] }).heap.completed_trampolines = [] := by
  unfold drain_completed_trampolines
  simp only [hc, unref_completed]
  refine ⟨?_, trivial⟩
  rw [unref_completed_other rest _ data hn]
  simp only [Regs.log_heap]
  rw [(gjs_callback_trampoline_unref_get heap data t ht).1, hcount]
  rfl

/-- The life of a trampoline that native code holds with one reference
(count 1, not freed), as a call that handed it over leaves it.  From there,
with script functions that leave the trampoline alone: every
invocation of its closure that returns leaves the count at 1; for scope
`NOTIFIED`, after any number of invocations the destroy notification brings
the count to zero and frees the trampoline, and in no earlier state was the
count zero; for scope `ASYNC`, after an invocation outside the sweep phase
the trampoline is on `completed_trampolines` with count 1, and the head of the
next `gjs_invoke_c_function` call brings the count to zero, frees the
trampoline and empties the list. -/
theorem trampoline_count_reaches_zero_once (heap : Heap) (data : Nat)
    (t : GjsCallbackTrampoline) (ht : heap.trampolines.get? data = some t)
    (hcount : t.ref_count = 1) :
    (∀ cenv args run, cenv.leaves_trampoline data →
      gjs_callback_closure cenv heap data args = Except.ok run →
      run.ended = ClosureEnd.returned → run.heap.trampolines.get? data = some t) ∧
    (t.scope = GIScopeType.NOTIFIED → ∀ invs heaps,
      (∀ s ∈ invs, ∃ cenv args, s = NativeStep.invoke cenv args ∧
        cenv.leaves_trampoline data) →
      native_steps data (invs ++ [NativeStep.destroy_notify]) heap = Except.ok heaps →
      (∀ heap1 ∈ heaps.take invs.length, heap1.trampolines.get? data = some t) ∧
      (∀ heap1, heaps.get? invs.length = some heap1 →
        heap1.trampolines.get? data = some { t with ref_count := 0, freed := true })) ∧
    (t.scope = GIScopeType.ASYNC → data ∉ heap.completed_trampolines →
      ∀ cenv args heaps, cenv.leaves_trampoline data → cenv.is_sweeping = false →
      native_steps data [NativeStep.invoke cenv args, NativeStep.next_call] heap =
        Except.ok heaps →
      heaps = [] ∨
      ∃ heap1 heap2, heaps = [heap1, heap2] ∧
        heap1.trampolines.get? data = some t ∧ data ∈ heap1.completed_trampolines ∧
        heap2.trampolines.get? data = some { t with ref_count := 0, freed := true } ∧
        heap2.completed_trampolines = []) := by
  refine ⟨fun cenv args run hl hrun hend =>
      (gjs_callback_closure_keeps_trampoline cenv heap data args t run ht
        (by rw [hcount]; decide) hl hrun hend).1,
    fun _ invs heaps hinvs h => native_steps_notified data t invs heap heaps ht hcount hinvs h,
    fun hscope hnot cenv args heaps hl hsw h => ?_⟩
  simp only [native_steps, native_step] at h
  split at h
  · exact absurd h (by simp)
  · simp only [Except.ok.injEq] at h
    exact Or.inl h.symm
  · rename_i heap1 hstep
    split at hstep
    · exact absurd hstep (by simp)
    · rename_i run hrun
      split at hstep
      · rename_i hend
        simp only [Except.ok.injEq, Option.some.injEq] at hstep
        subst hstep
        obtain ⟨hkeep, hasync⟩ := gjs_callback_closure_keeps_trampoline cenv heap data args t
          run ht (by rw [hcount]; decide) hl hrun hend
        obtain ⟨rest, hcompleted, hrest⟩ := hasync hscope hsw
        obtain ⟨d1, d2⟩ := drain_completed_trampolines_first run.heap data rest t hkeep hcount
          hcompleted (hrest hnot)
        simp only [Except.ok.injEq] at h
        exact Or.inr ⟨run.heap, _, h.symm, hkeep, by rw [hcompleted]; simp, d1, d2⟩
      · exact absurd hstep (by simp)

/-- The script function of the sample collaborators leaves the heap as it
is. -/
theorem sample_closure_env_leaves_trampoline (sweeping pending : Bool)
    (script : List JSValue → Option JSValue) (data : Nat) :
    (sample_closure_env sweeping pending script).leaves_trampoline data :=
  fun _ _ _ _ => ⟨rfl, id⟩

/-- The life of two sample trampolines: the trampolines that
`gjs_invoke_c_function` creates for a `NOTIFIED` and for an `ASYNC` callback
in calls that reach the callee have count 1 when the call has returned; two
invocations and the destroy notification, respectively one invocation and the
next call, bring the count to zero at the last step. -/
theorem trampoline_count_reaches_zero_once_witness :
    (∃ r heaps,
      gjs_invoke_c_function (sample_env quiet_native) nullable_callback_function
        JSValue.undefined [JSValue.function 7] (some JSValue.undefined) false {} =
          Except.ok r ∧
      r.heap = handed_over_heap GIScopeType.NOTIFIED ∧
      native_steps 0 ([quiet_invocation, quiet_invocation] ++ [NativeStep.destroy_notify])
        (handed_over_heap GIScopeType.NOTIFIED) = Except.ok heaps ∧
      heaps.length = 3 ∧
      (∀ heap1 ∈ heaps.take 2,
        heap1.trampolines.get? 0 = some (handed_over_trampoline GIScopeType.NOTIFIED)) ∧
      (∀ heap1, heaps.get? 2 = some heap1 →
        heap1.trampolines.get? 0 =
          some { handed_over_trampoline GIScopeType.NOTIFIED with
                 ref_count := 0, freed := true })) ∧
    (∃ r heaps,
      gjs_invoke_c_function (sample_env quiet_native) async_callback_function
        JSValue.undefined [JSValue.function 7] (some JSValue.undefined) false {} =
          Except.ok r ∧
      r.heap = handed_over_heap GIScopeType.ASYNC ∧
      native_steps 0 [quiet_invocation, NativeStep.next_call]
        (handed_over_heap GIScopeType.ASYNC) = Except.ok heaps ∧
      (heaps = [] ∨
        ∃ heap1 heap2, heaps = [heap1, heap2] ∧
          heap1.trampolines.get? 0 = some (handed_over_trampoline GIScopeType.ASYNC) ∧
          0 ∈ heap1.completed_trampolines ∧
          heap2.trampolines.get? 0 =
            some { handed_over_trampoline GIScopeType.ASYNC with
                   ref_count := 0, freed := true } ∧
          heap2.completed_trampolines = [])) :=
  ⟨⟨_, _, rfl, rfl, rfl, rfl,
      (trampoline_count_reaches_zero_once (handed_over_heap GIScopeType.NOTIFIED) 0
        (handed_over_trampoline GIScopeType.NOTIFIED) rfl rfl).2.1 rfl
        [quiet_invocation, quiet_invocation] _
        (fun s hs => by
          simp only [List.mem_cons, List.mem_singleton, List.not_mem_nil, or_false,
            or_self] at hs
          subst hs
          exact ⟨_, _, rfl, sample_closure_env_leaves_trampoline _ _ _ _⟩)
        rfl⟩,
    ⟨_, _, rfl, rfl, rfl,
      (trampoline_count_reaches_zero_once (handed_over_heap GIScopeType.ASYNC) 0
        (handed_over_trampoline GIScopeType.ASYNC) rfl rfl).2.2 rfl (by decide)
        (sample_closure_env false false (fun _ => some JSValue.undefined))
        (fun _ => GArgument.uninit) _
        (sample_closure_env_leaves_trampoline _ _ _ _) rfl rfl⟩⟩

/-- The output block writes the result slot of a non-void callback when it
reaches `success`: one store, of a converted script value. -/
theorem closure_write_outputs_result (cenv : ClosureEnv) (info : GICallableInfo)
    (n_outargs : Nat) (rval : JSValue) (o : ClosureOutputs)
    (h : closure_write_outputs cenv info n_outargs rval = Except.ok o)
    (hret : info.return_type.tag ≠ GITypeTag.VOID) :
    o.result_stores = [] ∧ o.success = false ∨
    ∃ value kind transfer argument store,
      cenv.value_to_g_argument value info.return_type kind transfer = some argument ∧
      set_return_ffi_arg_from_giargument info.return_type argument = Except.ok store ∧
      o.result_stores = [store] := by
  unfold closure_write_outputs at h
  simp only [] at h
  rw [if_neg (fun hx => hret hx.2)] at h
  by_cases h0 : n_outargs = 0
  · rw [if_pos h0] at h
    cases hv : cenv.value_to_g_argument rval info.return_type
        GjsArgumentType.GJS_ARGUMENT_RETURN_VALUE info.caller_owns with
    | none =>
      rw [hv] at h
      simp only [Except.ok.injEq] at h
      rw [← h]
      exact Or.inl ⟨rfl, rfl⟩
    | some argument =>
      rw [hv] at h
      simp only [] at h
      cases hs : set_return_ffi_arg_from_giargument info.return_type argument with
      | error f => rw [hs] at h; exact absurd h (by simp)
      | ok store =>
        rw [hs] at h
        simp only [Except.ok.injEq] at h
        rw [← h]
        exact Or.inr ⟨_, _, _, _, _, hv, hs, rfl⟩
  · rw [if_neg h0, if_neg (fun hx => hret hx.2), if_pos hret] at h
    cases he : cenv.get_element rval.toObjectOrNull 0 with
    | none =>
      rw [he] at h
      simp only [Except.ok.injEq] at h
      rw [← h]
      exact Or.inl ⟨rfl, rfl⟩
    | some elem =>
      rw [he] at h
      simp only [] at h
      cases hv : cenv.value_to_g_argument elem info.return_type
          GjsArgumentType.GJS_ARGUMENT_ARGUMENT GITransfer.NOTHING with
      | none =>
        rw [hv] at h
        simp only [Except.ok.injEq] at h
        rw [← h]
        exact Or.inl ⟨rfl, rfl⟩
      | some argument =>
        rw [hv] at h
        simp only [] at h
        cases hs : set_return_ffi_arg_from_giargument info.return_type argument with
        | error f => rw [hs] at h; exact absurd h (by simp)
        | ok store =>
          rw [hs] at h
          simp only [Except.ok.injEq] at h
          rw [← h]
          exact Or.inr ⟨_, _, _, _, _, hv, hs, rfl⟩

/-- What the end of `gjs_callback_closure` makes of the outputs when it
returns. -/
theorem closure_finish_returned (cenv : ClosureEnv) (t : GjsCallbackTrampoline) (data : Nat)
    (heap : Heap) (script_call : Option (Option JSValue × List JSValue)) (o : ClosureOutputs)
    (hend : (closure_finish cenv t data heap script_call o).ended = ClosureEnd.returned) :
    (closure_finish cenv t data heap script_call o).success = o.success ∧
    (closure_finish cenv t data heap script_call o).script_call = script_call ∧
    (closure_finish cenv t data heap script_call o).out_stores = o.out_stores ∧
    (o.success = true →
      (closure_finish cenv t data heap script_call o).result_stores = o.result_stores) ∧
    (o.success = false →
      (closure_finish cenv t data heap script_call o).result_stores = o.result_stores ++
        [ResultStore.init_default t.info.return_type (cenv.init_default t.info.return_type)]) := by
  unfold closure_finish at hend ⊢
  by_cases hexit : o.success = false ∧ cenv.is_exception_pending = false
  · rw [if_pos hexit] at hend
    exact absurd hend (by simp)
  · rw [if_neg hexit]
    refine ⟨rfl, rfl, rfl, fun hs => ?_, fun hs => ?_⟩
    · simp [hs]
    · simp [hs]

/-- Claim C12, as the code has it: for a callback with a non-void return
type, a run of `gjs_callback_closure` that returns to its native caller
during the sweep phase has not called the script function and has not
written the result slot; outside the sweep phase the result slot is written
last with the converted script value when the run succeeded, and with the
neutral value of the return type when it failed. -/
theorem callback_result_unwritten_when_sweeping (cenv : ClosureEnv) (heap : Heap) (data : Nat)
    (args : Nat → GArgument) (t : GjsCallbackTrampoline) (run : ClosureRun)
    (ht : heap.trampolines.get? data = some t)
    (hret : t.info.return_type.tag ≠ GITypeTag.VOID)
    (h : gjs_callback_closure cenv heap data args = Except.ok run)
    (hend : run.ended = ClosureEnd.returned) :
    (cenv.is_sweeping = true → run.result_stores = [] ∧ run.script_call = none) ∧
    (cenv.is_sweeping = false → run.success = true →
      ∃ value kind transfer argument store,
        cenv.value_to_g_argument value t.info.return_type kind transfer = some argument ∧
        set_return_ffi_arg_from_giargument t.info.return_type argument = Except.ok store ∧
        run.result_stores = [store]) ∧
    (cenv.is_sweeping = false → run.success = false →
      run.result_stores.getLast? =
        some (ResultStore.init_default t.info.return_type
          (cenv.init_default t.info.return_type))) := by
  unfold gjs_callback_closure at h
  rw [ht] at h
  simp only [] at h
  by_cases hsw : cenv.is_sweeping = true
  · rw [if_pos hsw] at h
    simp only [Except.ok.injEq] at h
    subst h
    exact ⟨fun _ => ⟨rfl, rfl⟩, fun hx => by rw [hsw] at hx; exact absurd hx (by simp),
      fun hx => by rw [hsw] at hx; exact absurd hx (by simp)⟩
  · rw [if_neg hsw] at h
    have hfail : ∀ heap2 sc, closure_finish cenv t data heap2 sc
          { success := false, result_stores := [], out_stores := [] } = run →
        (run.success = true →
          ∃ value kind transfer argument store,
            cenv.value_to_g_argument value t.info.return_type kind transfer = some argument ∧
            set_return_ffi_arg_from_giargument t.info.return_type argument = Except.ok store ∧
            run.result_stores = [store]) ∧
        (run.success = false →
          run.result_stores.getLast? =
            some (ResultStore.init_default t.info.return_type
              (cenv.init_default t.info.return_type))) := by
      intro heap2 sc hrun
      rw [← hrun] at hend
      obtain ⟨f1, _, _, _, f5⟩ := closure_finish_returned cenv t data heap2 sc _ hend
      rw [← hrun]
      refine ⟨fun hs => ?_, fun _ => ?_⟩
      · rw [f1] at hs
        exact absurd hs (by simp)
      · rw [f5 rfl]
        rfl
    split at h
    · exact absurd h (by simp)
    · simp only [Except.ok.injEq] at h
      exact ⟨fun hx => absurd hx hsw, fun _ => (hfail _ _ h).1, fun _ => (hfail _ _ h).2⟩
    · rename_i s _
      split at h
      · simp only [Except.ok.injEq] at h
        exact ⟨fun hx => absurd hx hsw, fun _ => (hfail _ _ h).1, fun _ => (hfail _ _ h).2⟩
      · rename_i rval _
        split at h
        · exact absurd h (by simp)
        · rename_i o ho
          simp only [Except.ok.injEq] at h
          rw [← h] at hend
          obtain ⟨f1, _, _, f4, f5⟩ := closure_finish_returned cenv t data _ _ o hend
          rw [← h]
          refine ⟨fun hx => absurd hx hsw, fun _ hs => ?_, fun _ hs => ?_⟩
          · rw [f1] at hs
            rw [f4 hs]
            rcases closure_write_outputs_result cenv t.info s.n_outargs rval o ho hret with
              ⟨_, hf⟩ | hw
            · rw [hf] at hs
              exact absurd hs (by simp)
            · exact hw
          · rw [f1] at hs
            rw [f5 hs]
            simp

/-- Witness for C12: the callback `int cb(int x)` entered during the sweep
phase returns without a store into the result slot; entered outside it, with
a script function that returns 5, it stores 5; with a script function that
fails with an exception pending, it stores the neutral value. -/
theorem callback_result_unwritten_when_sweeping_witness :
    (∃ run, gjs_callback_closure (sample_closure_env true true (fun _ => some (JSValue.int32 5)))
        (callback_heap int_callback_info) 0 (fun _ => GArgument.raw 3) = Except.ok run ∧
      run.ended = ClosureEnd.returned ∧ run.result_stores = [] ∧ run.script_call = none) ∧
    (∃ run, gjs_callback_closure
        (sample_closure_env false false (fun _ => some (JSValue.int32 5)))
        (callback_heap int_callback_info) 0 (fun _ => GArgument.raw 3) = Except.ok run ∧
      run.ended = ClosureEnd.returned ∧ run.success = true ∧
      run.result_stores = [ResultStore.ffi_sarg GIArgumentMember.v_int32 (GArgument.raw 5)] ∧
      ∃ value kind transfer argument store,
        (sample_closure_env false false (fun _ => some (JSValue.int32 5))).value_to_g_argument
          value int_type kind transfer = some argument ∧
        set_return_ffi_arg_from_giargument int_type argument = Except.ok store ∧
        run.result_stores = [store]) ∧
    (∃ run, gjs_callback_closure (sample_closure_env false true (fun _ => none))
        (callback_heap int_callback_info) 0 (fun _ => GArgument.raw 3) = Except.ok run ∧
      run.ended = ClosureEnd.returned ∧ run.success = false ∧
      run.result_stores.getLast? =
        some (ResultStore.init_default int_type (GArgument.raw 0))) :=
  ⟨⟨_, rfl, rfl,
      (callback_result_unwritten_when_sweeping
        (sample_closure_env true true (fun _ => some (JSValue.int32 5)))
        (callback_heap int_callback_info) 0 (fun _ => GArgument.raw 3)
        (plain_trampoline int_callback_info) _ rfl (by decide) rfl rfl).1 rfl⟩,
    ⟨_, rfl, rfl, rfl, rfl,
      (callback_result_unwritten_when_sweeping
        (sample_closure_env false false (fun _ => some (JSValue.int32 5)))
        (callback_heap int_callback_info) 0 (fun _ => GArgument.raw 3)
        (plain_trampoline int_callback_info) _ rfl (by decide) rfl rfl).2.1 rfl rfl⟩,
    ⟨_, rfl, rfl, rfl,
      (callback_result_unwritten_when_sweeping
        (sample_closure_env false true (fun _ => none))
        (callback_heap int_callback_info) 0 (fun _ => GArgument.raw 3)
        (plain_trampoline int_callback_info) _ rfl (by decide) rfl rfl).2.2 rfl rfl⟩⟩

/-- Claim C13, evaluated.  For `int cb(out int a, out int b)` the script
return value `[5, 6, 7]` is read as a sequence: 5 goes to the result slot, 6
and 7 to the cells of `a` and `b`.  For `void cb(out gpointer p)`, with one
`OUT` parameter, the script return value 5 is converted nowhere: the loop
that counts the outputs passes over a parameter of type `void *` before it
looks at its direction.  For `void cb(out gpointer p, out int n)`, with two
`OUT` parameters, the script return value is not read as a sequence: the
count is 1, and the value itself is converted into the cell of `p`, the
first parameter that is not `IN`; nothing is stored for `n`. -/
theorem callback_outputs_ignore_void_pointer_outs :
    (out_inout_count int_two_outs_callback_info = 2 ∧
      ∃ run, gjs_callback_closure
          (sample_closure_env false false
            (fun _ => some (JSValue.array [JSValue.int32 5, JSValue.int32 6, JSValue.int32 7])))
          (callback_heap int_two_outs_callback_info) 0 (fun _ => GArgument.uninit) =
            Except.ok run ∧
        run.success = true ∧
        run.result_stores = [ResultStore.ffi_sarg GIArgumentMember.v_int32 (GArgument.raw 5)] ∧
        run.out_stores = [(0, GArgument.raw 6), (1, GArgument.raw 7)]) ∧
    (out_pointer_callback_info.return_type.tag = GITypeTag.VOID ∧
      out_inout_count out_pointer_callback_info = 1 ∧
      ∃ run, gjs_callback_closure
          (sample_closure_env false false (fun _ => some (JSValue.int32 5)))
          (callback_heap out_pointer_callback_info) 0 (fun _ => GArgument.uninit) =
            Except.ok run ∧
        run.ended = ClosureEnd.returned ∧ run.success = true ∧
        run.script_call = some (none, []) ∧
        run.result_stores = [] ∧ run.out_stores = []) ∧
    (out_pointer_int_callback_info.return_type.tag = GITypeTag.VOID ∧
      out_inout_count out_pointer_int_callback_info = 2 ∧
      ∃ run, gjs_callback_closure
          (sample_closure_env false false (fun _ => some (JSValue.int32 5)))
          (callback_heap out_pointer_int_callback_info) 0 (fun _ => GArgument.uninit) =
            Except.ok run ∧
        run.ended = ClosureEnd.returned ∧ run.success = true ∧
        run.result_stores = [] ∧ run.out_stores = [(0, GArgument.raw 5)]) :=
  ⟨⟨rfl, _, rfl, rfl, rfl, rfl⟩, ⟨rfl, rfl, _, rfl, rfl, rfl, rfl, rfl, rfl⟩,
    ⟨rfl, rfl, _, rfl, rfl, rfl, rfl, rfl⟩⟩

/-- Storing back the element a position holds changes nothing. -/
theorem list_set_get_self {α : Type} (l : List α) (i : Nat) (a : α) (h : l.get? i = some a) :
    l.set i a = l := by
  induction l generalizing i with
  | nil => rfl
  | cons b rest ih =>
    cases i with
    | zero =>
      simp only [List.get?_cons_zero, Option.some.injEq] at h
      rw [h]
      rfl
    | succ n =>
      simp only [List.get?_cons_succ] at h
      simp only [List.set_cons_succ, ih n h]

/-- What a position holds after a store. -/
theorem list_get_set_self {α : Type} (l : List α) (i : Nat) (a b : α) (h : l.get? i = some a) :
    (l.set i b).get? i = some b := by
  induction l generalizing i with
  | nil => exact absurd h (by simp)
  | cons c rest ih =>
    cases i with
    | zero => rfl
    | succ n =>
      simp only [List.get?_cons_succ] at h
      simp only [List.set_cons_succ, List.get?_cons_succ, ih n h]

/-- A store leaves the other positions alone. -/
theorem list_get_set_other {α : Type} (l : List α) (i j : Nat) (b : α) (h : i ≠ j) :
    (l.set i b).get? j = l.get? j := by
  rw [List.get?_eq_getElem?, List.get?_eq_getElem?]
  exact List.getElem?_set_ne h

/-- The samples are states the code reaches: wrapping the fresh object gives
the rooted pair, dropping the caller's reference unroots it, and a toggle-up
delivered while the wrapper is swept leaves the object poisoned. -/
theorem sample_worlds_reached :
    gjs_object_from_g_object engine_thread_context unwrapped_object_world (some 0) =
      Except.ok (strong_pair_world, some 0) ∧
    g_object_unref engine_thread_context strong_pair_world 0 = Except.ok weak_pair_world ∧
    wrapped_gobj_toggle_notify engine_thread_context demoted_pair_world 0 true =
      Except.ok weak_pair_world ∧
    wrapped_gobj_toggle_notify sweeping_context promoted_pair_world 0 false =
      Except.ok poisoned_object_world :=
  ⟨rfl, rfl, rfl, rfl⟩

/-- The queue test on an object the world holds. -/
theorem toggle_idle_source_is_queued_eq (w : ObjectWorld) (gobj : Nat) (g : GObject)
    (direction : ToggleDirection) (hg : w.gobjects.get? gobj = some g) :
    toggle_idle_source_is_queued w gobj direction =
      Except.ok (g.toggle_marker direction).isSome := by
  unfold toggle_idle_source_is_queued
  rw [hg]

/-- The lookup of a binding that holds a heap pointer changes nothing. -/
theorem peek_js_obj_heap (w : ObjectWorld) (gobj : Nat) (g : GObject) (obj : Option Nat)
    (hg : w.gobjects.get? gobj = some g) (hp : g.priv = PrivateQData.heap_wrapper obj) :
    peek_js_obj w gobj = Except.ok (w, obj) := by
  unfold peek_js_obj ensure_heap_wrapper
  rw [hg]
  simp only [hp]

/-- Function `handle_toggle_up` on an unrooted bound wrapper roots it. -/
theorem handle_toggle_up_roots (w : ObjectWorld) (gobj obj : Nat) (g : GObject)
    (inst : ObjectInstance) (hg : w.gobjects.get? gobj = some g)
    (hp : g.priv = PrivateQData.heap_wrapper (some obj))
    (hinst : w.wrappers.get? obj = some (some inst)) (hweak : inst.keep_alive = false) :
    handle_toggle_up w gobj =
      Except.ok (gjs_keep_alive_add_child
        (w.set_private obj { inst with keep_alive := true }) obj) := by
  unfold handle_toggle_up
  rw [peek_js_obj_heap w gobj g (some obj) hg hp]
  simp only [JS_GetPrivate, hinst, hweak, if_true]

/-- Function `handle_toggle_down` on a rooted bound wrapper unroots it. -/
theorem handle_toggle_down_unroots (w : ObjectWorld) (gobj obj : Nat) (g : GObject)
    (inst : ObjectInstance) (hg : w.gobjects.get? gobj = some g)
    (hp : g.priv = PrivateQData.heap_wrapper (some obj))
    (hinst : w.wrappers.get? obj = some (some inst)) (hstrong : inst.keep_alive = true) :
    handle_toggle_down w gobj =
      Except.ok ((gjs_keep_alive_remove_child w obj).set_private obj
        { inst with keep_alive := false }) := by
  unfold handle_toggle_down
  rw [peek_js_obj_heap w gobj g (some obj) hg hp]
  simp only [JS_GetPrivate, hinst, hstrong, if_true]

/-- Claim C14: on the engine's thread, outside collection and shutdown, for
an object with no toggle task queued whose bound wrapper is unrooted (not in
the keep-alive set): the promote notification returns with the wrapper added
to the keep-alive set once (the only event is its `keep_alive_add_child`),
the following demote notification returns with it removed once, neither
touches the sources, the pending counter or the object's markers, and the
state after the pair is the initial state (with the two events recorded). -/
theorem promote_then_demote_round_trip (ctx : ToggleContext) (w : ObjectWorld) (gobj obj : Nat)
    (g : GObject) (inst : ObjectInstance)
    (hdes : ctx.destroying = false) (hmain : ctx.is_main_thread = true)
    (hsweep : ctx.is_sweeping = false)
    (hg : w.gobjects.get? gobj = some g)
    (hup : g.toggle_up = none) (hdown : g.toggle_down = none)
    (hp : g.priv = PrivateQData.heap_wrapper (some obj))
    (hinst : w.wrappers.get? obj = some (some inst)) (hweak : inst.keep_alive = false)
    (hnot : obj ∉ w.keep_alive) :
    ∃ w1 w2,
      wrapped_gobj_toggle_notify ctx w gobj false = Except.ok w1 ∧
      wrapped_gobj_toggle_notify ctx w1 gobj true = Except.ok w2 ∧
      w1.keep_alive = obj :: w.keep_alive ∧
      w1.wrappers.get? obj = some (some { inst with keep_alive := true }) ∧
      w1.log = w.log ++ [ObjEvent.keep_alive_add_child obj] ∧
      w1.sources = w.sources ∧ w1.pending_idle_toggles = w.pending_idle_toggles ∧
      w1.gobjects = w.gobjects ∧
      w2.keep_alive = w.keep_alive ∧
      w2.wrappers = w.wrappers ∧
      w2.log = w1.log ++ [ObjEvent.keep_alive_remove_child obj] ∧
      w2.sources = w.sources ∧ w2.pending_idle_toggles = w.pending_idle_toggles ∧
      w2.gobjects = w.gobjects ∧
      w2 = { w with log := w.log ++ [ObjEvent.keep_alive_add_child obj,
                                     ObjEvent.keep_alive_remove_child obj] } := by
  have hmu : g.toggle_marker ToggleDirection.TOGGLE_UP = none := hup
  have hmd : g.toggle_marker ToggleDirection.TOGGLE_DOWN = none := hdown
  have h1 : wrapped_gobj_toggle_notify ctx w gobj false =
      Except.ok (gjs_keep_alive_add_child
        (w.set_private obj { inst with keep_alive := true }) obj) := by
    unfold wrapped_gobj_toggle_notify
    rw [toggle_idle_source_is_queued_eq w gobj g _ hg,
      toggle_idle_source_is_queued_eq w gobj g _ hg, hmu, hmd]
    simp [hdes, hmain, hsweep]
    exact handle_toggle_up_roots w gobj obj g inst hg hp hinst hweak
  have hg1 : (gjs_keep_alive_add_child
      (w.set_private obj { inst with keep_alive := true }) obj).gobjects.get? gobj = some g := hg
  have hinst1 : (gjs_keep_alive_add_child
      (w.set_private obj { inst with keep_alive := true }) obj).wrappers.get? obj =
        some (some { inst with keep_alive := true }) :=
    list_get_set_self _ _ _ _ hinst
  have h2 : wrapped_gobj_toggle_notify ctx (gjs_keep_alive_add_child
        (w.set_private obj { inst with keep_alive := true }) obj) gobj true =
      Except.ok ((gjs_keep_alive_remove_child (gjs_keep_alive_add_child
        (w.set_private obj { inst with keep_alive := true }) obj) obj).set_private obj
          { inst with keep_alive := false }) := by
    unfold wrapped_gobj_toggle_notify
    rw [toggle_idle_source_is_queued_eq _ gobj g _ hg1,
      toggle_idle_source_is_queued_eq _ gobj g _ hg1, hmu, hmd]
    simp [hdes, hmain]
    exact handle_toggle_down_unroots _ gobj obj g { inst with keep_alive := true } hg1 hp
      hinst1 rfl
  have hka : (obj :: w.keep_alive).erase obj = w.keep_alive := List.erase_cons_head obj _
  have hinst0 : ({ inst with keep_alive := false } : ObjectInstance) = inst := by
    cases inst
    simp only [] at hweak
    subst hweak
    rfl
  have hwr : (w.wrappers.set obj (some { inst with keep_alive := true })).set obj
      (some { inst with keep_alive := false }) = w.wrappers := by
    rw [List.set_set, hinst0]
    exact list_set_get_self _ _ _ hinst
  refine ⟨_, _, h1, h2, ?_, hinst1, rfl, rfl, rfl, rfl, ?_, ?_, rfl, rfl, rfl, rfl, ?_⟩
  · simp [gjs_keep_alive_add_child, ObjectWorld.set_private, hnot]
  · simp [gjs_keep_alive_add_child, gjs_keep_alive_remove_child, ObjectWorld.set_private, hnot]
  · simp only [gjs_keep_alive_add_child, gjs_keep_alive_remove_child, ObjectWorld.set_private]
    exact hwr
  · simp only [gjs_keep_alive_add_child, gjs_keep_alive_remove_child, ObjectWorld.set_private,
      if_neg hnot, hka, hwr, List.append_assoc, List.singleton_append]

/-- Claim C14 on the sample pair: the weak pair is promoted and demoted on
the engine's thread. -/
theorem promote_then_demote_round_trip_witness :
    ∃ w1 w2,
      wrapped_gobj_toggle_notify engine_thread_context weak_pair_world 0 false = Except.ok w1 ∧
      wrapped_gobj_toggle_notify engine_thread_context w1 0 true = Except.ok w2 ∧
      w1.keep_alive = [0] ∧ w2.keep_alive = [] ∧ w2.sources = [] ∧
      w2 = { weak_pair_world with
             log := weak_pair_world.log ++ [ObjEvent.keep_alive_add_child 0,
                                            ObjEvent.keep_alive_remove_child 0] } := by
  obtain ⟨w1, w2, h1, h2, k1, _, _, _, _, _, k2, _, _, s2, _, _, e⟩ :=
    promote_then_demote_round_trip engine_thread_context weak_pair_world 0 0
      { ref_count := 1, toggle_ref := true, priv := PrivateQData.heap_wrapper (some 0) }
      { gobj := some 0, keep_alive := false }
      rfl rfl rfl rfl rfl rfl rfl rfl rfl (by decide)
  exact ⟨w1, w2, h1, h2, k1, k2, s2, e⟩

/-- Function `queue_toggle_idle` on an object the world holds: the world it
returns. -/
theorem queue_toggle_idle_eq (w : ObjectWorld) (gobj : Nat) (g : GObject) (is_last_ref : Bool)
    (hg : w.gobjects.get? gobj = some g) :
    queue_toggle_idle w gobj (notified_direction is_last_ref) =
      Except.ok
        { w with
          gobjects := w.gobjects.set gobj
            (({ g with ref_count := g.ref_count + (if is_last_ref then 0 else 1) } : GObject
              ).set_toggle_marker (notified_direction is_last_ref) (some w.sources.length))
          sources := w.sources ++ [{ operation := queued_operation gobj is_last_ref }]
          pending_idle_toggles := w.pending_idle_toggles + 1 } := by
  unfold queue_toggle_idle
  rw [hg]
  cases is_last_ref <;> simp [notified_direction, queued_operation]

/-- Off the engine's thread a notification is `queue_toggle_idle` and nothing
else. -/
theorem wrapped_gobj_toggle_notify_off_thread (ctx : ToggleContext) (w : ObjectWorld)
    (gobj : Nat) (g : GObject) (is_last_ref : Bool)
    (hdes : ctx.destroying = false) (hoff : ctx.is_main_thread = false)
    (hg : w.gobjects.get? gobj = some g) :
    wrapped_gobj_toggle_notify ctx w gobj is_last_ref =
      queue_toggle_idle w gobj (notified_direction is_last_ref) := by
  unfold wrapped_gobj_toggle_notify
  rw [toggle_idle_source_is_queued_eq w gobj g _ hg,
    toggle_idle_source_is_queued_eq w gobj g _ hg]
  cases is_last_ref <;> simp [hdes, hoff, notified_direction]

/-- A toggle-up notification on the engine's thread while a demote task is
queued is `queue_toggle_idle`. -/
theorem wrapped_gobj_toggle_notify_up_behind_down (ctx : ToggleContext) (w : ObjectWorld)
    (gobj : Nat) (g : GObject)
    (hdes : ctx.destroying = false) (hg : w.gobjects.get? gobj = some g)
    (hdown : g.toggle_down.isSome = true) :
    wrapped_gobj_toggle_notify ctx w gobj false =
      queue_toggle_idle w gobj ToggleDirection.TOGGLE_UP := by
  have hmd : (g.toggle_marker ToggleDirection.TOGGLE_DOWN).isSome = true := hdown
  unfold wrapped_gobj_toggle_notify
  rw [toggle_idle_source_is_queued_eq w gobj g _ hg,
    toggle_idle_source_is_queued_eq w gobj g _ hg, hmd]
  simp [hdes]

/-- What the world holds for an object after `queue_toggle_idle`. -/
theorem queue_toggle_idle_marker (w : ObjectWorld) (gobj : Nat) (g : GObject)
    (is_last_ref : Bool) (hg : w.gobjects.get? gobj = some g) :
    ∃ w1, queue_toggle_idle w gobj (notified_direction is_last_ref) = Except.ok w1 ∧
      w1.sources = w.sources ++ [{ operation := queued_operation gobj is_last_ref }] ∧
      w1.pending_idle_toggles = w.pending_idle_toggles + 1 ∧
      w1.keep_alive = w.keep_alive ∧ w1.wrappers = w.wrappers ∧ w1.log = w.log ∧
      w1.gobjects.get? gobj = some
        (({ g with ref_count := g.ref_count + (if is_last_ref then 0 else 1) } : GObject
          ).set_toggle_marker (notified_direction is_last_ref) (some w.sources.length)) ∧
      (∀ other, other ≠ gobj → w1.gobjects.get? other = w.gobjects.get? other) ∧
      toggle_idle_source_is_queued w1 gobj (notified_direction is_last_ref) = Except.ok true := by
  refine ⟨_, queue_toggle_idle_eq w gobj g is_last_ref hg, rfl, rfl, rfl, rfl, rfl,
    list_get_set_self _ _ _ _ hg, fun other ho => list_get_set_other _ _ _ _ (Ne.symm ho), ?_⟩
  rw [toggle_idle_source_is_queued_eq _ gobj _ _ (list_get_set_self _ _ _ _ hg)]
  cases is_last_ref <;> rfl

/-- The samples with a task queued are states the code reaches: another
thread takes a second reference on the weak pair, or drops the caller's
reference on the strong pair. -/
theorem queued_worlds_reached :
    g_object_ref_sink other_thread_context weak_pair_world 0 = Except.ok promote_queued_world ∧
    g_object_unref other_thread_context strong_pair_world 0 = Except.ok demote_queued_world ∧
    idle_handle_toggle demote_queued_world (queued_operation 0 true) =
      Except.ok demote_handled_world :=
  ⟨rfl, rfl, rfl⟩

/-- Claim C15, the counterexample: a second notification of a direction whose
task is already queued returns instead of aborting, with a second task of
that direction queued.  Off the engine's thread, a second promote after the
promote of `promoted_pair_world` was queued, and a second demote after the
demote of `demoted_pair_world` was queued; on the engine's thread, a promote
while a demote and a promote are both queued. -/
theorem second_task_of_a_direction_queued :
    (wrapped_gobj_toggle_notify other_thread_context promoted_pair_world 0 false =
        Except.ok promote_queued_world ∧
      toggle_idle_source_is_queued promote_queued_world 0 ToggleDirection.TOGGLE_UP =
        Except.ok true ∧
      ∃ w2, wrapped_gobj_toggle_notify other_thread_context promote_queued_world 0 false =
          Except.ok w2 ∧
        w2.sources = [{ operation := queued_operation 0 false },
                      { operation := queued_operation 0 false }] ∧
        w2.pending_idle_toggles = 2) ∧
    (wrapped_gobj_toggle_notify other_thread_context demoted_pair_world 0 true =
        Except.ok demote_queued_world ∧
      toggle_idle_source_is_queued demote_queued_world 0 ToggleDirection.TOGGLE_DOWN =
        Except.ok true ∧
      ∃ w2, wrapped_gobj_toggle_notify other_thread_context demote_queued_world 0 true =
          Except.ok w2 ∧
        w2.sources = [{ operation := queued_operation 0 true },
                      { operation := queued_operation 0 true }] ∧
        w2.pending_idle_toggles = 2) ∧
    (∃ w1 w2,
      wrapped_gobj_toggle_notify engine_thread_context demote_queued_world 0 false =
        Except.ok w1 ∧
      toggle_idle_source_is_queued w1 0 ToggleDirection.TOGGLE_UP = Except.ok true ∧
      wrapped_gobj_toggle_notify engine_thread_context w1 0 false = Except.ok w2 ∧
      w2.sources = [{ operation := queued_operation 0 true },
                    { operation := queued_operation 0 false },
                    { operation := queued_operation 0 false }] ∧
      w2.pending_idle_toggles = 3) :=
  ⟨⟨rfl, rfl, _, rfl, rfl, rfl⟩, ⟨rfl, rfl, _, rfl, rfl, rfl⟩, ⟨_, _, rfl, rfl, rfl, rfl, rfl⟩⟩

/-- Claim C15, amended: outside shutdown, with a toggle task queued for the
object, a notification aborts on the engine's thread when it is a demote, or
a promote with no demote queued; in every other case (any notification off
the engine's thread, a promote on the engine's thread behind a queued demote)
it returns with one more task of its direction queued and recorded as the
pending marker, the keep-alive set and the wrappers untouched. -/
theorem notification_with_task_queued (ctx : ToggleContext) (w : ObjectWorld) (gobj : Nat)
    (g : GObject) (is_last_ref : Bool)
    (hdes : ctx.destroying = false) (hg : w.gobjects.get? gobj = some g)
    (hq : g.toggle_up.isSome = true ∨ g.toggle_down.isSome = true) :
    ((ctx.is_main_thread = true ∧ (is_last_ref = true ∨ g.toggle_down = none)) →
      wrapped_gobj_toggle_notify ctx w gobj is_last_ref = Except.error Fault.abort) ∧
    (¬ (ctx.is_main_thread = true ∧ (is_last_ref = true ∨ g.toggle_down = none)) →
      ∃ w1, wrapped_gobj_toggle_notify ctx w gobj is_last_ref = Except.ok w1 ∧
        w1.sources = w.sources ++ [{ operation := queued_operation gobj is_last_ref }] ∧
        w1.pending_idle_toggles = w.pending_idle_toggles + 1 ∧
        w1.keep_alive = w.keep_alive ∧ w1.wrappers = w.wrappers ∧ w1.log = w.log ∧
        toggle_idle_source_is_queued w1 gobj (notified_direction is_last_ref) =
          Except.ok true) := by
  constructor
  · rintro ⟨hmain, hcase⟩
    unfold wrapped_gobj_toggle_notify
    rw [toggle_idle_source_is_queued_eq w gobj g _ hg,
      toggle_idle_source_is_queued_eq w gobj g _ hg]
    simp only [GObject.toggle_marker]
    rcases hcase with hl | hnd
    · subst hl
      simp [hdes, hmain, hq]
    · have hu : g.toggle_up.isSome = true := by
        rcases hq with h | h
        · exact h
        · rw [hnd] at h
          exact absurd h (by simp)
      cases is_last_ref
      · simp [hdes, hmain, hnd, hu]
      · simp [hdes, hmain, hu]
  · intro hcase
    obtain ⟨w1, h1, s1, p1, k1, r1, l1, _, _, q1⟩ := queue_toggle_idle_marker w gobj g is_last_ref hg
    refine ⟨w1, ?_, s1, p1, k1, r1, l1, q1⟩
    rw [← h1]
    by_cases hmain : ctx.is_main_thread = true
    · have hc2 : ¬ (is_last_ref = true ∨ g.toggle_down = none) := fun h => hcase ⟨hmain, h⟩
      have hl : is_last_ref = false := by
        cases is_last_ref
        · rfl
        · exact absurd (Or.inl rfl) hc2
      subst hl
      have hdown : g.toggle_down.isSome = true := by
        cases hd : g.toggle_down
        · exact absurd (Or.inr hd) hc2
        · rfl
      exact wrapped_gobj_toggle_notify_up_behind_down ctx w gobj g hdes hg hdown
    · exact wrapped_gobj_toggle_notify_off_thread ctx w gobj g is_last_ref hdes
        (by simpa using hmain) hg

/-- Claim C15, amended, on the sample pair with a demote queued: a demote on
the engine's thread aborts, a demote on another thread queues a second
one. -/
theorem notification_with_task_queued_witness :
    wrapped_gobj_toggle_notify engine_thread_context demote_queued_world 0 true =
      Except.error Fault.abort ∧
    ∃ w1, wrapped_gobj_toggle_notify other_thread_context demote_queued_world 0 true =
        Except.ok w1 ∧
      w1.sources = demote_queued_world.sources ++ [{ operation := queued_operation 0 true }] :=
  ⟨(notification_with_task_queued engine_thread_context demote_queued_world 0
      { ref_count := 1, toggle_ref := true, priv := PrivateQData.heap_wrapper (some 0),
        toggle_down := some 0 } true rfl rfl (Or.inr rfl)).1 ⟨rfl, Or.inl rfl⟩,
    by
      obtain ⟨w1, h1, s1, _⟩ :=
        (notification_with_task_queued other_thread_context demote_queued_world 0
          { ref_count := 1, toggle_ref := true, priv := PrivateQData.heap_wrapper (some 0),
            toggle_down := some 0 } true rfl rfl (Or.inr rfl)).2 (by decide)
      exact ⟨w1, h1, s1⟩⟩

/-- Claim C16: outside shutdown, a notification that arrives off the engine's
thread returns with the keep-alive set, the wrappers and the events as they
were, exactly one more source, carrying a task of the notification's
direction, and that task as the object's pending marker; the object's count
is one higher after a promote and unchanged after a demote, and freeing the
task (`toggle_ref_notify_operation_free`) brings count and pending counter
back to what they were.  The promote notification is delivered when the count
has risen to two. -/
theorem off_thread_notification_is_deferred (ctx ctx2 : ToggleContext) (w : ObjectWorld)
    (gobj : Nat) (g : GObject) (is_last_ref : Bool)
    (hdes : ctx.destroying = false) (hoff : ctx.is_main_thread = false)
    (hg : w.gobjects.get? gobj = some g)
    (hcount : is_last_ref = false → 2 ≤ g.ref_count) :
    ∃ w1 w2,
      wrapped_gobj_toggle_notify ctx w gobj is_last_ref = Except.ok w1 ∧
      w1.keep_alive = w.keep_alive ∧ w1.wrappers = w.wrappers ∧ w1.log = w.log ∧
      w1.sources = w.sources ++ [{ operation := queued_operation gobj is_last_ref }] ∧
      (queued_operation gobj is_last_ref).direction = notified_direction is_last_ref ∧
      w1.pending_idle_toggles = w.pending_idle_toggles + 1 ∧
      w1.gobjects.get? gobj = some
        (({ g with ref_count := g.ref_count + (if is_last_ref then 0 else 1) } : GObject
          ).set_toggle_marker (notified_direction is_last_ref) (some w.sources.length)) ∧
      (∀ other, other ≠ gobj → w1.gobjects.get? other = w.gobjects.get? other) ∧
      toggle_ref_notify_operation_free ctx2 w1 (queued_operation gobj is_last_ref) =
        Except.ok w2 ∧
      w2.gobjects.get? gobj = some
        (g.set_toggle_marker (notified_direction is_last_ref) (some w.sources.length)) ∧
      w2.pending_idle_toggles = w.pending_idle_toggles ∧
      w2.keep_alive = w.keep_alive ∧ w2.wrappers = w.wrappers := by
  obtain ⟨w1, h1, s1, p1, k1, r1, l1, g1, o1, _⟩ :=
    queue_toggle_idle_marker w gobj g is_last_ref hg
  rw [← wrapped_gobj_toggle_notify_off_thread ctx w gobj g is_last_ref hdes hoff hg] at h1
  cases is_last_ref with
  | true =>
    refine ⟨w1, { w1 with pending_idle_toggles := w1.pending_idle_toggles - 1 }, h1, k1, r1,
      l1, s1, rfl, p1, g1, o1, rfl, ?_, ?_, k1, r1⟩
    · simp only [g1]
      simp
    · simp only [p1]
      omega
  | false =>
    have hc := hcount rfl
    have hfree : toggle_ref_notify_operation_free ctx2 w1 (queued_operation gobj false) =
        Except.ok
          { w1.set_gobject gobj (g.set_toggle_marker ToggleDirection.TOGGLE_UP
              (some w.sources.length)) with
            pending_idle_toggles := w1.pending_idle_toggles - 1 } := by
      unfold toggle_ref_notify_operation_free g_object_unref
      simp only [queued_operation, Bool.not_false, if_true, g1]
      have hne : ¬ (g.ref_count + 1 = 2 ∧ g.toggle_ref = true) := fun h => by omega
      simp [GObject.set_toggle_marker, notified_direction, hne, ObjectWorld.set_gobject]
    refine ⟨w1, _, h1, k1, r1, l1, s1, rfl, p1, g1, o1, hfree, ?_, ?_, k1, r1⟩
    · exact list_get_set_self _ _ _ _ g1
    · simp only [ObjectWorld.set_gobject, p1]
      omega

/-- Claim C16 on the sample pairs: the promote of `promoted_pair_world` and
the demote of `demoted_pair_world`, both delivered on another thread. -/
theorem off_thread_notification_is_deferred_witness :
    (∃ w1 w2,
      wrapped_gobj_toggle_notify other_thread_context promoted_pair_world 0 false =
        Except.ok w1 ∧
      w1.keep_alive = [] ∧
      w1.sources = [{ operation := queued_operation 0 false }] ∧
      (w1.gobjects.get? 0).map GObject.ref_count = some 3 ∧
      toggle_ref_notify_operation_free engine_thread_context w1 (queued_operation 0 false) =
        Except.ok w2 ∧
      (w2.gobjects.get? 0).map GObject.ref_count = some 2) ∧
    (∃ w1,
      wrapped_gobj_toggle_notify other_thread_context demoted_pair_world 0 true =
        Except.ok w1 ∧
      w1.keep_alive = [0] ∧
      w1.sources = [{ operation := queued_operation 0 true }] ∧
      (w1.gobjects.get? 0).map GObject.ref_count = some 1) := by
  constructor
  · obtain ⟨w1, w2, h1, k1, _, _, s1, _, _, g1, _, hf, g2, _⟩ :=
      off_thread_notification_is_deferred other_thread_context engine_thread_context
        promoted_pair_world 0
        { ref_count := 2, toggle_ref := true, priv := PrivateQData.heap_wrapper (some 0) }
        false rfl rfl rfl (fun _ => by decide)
    exact ⟨w1, w2, h1, k1, s1, by rw [g1]; rfl, hf, by rw [g2]; rfl⟩
  · obtain ⟨w1, _, h1, k1, _, _, s1, _, _, g1, _⟩ :=
      off_thread_notification_is_deferred other_thread_context engine_thread_context
        demoted_pair_world 0
        { ref_count := 1, toggle_ref := true, priv := PrivateQData.heap_wrapper (some 0) }
        true rfl rfl rfl (fun h => absurd h (by decide))
    exact ⟨w1, h1, k1, s1, by rw [g1]; rfl⟩

/-- Claim C17: a task whose pending marker is gone from its object (what
`cancel_toggle_idle` leaves) is a no-op when `idle_handle_toggle` runs it: the
call returns and the world is the one it started from, with the keep-alive
set, the wrappers and both markers of the object as they were. -/
theorem cancelled_toggle_task_is_noop (w : ObjectWorld) (operation : ToggleRefNotifyOperation)
    (g : GObject) (hg : w.gobjects.get? operation.gobj = some g)
    (hmark : g.toggle_marker operation.direction = none) :
    idle_handle_toggle w operation = Except.ok w := by
  have hsame : g.set_toggle_marker operation.direction none = g := by
    cases hd : operation.direction <;> rw [hd] at hmark <;> cases g <;>
      simp only [GObject.toggle_marker] at hmark <;> subst hmark <;> rfl
  unfold idle_handle_toggle clear_toggle_idle_source
  rw [hg]
  simp only [hmark, hsame, Option.isSome_none, if_true, ObjectWorld.set_gobject,
    list_set_get_self _ _ _ hg]

/-- Claim C17 on the sample pair: the demote queued from another thread is
taken back by `cancel_toggle_idle`, and running its task afterwards changes
nothing. -/
theorem cancelled_toggle_task_is_noop_witness :
    wrapped_gobj_toggle_notify other_thread_context demoted_pair_world 0 true =
      Except.ok demote_queued_world ∧
    cancel_toggle_idle engine_thread_context demote_queued_world 0
      ToggleDirection.TOGGLE_DOWN = Except.ok (demote_cancelled_world, true) ∧
    idle_handle_toggle demote_cancelled_world (queued_operation 0 true) =
      Except.ok demote_cancelled_world :=
  ⟨rfl, rfl,
    cancelled_toggle_task_is_noop demote_cancelled_world (queued_operation 0 true)
      { ref_count := 1, toggle_ref := true, priv := PrivateQData.heap_wrapper (some 0) }
      rfl rfl⟩

/-- The lookup on an object whose binding is absent, or a heap pointer that
holds nothing: no wrapper, and the object holds an empty heap pointer. -/
theorem peek_js_obj_empty (w : ObjectWorld) (gobj : Nat) (g : GObject)
    (hg : w.gobjects.get? gobj = some g)
    (hp : g.priv = PrivateQData.null ∨ g.priv = PrivateQData.heap_wrapper none) :
    peek_js_obj w gobj =
      Except.ok (w.set_gobject gobj { g with priv := PrivateQData.heap_wrapper none }, none) := by
  unfold peek_js_obj ensure_heap_wrapper
  rw [hg]
  rcases hp with hp | hp
  · simp only [hp]
  · have hsame : ({ g with priv := PrivateQData.heap_wrapper none } : GObject) = g := by
      cases g
      simp only [] at hp
      subst hp
      rfl
    simp only [hp]
    rw [hsame, ObjectWorld.set_gobject, list_set_get_self _ _ _ hg]

/-- The lookup on a poisoned object: the critical is logged, the marker
cleared, and no wrapper reported. -/
theorem peek_js_obj_poison (w : ObjectWorld) (gobj : Nat) (g : GObject)
    (hg : w.gobjects.get? gobj = some g) (hp : g.priv = PrivateQData.poison) :
    peek_js_obj w gobj =
      Except.ok ({ w.set_gobject gobj { g with priv := PrivateQData.null } with
                   log := w.log ++ [ObjEvent.critical_resurfaced gobj] }, none) := by
  unfold peek_js_obj ensure_heap_wrapper
  rw [hg]
  simp only [hp, hg]

/-- The lookup on a bound object returns its wrapper and changes nothing. -/
theorem peek_js_obj_bound (w : ObjectWorld) (gobj obj : Nat) (h : Bound w gobj obj) :
    peek_js_obj w gobj = Except.ok (w, some obj) := by
  obtain ⟨g, _, hg, hp, _, _⟩ := h
  exact peek_js_obj_heap w gobj g (some obj) hg hp

/-- The wrapper of a bound object gives the object back. -/
theorem gjs_g_object_from_object_bound (w : ObjectWorld) (gobj obj : Nat)
    (h : Bound w gobj obj) :
    gjs_g_object_from_object w (some obj) = Except.ok (some gobj) := by
  obtain ⟨_, inst, _, _, hinst, hgobj⟩ := h
  unfold gjs_g_object_from_object
  simp only [hinst, hgobj]

/-- Function `init_object_private` on a script object without private
data. -/
theorem init_object_private_fresh (w : ObjectWorld) (object : Nat)
    (h : w.wrappers.get? object = some none) :
    init_object_private w object = Except.ok (w.set_private object {}) := by
  unfold init_object_private
  rw [h]

/-- GLib's `g_object_ref_sink` on an object without toggle reference: no
notification, and nothing but the count or the floating flag changes. -/
theorem g_object_ref_sink_unwatched (ctx : ToggleContext) (w : ObjectWorld) (gobj : Nat)
    (g : GObject) (hg : w.gobjects.get? gobj = some g) (htr : g.toggle_ref = false) :
    ∃ g1, g_object_ref_sink ctx w gobj = Except.ok (w.set_gobject gobj g1) ∧
      g1.priv = g.priv ∧ g1.toggle_ref = false ∧ g1.toggle_up = g.toggle_up ∧
      g1.toggle_down = g.toggle_down := by
  unfold g_object_ref_sink
  rw [hg]
  simp only []
  by_cases hf : g.floating = true
  · rw [if_pos hf]
    exact ⟨_, rfl, rfl, htr, rfl, rfl⟩
  · rw [if_neg hf, if_neg (by simp [htr])]
    exact ⟨_, rfl, rfl, htr, rfl, rfl⟩

/-- Function `associate_js_gobject` on an object without wrapper: the pair is
bound, the wrapper rooted, and the pending markers are as they were. -/
theorem associate_js_gobject_binds (w : ObjectWorld) (object gobj : Nat) (g : GObject)
    (priv : ObjectInstance) (hg : w.gobjects.get? gobj = some g)
    (hp : g.priv = PrivateQData.null ∨ g.priv = PrivateQData.heap_wrapper none)
    (hpriv : w.wrappers.get? object = some (some priv)) :
    ∃ w5 g5, associate_js_gobject w object gobj = Except.ok w5 ∧
      w5.gobjects.get? gobj = some g5 ∧
      g5.priv = PrivateQData.heap_wrapper (some object) ∧
      g5.toggle_up = g.toggle_up ∧ g5.toggle_down = g.toggle_down ∧
      w5.wrappers.get? object = some (some { gobj := some gobj, keep_alive := true }) := by
  unfold associate_js_gobject
  rw [hpriv]
  simp only []
  have hg1 : (w.set_private object { priv with gobj := some gobj }).gobjects.get? gobj =
      some g := hg
  rw [peek_js_obj_empty _ gobj g hg1 hp]
  simp only []
  have hg2 : ((w.set_private object { priv with gobj := some gobj }).set_gobject gobj
      { g with priv := PrivateQData.heap_wrapper none }).gobjects.get? gobj =
        some { g with priv := PrivateQData.heap_wrapper none } :=
    list_get_set_self _ _ _ _ hg
  have hset : set_js_obj ((w.set_private object { priv with gobj := some gobj }).set_gobject gobj
      { g with priv := PrivateQData.heap_wrapper none }) gobj (some object) =
        Except.ok (((w.set_private object { priv with gobj := some gobj }).set_gobject gobj
          { g with priv := PrivateQData.heap_wrapper none }).set_gobject gobj
            { g with priv := PrivateQData.heap_wrapper (some object) }) := by
    unfold set_js_obj ensure_heap_wrapper
    rw [hg2]
    simp only [hg2]
  rw [hset]
  simp only []
  have hg3 : (gjs_keep_alive_add_child
      ((((w.set_private object { priv with gobj := some gobj }).set_gobject gobj
          { g with priv := PrivateQData.heap_wrapper none }).set_gobject gobj
            { g with priv := PrivateQData.heap_wrapper (some object) }).set_private object
              { priv with gobj := some gobj, keep_alive := true }) object).gobjects.get? gobj =
        some { g with priv := PrivateQData.heap_wrapper (some object) } :=
    list_get_set_self _ _ _ _ hg2
  rw [hg3]
  refine ⟨_, _, rfl, list_get_set_self _ _ _ _ hg3, rfl, rfl, rfl, ?_⟩
  have hw1 : (w.wrappers.set object (some { priv with gobj := some gobj })).get? object =
      some (some { priv with gobj := some gobj }) := list_get_set_self _ _ _ _ hpriv
  exact list_get_set_self _ _ _ _ hw1

/-- Function `handle_toggle_down` on a bound pair returns and leaves the pair
bound. -/
theorem handle_toggle_down_bound (w : ObjectWorld) (gobj obj : Nat) (h : Bound w gobj obj) :
    ∃ w1, handle_toggle_down w gobj = Except.ok w1 ∧ Bound w1 gobj obj := by
  obtain ⟨g, inst, hg, hp, hinst, hgobj⟩ := h
  unfold handle_toggle_down
  rw [peek_js_obj_heap w gobj g (some obj) hg hp]
  simp only [JS_GetPrivate, hinst]
  by_cases hk : inst.keep_alive = true
  · rw [if_pos hk]
    exact ⟨_, rfl, g, _, hg, hp, list_get_set_self _ _ _ _ hinst, hgobj⟩
  · rw [if_neg hk]
    exact ⟨_, rfl, g, inst, hg, hp, hinst, hgobj⟩

/-- A toggle-down notification on a bound pair with no task queued returns,
on any thread, and leaves the pair bound. -/
theorem toggle_down_notify_bound (ctx : ToggleContext) (w : ObjectWorld) (gobj obj : Nat)
    (g : GObject) (hg : w.gobjects.get? gobj = some g)
    (hup : g.toggle_up = none) (hdown : g.toggle_down = none) (h : Bound w gobj obj) :
    ∃ w1, wrapped_gobj_toggle_notify ctx w gobj true = Except.ok w1 ∧ Bound w1 gobj obj := by
  by_cases hdes : ctx.destroying = true
  · refine ⟨w, ?_, h⟩
    unfold wrapped_gobj_toggle_notify
    rw [if_pos hdes]
  · have hdes1 : ctx.destroying = false := by simpa using hdes
    by_cases hmain : ctx.is_main_thread = true
    · obtain ⟨w1, h1, b1⟩ := handle_toggle_down_bound w gobj obj h
      refine ⟨w1, ?_, b1⟩
      have hmu : g.toggle_marker ToggleDirection.TOGGLE_UP = none := hup
      have hmd : g.toggle_marker ToggleDirection.TOGGLE_DOWN = none := hdown
      unfold wrapped_gobj_toggle_notify
      rw [toggle_idle_source_is_queued_eq w gobj g _ hg,
        toggle_idle_source_is_queued_eq w gobj g _ hg, hmu, hmd]
      simp [hdes1, hmain]
      exact h1
    · have hoff : ctx.is_main_thread = false := by simpa using hmain
      obtain ⟨w1, h1, _, _, _, r1, _, g1, _, _⟩ := queue_toggle_idle_marker w gobj g true hg
      rw [← wrapped_gobj_toggle_notify_off_thread ctx w gobj g true hdes1 hoff hg] at h1
      obtain ⟨g0, inst, hg0, hp, hinst, hgobj⟩ := h
      rw [hg] at hg0
      simp only [Option.some.injEq] at hg0
      subst hg0
      refine ⟨w1, h1, _, inst, g1, ?_, by rw [r1]; exact hinst, hgobj⟩
      simp only [GObject.set_toggle_marker, notified_direction, if_true]
      exact hp

/-- GLib's `g_object_unref` on a bound pair with no task queued returns, on
any thread, and leaves the pair bound. -/
theorem g_object_unref_bound (ctx : ToggleContext) (w : ObjectWorld) (gobj obj : Nat)
    (g : GObject) (hg : w.gobjects.get? gobj = some g)
    (hup : g.toggle_up = none) (hdown : g.toggle_down = none) (h : Bound w gobj obj) :
    ∃ w1, g_object_unref ctx w gobj = Except.ok w1 ∧ Bound w1 gobj obj := by
  have hb : Bound (w.set_gobject gobj { g with ref_count := g.ref_count - 1 }) gobj obj := by
    obtain ⟨g0, inst, hg0, hp, hinst, hgobj⟩ := h
    rw [hg] at hg0
    simp only [Option.some.injEq] at hg0
    subst hg0
    exact ⟨_, inst, list_get_set_self _ _ _ _ hg, hp, hinst, hgobj⟩
  unfold g_object_unref
  rw [hg]
  simp only []
  by_cases hc : g.ref_count = 2 ∧ g.toggle_ref = true
  · rw [if_pos hc]
    exact toggle_down_notify_bound ctx _ gobj obj _ (list_get_set_self _ _ _ _ hg) hup hdown hb
  · rw [if_neg hc]
    exact ⟨_, rfl, hb⟩

/-- The branch that creates a wrapper, on an object without wrapper, without
toggle reference and with no task queued: it returns the next script object,
bound to the native object. -/
theorem create_wrapper_binds (ctx : ToggleContext) (w : ObjectWorld) (gobj : Nat) (g : GObject)
    (hg : w.gobjects.get? gobj = some g)
    (hp : g.priv = PrivateQData.null ∨ g.priv = PrivateQData.heap_wrapper none)
    (htr : g.toggle_ref = false) (hup : g.toggle_up = none) (hdown : g.toggle_down = none)
    (hnew : ctx.new_object_succeeds = true) :
    ∃ w1, create_wrapper ctx w gobj = Except.ok (w1, some w.wrappers.length) ∧
      Bound w1 gobj w.wrappers.length := by
  unfold create_wrapper
  rw [if_neg (by simp [hnew])]
  simp only []
  have hfresh : ({ w with wrappers := w.wrappers ++ [none] } : ObjectWorld).wrappers.get?
      w.wrappers.length = some none := by
    simp
  rw [init_object_private_fresh _ _ hfresh]
  simp only []
  have hg3 : (({ w with wrappers := w.wrappers ++ [none] } : ObjectWorld).set_private
      w.wrappers.length {}).gobjects.get? gobj = some g := hg
  obtain ⟨g4, h4, p4, t4, u4, d4⟩ := g_object_ref_sink_unwatched ctx _ gobj g hg3 htr
  rw [h4]
  simp only []
  have hg4 : ((({ w with wrappers := w.wrappers ++ [none] } : ObjectWorld).set_private
      w.wrappers.length {}).set_gobject gobj g4).gobjects.get? gobj = some g4 :=
    list_get_set_self _ _ _ _ hg
  have hw4 : ((({ w with wrappers := w.wrappers ++ [none] } : ObjectWorld).set_private
      w.wrappers.length {}).set_gobject gobj g4).wrappers.get? w.wrappers.length =
        some (some {}) :=
    list_get_set_self _ _ _ _ hfresh
  obtain ⟨w5, g5, h5, hg5, p5, u5, d5, hw5⟩ :=
    associate_js_gobject_binds _ w.wrappers.length gobj g4 {} hg4 (by rw [p4]; exact hp) hw4
  rw [h5]
  simp only []
  obtain ⟨w6, h6, b6⟩ := g_object_unref_bound ctx w5 gobj w.wrappers.length g5 hg5
    (by rw [u5, u4]; exact hup) (by rw [d5, d4]; exact hdown) ⟨g5, _, hg5, p5, hw5, rfl⟩
  rw [h6]
  simp only []
  rw [peek_js_obj_bound w6 gobj _ b6]
  simp only [if_true]
  exact ⟨w6, rfl, b6⟩

/-- Claim C18: for a native object the world holds whose binding is
consistent (the wrapper its qdata names holds the object in its private
data; without wrapper it has no toggle reference and no task queued), with
script objects available: `gjs_object_from_g_object` returns a wrapper, a
second call on the world the first one left returns the same wrapper and
changes nothing, and `gjs_g_object_from_object` on that wrapper returns the
object. -/
theorem one_wrapper_per_object (ctx : ToggleContext) (w : ObjectWorld) (gobj : Nat) (g : GObject)
    (hg : w.gobjects.get? gobj = some g) (hnew : ctx.new_object_succeeds = true)
    (hbound : ∀ o, g.priv = PrivateQData.heap_wrapper (some o) →
      ∃ inst, w.wrappers.get? o = some (some inst) ∧ inst.gobj = some gobj)
    (hunbound : (∀ o, g.priv ≠ PrivateQData.heap_wrapper (some o)) →
      g.toggle_ref = false ∧ g.toggle_up = none ∧ g.toggle_down = none) :
    ∃ w1 obj,
      gjs_object_from_g_object ctx w (some gobj) = Except.ok (w1, some obj) ∧
      gjs_object_from_g_object ctx w1 (some gobj) = Except.ok (w1, some obj) ∧
      gjs_g_object_from_object w1 (some obj) = Except.ok (some gobj) := by
  have hagain : ∀ w1 obj, Bound w1 gobj obj →
      gjs_object_from_g_object ctx w1 (some gobj) = Except.ok (w1, some obj) := by
    intro w1 obj b
    unfold gjs_object_from_g_object
    simp only [peek_js_obj_bound w1 gobj obj b]
  have hcreate : ∀ wp gp, peek_js_obj w gobj = Except.ok (wp, none) →
      wp.gobjects.get? gobj = some gp →
      (gp.priv = PrivateQData.null ∨ gp.priv = PrivateQData.heap_wrapper none) →
      gp.toggle_ref = false → gp.toggle_up = none → gp.toggle_down = none →
      ∃ w1 obj,
        gjs_object_from_g_object ctx w (some gobj) = Except.ok (w1, some obj) ∧
        gjs_object_from_g_object ctx w1 (some gobj) = Except.ok (w1, some obj) ∧
        gjs_g_object_from_object w1 (some obj) = Except.ok (some gobj) := by
    intro wp gp hpeek hgp hpp htr hup hdown
    obtain ⟨w1, h1, b1⟩ := create_wrapper_binds ctx wp gobj gp hgp hpp htr hup hdown hnew
    refine ⟨w1, wp.wrappers.length, ?_, hagain _ _ b1, gjs_g_object_from_object_bound _ _ _ b1⟩
    unfold gjs_object_from_g_object
    simp only [hpeek]
    exact h1
  cases hp : g.priv with
  | heap_wrapper o =>
    cases o with
    | some obj =>
      obtain ⟨inst, hinst, hgobj⟩ := hbound obj hp
      have b : Bound w gobj obj := ⟨g, inst, hg, hp, hinst, hgobj⟩
      exact ⟨w, obj, hagain _ _ b, hagain _ _ b, gjs_g_object_from_object_bound _ _ _ b⟩
    | none =>
      obtain ⟨htr, hup, hdown⟩ := hunbound (fun o ho => by rw [hp] at ho; exact absurd ho (by simp))
      exact hcreate _ _ (peek_js_obj_empty w gobj g hg (Or.inr hp))
        (list_get_set_self _ _ _ _ hg) (Or.inr rfl) htr hup hdown
  | null =>
    obtain ⟨htr, hup, hdown⟩ := hunbound (fun o ho => by rw [hp] at ho; exact absurd ho (by simp))
    exact hcreate _ _ (peek_js_obj_empty w gobj g hg (Or.inl hp))
      (list_get_set_self _ _ _ _ hg) (Or.inr rfl) htr hup hdown
  | poison =>
    obtain ⟨htr, hup, hdown⟩ := hunbound (fun o ho => by rw [hp] at ho; exact absurd ho (by simp))
    exact hcreate _ _ (peek_js_obj_poison w gobj g hg hp)
      (list_get_set_self _ _ _ _ hg) (Or.inl rfl) htr hup hdown

/-- Claim C18 on the samples: the object without wrapper gets the wrapper 0,
and the rooted pair keeps its wrapper 0. -/
theorem one_wrapper_per_object_witness :
    (∃ w1 obj,
      gjs_object_from_g_object engine_thread_context unwrapped_object_world (some 0) =
        Except.ok (w1, some obj) ∧
      gjs_object_from_g_object engine_thread_context w1 (some 0) = Except.ok (w1, some obj) ∧
      gjs_g_object_from_object w1 (some obj) = Except.ok (some 0)) ∧
    gjs_object_from_g_object engine_thread_context unwrapped_object_world (some 0) =
      Except.ok (strong_pair_world, some 0) :=
  ⟨one_wrapper_per_object engine_thread_context unwrapped_object_world 0 { ref_count := 1 }
      rfl rfl (fun o ho => absurd ho (by simp)) (fun _ => ⟨rfl, rfl, rfl⟩),
    rfl⟩

/-- Claim C19: for a poisoned object (without toggle reference and with no
task queued, as `disassociate_js_gobject` leaves it), with script objects
available: the lookup `peek_js_obj` logs the critical, clears the marker and
reports no wrapper; `gjs_object_from_g_object` returns a script object that
did not exist before, bound to the object; and on the world it leaves the
lookup returns that wrapper, a further `gjs_object_from_g_object` returns it
too, and the object's qdata is no longer the poison marker. -/
theorem poisoned_object_gets_fresh_wrapper (ctx : ToggleContext) (w : ObjectWorld) (gobj : Nat)
    (g : GObject) (hg : w.gobjects.get? gobj = some g) (hp : g.priv = PrivateQData.poison)
    (htr : g.toggle_ref = false) (hup : g.toggle_up = none) (hdown : g.toggle_down = none)
    (hnew : ctx.new_object_succeeds = true) :
    peek_js_obj w gobj =
      Except.ok ({ w.set_gobject gobj { g with priv := PrivateQData.null } with
                   log := w.log ++ [ObjEvent.critical_resurfaced gobj] }, none) ∧
    ∃ w1,
      gjs_object_from_g_object ctx w (some gobj) = Except.ok (w1, some w.wrappers.length) ∧
      w.wrappers.get? w.wrappers.length = none ∧
      Bound w1 gobj w.wrappers.length ∧
      peek_js_obj w1 gobj = Except.ok (w1, some w.wrappers.length) ∧
      gjs_object_from_g_object ctx w1 (some gobj) = Except.ok (w1, some w.wrappers.length) ∧
      gjs_g_object_from_object w1 (some w.wrappers.length) = Except.ok (some gobj) := by
  refine ⟨peek_js_obj_poison w gobj g hg hp, ?_⟩
  obtain ⟨w1, h0, b0⟩ := create_wrapper_binds ctx
    { w.set_gobject gobj { g with priv := PrivateQData.null } with
      log := w.log ++ [ObjEvent.critical_resurfaced gobj] } gobj
    { g with priv := PrivateQData.null } (list_get_set_self _ _ _ _ hg) (Or.inl rfl) htr hup hdown
    hnew
  have h1 : create_wrapper ctx
      { w.set_gobject gobj { g with priv := PrivateQData.null } with
        log := w.log ++ [ObjEvent.critical_resurfaced gobj] } gobj =
      Except.ok (w1, some w.wrappers.length) := by
    rw [h0]
    simp [ObjectWorld.set_gobject]
  have b1 : Bound w1 gobj w.wrappers.length := by
    have hlen : ({ w.set_gobject gobj { g with priv := PrivateQData.null } with
        log := w.log ++ [ObjEvent.critical_resurfaced gobj] } : ObjectWorld).wrappers.length =
          w.wrappers.length := by
      simp [ObjectWorld.set_gobject]
    rw [← hlen]
    exact b0
  have hpk := peek_js_obj_bound w1 gobj _ b1
  refine ⟨w1, ?_, by simp, b1, hpk, ?_, gjs_g_object_from_object_bound _ _ _ b1⟩
  · unfold gjs_object_from_g_object
    simp only [peek_js_obj_poison w gobj g hg hp]
    exact h1
  · unfold gjs_object_from_g_object
    simp only [hpk]

/-- Claim C19 on the sample: the object poisoned while its wrapper 0 was
swept gets the new wrapper 1. -/
theorem poisoned_object_gets_fresh_wrapper_witness :
    wrapped_gobj_toggle_notify sweeping_context promoted_pair_world 0 false =
      Except.ok poisoned_object_world ∧
    (∃ w0, peek_js_obj poisoned_object_world 0 = Except.ok (w0, none) ∧
      ObjEvent.critical_resurfaced 0 ∈ w0.log ∧
      (w0.gobjects.get? 0).map GObject.priv = some PrivateQData.null) ∧
    ∃ w1,
      gjs_object_from_g_object engine_thread_context poisoned_object_world (some 0) =
        Except.ok (w1, some 1) ∧
      peek_js_obj w1 0 = Except.ok (w1, some 1) ∧
      gjs_g_object_from_object w1 (some 1) = Except.ok (some 0) := by
  obtain ⟨h0, w1, h1, _, _, h2, _, h3⟩ :=
    poisoned_object_gets_fresh_wrapper engine_thread_context poisoned_object_world 0
      { ref_count := 1, toggle_ref := false, priv := PrivateQData.poison }
      rfl rfl rfl rfl rfl rfl
  exact ⟨rfl, ⟨_, h0, by decide, rfl⟩, w1, h1, h2, h3⟩

/-- The lookup leaves the pending markers of every object alone. -/
theorem peek_js_obj_markers (w w1 : ObjectWorld) (gobj : Nat) (found : Option Nat)
    (h : peek_js_obj w gobj = Except.ok (w1, found)) (other : Nat) (g : GObject)
    (hg : w.gobjects.get? other = some g) :
    w1.wrappers = w.wrappers ∧
    ∃ g1, w1.gobjects.get? other = some g1 ∧ g1.toggle_up = g.toggle_up ∧
      g1.toggle_down = g.toggle_down := by
  unfold peek_js_obj ensure_heap_wrapper at h
  cases hx : w.gobjects.get? gobj with
  | none =>
    rw [hx] at h
    exact absurd h (by simp)
  | some g0 =>
    rw [hx] at h
    simp only [] at h
    by_cases ho : other = gobj
    · subst ho
      rw [hg] at hx
      simp only [Option.some.injEq] at hx
      subst hx
      cases hp : g.priv with
      | null =>
        rw [hp] at h
        simp only [Except.ok.injEq, Prod.mk.injEq] at h
        obtain ⟨h, _⟩ := h
        subst h
        exact ⟨rfl, _, list_get_set_self _ _ _ _ hg, rfl, rfl⟩
      | heap_wrapper o =>
        rw [hp] at h
        simp only [Except.ok.injEq, Prod.mk.injEq] at h
        obtain ⟨h, _⟩ := h
        subst h
        exact ⟨rfl, _, hg, rfl, rfl⟩
      | poison =>
        rw [hp] at h
        simp only [hg, Except.ok.injEq, Prod.mk.injEq] at h
        obtain ⟨h, _⟩ := h
        subst h
        exact ⟨rfl, _, list_get_set_self _ _ _ _ hg, rfl, rfl⟩
    · cases hp : g0.priv with
      | null =>
        rw [hp] at h
        simp only [Except.ok.injEq, Prod.mk.injEq] at h
        obtain ⟨h, _⟩ := h
        subst h
        exact ⟨rfl, g, by
          rw [← hg]
          exact list_get_set_other _ _ _ _ (Ne.symm ho), rfl, rfl⟩
      | heap_wrapper o =>
        rw [hp] at h
        simp only [Except.ok.injEq, Prod.mk.injEq] at h
        obtain ⟨h, _⟩ := h
        subst h
        exact ⟨rfl, g, hg, rfl, rfl⟩
      | poison =>
        rw [hp] at h
        simp only [hx, Except.ok.injEq, Prod.mk.injEq] at h
        obtain ⟨h, _⟩ := h
        subst h
        exact ⟨rfl, g, by
          rw [← hg]
          exact list_get_set_other _ _ _ _ (Ne.symm ho), rfl, rfl⟩

/-- Function `handle_toggle_down` leaves the pending markers of every object
alone. -/
theorem handle_toggle_down_markers (w w1 : ObjectWorld) (gobj : Nat)
    (h : handle_toggle_down w gobj = Except.ok w1) (other : Nat) (g : GObject)
    (hg : w.gobjects.get? other = some g) :
    ∃ g1, w1.gobjects.get? other = some g1 ∧ g1.toggle_up = g.toggle_up ∧
      g1.toggle_down = g.toggle_down := by
  unfold handle_toggle_down at h
  cases hx : peek_js_obj w gobj with
  | error f =>
    rw [hx] at h
    exact absurd h (by simp)
  | ok p =>
    obtain ⟨wp, found⟩ := p
    rw [hx] at h
    simp only [] at h
    obtain ⟨_, g1, hg1, u1, d1⟩ := peek_js_obj_markers w wp gobj found hx other g hg
    cases hy : JS_GetPrivate wp found with
    | error f =>
      rw [hy] at h
      exact absurd h (by simp)
    | ok q =>
      obtain ⟨o, priv⟩ := q
      rw [hy] at h
      simp only [] at h
      by_cases hk : priv.keep_alive = true
      · rw [if_pos hk] at h
        simp only [Except.ok.injEq] at h
        subst h
        exact ⟨g1, hg1, u1, d1⟩
      · rw [if_neg hk] at h
        simp only [Except.ok.injEq] at h
        subst h
        exact ⟨g1, hg1, u1, d1⟩

/-- A toggle-down notification never sets a pending promote marker. -/
theorem toggle_down_notify_up_marker (ctx : ToggleContext) (w w1 : ObjectWorld) (gobj : Nat)
    (h : wrapped_gobj_toggle_notify ctx w gobj true = Except.ok w1) (g : GObject)
    (hg : w.gobjects.get? gobj = some g) :
    ∃ g1, w1.gobjects.get? gobj = some g1 ∧ g1.toggle_up = g.toggle_up := by
  by_cases hdes : ctx.destroying = true
  · unfold wrapped_gobj_toggle_notify at h
    rw [if_pos hdes] at h
    simp only [Except.ok.injEq] at h
    subst h
    exact ⟨g, hg, rfl⟩
  · have hdes1 : ctx.destroying = false := by simpa using hdes
    by_cases hmain : ctx.is_main_thread = true
    · unfold wrapped_gobj_toggle_notify at h
      rw [toggle_idle_source_is_queued_eq w gobj g _ hg,
        toggle_idle_source_is_queued_eq w gobj g _ hg] at h
      simp only [hdes1, hmain, if_true, Bool.false_eq_true, if_false] at h
      by_cases hq : (g.toggle_marker ToggleDirection.TOGGLE_UP).isSome = true ∨
          (g.toggle_marker ToggleDirection.TOGGLE_DOWN).isSome = true
      · rw [if_pos hq] at h
        exact absurd h (by simp)
      · rw [if_neg hq] at h
        obtain ⟨g1, hg1, u1, _⟩ := handle_toggle_down_markers w w1 gobj h gobj g hg
        exact ⟨g1, hg1, u1⟩
    · have hoff : ctx.is_main_thread = false := by simpa using hmain
      rw [wrapped_gobj_toggle_notify_off_thread ctx w gobj g true hdes1 hoff hg] at h
      obtain ⟨w2, h2, _, _, _, _, _, g2, _, _⟩ := queue_toggle_idle_marker w gobj g true hg
      rw [h2] at h
      simp only [Except.ok.injEq] at h
      subst h
      exact ⟨_, g2, rfl⟩

/-- GLib's `g_object_unref` never sets a pending promote marker on the
object it is called for. -/
theorem g_object_unref_up_marker (ctx : ToggleContext) (w w1 : ObjectWorld) (gobj : Nat)
    (h : g_object_unref ctx w gobj = Except.ok w1) (g : GObject)
    (hg : w.gobjects.get? gobj = some g) :
    ∃ g1, w1.gobjects.get? gobj = some g1 ∧ g1.toggle_up = g.toggle_up := by
  unfold g_object_unref at h
  rw [hg] at h
  simp only [] at h
  by_cases hc : g.ref_count = 2 ∧ g.toggle_ref = true
  · rw [if_pos hc] at h
    obtain ⟨g1, hg1, u1⟩ := toggle_down_notify_up_marker ctx _ w1 gobj h
      { g with ref_count := g.ref_count - 1 } (list_get_set_self _ _ _ _ hg)
    exact ⟨g1, hg1, u1⟩
  · rw [if_neg hc] at h
    simp only [Except.ok.injEq] at h
    subst h
    exact ⟨_, list_get_set_self _ _ _ _ hg, rfl⟩

/-- Function `toggle_ref_notify_operation_free` never sets a pending promote
marker on the object of the task, and changes no object at all when the task
holds no reference. -/
theorem toggle_ref_notify_operation_free_markers (ctx : ToggleContext) (w w1 : ObjectWorld)
    (operation : ToggleRefNotifyOperation)
    (h : toggle_ref_notify_operation_free ctx w operation = Except.ok w1) (g : GObject)
    (hg : w.gobjects.get? operation.gobj = some g) :
    ∃ g1, w1.gobjects.get? operation.gobj = some g1 ∧ g1.toggle_up = g.toggle_up ∧
      (operation.needs_unref = false → g1 = g) := by
  unfold toggle_ref_notify_operation_free at h
  by_cases hn : operation.needs_unref = true
  · rw [if_pos hn] at h
    cases hu : g_object_unref ctx w operation.gobj with
    | error f =>
      rw [hu] at h
      exact absurd h (by simp)
    | ok w2 =>
      rw [hu] at h
      simp only [Except.ok.injEq] at h
      subst h
      obtain ⟨g1, hg1, u1⟩ := g_object_unref_up_marker ctx w w2 operation.gobj hu g hg
      exact ⟨g1, hg1, u1, fun hf => by rw [hf] at hn; exact absurd hn (by simp)⟩
  · rw [if_neg hn] at h
    simp only [Except.ok.injEq] at h
    subst h
    exact ⟨g, hg, rfl, fun _ => rfl⟩

/-- GLib's `g_source_destroy` on a queued task never sets a pending promote
marker on the object of the task, and changes no object at all when the task
holds no reference. -/
theorem g_source_destroy_markers (ctx : ToggleContext) (w w1 : ObjectWorld) (source : Nat)
    (s : GSource) (hs : w.sources.get? source = some s)
    (h : g_source_destroy ctx w source = Except.ok w1) (g : GObject)
    (hg : w.gobjects.get? s.operation.gobj = some g) :
    ∃ g1, w1.gobjects.get? s.operation.gobj = some g1 ∧ g1.toggle_up = g.toggle_up ∧
      (s.operation.needs_unref = false → g1 = g) := by
  unfold g_source_destroy at h
  rw [hs] at h
  simp only [] at h
  by_cases hd : s.destroyed = true
  · rw [if_pos hd] at h
    simp only [Except.ok.injEq] at h
    subst h
    exact ⟨g, hg, rfl, fun _ => rfl⟩
  · rw [if_neg hd] at h
    exact toggle_ref_notify_operation_free_markers ctx _ w1 s.operation h g hg

/-- Function `cancel_toggle_idle` leaves the pending marker it was asked about
empty, when the source the marker names carries a task of that direction as
`queue_toggle_idle` builds it: a task cancelled this way finds its marker
gone when it runs. -/
theorem cancel_toggle_idle_clears_marker (ctx : ToggleContext) (w w1 : ObjectWorld) (gobj : Nat)
    (is_last_ref : Bool) (had : Bool) (g : GObject)
    (hg : w.gobjects.get? gobj = some g)
    (hsrc : ∀ id s, g.toggle_marker (notified_direction is_last_ref) = some id →
      w.sources.get? id = some s → s.operation = queued_operation gobj is_last_ref)
    (h : cancel_toggle_idle ctx w gobj (notified_direction is_last_ref) = Except.ok (w1, had)) :
    ∃ g1, w1.gobjects.get? gobj = some g1 ∧
      g1.toggle_marker (notified_direction is_last_ref) = none := by
  have hcleared : ((g.set_toggle_marker (notified_direction is_last_ref) none).toggle_marker
      (notified_direction is_last_ref)) = none := by
    cases is_last_ref <;> rfl
  have hg1 : (w.set_gobject gobj
      (g.set_toggle_marker (notified_direction is_last_ref) none)).gobjects.get? gobj =
        some (g.set_toggle_marker (notified_direction is_last_ref) none) :=
    list_get_set_self _ _ _ _ hg
  unfold cancel_toggle_idle at h
  rw [hg] at h
  simp only [] at h
  cases hm : g.toggle_marker (notified_direction is_last_ref) with
  | none =>
    rw [hm] at h
    simp only [Except.ok.injEq, Prod.mk.injEq] at h
    obtain ⟨h, _⟩ := h
    subst h
    exact ⟨_, hg1, hcleared⟩
  | some id =>
    rw [hm] at h
    simp only [] at h
    cases hx : g_source_destroy ctx (w.set_gobject gobj
        (g.set_toggle_marker (notified_direction is_last_ref) none)) id with
    | error f =>
      rw [hx] at h
      exact absurd h (by simp)
    | ok w2 =>
      rw [hx] at h
      simp only [Except.ok.injEq, Prod.mk.injEq] at h
      obtain ⟨h, _⟩ := h
      subst h
      cases hs : w.sources.get? id with
      | none =>
        unfold g_source_destroy at hx
        have hs1 : (w.set_gobject gobj
            (g.set_toggle_marker (notified_direction is_last_ref) none)).sources.get? id =
              none := hs
        rw [hs1] at hx
        exact absurd hx (by simp)
      | some s =>
        have hop := hsrc id s hm hs
        have hgs : (w.set_gobject gobj
            (g.set_toggle_marker (notified_direction is_last_ref) none)).gobjects.get?
              s.operation.gobj =
            some (g.set_toggle_marker (notified_direction is_last_ref) none) := by
          rw [hop]
          exact hg1
        have hs1 : (w.set_gobject gobj
            (g.set_toggle_marker (notified_direction is_last_ref) none)).sources.get? id =
              some s := hs
        obtain ⟨g1, e1, u1, n1⟩ := g_source_destroy_markers ctx _ w2 id s hs1 hx _ hgs
        rw [hop] at e1 n1
        refine ⟨g1, e1, ?_⟩
        cases is_last_ref with
        | true =>
          rw [n1 rfl]
          exact hcleared
        | false =>
          rw [show g1.toggle_marker (notified_direction false) = g1.toggle_up from rfl, u1]
          rfl

/-- Reading a tag back after a store. -/
theorem getD_set_param_type (pts : List GjsParamType) (i j : Nat) (t : GjsParamType) :
    (set_param_type pts i t).getD j GjsParamType.PARAM_NORMAL =
      if j = i ∧ i < pts.length then t else pts.getD j GjsParamType.PARAM_NORMAL := by
  unfold set_param_type
  by_cases h : j = i
  · subst h
    by_cases hl : j < pts.length
    · simp [List.getD_eq_getElem?_getD, List.getElem?_set, hl]
    · rw [if_neg (fun hc => hl hc.2)]
      have hnone : pts[j]? = none := List.getElem?_eq_none (by omega)
      simp [List.getD_eq_getElem?_getD, List.getElem?_set, hl, hnone]
  · rw [if_neg (fun hc => h hc.1)]
    simp [List.getD_eq_getElem?_getD, List.getElem?_set, Ne.symm h]

/-- A store keeps the number of tags. -/
theorem length_set_param_type (pts : List GjsParamType) (i : Nat) (t : GjsParamType) :
    (set_param_type pts i t).length = pts.length := by
  unfold set_param_type
  simp

/-- The conditional store of `PARAM_SKIPPED` keeps the number of tags. -/
theorem length_skip_if_in_range (pts : List GjsParamType) (pos : Int) (n_args : Nat) :
    (skip_if_in_range pts pos n_args).length = pts.length := by
  unfold skip_if_in_range
  split_ifs
  · exact length_set_param_type _ _ _
  · rfl

/-- The conditional store of `PARAM_SKIPPED` changes a tag to `PARAM_SKIPPED`
or leaves it. -/
theorem getD_skip_if_in_range (pts : List GjsParamType) (pos : Int) (n_args : Nat) (j : Nat) :
    (skip_if_in_range pts pos n_args).getD j GjsParamType.PARAM_NORMAL =
      if (0 ≤ pos ∧ pos < (n_args : Int)) ∧ j = pos.toNat ∧ pos.toNat < pts.length
      then GjsParamType.PARAM_SKIPPED else pts.getD j GjsParamType.PARAM_NORMAL := by
  unfold skip_if_in_range
  by_cases h : 0 ≤ pos ∧ pos < (n_args : Int)
  · rw [if_pos h, getD_set_param_type]
    simp only [h, true_and, and_self]
  · rw [if_neg h, if_neg (fun hc => h hc.1)]

/-- The closing block of a classifier iteration leaves the tags alone. -/
theorem count_normal_or_array_param_types (s : ClassifyState) (i : Nat)
    (direction : GIDirection) :
    (count_normal_or_array s i direction).param_types = s.param_types := by
  unfold count_normal_or_array
  simp only []
  split_ifs <;> rfl

/-- The descriptor lookup at an index inside the parameter list. -/
theorem g_callable_info_load_arg_eq (info : GICallableInfo) (pos : Int) (h : 0 ≤ pos) :
    g_callable_info_load_arg info pos = info.args.get? pos.toNat := by
  unfold g_callable_info_load_arg
  rw [if_neg (by omega)]

/-- What one classifier iteration that succeeds does to the tags: nothing to
a parameter already `PARAM_SKIPPED`; otherwise `PARAM_SKIPPED` for a
`GLib.DestroyNotify`, `PARAM_CALLBACK` and then `PARAM_SKIPPED` for the two
siblings for another callback, `PARAM_SKIPPED` for the length sibling and then
`PARAM_ARRAY` for a C array with an in-range length sibling, and nothing for
every other parameter. -/
theorem classify_step_some (info : GICallableInfo) (n_args i : Nat) (a : GIArgInfo)
    (s s1 : ClassifyState) (h : classify_step info n_args i a s = some s1) :
    (s.param_types.getD i GjsParamType.PARAM_NORMAL = GjsParamType.PARAM_SKIPPED ∧ s1 = s) ∨
    (s.param_types.getD i GjsParamType.PARAM_NORMAL ≠ GjsParamType.PARAM_SKIPPED ∧
      ((is_callback_type a.type_info ∧ a.type_info.interface_is_destroy_notify = true ∧
          s1.param_types = set_param_type s.param_types i GjsParamType.PARAM_SKIPPED) ∨
        (is_callback_type a.type_info ∧ a.type_info.interface_is_destroy_notify = false ∧
          s1.param_types =
            skip_if_in_range
              (skip_if_in_range (set_param_type s.param_types i GjsParamType.PARAM_CALLBACK)
                a.destroy n_args) a.closure n_args) ∨
        (has_length_sibling n_args a.type_info ∧
          s1.param_types =
            set_param_type
              (set_param_type s.param_types a.type_info.array_length.toNat
                GjsParamType.PARAM_SKIPPED) i GjsParamType.PARAM_ARRAY) ∨
        (¬ is_callback_type a.type_info ∧ ¬ has_length_sibling n_args a.type_info ∧
          s1.param_types = s.param_types))) := by
  unfold classify_step at h
  simp only [] at h
  by_cases h1 : s.param_types.getD i GjsParamType.PARAM_NORMAL = GjsParamType.PARAM_SKIPPED
  · rw [if_pos h1] at h
    simp only [Option.some.injEq] at h
    exact Or.inl ⟨h1, h.symm⟩
  rw [if_neg h1] at h
  refine Or.inr ⟨h1, ?_⟩
  by_cases h2 : a.type_info.tag = GITypeTag.INTERFACE
  · rw [if_pos h2] at h
    have hna : ¬ has_length_sibling n_args a.type_info := fun hc => by
      have := hc.1
      rw [h2] at this
      exact absurd this (by decide)
    by_cases h3 : a.type_info.interface_type = GIInfoType.CALLBACK
    · rw [if_pos h3] at h
      by_cases h4 : a.type_info.interface_is_destroy_notify = true
      · rw [if_pos h4] at h
        simp only [Option.some.injEq] at h
        subst h
        exact Or.inl ⟨⟨h2, h3⟩, h4, count_normal_or_array_param_types _ _ _⟩
      · rw [if_neg h4] at h
        by_cases h5 : 0 ≤ a.destroy ∧ a.closure < 0
        · rw [if_pos h5] at h
          exact absurd h (by simp)
        · rw [if_neg h5] at h
          simp only [Option.some.injEq] at h
          subst h
          exact Or.inr (Or.inl ⟨⟨h2, h3⟩, by simpa using h4,
            count_normal_or_array_param_types _ _ _⟩)
    · rw [if_neg h3] at h
      simp only [Option.some.injEq] at h
      subst h
      exact Or.inr (Or.inr (Or.inr ⟨fun hc => h3 hc.2, hna,
        count_normal_or_array_param_types _ _ _⟩))
  rw [if_neg h2] at h
  have hnc : ¬ is_callback_type a.type_info := fun hc => h2 hc.1
  by_cases h6 : a.type_info.tag = GITypeTag.ARRAY
  · rw [if_pos h6] at h
    by_cases h7 : a.type_info.array_type_is_c = true
    · rw [if_pos h7] at h
      by_cases h8 : 0 ≤ a.type_info.array_length ∧ a.type_info.array_length < (n_args : Int)
      · rw [if_pos h8] at h
        cases hl : g_callable_info_load_arg info a.type_info.array_length with
        | none =>
          rw [hl] at h
          exact absurd h (by simp)
        | some length_arg_info =>
          rw [hl] at h
          simp only [] at h
          by_cases h9 : length_arg_info.direction ≠ a.direction
          · rw [if_pos h9] at h
            exact absurd h (by simp)
          · rw [if_neg h9] at h
            simp only [Option.some.injEq] at h
            subst h
            refine Or.inr (Or.inr (Or.inl ⟨⟨h6, h7, h8.1, h8.2⟩, ?_⟩))
            rw [count_normal_or_array_param_types]
            by_cases h10 : a.type_info.array_length < (i : Int)
            · rw [if_pos h10]
            · rw [if_neg h10]
      · rw [if_neg h8] at h
        simp only [Option.some.injEq] at h
        subst h
        exact Or.inr (Or.inr (Or.inr ⟨hnc, fun hc => h8 ⟨hc.2.2.1, hc.2.2.2⟩,
          count_normal_or_array_param_types _ _ _⟩))
    · rw [if_neg h7] at h
      simp only [Option.some.injEq] at h
      subst h
      exact Or.inr (Or.inr (Or.inr ⟨hnc, fun hc => h7 hc.2.1,
        count_normal_or_array_param_types _ _ _⟩))
  · rw [if_neg h6] at h
    simp only [Option.some.injEq] at h
    subst h
    exact Or.inr (Or.inr (Or.inr ⟨hnc, fun hc => h6 hc.1,
      count_normal_or_array_param_types _ _ _⟩))

/-- When one classifier iteration fails: the parameter is not yet
`PARAM_SKIPPED` and is a callback (not a `GLib.DestroyNotify`) with a destroy
notification and no closure data, or a C array whose in-range length sibling
has another direction. -/
theorem classify_step_none (info : GICallableInfo) (n_args i : Nat) (a : GIArgInfo)
    (s : ClassifyState) (hn : n_args ≤ info.args.length) :
    classify_step info n_args i a s = none ↔
      s.param_types.getD i GjsParamType.PARAM_NORMAL ≠ GjsParamType.PARAM_SKIPPED ∧
        (destroy_without_closure a ∨ length_direction_differs info n_args a) := by
  unfold classify_step
  simp only []
  by_cases h1 : s.param_types.getD i GjsParamType.PARAM_NORMAL = GjsParamType.PARAM_SKIPPED
  · rw [if_pos h1]
    simp only [reduceCtorEq, false_iff]
    exact fun hc => hc.1 h1
  rw [if_neg h1]
  simp only [ne_eq, h1, not_false_eq_true, true_and]
  by_cases h2 : a.type_info.tag = GITypeTag.INTERFACE
  · rw [if_pos h2]
    have hna : ¬ length_direction_differs info n_args a := fun hc => by
      have := hc.1.1
      rw [h2] at this
      exact absurd this (by decide)
    by_cases h3 : a.type_info.interface_type = GIInfoType.CALLBACK
    · rw [if_pos h3]
      by_cases h4 : a.type_info.interface_is_destroy_notify = true
      · rw [if_pos h4]
        simp only [reduceCtorEq, false_iff, not_or]
        exact ⟨fun hc => by rw [hc.2.1] at h4; exact absurd h4 (by simp), hna⟩
      · rw [if_neg h4]
        by_cases h5 : 0 ≤ a.destroy ∧ a.closure < 0
        · rw [if_pos h5]
          simp only [true_iff]
          exact Or.inl ⟨⟨h2, h3⟩, by simpa using h4, h5.1, h5.2⟩
        · rw [if_neg h5]
          simp only [reduceCtorEq, false_iff, not_or]
          exact ⟨fun hc => h5 ⟨hc.2.2.1, hc.2.2.2⟩, hna⟩
    · rw [if_neg h3]
      simp only [reduceCtorEq, false_iff, not_or]
      exact ⟨fun hc => h3 hc.1.2, hna⟩
  rw [if_neg h2]
  have hnc : ¬ destroy_without_closure a := fun hc => h2 hc.1.1
  by_cases h6 : a.type_info.tag = GITypeTag.ARRAY
  · rw [if_pos h6]
    by_cases h7 : a.type_info.array_type_is_c = true
    · rw [if_pos h7]
      by_cases h8 : 0 ≤ a.type_info.array_length ∧ a.type_info.array_length < (n_args : Int)
      · rw [if_pos h8, g_callable_info_load_arg_eq info _ h8.1]
        have hlt : a.type_info.array_length.toNat < info.args.length := by omega
        obtain ⟨la, hla⟩ : ∃ la, info.args.get? a.type_info.array_length.toNat = some la := by
          rw [List.get?_eq_getElem?, List.getElem?_eq_getElem hlt]
          exact ⟨_, rfl⟩
        rw [hla]
        simp only []
        by_cases h9 : la.direction ≠ a.direction
        · rw [if_pos h9]
          simp only [true_iff]
          exact Or.inr ⟨⟨h6, h7, h8.1, h8.2⟩, la, hla, h9⟩
        · rw [if_neg h9]
          simp only [reduceCtorEq, false_iff, not_or]
          refine ⟨hnc, fun hc => ?_⟩
          obtain ⟨_, lb, hlb, hd⟩ := hc
          rw [hla] at hlb
          simp only [Option.some.injEq] at hlb
          subst hlb
          exact h9 hd
      · rw [if_neg h8]
        simp only [reduceCtorEq, false_iff, not_or]
        exact ⟨hnc, fun hc => h8 ⟨hc.1.2.2.1, hc.1.2.2.2⟩⟩
    · rw [if_neg h7]
      simp only [reduceCtorEq, false_iff, not_or]
      exact ⟨hnc, fun hc => h7 hc.1.2.1⟩
  · rw [if_neg h6]
    simp only [reduceCtorEq, false_iff, not_or]
    exact ⟨hnc, fun hc => h6 hc.1.1⟩

/-- A store leaves the other tags alone. -/
theorem getD_set_param_type_ne (pts : List GjsParamType) (i j : Nat) (t : GjsParamType)
    (h : j ≠ i) :
    (set_param_type pts i t).getD j GjsParamType.PARAM_NORMAL =
      pts.getD j GjsParamType.PARAM_NORMAL := by
  rw [getD_set_param_type, if_neg (fun hc => h hc.1)]

/-- A store inside the list is read back. -/
theorem getD_set_param_type_self (pts : List GjsParamType) (i : Nat) (t : GjsParamType)
    (h : i < pts.length) :
    (set_param_type pts i t).getD i GjsParamType.PARAM_NORMAL = t := by
  rw [getD_set_param_type, if_pos ⟨rfl, h⟩]

/-- The conditional store of `PARAM_SKIPPED` leaves a tag or makes it
`PARAM_SKIPPED`. -/
theorem getD_skip_if_in_range_cases (pts : List GjsParamType) (pos : Int) (n_args j : Nat) :
    (skip_if_in_range pts pos n_args).getD j GjsParamType.PARAM_NORMAL =
      GjsParamType.PARAM_SKIPPED ∨
    (skip_if_in_range pts pos n_args).getD j GjsParamType.PARAM_NORMAL =
      pts.getD j GjsParamType.PARAM_NORMAL := by
  rw [getD_skip_if_in_range]
  split_ifs
  · exact Or.inl rfl
  · exact Or.inr rfl

/-- The conditional store of `PARAM_SKIPPED` stores it at an index in
range. -/
theorem getD_skip_if_in_range_self (pts : List GjsParamType) (pos : Int) (n_args : Nat)
    (h0 : 0 ≤ pos) (hn : pos < (n_args : Int)) (hl : pos.toNat < pts.length) :
    (skip_if_in_range pts pos n_args).getD pos.toNat GjsParamType.PARAM_NORMAL =
      GjsParamType.PARAM_SKIPPED := by
  rw [getD_skip_if_in_range, if_pos ⟨⟨h0, hn⟩, rfl, hl⟩]

/-- The effect of one classifier iteration on the tags, for a parameter
inside the list whose tag is still `PARAM_SKIPPED` or `PARAM_NORMAL`: the
number of tags stays, every other tag stays or becomes `PARAM_SKIPPED`, a tag
that is `PARAM_SKIPPED` stays so, the parameter's own tag becomes
`PARAM_SKIPPED` or the tag its type calls for, and when it ends as
`PARAM_ARRAY` or `PARAM_CALLBACK` its in-range siblings (other than itself for
the array) are `PARAM_SKIPPED`. -/
theorem classify_step_effect (info : GICallableInfo) (n_args k : Nat) (a : GIArgInfo)
    (s s1 : ClassifyState) (h : classify_step info n_args k a s = some s1)
    (hlen : s.param_types.length = n_args) (hk : k < n_args)
    (hown : s.param_types.getD k GjsParamType.PARAM_NORMAL = GjsParamType.PARAM_SKIPPED ∨
      s.param_types.getD k GjsParamType.PARAM_NORMAL = GjsParamType.PARAM_NORMAL) :
    s1.param_types.length = n_args ∧
    (∀ j, j ≠ k →
      s1.param_types.getD j GjsParamType.PARAM_NORMAL =
        s.param_types.getD j GjsParamType.PARAM_NORMAL ∨
      s1.param_types.getD j GjsParamType.PARAM_NORMAL = GjsParamType.PARAM_SKIPPED) ∧
    (∀ j, s.param_types.getD j GjsParamType.PARAM_NORMAL = GjsParamType.PARAM_SKIPPED →
      s1.param_types.getD j GjsParamType.PARAM_NORMAL = GjsParamType.PARAM_SKIPPED) ∧
    (s1.param_types.getD k GjsParamType.PARAM_NORMAL = GjsParamType.PARAM_SKIPPED ∨
      s1.param_types.getD k GjsParamType.PARAM_NORMAL = tag_by_type n_args a) ∧
    (s1.param_types.getD k GjsParamType.PARAM_NORMAL = GjsParamType.PARAM_ARRAY →
      a.type_info.array_length.toNat ≠ k →
      s1.param_types.getD a.type_info.array_length.toNat GjsParamType.PARAM_NORMAL =
        GjsParamType.PARAM_SKIPPED) ∧
    (s1.param_types.getD k GjsParamType.PARAM_NORMAL = GjsParamType.PARAM_CALLBACK →
      ∀ p : Int, (p = a.destroy ∨ p = a.closure) → 0 ≤ p → p < (n_args : Int) →
      s1.param_types.getD p.toNat GjsParamType.PARAM_NORMAL = GjsParamType.PARAM_SKIPPED) := by
  rcases classify_step_some info n_args k a s s1 h with
    ⟨hsk, rfl⟩ | ⟨hnsk, hshape⟩
  · refine ⟨hlen, fun j _ => Or.inl rfl, fun j hj => hj, Or.inl hsk, ?_, ?_⟩
    · intro hc
      rw [hsk] at hc
      exact absurd hc (by decide)
    · intro hc
      rw [hsk] at hc
      exact absurd hc (by decide)
  · have hnorm : s.param_types.getD k GjsParamType.PARAM_NORMAL = GjsParamType.PARAM_NORMAL := by
      rcases hown with h0 | h0
      · exact absurd h0 hnsk
      · exact h0
    have hkl : k < s.param_types.length := by omega
    rcases hshape with ⟨hcb, _, hpt⟩ | ⟨hcb, _, hpt⟩ | ⟨hls, hpt⟩ | ⟨hncb, hnls, hpt⟩
    · -- a `GLib.DestroyNotify`
      rw [hpt]
      refine ⟨by rw [length_set_param_type]; exact hlen, fun j hj => ?_, fun j hj => ?_,
        Or.inl ?_, ?_, ?_⟩
      · left
        rw [getD_set_param_type, if_neg (fun hc => hj hc.1)]
      · rw [getD_set_param_type]
        split_ifs
        · rfl
        · exact hj
      · rw [getD_set_param_type, if_pos ⟨rfl, hkl⟩]
      · intro hc
        rw [getD_set_param_type, if_pos ⟨rfl, hkl⟩] at hc
        exact absurd hc (by decide)
      · intro hc
        rw [getD_set_param_type, if_pos ⟨rfl, hkl⟩] at hc
        exact absurd hc (by decide)
    · -- a callback
      rw [hpt]
      have hl0 : (set_param_type s.param_types k GjsParamType.PARAM_CALLBACK).length = n_args := by
        rw [length_set_param_type]
        exact hlen
      have hl1 : (skip_if_in_range (set_param_type s.param_types k GjsParamType.PARAM_CALLBACK)
          a.destroy n_args).length = n_args := by
        rw [length_skip_if_in_range]
        exact hl0
      refine ⟨by rw [length_skip_if_in_range]; exact hl1, fun j hj => ?_, fun j hj => ?_,
        ?_, ?_, ?_⟩
      · rcases getD_skip_if_in_range_cases (skip_if_in_range
          (set_param_type s.param_types k GjsParamType.PARAM_CALLBACK) a.destroy n_args)
          a.closure n_args j with h0 | h0
        · exact Or.inr h0
        · rcases getD_skip_if_in_range_cases
            (set_param_type s.param_types k GjsParamType.PARAM_CALLBACK) a.destroy n_args j with
            h1 | h1
          · exact Or.inr (by rw [h0, h1])
          · exact Or.inl (by rw [h0, h1, getD_set_param_type_ne _ _ _ _ hj])
      · have hjk : j ≠ k := fun hc => by
          rw [hc] at hj
          exact hnsk hj
        rcases getD_skip_if_in_range_cases (skip_if_in_range
          (set_param_type s.param_types k GjsParamType.PARAM_CALLBACK) a.destroy n_args)
          a.closure n_args j with h0 | h0
        · exact h0
        · rcases getD_skip_if_in_range_cases
            (set_param_type s.param_types k GjsParamType.PARAM_CALLBACK) a.destroy n_args j with
            h1 | h1
          · rw [h0, h1]
          · rw [h0, h1, getD_set_param_type_ne _ _ _ _ hjk]
            exact hj
      · rcases getD_skip_if_in_range_cases (skip_if_in_range
          (set_param_type s.param_types k GjsParamType.PARAM_CALLBACK) a.destroy n_args)
          a.closure n_args k with h0 | h0
        · exact Or.inl h0
        · rcases getD_skip_if_in_range_cases
            (set_param_type s.param_types k GjsParamType.PARAM_CALLBACK) a.destroy n_args k with
            h1 | h1
          · exact Or.inl (by rw [h0, h1])
          · right
            rw [h0, h1, getD_set_param_type_self _ _ _ hkl]
            unfold tag_by_type
            rw [if_pos hcb]
      · intro hc
        rcases getD_skip_if_in_range_cases (skip_if_in_range
          (set_param_type s.param_types k GjsParamType.PARAM_CALLBACK) a.destroy n_args)
          a.closure n_args k with h0 | h0
        · rw [h0] at hc
          exact absurd hc (by decide)
        · rcases getD_skip_if_in_range_cases
            (set_param_type s.param_types k GjsParamType.PARAM_CALLBACK) a.destroy n_args k with
            h1 | h1
          · rw [h0, h1] at hc
            exact absurd hc (by decide)
          · rw [h0, h1, getD_set_param_type_self _ _ _ hkl] at hc
            exact absurd hc (by decide)
      · intro _ p hp hp0 hpn
        rcases hp with hp | hp
        · subst hp
          rcases getD_skip_if_in_range_cases (skip_if_in_range
            (set_param_type s.param_types k GjsParamType.PARAM_CALLBACK) a.destroy n_args)
            a.closure n_args a.destroy.toNat with h0 | h0
          · exact h0
          · rw [h0]
            exact getD_skip_if_in_range_self _ _ _ hp0 hpn (by rw [hl0]; omega)
        · subst hp
          exact getD_skip_if_in_range_self _ _ _ hp0 hpn (by rw [hl1]; omega)
    · -- a C array with an in-range length sibling
      rw [hpt]
      have hl0 : (set_param_type s.param_types a.type_info.array_length.toNat
          GjsParamType.PARAM_SKIPPED).length = n_args := by
        rw [length_set_param_type]
        exact hlen
      have hL : a.type_info.array_length.toNat < s.param_types.length := by
        have h1 := hls.2.2.1
        have h2 := hls.2.2.2
        omega
      have hself : (set_param_type (set_param_type s.param_types a.type_info.array_length.toNat
          GjsParamType.PARAM_SKIPPED) k GjsParamType.PARAM_ARRAY).getD k
            GjsParamType.PARAM_NORMAL = GjsParamType.PARAM_ARRAY :=
        getD_set_param_type_self _ _ _ (by rw [hl0]; exact hk)
      refine ⟨by rw [length_set_param_type]; exact hl0, fun j hj => ?_, fun j hj => ?_,
        Or.inr ?_, ?_, ?_⟩
      · rw [getD_set_param_type_ne _ _ _ _ hj]
        by_cases hjl : j = a.type_info.array_length.toNat
        · rw [hjl, getD_set_param_type_self _ _ _ hL]
          exact Or.inr rfl
        · rw [getD_set_param_type_ne _ _ _ _ hjl]
          exact Or.inl rfl
      · have hjk : j ≠ k := fun hc => by
          rw [hc] at hj
          exact hnsk hj
        rw [getD_set_param_type_ne _ _ _ _ hjk]
        by_cases hjl : j = a.type_info.array_length.toNat
        · rw [hjl, getD_set_param_type_self _ _ _ hL]
        · rw [getD_set_param_type_ne _ _ _ _ hjl]
          exact hj
      · rw [hself]
        unfold tag_by_type
        rw [if_neg (fun hc => by
          have h1 := hc.1
          rw [hls.1] at h1
          exact absurd h1 (by decide)), if_pos hls]
      · intro _ hne
        rw [getD_set_param_type_ne _ _ _ _ hne, getD_set_param_type_self _ _ _ hL]
      · intro hc
        rw [hself] at hc
        exact absurd hc (by decide)
    · -- every other parameter
      rw [hpt]
      refine ⟨hlen, fun j _ => Or.inl rfl, fun j hj => hj, Or.inr ?_, ?_, ?_⟩
      · rw [hnorm]
        unfold tag_by_type
        rw [if_neg hncb, if_neg hnls]
      · intro hc
        rw [hnorm] at hc
        exact absurd hc (by decide)
      · intro hc
        rw [hnorm] at hc
        exact absurd hc (by decide)

/-- One classifier iteration keeps `ClassifyInv`. -/
theorem classify_step_inv (info : GICallableInfo) (n_args k : Nat) (a : GIArgInfo)
    (s s1 : ClassifyState) (h : classify_step info n_args k a s = some s1)
    (ha : info.args.get? k = some a) (hk : k < n_args)
    (hinv : ClassifyInv info n_args k s.param_types) :
    ClassifyInv info n_args (k + 1) s1.param_types := by
  obtain ⟨hlen, i2, i3, i4, i5⟩ := hinv
  obtain ⟨e1, e2, e3, e4, e5, e6⟩ :=
    classify_step_effect info n_args k a s s1 h hlen hk (i3 k (Nat.le_refl k))
  refine ⟨e1, fun j b hj hb => ?_, fun j hj => ?_, fun j b hj hb hA hne => ?_,
    fun j b hj hb hC p hp hp0 hpn => ?_⟩
  · by_cases hjk : j = k
    · subst hjk
      rw [ha] at hb
      simp only [Option.some.injEq] at hb
      subst hb
      exact e4
    · rcases e2 j hjk with h0 | h0
      · rw [h0]
        exact i2 j b (by omega) hb
      · exact Or.inl h0
  · rcases e2 j (by omega) with h0 | h0
    · rw [h0]
      exact i3 j (by omega)
    · exact Or.inl h0
  · by_cases hjk : j = k
    · subst hjk
      rw [ha] at hb
      simp only [Option.some.injEq] at hb
      subst hb
      exact e5 hA hne
    · rcases e2 j hjk with h0 | h0
      · rw [h0] at hA
        exact e3 _ (i4 j b (by omega) hb hA hne)
      · rw [h0] at hA
        exact absurd hA (by decide)
  · by_cases hjk : j = k
    · subst hjk
      rw [ha] at hb
      simp only [Option.some.injEq] at hb
      subst hb
      exact e6 hC p hp hp0 hpn
    · rcases e2 j hjk with h0 | h0
      · rw [h0] at hC
        exact e3 _ (i5 j b (by omega) hb hC p hp hp0 hpn)
      · rw [h0] at hC
        exact absurd hC (by decide)

/-- The classifier loop keeps `ClassifyInv`, and keeps every tag that is
`PARAM_SKIPPED`. -/
theorem classify_loop_inv (info : GICallableInfo) (n_args : Nat) (l : List GIArgInfo) (k : Nat)
    (s s1 : ClassifyState) (h : classify_loop info n_args l k s = some s1)
    (hl : ∀ m, m < l.length → l.get? m = info.args.get? (k + m))
    (hk : k + l.length ≤ n_args)
    (hinv : ClassifyInv info n_args k s.param_types) :
    ClassifyInv info n_args (k + l.length) s1.param_types ∧
    ∀ j, s.param_types.getD j GjsParamType.PARAM_NORMAL = GjsParamType.PARAM_SKIPPED →
      s1.param_types.getD j GjsParamType.PARAM_NORMAL = GjsParamType.PARAM_SKIPPED := by
  induction l generalizing k s with
  | nil =>
    simp only [classify_loop, Option.some.injEq] at h
    subst h
    exact ⟨hinv, fun j hj => hj⟩
  | cons a rest ih =>
    simp only [classify_loop] at h
    cases hs : classify_step info n_args k a s with
    | none =>
      rw [hs] at h
      exact absurd h (by simp)
    | some s0 =>
      rw [hs] at h
      simp only [] at h
      simp only [List.length_cons] at hk
      have ha : info.args.get? k = some a := by
        have h0 := hl 0 (by simp)
        simpa using h0.symm
      have hinv0 := classify_step_inv info n_args k a s s0 hs ha (by omega) hinv
      obtain ⟨e1, e2, e3, _⟩ := classify_step_effect info n_args k a s s0 hs hinv.1 (by omega)
        (hinv.2.2.1 k (Nat.le_refl k))
      obtain ⟨r1, r2⟩ := ih (k + 1) s0 h (fun m hm => by
        have h0 := hl (m + 1) (by simp; omega)
        rw [show k + 1 + m = k + (m + 1) by omega, ← h0]
        rfl) (by omega) hinv0
      refine ⟨?_, fun j hj => r2 j (e3 j hj)⟩
      rw [show k + (a :: rest).length = k + 1 + rest.length by simp; omega]
      exact r1

/-- The tags before the scan satisfy `ClassifyInv`. -/
theorem classify_start_inv (info : GICallableInfo) :
    ClassifyInv info (classified_n_args info) 0 (classify_start info).param_types := by
  unfold classify_start
  simp only []
  refine ⟨by rw [length_skip_if_in_range]; simp, fun j a hj => absurd hj (by omega),
    fun j _ => ?_, fun j a hj => absurd hj (by omega), fun j a hj => absurd hj (by omega)⟩
  rw [getD_skip_if_in_range]
  split_ifs
  · exact Or.inl rfl
  · right
    simp [List.getD_eq_getElem?_getD, List.getElem?_replicate]
    split_ifs <;> rfl

/-- Function `init_cached_function_data` is the classifier loop run from
`classify_start` over the parameters a `guint8` counts. -/
theorem init_cached_function_data_eq (cif_nargs : Nat) (info : GICallableInfo) :
    init_cached_function_data (some cif_nargs) info =
      (classify_loop info (classified_n_args info)
        (info.args.take (classified_n_args info)) 0 (classify_start info)).map
        (fun s => { info := info, param_types := s.param_types
                    expected_js_argc := s.expected_js_argc, js_out_argc := s.js_out_argc
                    cif_nargs := cif_nargs }) := by
  unfold init_cached_function_data classify_start classified_n_args
  simp only []
  cases classify_loop info (g_callable_info_get_n_args info % 256)
    (List.take (g_callable_info_get_n_args info % 256) info.args) 0 _ <;> rfl

/-- The classifier counts no more parameters than the descriptor has. -/
theorem classified_n_args_le (info : GICallableInfo) :
    classified_n_args info ≤ info.args.length := by
  unfold classified_n_args g_callable_info_get_n_args
  exact Nat.mod_le _ _

/-- The final tags of a classified function satisfy `ClassifyInv` with every
parameter scanned. -/
theorem init_cached_function_data_inv (invoker : Option Nat) (info : GICallableInfo)
    (function : Function) (h : init_cached_function_data invoker info = some function) :
    function.info = info ∧
    ClassifyInv info (classified_n_args info) (classified_n_args info) function.param_types := by
  cases invoker with
  | none =>
    unfold init_cached_function_data at h
    exact absurd h (by simp)
  | some cif_nargs =>
    rw [init_cached_function_data_eq] at h
    cases hloop : classify_loop info (classified_n_args info)
        (info.args.take (classified_n_args info)) 0 (classify_start info) with
    | none =>
      rw [hloop] at h
      exact absurd h (by simp)
    | some s =>
      rw [hloop] at h
      simp only [Option.map_some', Option.some.injEq] at h
      subst h
      have hle := classified_n_args_le info
      have hlen : (info.args.take (classified_n_args info)).length = classified_n_args info := by
        rw [List.length_take]
        omega
      obtain ⟨r1, _⟩ := classify_loop_inv info (classified_n_args info) _ 0 _ s hloop
        (fun m hm => by
          rw [hlen] at hm
          rw [Nat.zero_add, List.get?_eq_getElem?, List.get?_eq_getElem?, List.getElem?_take,
            if_pos hm])
        (by rw [hlen]; omega) (classify_start_inv info)
      rw [hlen, Nat.zero_add] at r1
      exact ⟨rfl, r1⟩

/-- The classifier loop over a list in two parts. -/
theorem classify_loop_append (info : GICallableInfo) (n_args : Nat) (l1 l2 : List GIArgInfo)
    (k : Nat) (s : ClassifyState) :
    classify_loop info n_args (l1 ++ l2) k s =
      (classify_loop info n_args l1 k s).bind
        (fun s1 => classify_loop info n_args l2 (k + l1.length) s1) := by
  induction l1 generalizing k s with
  | nil => simp [classify_loop]
  | cons a rest ih =>
    simp only [List.cons_append, classify_loop]
    cases classify_step info n_args k a s with
    | none => rfl
    | some s0 =>
      simp only [Option.some_bind]
      have h0 := ih (k + 1) s0
      rw [List.length_cons, show k + (rest.length + 1) = k + 1 + rest.length by omega]
      exact h0

/-- The classifier loop fails exactly when some iteration fails on the state
the iterations before it left. -/
theorem classify_loop_none (info : GICallableInfo) (n_args : Nat) (l : List GIArgInfo) (k : Nat)
    (s : ClassifyState) :
    classify_loop info n_args l k s = none ↔
      ∃ m a s1, l.get? m = some a ∧ classify_loop info n_args (l.take m) k s = some s1 ∧
        classify_step info n_args (k + m) a s1 = none := by
  induction l generalizing k s with
  | nil =>
    simp [classify_loop]
  | cons b rest ih =>
    simp only [classify_loop]
    cases hs : classify_step info n_args k b s with
    | none =>
      simp only [true_iff]
      exact ⟨0, b, s, rfl, rfl, hs⟩
    | some s0 =>
      simp only []
      rw [ih]
      constructor
      · rintro ⟨m, a, s1, hm, hl, hst⟩
        refine ⟨m + 1, a, s1, hm, ?_, ?_⟩
        · simp only [List.take_succ_cons, classify_loop, hs]
          exact hl
        · rw [show k + (m + 1) = k + 1 + m by omega]
          exact hst
      · rintro ⟨m, a, s1, hm, hl, hst⟩
        cases m with
        | zero =>
          simp only [List.get?_cons_zero, Option.some.injEq] at hm
          subst hm
          simp only [List.take_zero, classify_loop, Option.some.injEq] at hl
          subst hl
          rw [Nat.add_zero, hs] at hst
          exact absurd hst (by simp)
        | succ m =>
          refine ⟨m, a, s1, hm, ?_, ?_⟩
          · simp only [List.take_succ_cons, classify_loop, hs] at hl
            exact hl
          · rw [show k + 1 + m = k + (m + 1) by omega]
            exact hst

/-- A classification that succeeds has reached every parameter, and the
state it reached it with satisfies `ClassifyInv`; the final tags are those
the rest of the scan made of that state. -/
theorem scan_reaches_of_classified (invoker : Option Nat) (info : GICallableInfo)
    (function : Function) (h : init_cached_function_data invoker info = some function)
    (k : Nat) (hk : k < classified_n_args info) :
    ∃ s, scan_reaches info k = some s ∧
      ClassifyInv info (classified_n_args info) k s.param_types ∧
      ∀ j, s.param_types.getD j GjsParamType.PARAM_NORMAL = GjsParamType.PARAM_SKIPPED →
        function.param_types.getD j GjsParamType.PARAM_NORMAL = GjsParamType.PARAM_SKIPPED := by
  cases invoker with
  | none =>
    unfold init_cached_function_data at h
    exact absurd h (by simp)
  | some cif_nargs =>
    rw [init_cached_function_data_eq] at h
    have hle := classified_n_args_le info
    have hlen : (info.args.take (classified_n_args info)).length = classified_n_args info := by
      rw [List.length_take]
      omega
    have hget : ∀ m, m < classified_n_args info →
        (info.args.take (classified_n_args info)).get? m = info.args.get? m := by
      intro m hm
      rw [List.get?_eq_getElem?, List.get?_eq_getElem?, List.getElem?_take, if_pos hm]
    rw [← List.take_append_drop k (info.args.take (classified_n_args info)),
      classify_loop_append] at h
    unfold scan_reaches
    cases hpre : classify_loop info (classified_n_args info)
        ((info.args.take (classified_n_args info)).take k) 0 (classify_start info) with
    | none =>
      rw [hpre] at h
      exact absurd h (by simp)
    | some s =>
      rw [hpre] at h
      simp only [Option.some_bind] at h
      have hlk : ((info.args.take (classified_n_args info)).take k).length = k := by
        rw [List.length_take, hlen]
        omega
      obtain ⟨r1, _⟩ := classify_loop_inv info (classified_n_args info) _ 0 _ s hpre
        (fun m hm => by
          rw [hlk] at hm
          rw [Nat.zero_add, List.get?_eq_getElem?, List.getElem?_take, if_pos hm,
            ← List.get?_eq_getElem?]
          exact hget m (by omega))
        (by rw [hlk]; omega) (classify_start_inv info)
      rw [hlk, Nat.zero_add] at r1
      refine ⟨s, rfl, r1, ?_⟩
      rw [hlk, Nat.zero_add] at h
      cases hpost : classify_loop info (classified_n_args info)
          ((info.args.take (classified_n_args info)).drop k) k s with
      | none =>
        rw [hpost] at h
        exact absurd h (by simp)
      | some s1 =>
        rw [hpost] at h
        simp only [Option.map_some', Option.some.injEq] at h
        subst h
        have hld : ((info.args.take (classified_n_args info)).drop k).length =
            classified_n_args info - k := by
          rw [List.length_drop, hlen]
        obtain ⟨_, r2⟩ := classify_loop_inv info (classified_n_args info) _ k s s1 hpost
          (fun m hm => by
            rw [hld] at hm
            rw [List.get?_eq_getElem?, List.getElem?_drop, ← List.get?_eq_getElem?]
            exact hget (k + m) (by omega))
          (by rw [hld]; omega) r1
        exact r2

/-- Reading a tag with a default agrees with reading it as an option. -/
theorem getD_of_get? (pts : List GjsParamType) (i : Nat) (t : GjsParamType)
    (h : pts.get? i = some t) : pts.getD i GjsParamType.PARAM_NORMAL = t := by
  rw [List.get?_eq_getElem?] at h
  simp [List.getD_eq_getElem?_getD, h]

/-- Inside the list, reading a tag with a default is reading it. -/
theorem get?_of_getD (pts : List GjsParamType) (i : Nat) (h : i < pts.length) :
    pts.get? i = some (pts.getD i GjsParamType.PARAM_NORMAL) := by
  rw [List.get?_eq_getElem?, List.getElem?_eq_getElem h]
  simp [List.getD_eq_getElem?_getD, List.getElem?_eq_getElem h]

/-- Claim C21: in the tags `init_cached_function_data` returns, a parameter
whose tag is not `PARAM_SKIPPED` has the tag its type calls for:
`PARAM_CALLBACK` if its type is a callback, `PARAM_ARRAY` if it is a C array
with an in-range length sibling, `PARAM_NORMAL` otherwise. -/
theorem final_tag_follows_type (invoker : Option Nat) (info : GICallableInfo)
    (function : Function) (i : Nat) (a : GIArgInfo) (t : GjsParamType)
    (h : init_cached_function_data invoker info = some function)
    (ha : info.args.get? i = some a) (ht : function.param_types.get? i = some t)
    (hns : t ≠ GjsParamType.PARAM_SKIPPED) :
    t = tag_by_type (classified_n_args info) a ∧
    (is_callback_type a.type_info → t = GjsParamType.PARAM_CALLBACK) ∧
    (¬ is_callback_type a.type_info → has_length_sibling (classified_n_args info) a.type_info →
      t = GjsParamType.PARAM_ARRAY) ∧
    (¬ is_callback_type a.type_info → ¬ has_length_sibling (classified_n_args info) a.type_info →
      t = GjsParamType.PARAM_NORMAL) := by
  obtain ⟨_, hlen, i2, _⟩ := init_cached_function_data_inv invoker info function h
  have hi : i < classified_n_args info := by
    rw [← hlen]
    rw [List.get?_eq_getElem?] at ht
    exact (List.getElem?_eq_some_iff.1 ht).1
  have hd := getD_of_get? _ _ _ ht
  have ht0 : t = tag_by_type (classified_n_args info) a := by
    rcases i2 i a hi ha with h0 | h0
    · rw [hd] at h0
      exact absurd h0 hns
    · rw [hd] at h0
      exact h0
  refine ⟨ht0, fun hc => ?_, fun hc hl => ?_, fun hc hl => ?_⟩
  · rw [ht0]
    unfold tag_by_type
    rw [if_pos hc]
  · rw [ht0]
    unfold tag_by_type
    rw [if_neg hc, if_pos hl]
  · rw [ht0]
    unfold tag_by_type
    rw [if_neg hc, if_neg hl]

/-- Claim C21 on samples: the callback of `nullable_callback_info` ends as
`PARAM_CALLBACK`, the arrays of `shared_length_info` as `PARAM_ARRAY`, the
integers of `two_ints_info` as `PARAM_NORMAL`. -/
theorem final_tag_follows_type_witness :
    init_cached_function_data (some 3) nullable_callback_info =
      some nullable_callback_function ∧
    GjsParamType.PARAM_CALLBACK = tag_by_type 3 nullable_callback_arg ∧
    init_cached_function_data (some 3) shared_length_info = some shared_length_function ∧
    GjsParamType.PARAM_ARRAY = tag_by_type 3 { type_info := c_array_type 0 } ∧
    init_cached_function_data (some 2) two_ints_info = some two_ints_function ∧
    GjsParamType.PARAM_NORMAL = tag_by_type 2 { type_info := int_type } :=
  ⟨rfl,
    (final_tag_follows_type (some 3) nullable_callback_info nullable_callback_function 0
      nullable_callback_arg GjsParamType.PARAM_CALLBACK rfl rfl rfl (by decide)).1,
    rfl,
    (final_tag_follows_type (some 3) shared_length_info shared_length_function 2
      { type_info := c_array_type 0 } GjsParamType.PARAM_ARRAY rfl rfl rfl (by decide)).1,
    rfl,
    (final_tag_follows_type (some 2) two_ints_info two_ints_function 1
      { type_info := int_type } GjsParamType.PARAM_NORMAL rfl rfl rfl (by decide)).1⟩

/-- Claim C22, the counterexample: the descriptor `void f(T *a)` whose array
names itself as its length is classified, its parameter ends as
`PARAM_ARRAY`, and the length sibling of that array, the parameter itself, is
therefore not `PARAM_SKIPPED`. -/
theorem self_length_array_not_skipped :
    init_cached_function_data (some 1) self_length_info =
      some { info := self_length_info, param_types := [GjsParamType.PARAM_ARRAY]
             expected_js_argc := 1, js_out_argc := 0, cif_nargs := 1 } ∧
    (self_length_info.args.get? 0).map (fun a => a.type_info.array_length) = some 0 ∧
    has_length_sibling (classified_n_args self_length_info) (c_array_type 0) :=
  ⟨rfl, rfl, by decide⟩

/-- Claim C22, amended: for a classified function, a parameter that is
`PARAM_SKIPPED` when the scan reaches any parameter stays `PARAM_SKIPPED` to
the end (the scan does reach every parameter); the length sibling of a
parameter that ends as `PARAM_ARRAY` is in range and, when it is another
parameter than the array itself, ends as `PARAM_SKIPPED`; and the in-range
destroy-notify and closure-data siblings of a parameter that ends as
`PARAM_CALLBACK` end as `PARAM_SKIPPED`, which is what the assertions of
`gjs_invoke_c_function` read. -/
theorem skipped_is_final (invoker : Option Nat) (info : GICallableInfo) (function : Function)
    (h : init_cached_function_data invoker info = some function) :
    (∀ k, k < classified_n_args info →
      ∃ s, scan_reaches info k = some s ∧
        ∀ j, s.param_types.getD j GjsParamType.PARAM_NORMAL = GjsParamType.PARAM_SKIPPED →
          function.param_types.get? j = some GjsParamType.PARAM_SKIPPED) ∧
    (∀ i a, info.args.get? i = some a →
      function.param_types.get? i = some GjsParamType.PARAM_ARRAY →
      has_length_sibling (classified_n_args info) a.type_info ∧
      (a.type_info.array_length.toNat ≠ i →
        function.param_types.get? a.type_info.array_length.toNat =
          some GjsParamType.PARAM_SKIPPED)) ∧
    (∀ i a, info.args.get? i = some a →
      function.param_types.get? i = some GjsParamType.PARAM_CALLBACK →
      ∀ p : Int, (p = a.destroy ∨ p = a.closure) → 0 ≤ p → p < (classified_n_args info : Int) →
        function.param_types.get? p.toNat = some GjsParamType.PARAM_SKIPPED) := by
  obtain ⟨_, hlen, i2, _, i4, i5⟩ := init_cached_function_data_inv invoker info function h
  have hin : ∀ i t, function.param_types.get? i = some t → i < classified_n_args info := by
    intro i t ht
    rw [← hlen]
    rw [List.get?_eq_getElem?] at ht
    exact (List.getElem?_eq_some_iff.1 ht).1
  have hskip : ∀ j, function.param_types.getD j GjsParamType.PARAM_NORMAL =
      GjsParamType.PARAM_SKIPPED →
      function.param_types.get? j = some GjsParamType.PARAM_SKIPPED := by
    intro j hj
    by_cases hjl : j < function.param_types.length
    · rw [get?_of_getD _ _ hjl, hj]
    · exfalso
      have hnone : function.param_types[j]? = none := List.getElem?_eq_none (by omega)
      simp [List.getD_eq_getElem?_getD, hnone] at hj
  refine ⟨fun k hk => ?_, fun i a ha ht => ?_, fun i a ha ht p hp hp0 hpn => ?_⟩
  · obtain ⟨s, hs, _, hkeep⟩ := scan_reaches_of_classified invoker info function h k hk
    exact ⟨s, hs, fun j hj => hskip j (hkeep j hj)⟩
  · have hi := hin i _ ht
    have hd := getD_of_get? _ _ _ ht
    have hls : has_length_sibling (classified_n_args info) a.type_info := by
      rcases i2 i a hi ha with h0 | h0
      · rw [hd] at h0
        exact absurd h0 (by decide)
      · rw [hd] at h0
        unfold tag_by_type at h0
        split_ifs at h0 with hc hl
        exact hl
    exact ⟨hls, fun hne => hskip _ (i4 i a hi ha hd hne)⟩
  · exact hskip _ (i5 i a (hin i _ ht) ha (getD_of_get? _ _ _ ht) p hp hp0 hpn)

/-- Claim C22, amended, on samples: the length parameter of
`shared_length_info` is `PARAM_SKIPPED` when the scan reaches the second
array and at the end, and the two siblings of the callback of
`nullable_callback_info` end as `PARAM_SKIPPED`. -/
theorem skipped_is_final_witness :
    (∃ s, scan_reaches shared_length_info 2 = some s ∧
      s.param_types.getD 0 GjsParamType.PARAM_NORMAL = GjsParamType.PARAM_SKIPPED ∧
      shared_length_function.param_types.get? 0 = some GjsParamType.PARAM_SKIPPED) ∧
    nullable_callback_function.param_types.get? 1 = some GjsParamType.PARAM_SKIPPED ∧
    nullable_callback_function.param_types.get? 2 = some GjsParamType.PARAM_SKIPPED := by
  have h1 := skipped_is_final (some 3) shared_length_info shared_length_function rfl
  have h2 := skipped_is_final (some 3) nullable_callback_info nullable_callback_function rfl
  obtain ⟨s, hs, hkeep⟩ := h1.1 2 (by decide)
  have hs0 : s.param_types.getD 0 GjsParamType.PARAM_NORMAL = GjsParamType.PARAM_SKIPPED := by
    have hs1 : scan_reaches shared_length_info 2 =
        some { param_types := [GjsParamType.PARAM_SKIPPED, GjsParamType.PARAM_ARRAY,
                 GjsParamType.PARAM_NORMAL]
               expected_js_argc := 1, js_out_argc := 0 } := rfl
    rw [hs1] at hs
    simp only [Option.some.injEq] at hs
    subst hs
    rfl
  exact ⟨⟨s, hs, hs0, hkeep 0 hs0⟩,
    h2.2.2 0 nullable_callback_arg rfl rfl 1 (Or.inr rfl) (by decide) (by decide),
    h2.2.2 0 nullable_callback_arg rfl rfl 2 (Or.inl rfl) (by decide) (by decide)⟩

/-- Claim C23, the counterexample: in `void f(GDestroyNotify notify, gpointer
data)` the first parameter has a callback type, is not `PARAM_SKIPPED` when
the scan reaches it, and declares a destroy-notify sibling and no closure
data; the classification succeeds, with that parameter `PARAM_SKIPPED`. -/
theorem destroy_notify_with_destroy_is_classified :
    (∃ a s, notify_with_destroy_info.args.get? 0 = some a ∧
      is_callback_type a.type_info ∧ 0 ≤ a.destroy ∧ a.closure < 0 ∧
      scan_reaches notify_with_destroy_info 0 = some s ∧
      s.param_types.getD 0 GjsParamType.PARAM_NORMAL ≠ GjsParamType.PARAM_SKIPPED) ∧
    init_cached_function_data (some 2) notify_with_destroy_info =
      some { info := notify_with_destroy_info
             param_types := [GjsParamType.PARAM_SKIPPED, GjsParamType.PARAM_NORMAL]
             expected_js_argc := 1, js_out_argc := 0, cif_nargs := 2 } :=
  ⟨⟨{ type_info := destroy_notify_type, destroy := 1 },
      { param_types := [GjsParamType.PARAM_NORMAL, GjsParamType.PARAM_NORMAL]
        expected_js_argc := 0, js_out_argc := 0 },
      rfl, by decide, by decide, by decide, rfl, by decide⟩, rfl⟩

/-- Claim C23, amended: `init_cached_function_data` fails exactly when the
invoker cannot be prepared, or the scan reaches a parameter that is not
`PARAM_SKIPPED` by then and is either a callback other than a
`GLib.DestroyNotify` that declares a destroy-notify sibling and no closure
data, or a C array with an in-range length sibling of another direction; in
every other case it succeeds. -/
theorem classification_fails_iff (invoker : Option Nat) (info : GICallableInfo) :
    init_cached_function_data invoker info = none ↔
      invoker = none ∨
      ∃ k a s, k < classified_n_args info ∧ info.args.get? k = some a ∧
        scan_reaches info k = some s ∧
        s.param_types.getD k GjsParamType.PARAM_NORMAL ≠ GjsParamType.PARAM_SKIPPED ∧
        (destroy_without_closure a ∨
          length_direction_differs info (classified_n_args info) a) := by
  cases invoker with
  | none =>
    unfold init_cached_function_data
    simp
  | some cif_nargs =>
    have hle := classified_n_args_le info
    have hlen : (info.args.take (classified_n_args info)).length = classified_n_args info := by
      rw [List.length_take]
      omega
    rw [init_cached_function_data_eq, Option.map_eq_none', classify_loop_none]
    simp only [reduceCtorEq, false_or]
    constructor
    · rintro ⟨m, a, s1, hm, hl, hst⟩
      have hmn : m < classified_n_args info := by
        rw [← hlen]
        rw [List.get?_eq_getElem?] at hm
        exact (List.getElem?_eq_some_iff.1 hm).1
      have ha : info.args.get? m = some a := by
        rw [← hm, List.get?_eq_getElem?, List.get?_eq_getElem?, List.getElem?_take, if_pos hmn]
      rw [Nat.zero_add] at hst
      obtain ⟨h1, h2⟩ := (classify_step_none info _ m a s1 hle).1 hst
      exact ⟨m, a, s1, hmn, ha, hl, h1, h2⟩
    · rintro ⟨k, a, s, hk, ha, hs, h1, h2⟩
      refine ⟨k, a, s, ?_, hs, ?_⟩
      · rw [← ha, List.get?_eq_getElem?, List.get?_eq_getElem?, List.getElem?_take, if_pos hk]
      · rw [Nat.zero_add]
        exact (classify_step_none info _ k a s hle).2 ⟨h1, h2⟩

/-- Function `disassociate_js_gobject` on a bound pair with no task queued:
the wrapper forgets the object, the object loses the toggle reference and
carries the poison marker, and nothing else changes but the log. -/
theorem disassociate_js_gobject_bound (w : ObjectWorld) (gobj obj : Nat) (g : GObject)
    (inst : ObjectInstance) (hg : w.gobjects.get? gobj = some g)
    (hup : g.toggle_up = none) (hdown : g.toggle_down = none)
    (hp : g.priv = PrivateQData.heap_wrapper (some obj))
    (hinst : w.wrappers.get? obj = some (some inst)) (hgobj : inst.gobj = some gobj) :
    ∃ w1, disassociate_js_gobject w gobj = Except.ok w1 ∧
      w1.wrappers.get? obj = some (some { inst with gobj := none }) ∧
      w1.gobjects.get? gobj =
        some { g with priv := PrivateQData.poison, toggle_ref := false
                      ref_count := g.ref_count - 1 } ∧
      w1.keep_alive = w.keep_alive ∧ w1.sources = w.sources ∧
      w1.pending_idle_toggles = w.pending_idle_toggles ∧
      w1.log = w.log ++ [ObjEvent.invalidate_all_signals obj] := by
  have hg2 : ({ w with log := w.log ++ [ObjEvent.invalidate_all_signals obj] } :
      ObjectWorld).gobjects.get? gobj = some g := hg
  have hset : set_js_obj { w with log := w.log ++ [ObjEvent.invalidate_all_signals obj] }
      gobj none =
      Except.ok (({ w with log := w.log ++ [ObjEvent.invalidate_all_signals obj] } :
        ObjectWorld).set_gobject gobj { g with priv := PrivateQData.heap_wrapper none }) := by
    unfold set_js_obj ensure_heap_wrapper
    rw [hg2]
    simp only [hp, hg2]
  have hg3 : (({ w with log := w.log ++ [ObjEvent.invalidate_all_signals obj] } :
      ObjectWorld).set_gobject gobj
        { g with priv := PrivateQData.heap_wrapper none }).gobjects.get? gobj =
      some { g with priv := PrivateQData.heap_wrapper none } :=
    list_get_set_self _ _ _ _ hg
  have hrel : release_native_object
      { w with log := w.log ++ [ObjEvent.invalidate_all_signals obj] } obj inst =
      Except.ok
        (((({ w with log := w.log ++ [ObjEvent.invalidate_all_signals obj] } :
          ObjectWorld).set_gobject gobj
            { g with priv := PrivateQData.heap_wrapper none }).set_gobject gobj
              { g with priv := PrivateQData.heap_wrapper none, toggle_ref := false
                       ref_count := g.ref_count - 1 }).set_private obj
                { inst with gobj := none }) := by
    unfold release_native_object
    rw [hgobj]
    simp only [hset, hg3]
  have hg4 : (((({ w with log := w.log ++ [ObjEvent.invalidate_all_signals obj] } :
      ObjectWorld).set_gobject gobj
        { g with priv := PrivateQData.heap_wrapper none }).set_gobject gobj
          { g with priv := PrivateQData.heap_wrapper none, toggle_ref := false
                   ref_count := g.ref_count - 1 }).set_private obj
            { inst with gobj := none }).gobjects.get? gobj =
      some { g with priv := PrivateQData.heap_wrapper none, toggle_ref := false
                    ref_count := g.ref_count - 1 } :=
    list_get_set_self _ _ _ _ hg3
  unfold disassociate_js_gobject
  rw [peek_js_obj_heap w gobj g (some obj) hg hp]
  simp only [JS_GetPrivate, hinst, hg]
  rw [if_neg (by simp [hup, hdown])]
  simp only [hrel]
  unfold poison_js_obj
  rw [hg4]
  refine ⟨_, rfl, ?_, ?_, rfl, rfl, rfl, rfl⟩
  · exact list_get_set_self _ _ _ _ hinst
  · exact list_get_set_self _ _ _ _ hg4

/-- Claim C26: on the engine's thread, outside shutdown, while the collector
sweeps, with no toggle task queued, a promote notification for an object
bound to a wrapper that is about to be finalized returns with the pair
disassociated: the wrapper's private data no longer holds the object, the
toggle reference is removed (with the reference it held), the object carries
the poison marker, and the keep-alive set, the sources, the pending counter
and the object's markers are as they were. -/
theorem sweeping_promote_disassociates (ctx : ToggleContext) (w : ObjectWorld) (gobj obj : Nat)
    (g : GObject) (inst : ObjectInstance)
    (hdes : ctx.destroying = false) (hmain : ctx.is_main_thread = true)
    (hsweep : ctx.is_sweeping = true)
    (hg : w.gobjects.get? gobj = some g)
    (hup : g.toggle_up = none) (hdown : g.toggle_down = none)
    (hp : g.priv = PrivateQData.heap_wrapper (some obj))
    (hinst : w.wrappers.get? obj = some (some inst)) (hgobj : inst.gobj = some gobj)
    (hdead : ctx.about_to_be_finalized (some obj) = true) :
    ∃ w1, wrapped_gobj_toggle_notify ctx w gobj false = Except.ok w1 ∧
      w1.wrappers.get? obj = some (some { inst with gobj := none }) ∧
      w1.gobjects.get? gobj =
        some { g with priv := PrivateQData.poison, toggle_ref := false
                      ref_count := g.ref_count - 1 } ∧
      w1.keep_alive = w.keep_alive ∧ w1.sources = w.sources ∧
      w1.pending_idle_toggles = w.pending_idle_toggles ∧
      w1.log = w.log ++ [ObjEvent.invalidate_all_signals obj] := by
  obtain ⟨w1, h1, r⟩ := disassociate_js_gobject_bound w gobj obj g inst hg hup hdown hp hinst hgobj
  refine ⟨w1, ?_, r⟩
  have hmu : g.toggle_marker ToggleDirection.TOGGLE_UP = none := hup
  have hmd : g.toggle_marker ToggleDirection.TOGGLE_DOWN = none := hdown
  unfold wrapped_gobj_toggle_notify
  rw [toggle_idle_source_is_queued_eq w gobj g _ hg,
    toggle_idle_source_is_queued_eq w gobj g _ hg, hmu, hmd]
  simp only [hdes, hmain, hsweep, Bool.false_eq_true, if_false, if_true, Option.isSome_none,
    and_self, ensure_heap_wrapper, hg, hp, hdead]
  exact h1

/-- Claim C26 on the sample pair: the promote of `promoted_pair_world`
delivered while its wrapper is swept. -/
theorem sweeping_promote_disassociates_witness :
    ∃ w1, wrapped_gobj_toggle_notify sweeping_context promoted_pair_world 0 false =
        Except.ok w1 ∧
      w1 = poisoned_object_world ∧
      w1.wrappers.get? 0 = some (some { gobj := none, keep_alive := false }) ∧
      (w1.gobjects.get? 0).map GObject.priv = some PrivateQData.poison ∧
      (w1.gobjects.get? 0).map GObject.toggle_ref = some false ∧
      w1.keep_alive = [] ∧ w1.sources = [] := by
  obtain ⟨w1, h1, r1, r2, r3, r4, _⟩ :=
    sweeping_promote_disassociates sweeping_context promoted_pair_world 0 0
      { ref_count := 2, toggle_ref := true, priv := PrivateQData.heap_wrapper (some 0) }
      { gobj := some 0, keep_alive := false } rfl rfl rfl rfl rfl rfl rfl rfl rfl rfl
  have h2 : wrapped_gobj_toggle_notify sweeping_context promoted_pair_world 0 false =
      Except.ok poisoned_object_world := rfl
  rw [h2] at h1
  simp only [Except.ok.injEq] at h1
  exact ⟨w1, by rw [← h1]; exact h2, h1.symm, r1, by rw [r2]; rfl, by rw [r2]; rfl, r3, r4⟩

/-- Claim C27: on the engine's thread, outside shutdown, while the collector
sweeps, with no toggle task queued, a promote notification for an object
whose wrapper is not about to be finalized returns without doing anything:
the world is the one it started from, so a wrapper that was not in the
keep-alive set is still not in it, no promote task is queued, and the object
is neither unbound nor poisoned. -/
theorem sweeping_promote_of_live_wrapper_does_nothing (ctx : ToggleContext) (w : ObjectWorld)
    (gobj : Nat) (g : GObject) (obj : Option Nat)
    (hdes : ctx.destroying = false) (hmain : ctx.is_main_thread = true)
    (hsweep : ctx.is_sweeping = true)
    (hg : w.gobjects.get? gobj = some g)
    (hup : g.toggle_up = none) (hdown : g.toggle_down = none)
    (hp : g.priv = PrivateQData.heap_wrapper obj)
    (hlive : ctx.about_to_be_finalized obj = false) :
    wrapped_gobj_toggle_notify ctx w gobj false = Except.ok w := by
  have hmu : g.toggle_marker ToggleDirection.TOGGLE_UP = none := hup
  have hmd : g.toggle_marker ToggleDirection.TOGGLE_DOWN = none := hdown
  unfold wrapped_gobj_toggle_notify
  rw [toggle_idle_source_is_queued_eq w gobj g _ hg,
    toggle_idle_source_is_queued_eq w gobj g _ hg, hmu, hmd]
  simp only [hdes, hmain, hsweep, Bool.false_eq_true, if_false, if_true, Option.isSome_none,
    and_self, ensure_heap_wrapper, hg, hp, hlive]

/-- Claim C27 on the sample pair: after the promote of `promoted_pair_world`
delivered during a sweep that spares its wrapper, the object has two
references and is bound to the wrapper 0, which is not in the keep-alive
set; no task is queued and the object is not poisoned. -/
theorem sweeping_promote_of_live_wrapper_does_nothing_witness :
    wrapped_gobj_toggle_notify live_sweeping_context promoted_pair_world 0 false =
      Except.ok promoted_pair_world ∧
    promoted_pair_world.gobjects.get? 0 =
      some { ref_count := 2, toggle_ref := true, priv := PrivateQData.heap_wrapper (some 0) } ∧
    promoted_pair_world.wrappers.get? 0 = some (some { gobj := some 0, keep_alive := false }) ∧
    0 ∉ promoted_pair_world.keep_alive ∧
    promoted_pair_world.sources = [] ∧
    toggle_idle_source_is_queued promoted_pair_world 0 ToggleDirection.TOGGLE_UP =
      Except.ok false :=
  ⟨sweeping_promote_of_live_wrapper_does_nothing live_sweeping_context promoted_pair_world 0
      { ref_count := 2, toggle_ref := true, priv := PrivateQData.heap_wrapper (some 0) }
      (some 0) rfl rfl rfl rfl rfl rfl rfl rfl,
    rfl, rfl, by decide, rfl, rfl⟩

/-- Claim C24, evaluated.  An `INOUT` array of three elements is released
with the bits of the address of the length's out cell as its element count,
whatever that address is (the in cell of the length holds
`&out_arg_cvalues[1]` when the release loop reads it), so with 0 where the
address reads as 0; and of two `IN` arrays that share a length parameter,
converted with 1 and 2 elements, the first is released with the count of the
second. -/
theorem array_released_with_other_count_than_computed :
    init_cached_function_data (some 2) inout_array_info = some inout_array_function ∧
    (∀ bits, ∃ r, gjs_invoke_c_function (addressed_env bits) inout_array_function
        JSValue.undefined [three_element_array] (some JSValue.undefined) false {} =
          Except.ok r ∧
      r.ok = true ∧
      r.trace.filterMap (Event.computed_length (addressed_env bits)) = [(0, 3)] ∧
      r.trace.filterMap Event.in_array_release = [(0, sign_extend 32 bits)]) ∧
    (∃ r, gjs_invoke_c_function (sample_env grow_native) inout_array_function
        JSValue.undefined [three_element_array] (some JSValue.undefined) false {} =
          Except.ok r ∧
      r.ok = true ∧
      r.trace.filterMap (Event.computed_length (sample_env grow_native)) = [(0, 3)] ∧
      r.trace.filterMap Event.in_array_release = [(0, 0)]) ∧
    init_cached_function_data (some (prepared_cif_nargs shared_length_info))
      shared_length_info = some shared_length_function ∧
    (∃ r, gjs_invoke_c_function (sample_env quiet_native) shared_length_function
        JSValue.undefined three_script_args (some JSValue.undefined) false {} = Except.ok r ∧
      r.ok = true ∧
      r.trace.filterMap (Event.computed_length (sample_env quiet_native)) = [(1, 1), (2, 2)] ∧
      r.trace.filterMap Event.in_array_release = [(1, 2), (2, 2)]) :=
  ⟨by decide, fun _ => ⟨_, rfl, rfl, rfl, rfl⟩, ⟨_, rfl, rfl, rfl, rfl⟩, by decide,
    ⟨_, rfl, rfl, rfl, rfl⟩⟩

/-- Claim C28, evaluated.  The descriptor
`void f(int n, T *a, U *b, int m)` with both arrays of length `n` is
classified with `expected_js_argc = 2`.  Called with three script arguments,
`gjs_invoke_c_function` reads `args[0]`, `args[1]` and `args[2]`, the last of
which is not below `expected_js_argc`; called with two, which passes the
arity check, it fails the assertion `js_arg_pos < args.length()` at the last
parameter. -/
theorem script_argument_read_at_expected_js_argc :
    init_cached_function_data (some (prepared_cif_nargs shared_length_then_int_info))
      shared_length_then_int_info = some shared_length_then_int_function ∧
    shared_length_then_int_function.expected_js_argc = 2 ∧
    (∃ r, gjs_invoke_c_function (sample_env quiet_native) shared_length_then_int_function
        JSValue.undefined three_script_args (some JSValue.undefined) false {} = Except.ok r ∧
      r.ok = true ∧
      script_argument_reads shared_length_then_int_function r.trace = [0, 1, 2]) ∧
    shared_length_then_int_function.expected_js_argc ≤ (three_script_args.take 2).length ∧
    gjs_invoke_c_function (sample_env quiet_native) shared_length_then_int_function
      JSValue.undefined (three_script_args.take 2) (some JSValue.undefined) false {} =
        Except.error Fault.abort :=
  ⟨by decide, rfl, ⟨_, rfl, rfl, rfl⟩, by decide, rfl⟩

/-- Claim C29, evaluated.  The descriptor
`void f(out int n, out T *a, out U *b)` with both arrays of length `n` is
classified with `js_out_argc = 1` although two of its parameters are outputs.
A call that marshals, calls the callee and meets neither a native error nor
a failed conversion fails the assertion `next_rval < js_out_argc` at the
second array; the same call with `js_out_argc = 2` returns `true` with two
outputs converted. -/
theorem shared_out_length_fails_output_assertion :
    init_cached_function_data (some (prepared_cif_nargs shared_out_length_info))
      shared_out_length_info = some shared_out_length_function ∧
    shared_out_length_function.js_out_argc = 1 ∧
    output_count shared_out_length_function = 2 ∧
    gjs_invoke_c_function (sample_env writing_native) shared_out_length_function
      JSValue.undefined [] (some JSValue.undefined) false {} = Except.error Fault.abort ∧
    (∃ r, gjs_invoke_c_function (sample_env writing_native)
        { shared_out_length_function with js_out_argc := 2 }
        JSValue.undefined [] (some JSValue.undefined) false {} = Except.ok r ∧
      r.ok = true ∧ r.locals.path = Path.called ∧ r.locals.did_throw_gerror = false ∧
      r.locals.next_rval = 2) :=
  ⟨by decide, rfl, by decide, rfl, ⟨_, rfl, rfl, rfl, rfl, rfl⟩⟩

/-- The end of `gjs_callback_closure` reports the script call it is given. -/
theorem closure_finish_script_call (cenv : ClosureEnv) (t : GjsCallbackTrampoline) (data : Nat)
    (heap : Heap) (script_call : Option (Option JSValue × List JSValue)) (o : ClosureOutputs) :
    (closure_finish cenv t data heap script_call o).script_call = script_call := by
  unfold closure_finish
  by_cases hexit : o.success = false ∧ cenv.is_exception_pending = false
  · rw [if_pos hexit]
  · rw [if_neg hexit]

/-- The block after the `switch` for an index other than 0, or for a
trampoline that is no virtual method: nothing changes. -/
theorem closure_vfunc_receiver_other (t : GjsCallbackTrampoline) (i : Nat) (s : ClosureArgs)
    (h : ¬ (t.is_vfunc = true ∧ i = 0)) :
    closure_vfunc_receiver t i s = Except.ok (some s) := by
  unfold closure_vfunc_receiver
  rw [if_neg h]

/-- One iteration of the loop that resolves the script arguments, for an
index other than 0 or a trampoline that is no virtual method: the receiver
stays, and `jsargs` grows by the resolved input of the parameter if it has
one. -/
theorem closure_arg_step_other (cenv : ClosureEnv) (t : GjsCallbackTrampoline)
    (args : Nat → GArgument) (i : Nat) (arg_info : GIArgInfo) (s s1 : ClosureArgs)
    (hi : ¬ (t.is_vfunc = true ∧ i = 0))
    (h : closure_arg_step cenv t args i arg_info s = Except.ok (some s1)) :
    s1.this_object = s.this_object ∧
    s1.jsargs = s.jsargs ++
      (if is_resolved_input t i arg_info then (resolved_value cenv t args i arg_info).toList
       else []) := by
  unfold closure_arg_step at h
  simp only [] at h
  by_cases hv : arg_info.type_info.tag = GITypeTag.VOID
  · rw [if_pos hv] at h
    simp only [Except.ok.injEq, Option.some.injEq] at h
    subst h
    simp [is_resolved_input, hv]
  · rw [if_neg hv] at h
    by_cases ho : arg_info.direction = GIDirection.OUT
    · rw [if_pos ho] at h
      simp only [Except.ok.injEq, Option.some.injEq] at h
      subst h
      simp [is_resolved_input, ho]
    · rw [if_neg ho] at h
      have hs1 : ∀ s0 : ClosureArgs,
          s0 = (if arg_info.direction = GIDirection.INOUT
            then { s with n_outargs := s.n_outargs + 1 } else s) →
          s0.this_object = s.this_object ∧ s0.jsargs = s.jsargs := by
        intro s0 h0
        subst h0
        by_cases hio : arg_info.direction = GIDirection.INOUT
        · rw [if_pos hio]
          exact ⟨rfl, rfl⟩
        · rw [if_neg hio]
          exact ⟨rfl, rfl⟩
      generalize hs0 : (if arg_info.direction = GIDirection.INOUT
            then ({ s with n_outargs := s.n_outargs + 1 } : ClosureArgs) else s) = s0 at h
      obtain ⟨ht0, hj0⟩ := hs1 s0 hs0.symm
      cases hp : t.param_types.get? i with
      | none =>
        rw [hp] at h
        exact absurd h (by simp)
      | some p =>
        rw [hp] at h
        have hp2 := hp
        rw [List.get?_eq_getElem?] at hp2
        cases p with
        | PARAM_SKIPPED =>
          simp only [Except.ok.injEq, Option.some.injEq] at h
          subst h
          simp [is_resolved_input, hp2, ht0, hj0]
        | PARAM_CALLBACK =>
          exact absurd h (by simp)
        | PARAM_NORMAL =>
          simp only [] at h
          cases hval : cenv.value_from_g_argument arg_info.type_info (args i) with
          | none =>
            rw [hval] at h
            exact absurd h (by simp)
          | some v =>
            rw [hval] at h
            simp only [] at h
            rw [closure_vfunc_receiver_other t i _ hi] at h
            simp only [Except.ok.injEq, Option.some.injEq] at h
            subst h
            simp [is_resolved_input, resolved_value, hp2, hv, ho, hval, ht0, hj0]
        | PARAM_ARRAY =>
          simp only [] at h
          cases hla : g_callable_info_load_arg t.info arg_info.type_info.array_length with
          | none =>
            rw [hla] at h
            exact absurd h (by simp)
          | some array_length_arg =>
            rw [hla] at h
            simp only [] at h
            cases hlen : cenv.value_from_g_argument array_length_arg.type_info
                (args arg_info.type_info.array_length.toNat) with
            | none =>
              rw [hlen] at h
              exact absurd h (by simp)
            | some length =>
              rw [hlen] at h
              simp only [] at h
              cases hval : cenv.value_from_explicit_array arg_info.type_info (args i)
                  length.toInt32 with
              | none =>
                rw [hval] at h
                exact absurd h (by simp)
              | some v =>
                rw [hval] at h
                simp only [] at h
                rw [closure_vfunc_receiver_other t i _ hi] at h
                simp only [Except.ok.injEq, Option.some.injEq] at h
                subst h
                simp [is_resolved_input, resolved_value, hp2, hv, ho, hla, hlen, hval, ht0, hj0]

/-- The loop that resolves the script arguments, from an index other than 0
or for a trampoline that is no virtual method: the receiver stays, and
`jsargs` grows by the resolved inputs of the parameters, in order. -/
theorem closure_arg_loop_other (cenv : ClosureEnv) (t : GjsCallbackTrampoline)
    (args : Nat → GArgument) (l : List GIArgInfo) :
    ∀ (i : Nat) (s s1 : ClosureArgs), (t.is_vfunc = true → 0 < i) →
      closure_arg_loop cenv t args l i s = Except.ok (some s1) →
      s1.this_object = s.this_object ∧
      s1.jsargs = s.jsargs ++ resolved_inputs cenv t args l i := by
  induction l with
  | nil =>
    intro i s s1 _ h
    simp only [closure_arg_loop, Except.ok.injEq, Option.some.injEq] at h
    subst h
    simp [resolved_inputs]
  | cons a rest ih =>
    intro i s s1 hi h
    unfold closure_arg_loop at h
    cases hstep : closure_arg_step cenv t args i a s with
    | error f =>
      rw [hstep] at h
      exact absurd h (by simp)
    | ok o =>
      rw [hstep] at h
      cases o with
      | none => exact absurd h (by simp)
      | some s2 =>
        simp only [] at h
        have hi0 : ¬ (t.is_vfunc = true ∧ i = 0) := fun hc => by
          have := hi hc.1
          omega
        obtain ⟨a1, a2⟩ := closure_arg_step_other cenv t args i a s s2 hi0 hstep
        obtain ⟨b1, b2⟩ := ih (i + 1) s2 s1 (fun _ => by omega) h
        refine ⟨by rw [b1, a1], ?_⟩
        rw [b2, a2]
        simp [resolved_inputs]

/-- The first iteration of the loop for a virtual method, started with no
script argument: when the parameter 0 has a resolved input, that value
becomes the receiver and `jsargs` is empty again; otherwise nothing is
resolved. -/
theorem closure_arg_step_first (cenv : ClosureEnv) (t : GjsCallbackTrampoline)
    (args : Nat → GArgument) (arg_info : GIArgInfo) (n_outargs : Nat) (s1 : ClosureArgs)
    (hvf : t.is_vfunc = true)
    (h : closure_arg_step cenv t args 0 arg_info
      { jsargs := [], n_outargs := n_outargs, this_object := none } = Except.ok (some s1)) :
    (is_resolved_input t 0 arg_info = true →
      ∃ v, resolved_value cenv t args 0 arg_info = some v ∧
        s1.this_object = v.toObjectOrNull ∧ s1.jsargs = []) ∧
    (is_resolved_input t 0 arg_info = false → s1.this_object = none ∧ s1.jsargs = []) := by
  have hrecv : ∀ (n : Nat) (v : JSValue),
      closure_vfunc_receiver t 0 { jsargs := [] ++ [v], n_outargs := n, this_object := none } =
      Except.ok (some { jsargs := [], n_outargs := n, this_object := v.toObjectOrNull }) := by
    intro n v
    unfold closure_vfunc_receiver
    rw [if_pos ⟨hvf, rfl⟩]
    rfl
  unfold closure_arg_step at h
  simp only [] at h
  by_cases hv : arg_info.type_info.tag = GITypeTag.VOID
  · rw [if_pos hv] at h
    simp only [Except.ok.injEq, Option.some.injEq] at h
    subst h
    simp [is_resolved_input, hv]
  · rw [if_neg hv] at h
    by_cases ho : arg_info.direction = GIDirection.OUT
    · rw [if_pos ho] at h
      simp only [Except.ok.injEq, Option.some.injEq] at h
      subst h
      simp [is_resolved_input, ho]
    · rw [if_neg ho] at h
      have hs1 : ∃ n, (if arg_info.direction = GIDirection.INOUT
            then ({ jsargs := [], n_outargs := n_outargs + 1, this_object := none } :
              ClosureArgs)
            else { jsargs := [], n_outargs := n_outargs, this_object := none }) =
          { jsargs := [], n_outargs := n, this_object := none } := by
        by_cases hio : arg_info.direction = GIDirection.INOUT
        · exact ⟨n_outargs + 1, by rw [if_pos hio]⟩
        · exact ⟨n_outargs, by rw [if_neg hio]⟩
      obtain ⟨n, hn⟩ := hs1
      rw [hn] at h
      cases hp : t.param_types.get? 0 with
      | none =>
        rw [hp] at h
        exact absurd h (by simp)
      | some p =>
        rw [hp] at h
        have hp2 := hp
        rw [List.get?_eq_getElem?] at hp2
        cases p with
        | PARAM_SKIPPED =>
          simp only [Except.ok.injEq, Option.some.injEq] at h
          subst h
          simp [is_resolved_input, hp2]
        | PARAM_CALLBACK =>
          exact absurd h (by simp)
        | PARAM_NORMAL =>
          simp only [] at h
          cases hval : cenv.value_from_g_argument arg_info.type_info (args 0) with
          | none =>
            rw [hval] at h
            exact absurd h (by simp)
          | some v =>
            rw [hval] at h
            simp only [] at h
            rw [hrecv n v] at h
            simp only [Except.ok.injEq, Option.some.injEq] at h
            subst h
            simp [is_resolved_input, resolved_value, hp2, hv, ho, hval]
        | PARAM_ARRAY =>
          simp only [] at h
          cases hla : g_callable_info_load_arg t.info arg_info.type_info.array_length with
          | none =>
            rw [hla] at h
            exact absurd h (by simp)
          | some array_length_arg =>
            rw [hla] at h
            simp only [] at h
            cases hlen : cenv.value_from_g_argument array_length_arg.type_info
                (args arg_info.type_info.array_length.toNat) with
            | none =>
              rw [hlen] at h
              exact absurd h (by simp)
            | some length =>
              rw [hlen] at h
              simp only [] at h
              cases hval : cenv.value_from_explicit_array arg_info.type_info (args 0)
                  length.toInt32 with
              | none =>
                rw [hval] at h
                exact absurd h (by simp)
              | some v =>
                rw [hval] at h
                simp only [] at h
                rw [hrecv n v] at h
                simp only [Except.ok.injEq, Option.some.injEq] at h
                subst h
                simp [is_resolved_input, resolved_value, hp2, hv, ho, hla, hlen, hval]

/-- Claim C25, the counterexample: for the virtual method
`void vf(gpointer data, Object self, int x)` the first resolved input is the
object at index 1; `gjs_callback_closure` calls the script function with no
receiver and passes the object as the first explicit argument. -/
theorem receiver_not_taken_from_later_parameter :
    resolved_inputs vfunc_closure_env (vfunc_trampoline data_first_vfunc_info)
      numbered_native_args data_first_vfunc_info.args 0 =
        [JSValue.object 41, JSValue.int32 42] ∧
    ∃ run, gjs_callback_closure vfunc_closure_env
        { trampolines := [vfunc_trampoline data_first_vfunc_info] } 0 numbered_native_args =
          Except.ok run ∧
      run.script_call = some (none, [JSValue.object 41, JSValue.int32 42]) :=
  ⟨rfl, _, rfl, rfl⟩

/-- Claim C25, amended: when `gjs_callback_closure` calls the script function
for a trampoline of a virtual method, and the parameter 0 has a resolved
input (it is not void-typed, not `OUT` and not `PARAM_SKIPPED`), that input
is the receiver of the call and is not among the explicit arguments, which
are the resolved inputs of the later parameters, in order; when the
parameter 0 has no resolved input, or there is no parameter, the call has no
receiver and every resolved input is an explicit argument, in order. -/
theorem receiver_is_resolved_first_parameter (cenv : ClosureEnv) (heap : Heap) (data : Nat)
    (args : Nat → GArgument) (t : GjsCallbackTrampoline) (run : ClosureRun)
    (receiver : Option JSValue) (jsargs : List JSValue)
    (ht : heap.trampolines.get? data = some t) (hvf : t.is_vfunc = true)
    (hrun : gjs_callback_closure cenv heap data args = Except.ok run)
    (hcall : run.script_call = some (receiver, jsargs)) :
    (∀ first rest, t.info.args = first :: rest → is_resolved_input t 0 first = true →
      ∃ v, resolved_value cenv t args 0 first = some v ∧
        receiver = v.toObjectOrNull ∧ jsargs = resolved_inputs cenv t args rest 1) ∧
    ((∀ first rest, t.info.args = first :: rest → is_resolved_input t 0 first = false) →
      receiver = none ∧ jsargs = resolved_inputs cenv t args t.info.args 0) := by
  have hloop : ∃ s, closure_arg_loop cenv t args t.info.args 0
      { jsargs := [], n_outargs := 0, this_object := none } = Except.ok (some s) ∧
      s.this_object = receiver ∧ s.jsargs = jsargs := by
    unfold gjs_callback_closure at hrun
    rw [ht] at hrun
    simp only [] at hrun
    by_cases hsw : cenv.is_sweeping = true
    · rw [if_pos hsw] at hrun
      simp only [Except.ok.injEq] at hrun
      subst hrun
      exact absurd hcall (by simp)
    · rw [if_neg hsw] at hrun
      cases hl : closure_arg_loop cenv t args t.info.args 0
          { jsargs := [], n_outargs := 0, this_object := none } with
      | error f =>
        rw [hl] at hrun
        exact absurd hrun (by simp)
      | ok o =>
        rw [hl] at hrun
        cases o with
        | none =>
          simp only [Except.ok.injEq] at hrun
          subst hrun
          rw [closure_finish_script_call] at hcall
          exact absurd hcall (by simp)
        | some s =>
          simp only [] at hrun
          refine ⟨s, rfl, ?_⟩
          cases hc : (cenv.call_function_value s.this_object t.js_function_id s.jsargs
              (gjs_callback_trampoline_ref heap data)).1 with
          | none =>
            rw [hc] at hrun
            simp only [Except.ok.injEq] at hrun
            subst hrun
            rw [closure_finish_script_call] at hcall
            simp only [Option.some.injEq, Prod.mk.injEq] at hcall
            exact hcall
          | some rval =>
            rw [hc] at hrun
            simp only [] at hrun
            cases hw : closure_write_outputs cenv t.info s.n_outargs rval with
            | error f =>
              rw [hw] at hrun
              exact absurd hrun (by simp)
            | ok o =>
              rw [hw] at hrun
              simp only [Except.ok.injEq] at hrun
              subst hrun
              rw [closure_finish_script_call] at hcall
              simp only [Option.some.injEq, Prod.mk.injEq] at hcall
              exact hcall
  obtain ⟨s, hl, hr, hj⟩ := hloop
  subst hr
  subst hj
  cases hargs : t.info.args with
  | nil =>
    rw [hargs] at hl
    simp only [closure_arg_loop, Except.ok.injEq, Option.some.injEq] at hl
    subst hl
    refine ⟨fun first rest hc => absurd hc (by simp), fun _ => ?_⟩
    simp [resolved_inputs]
  | cons a rest =>
    rw [hargs] at hl
    unfold closure_arg_loop at hl
    cases hstep : closure_arg_step cenv t args 0 a
        { jsargs := [], n_outargs := 0, this_object := none } with
    | error f =>
      rw [hstep] at hl
      exact absurd hl (by simp)
    | ok o =>
      rw [hstep] at hl
      cases o with
      | none => exact absurd hl (by simp)
      | some s2 =>
        simp only [] at hl
        obtain ⟨f1, f2⟩ := closure_arg_step_first cenv t args a 0 s2 hvf hstep
        obtain ⟨b1, b2⟩ := closure_arg_loop_other cenv t args rest 1 s2 s (fun _ => by omega) hl
        constructor
        · intro first rest1 hc hres
          simp only [List.cons.injEq] at hc
          obtain ⟨rfl, rfl⟩ := hc
          obtain ⟨v, hv, hth, hjs⟩ := f1 hres
          refine ⟨v, hv, by rw [b1, hth], ?_⟩
          rw [b2, hjs]
          rfl
        · intro hnone
          have hres := hnone a rest rfl
          obtain ⟨hth, hjs⟩ := f2 hres
          refine ⟨by rw [b1, hth], ?_⟩
          rw [b2, hjs]
          simp [resolved_inputs, hres]

/-- Claim C25, amended, on a sample: for the virtual method
`void vf(Object self, int x)` the script function is called on the object
converted from the first native argument, with the integer as its only
explicit argument. -/
theorem receiver_is_resolved_first_parameter_witness :
    ∃ run, gjs_callback_closure vfunc_closure_env
        { trampolines := [vfunc_trampoline self_first_vfunc_info] } 0 numbered_native_args =
          Except.ok run ∧
      run.script_call = some (some (JSValue.object 40), [JSValue.int32 41]) ∧
      ∃ v, resolved_value vfunc_closure_env (vfunc_trampoline self_first_vfunc_info)
          numbered_native_args 0 { type_info := object_type } = some v ∧
        some (JSValue.object 40) = v.toObjectOrNull ∧
        [JSValue.int32 41] = resolved_inputs vfunc_closure_env
          (vfunc_trampoline self_first_vfunc_info) numbered_native_args
          [{ type_info := int_type }] 1 :=
  ⟨_, rfl, rfl,
    (receiver_is_resolved_first_parameter vfunc_closure_env
      { trampolines := [vfunc_trampoline self_first_vfunc_info] } 0 numbered_native_args
      (vfunc_trampoline self_first_vfunc_info) _ (some (JSValue.object 40)) [JSValue.int32 41]
      rfl rfl rfl rfl).1 { type_info := object_type } [{ type_info := int_type }] rfl rfl⟩

/-- The head of a `gjs_invoke_c_function` call on a heap whose list
`completed_trampolines` is empty leaves the heap as it is, however often it
runs. -/
theorem next_calls_leave_heap (data : Nat) (heap : Heap)
    (h : heap.completed_trampolines = []) :
    ∀ n, native_steps data (List.replicate n NativeStep.next_call) heap =
      Except.ok (List.replicate n heap) := by
  have hdrain : (drain_completed_trampolines
      { frame := Frame.fresh, heap := heap, trace := [] }).heap = heap := by
    unfold drain_completed_trampolines
    simp only [h, unref_completed]
    cases heap
    simp only [] at h
    subst h
    rfl
  intro n
  induction n with
  | zero => rfl
  | succ n ih =>
    simp only [List.replicate_succ, native_steps, native_step]
    rw [hdrain, ih]

/-- Claim C11, evaluated: `callback_block_int_function scope` is called with a
script function and a string where an integer is expected, for the scopes
`NOTIFIED` and `ASYNC`.  The engine creates a trampoline of that scope for
the callback; marshaling fails at the last parameter, so the callee is never
called and native code never receives the closure.  When the call has
returned `false` the trampoline has count 1, is not freed and is not on
`completed_trampolines`, and the head of any number of later
`gjs_invoke_c_function` calls leaves it so: its count never drops to zero,
since neither its destroy notification nor its callback can ever run. -/
theorem trampoline_of_failed_marshaling_never_released :
    (∀ scope, init_cached_function_data (some (prepared_cif_nargs (callback_block_int_info scope)))
      (callback_block_int_info scope) = some (callback_block_int_function scope)) ∧
    (∃ r, gjs_invoke_c_function (sample_env quiet_native)
        (callback_block_int_function GIScopeType.NOTIFIED) JSValue.undefined
        [JSValue.function 7, JSValue.string "x"] (some JSValue.undefined) false {} =
          Except.ok r ∧
      r.ok = false ∧ r.locals.path = Path.marshal_failed ∧
      r.trace.any Event.is_ffi_call = false ∧
      r.heap.trampolines.map GjsCallbackTrampoline.scope = [GIScopeType.NOTIFIED] ∧
      r.heap.trampoline_counts = [(1, false)] ∧
      r.heap.completed_trampolines = [] ∧
      ∀ n, native_steps 0 (List.replicate n NativeStep.next_call) r.heap =
        Except.ok (List.replicate n r.heap)) ∧
    (∃ r, gjs_invoke_c_function (sample_env quiet_native)
        (callback_block_int_function GIScopeType.ASYNC) JSValue.undefined
        [JSValue.function 7, JSValue.string "x"] (some JSValue.undefined) false {} =
          Except.ok r ∧
      r.ok = false ∧ r.locals.path = Path.marshal_failed ∧
      r.trace.any Event.is_ffi_call = false ∧
      r.heap.trampolines.map GjsCallbackTrampoline.scope = [GIScopeType.ASYNC] ∧
      r.heap.trampoline_counts = [(1, false)] ∧
      r.heap.completed_trampolines = [] ∧
      ∀ n, native_steps 0 (List.replicate n NativeStep.next_call) r.heap =
        Except.ok (List.replicate n r.heap)) :=
  ⟨fun scope => by cases scope <;> decide,
    ⟨_, rfl, rfl, rfl, rfl, rfl, rfl, rfl, next_calls_leave_heap 0 _ rfl⟩,
    ⟨_, rfl, rfl, rfl, rfl, rfl, rfl, rfl, next_calls_leave_heap 0 _ rfl⟩⟩

end Gjs
